import Mathlib

/-!
# MsQuic packet builder: a shallow embedding of `core/packet_builder.c`

The builder, the connection and the path are records; every C statement that
mutates one of them becomes a record update.  Machine integers are naturals
reduced explicitly to their width (`u8`, `u16`, `u32`, `u64`).  Calls into the
collaborators of the builder (datapath, crypto, loss detection, connection
control) are appended to a log kept in the builder record; what those
collaborators answer is read from an environment record `Env`, because their
code is outside `packet_builder.c`.  `QUIC_DBG_ASSERT` and `_Analysis_assume_`
compile to nothing in a release build and are embedded as no-ops; the
conditions they state are kept as separate predicates.

The helpers of `platform/tls_custom.c` (`ReadUint24`, `WriteUint24`,
`WriteClientHello`) are embedded the same way: a pointer is an optional list
of bytes, an in-out parameter is an argument and a component of the result.
-/

namespace MsQuic

/-! ## Machine integers -/

/-- Truncation to `uint8_t`. -/
def u8 (x : Nat) : Nat := x % 2 ^ 8

/-- Truncation to `uint16_t`. -/
def u16 (x : Nat) : Nat := x % 2 ^ 16

/-- Truncation to `uint32_t`. -/
def u32 (x : Nat) : Nat := x % 2 ^ 32

/-- Truncation to `uint64_t`. -/
def u64 (x : Nat) : Nat := x % 2 ^ 64

/-- Conversion of a C `int` result to `uint16_t`. -/
def u16OfInt (x : Int) : Nat := (x % 2 ^ 16).toNat

/-- Conversion of a C `int` result to `uint64_t`. -/
def u64OfInt (x : Int) : Nat := (x % 2 ^ 64).toNat

/-! ## Data model -/

/-- A `QUIC_PACKET_KEY*`, as an opaque handle. -/
abbrev QUIC_PACKET_KEY := Nat

/-- The `QUIC_BUFFER` of a datagram: `Length` is the capacity it was allocated
with until the datagram is completed, when it becomes the reported length. -/
structure QUIC_BUFFER where
  Length : Nat
  Buffer : List Nat
deriving DecidableEq, Repr

/-- The datapath send context: the size it was allocated for and the
datagrams already completed in it (the datagram being written is held by the
builder). -/
structure QUIC_DATAPATH_SEND_CONTEXT where
  MaxPacketSize : Nat
  Datagrams : List QUIC_BUFFER
deriving DecidableEq, Repr

/-- The fields of `QUIC_SENT_PACKET_METADATA` the builder touches (the flags
are flattened into the record). -/
structure QUIC_SENT_PACKET_METADATA where
  PacketNumber : Nat
  SentTime : Nat
  PacketLength : Nat
  FrameCount : Nat
  KeyType : Nat
  IsRetransmittable : Bool
  HasCrypto : Bool
  IsPMTUD : Bool
  KeyPhase : Bool
deriving DecidableEq, Repr

/-- The fields of `QUIC_PACKET_SPACE` the builder touches. -/
structure QUIC_PACKET_SPACE where
  CurrentKeyPhase : Bool
  CurrentKeyPhaseBytesSent : Nat
  AwaitingKeyPhaseConfirmation : Bool
  AckElicitingPacketsToAcknowledge : Nat
deriving DecidableEq, Repr

/-- The part of `Connection->Send` the builder touches. -/
structure QUIC_SEND where
  NextPacketNumber : Nat
  InitialTokenLength : Nat
  InitialToken : List Nat
  LastFlushTime : Nat
  LastFlushTimeValid : Bool
deriving DecidableEq, Repr

/-- The part of `Connection->Crypto.TlsState` the builder touches. -/
structure QUIC_TLS_PROCESS_STATE where
  WriteKey : Nat
  WriteKeys : List (Option QUIC_PACKET_KEY)
deriving DecidableEq, Repr

/-- The fields of `QUIC_CONNECTION` the builder touches. -/
structure QUIC_CONNECTION where
  IsServer : Bool
  EncryptionEnabled : Bool
  HeaderProtectionEnabled : Bool
  HandshakeConfirmed : Bool
  QuicVersion : Nat
  Send : QUIC_SEND
  TlsState : QUIC_TLS_PROCESS_STATE
  Packets : List QUIC_PACKET_SPACE
  PeerTpFlagMaxPacketSize : Bool
  PeerMaxPacketSize : Nat
  MaxBytesPerKey : Nat
  SourceCIDs : List (List Nat)
deriving DecidableEq, Repr

/-- The fields of `QUIC_PATH` the builder touches. -/
structure QUIC_PATH where
  Mtu : Nat
  Allowance : Nat
  RemoteFamily : Nat
  LocalBoundExplicitly : Bool
  DestCid : List Nat
  SpinBit : Bool
deriving DecidableEq, Repr

/-- A header pointer kept in `HeaderBatch`: the index of the datagram in the
send context (the current datagram comes after the completed ones) and the
offset of the packet in that datagram. -/
structure HeaderRef where
  Datagram : Nat
  Offset : Nat
deriving DecidableEq, Repr

/-- Calls the builder makes into its collaborators.  The log `Calls` of the
builder holds them newest first. -/
inductive Call where
  | AllocSendContext (size : Nat) (ok : Bool)
  | AllocSendDatagram (len : Nat) (ok : Bool)
  | FreeSendDatagram
  | Encrypt (packetNumber : Nat) (ok : Bool)
  | HpComputeMask (count : Nat) (ok : Bool)
  | CryptoGenerateNewKeys (ok : Bool)
  | CryptoUpdateKeyPhase
  | LossDetectionOnPacketSent (md : QUIC_SENT_PACKET_METADATA)
  | LossDetectionUpdateTimer
  | ConnFatalError
  | ConnCloseLocally (silent : Bool) (errorCode : Nat)
  | BindingSendTo (ctx : Option QUIC_DATAPATH_SEND_CONTEXT)
  | BindingSendFromTo (ctx : Option QUIC_DATAPATH_SEND_CONTEXT)
deriving DecidableEq, Repr

/-- The `QUIC_PACKET_BUILDER`.  `Connection` and `Path` are the records the C
pointers lead to; `Calls` is the log of collaborator calls. -/
structure QUIC_PACKET_BUILDER where
  Connection : QUIC_CONNECTION
  Path : QUIC_PATH
  SourceCID : List Nat
  SendContext : Option QUIC_DATAPATH_SEND_CONTEXT
  Datagram : Option QUIC_BUFFER
  Key : Option QUIC_PACKET_KEY
  CipherBatch : List Nat
  HpMask : List Nat
  HeaderBatch : List HeaderRef
  BatchCount : Nat
  PacketBatchSent : Bool
  PacketBatchRetransmittable : Bool
  EncryptionOverhead : Nat
  TotalCountDatagrams : Nat
  PacketType : Nat
  PacketNumberLength : Nat
  EncryptLevel : Nat
  DatagramLength : Nat
  PacketStart : Nat
  HeaderLength : Nat
  PayloadLengthOffset : Nat
  MinimumDatagramLength : Nat
  SendAllowance : Nat
  Metadata : QUIC_SENT_PACKET_METADATA
  Calls : List Call
deriving DecidableEq, Repr

/-- What a long-header encoder hands back: the header bytes (their number is
the returned header length, `[]` when the buffer is too small) and the two
out-parameters. -/
structure LongHeaderResult where
  Bytes : List Nat
  PayloadLengthOffset : Nat
  PacketNumberLength : Nat
deriving DecidableEq, Repr

/-- Constants and functions that `packet_builder.c` uses but does not define
(headers, the datapath, the crypto provider).  The answers of the stateful
collaborators may depend on the calls made so far.  The two key-update
functions of the crypto module act on the TLS state and the packet spaces of
the connection, the parts of the connection that hold keys and key phases. -/
structure Env where
  QUIC_MIN_PACKET_SPARE_SPACE : Nat
  QUIC_MAX_DATAGRAMS_PER_SEND : Nat
  QUIC_MAX_MTU : Nat
  QUIC_INITIAL_PACKET_LENGTH : Nat
  QUIC_RECOMMENDED_STATELESS_RESET_PACKET_LENGTH : Nat
  QUIC_MAX_CRYPTO_BATCH_COUNT : Nat
  QUIC_HP_SAMPLE_LENGTH : Nat
  SEND_PACKET_SHORT_HEADER_TYPE : Nat
  QUIC_INITIAL : Nat
  QUIC_RETRY : Nat
  QUIC_PACKET_KEY_1_RTT : Nat
  QUIC_VERSION_DRAFT_24 : Nat
  QUIC_VERSION_MS_1 : Nat
  QUIC_ERROR_NO_ERROR : Nat
  MaxUdpPayloadSizeForFamily : Nat → Nat → Nat
  QuicPacketTypeToEncryptLevel : Nat → Nat
  QuicPacketTypeToKeyType : Nat → Nat
  QuicPacketEncodeShortHeaderV1 :
    List Nat → Nat → Nat → Bool → Bool → Nat → List Nat
  QuicPacketEncodeLongHeaderV1 :
    Nat → Nat → List Nat → List Nat → Nat → List Nat → Nat → Nat → LongHeaderResult
  AllocSendContextOk : List Call → Nat → Bool
  AllocSendDatagramOk : List Call → Nat → Bool
  IsSendContextFull : Option QUIC_DATAPATH_SEND_CONTEXT → Bool
  IsPaddingPreferred : Bool
  QuicEncrypt :
    List Call → Option QUIC_PACKET_KEY → Nat → List Nat → List Nat →
      Option (List Nat)
  QuicHpComputeMask :
    List Call → Option QUIC_PACKET_KEY → Nat → List Nat → Option (List Nat)
  QuicCryptoGenerateNewKeys :
    List Call → QUIC_TLS_PROCESS_STATE → Option QUIC_TLS_PROCESS_STATE
  QuicCryptoUpdateKeyPhase :
    QUIC_TLS_PROCESS_STATE → List QUIC_PACKET_SPACE →
      QUIC_TLS_PROCESS_STATE × List QUIC_PACKET_SPACE
  QuicTimeUs32 : List Call → Nat

/-! ## Memory helpers -/

/-- Overwrite `bs` into `buf` from offset `off` on (bytes past the end of the
buffer are not stored). -/
def writeBytes (buf : List Nat) (off : Nat) : List Nat → List Nat
  | [] => buf
  | b :: bs => writeBytes (buf.set off b) (off + 1) bs

/-- The `len` bytes of `buf` from offset `off` on (0 past the end). -/
def readBytes (buf : List Nat) (off len : Nat) : List Nat :=
  (List.range len).map (fun i => buf.getD (off + i) 0)

/-- Store `v` in slot `i` of a fixed array kept as a list, growing the list
with `dflt` when the slot was never written. -/
def writeSlot {α : Type} (dflt : α) : List α → Nat → α → List α
  | [], 0, v => [v]
  | [], i + 1, v => dflt :: writeSlot dflt [] i v
  | _ :: xs, 0, v => v :: xs
  | x :: xs, i + 1, v => x :: writeSlot dflt xs i v

/-- The statement `p[k] ^= m` on a byte buffer. -/
def xorByte (buf : List Nat) (k m : Nat) : List Nat :=
  buf.set k (u8 (Nat.xor (buf.getD k 0) m))

/-- The statement `p[k] ^= m` where `p` is a header pointer of the batch: the
byte lives in a completed datagram of the send context or in the current
datagram. -/
def xorHeaderByte (B : QUIC_PACKET_BUILDER) (r : HeaderRef) (k m : Nat) :
    QUIC_PACKET_BUILDER :=
  let done := (B.SendContext.map (fun c => c.Datagrams)).getD []
  if r.Datagram < done.length then
    let upd : QUIC_BUFFER → QUIC_BUFFER :=
      fun d => { d with Buffer := xorByte d.Buffer (r.Offset + k) m }
    { B with SendContext := B.SendContext.map (fun c =>
        { c with Datagrams := List.modify upd r.Datagram c.Datagrams }) }
  else if r.Datagram = done.length then
    { B with Datagram := B.Datagram.map (fun d =>
        { d with Buffer := xorByte d.Buffer (r.Offset + k) m }) }
  else B

/-- Modelled from the spec: `QuicVarIntEncode2Bytes` is declared outside
`packet_builder.c`; the spec has the payload length "encoded with the 2-byte
varint form regardless of actual value", that is the two bytes of the 16-bit
value with the top two bits of the first byte set to `01`. -/
def QuicVarIntEncode2Bytes (Value : Nat) : List Nat :=
  [Nat.lor 0x40 (u16 Value / 256), u16 Value % 256]

/-- Modelled from the spec: reading a QUIC variable-length integer whose first
byte announces the 2-byte form (top bits `01`): the 14 bits that follow. -/
def QuicVarIntDecode2Bytes (bs : List Nat) : Option Nat :=
  match bs with
  | [b0, b1] => if b0 / 64 = 1 then some ((b0 % 64) * 256 + b1) else none
  | _ => none

/-! ## `QuicPacketBuilderSendBatch` -/

/-- `QuicPacketBuilderSendBatch`: hand the send context to the binding. -/
def QuicPacketBuilderSendBatch (B : QUIC_PACKET_BUILDER) : QUIC_PACKET_BUILDER :=
  { B with
    Calls :=
      (if B.Path.LocalBoundExplicitly then Call.BindingSendTo B.SendContext
       else Call.BindingSendFromTo B.SendContext) :: B.Calls
    PacketBatchSent := true
    SendContext := none }

/-! ## `QuicPacketBuilderFinalizeHeaderProtection` -/

/-- The body of the outer `for` loop of
`QuicPacketBuilderFinalizeHeaderProtection` for batch entry `i`. -/
def HpApplyEntry (E : Env) (B : QUIC_PACKET_BUILDER) (i : Nat) :
    QUIC_PACKET_BUILDER :=
  let Offset := u16 (i * E.QUIC_HP_SAMPLE_LENGTH)
  let Header := B.HeaderBatch.getD i ⟨0, 0⟩
  let B1 := xorHeaderByte B Header 0 (Nat.land (B.HpMask.getD Offset 0) 0x1f)
  let Pn : HeaderRef := ⟨Header.Datagram, Header.Offset + 1 + B.Path.DestCid.length⟩
  (List.range B.PacketNumberLength).foldl
    (fun b j => xorHeaderByte b Pn j (B.HpMask.getD (Offset + 1 + j) 0)) B1

/-- `QuicPacketBuilderFinalizeHeaderProtection`. -/
def QuicPacketBuilderFinalizeHeaderProtection (E : Env) (B : QUIC_PACKET_BUILDER) :
    QUIC_PACKET_BUILDER :=
  match E.QuicHpComputeMask B.Calls B.Key B.BatchCount B.CipherBatch with
  | none =>
    { B with Calls := Call.ConnFatalError :: Call.HpComputeMask B.BatchCount false :: B.Calls }
  | some mask =>
    let B1 := { B with HpMask := mask
                       Calls := Call.HpComputeMask B.BatchCount true :: B.Calls }
    let B2 := (List.range B1.BatchCount).foldl (HpApplyEntry E) B1
    { B2 with BatchCount := 0 }

/-! ## `QuicPacketBuilderFinalize` -/

/-- Assignment to `Connection->Send.NextPacketNumber`. -/
def setNextPacketNumber (B : QUIC_PACKET_BUILDER) (n : Nat) : QUIC_PACKET_BUILDER :=
  { B with Connection :=
      { B.Connection with Send := { B.Connection.Send with NextPacketNumber := n } } }

/-- Append a collaborator call to the log. -/
def logCall (B : QUIC_PACKET_BUILDER) (c : Call) : QUIC_PACKET_BUILDER :=
  { B with Calls := c :: B.Calls }

/-- The bytes of the current datagram (`[]` when there is none). -/
def datagramBuffer (B : QUIC_PACKET_BUILDER) : List Nat :=
  (B.Datagram.map (fun d => d.Buffer)).getD []

/-- Store bytes into the current datagram at offset `off`. -/
def writeDatagram (B : QUIC_PACKET_BUILDER) (off : Nat) (bs : List Nat) :
    QUIC_PACKET_BUILDER :=
  { B with Datagram := B.Datagram.map (fun d =>
      { d with Buffer := writeBytes d.Buffer off bs }) }

/-- Number of datagrams already completed in the send context; the index the
current datagram has among the datagrams of the context. -/
def completedCount (B : QUIC_PACKET_BUILDER) : Nat :=
  ((B.SendContext.map (fun c => c.Datagrams)).getD []).length

/-- Lines 794-798: complete the current datagram, if there is one: its
reported length becomes the write cursor, it joins the completed datagrams of
the send context, and the builder lets go of it. -/
def CompleteDatagram (B : QUIC_PACKET_BUILDER) : QUIC_PACKET_BUILDER :=
  match B.Datagram with
  | some d =>
    { B with
      SendContext := B.SendContext.map (fun c =>
        { c with Datagrams := c.Datagrams ++ [{ d with Length := B.DatagramLength }] })
      Datagram := none
      TotalCountDatagrams := B.TotalCountDatagrams + 1 }
  | none => B

/-- Lines 800-805: send the batch when all is done or the send context is
full, after flushing the header-protection batch. -/
def FlushAndSend (E : Env) (B : QUIC_PACKET_BUILDER) (AllDoneSending : Bool) :
    QUIC_PACKET_BUILDER :=
  if AllDoneSending || E.IsSendContextFull B.SendContext then
    QuicPacketBuilderSendBatch
      (if B.BatchCount ≠ 0 then QuicPacketBuilderFinalizeHeaderProtection E B else B)
  else B

/-- Lines 807-814: a Retry packet closes the connection silently. -/
def CloseAfterRetry (E : Env) (B : QUIC_PACKET_BUILDER) : QUIC_PACKET_BUILDER :=
  if B.PacketType = E.QUIC_RETRY then
    logCall B (Call.ConnCloseLocally true E.QUIC_ERROR_NO_ERROR)
  else B

/-- The code after the `Exit:` label of `QuicPacketBuilderFinalize`. -/
def FinalizeExit (E : Env) (B : QUIC_PACKET_BUILDER)
    (AllDoneSending FinalQuicPacket : Bool) : QUIC_PACKET_BUILDER :=
  if FinalQuicPacket then
    CloseAfterRetry E (FlushAndSend E (CompleteDatagram B) AllDoneSending)
  else B

/-- The branch of `QuicPacketBuilderFinalize` taken when nothing was framed
into the packet (lines 533-550), up to the `goto Exit`. -/
def FinalizeUndoHeader (B : QUIC_PACKET_BUILDER) : QUIC_PACKET_BUILDER :=
  match B.Datagram with
  | none => B
  | some _ =>
    let B1 := setNextPacketNumber B
      (u64OfInt ((B.Connection.Send.NextPacketNumber : Int) - 1))
    let B2 := { B1 with
      DatagramLength := u16OfInt ((B.DatagramLength : Int) - (B.HeaderLength : Int)) }
    if B2.DatagramLength = 0 then
      { B2 with Datagram := none, Calls := Call.FreeSendDatagram :: B2.Calls }
    else B2

/-- The test of lines 574-576: is this the last QUIC packet of the datagram?
`Capacity` is `Builder->Datagram->Length`. -/
def IsFinalQuicPacket (E : Env) (B : QUIC_PACKET_BUILDER) (Capacity : Nat)
    (AllDoneSending : Bool) : Bool :=
  let ExpectedFinalDatagramLength := u16 (B.DatagramLength + B.EncryptionOverhead)
  AllDoneSending ||
    decide (B.PacketType = E.SEND_PACKET_SHORT_HEADER_TYPE) ||
    decide ((u16 Capacity : Int) - (ExpectedFinalDatagramLength : Int)
      < (E.QUIC_MIN_PACKET_SPARE_SPACE : Int))

/-- The value of `Builder->MinimumDatagramLength` after lines 574-588. -/
def FinalizeMinimumDatagramLength (E : Env) (B : QUIC_PACKET_BUILDER) (Capacity : Nat)
    (AllDoneSending : Bool) : Nat :=
  if IsFinalQuicPacket E B Capacity AllDoneSending && !AllDoneSending &&
      E.IsPaddingPreferred then u16 Capacity
  else B.MinimumDatagramLength

/-- The local `PayloadLength` as first computed (lines 569-570). -/
def InitialPayloadLength (B : QUIC_PACKET_BUILDER) : Nat :=
  u16OfInt ((B.DatagramLength : Int) - ((B.PacketStart : Int) + (B.HeaderLength : Int)))

/-- The local `PaddingLength` (lines 590-601); `Min` is the minimum datagram
length in force and `Final` is `FinalQuicPacket`. -/
def PaddingLength (B : QUIC_PACKET_BUILDER) (Min : Nat) (Final : Bool) : Nat :=
  let PayloadLength := InitialPayloadLength B
  let ExpectedFinalDatagramLength := u16 (B.DatagramLength + B.EncryptionOverhead)
  if Final && decide (ExpectedFinalDatagramLength < Min) then
    u16OfInt ((Min : Int) - (ExpectedFinalDatagramLength : Int))
  else if B.PacketNumberLength + PayloadLength < 4 then
    u16 (4 - B.PacketNumberLength - PayloadLength)
  else 0

/-- The local `PayloadLength` after the padding step (line 607). -/
def PaddedPayloadLength (B : QUIC_PACKET_BUILDER) (Min : Nat) (Final : Bool) : Nat :=
  if PaddingLength B Min Final ≠ 0 then
    u16 (InitialPayloadLength B + PaddingLength B Min Final)
  else InitialPayloadLength B

/-- Lines 574-623: set the minimum datagram length, write the padding and, for
a long header, the payload length. -/
def FinalizePadAndLength (E : Env) (B : QUIC_PACKET_BUILDER) (Capacity : Nat)
    (AllDoneSending : Bool) : QUIC_PACKET_BUILDER :=
  let Final := IsFinalQuicPacket E B Capacity AllDoneSending
  let Min := FinalizeMinimumDatagramLength E B Capacity AllDoneSending
  let Pad := PaddingLength B Min Final
  let PayloadLength := PaddedPayloadLength B Min Final
  let B1 := { B with MinimumDatagramLength := Min }
  let B2 :=
    if Pad ≠ 0 then
      { writeDatagram B1 B1.DatagramLength (List.replicate Pad 0) with
        DatagramLength := u16 (B1.DatagramLength + Pad) }
    else B1
  if B2.PacketType ≠ E.SEND_PACKET_SHORT_HEADER_TYPE then
    writeDatagram B2 (B2.PacketStart + B2.PayloadLengthOffset)
      (QuicVarIntEncode2Bytes
        (B2.PacketNumberLength + PayloadLength + B2.EncryptionOverhead))
  else B2

/-- Store a sample into `CipherBatch` from slot `off` on. -/
def writeSample : List Nat → Nat → List Nat → List Nat
  | batch, _, [] => batch
  | batch, off, b :: bs => writeSample (writeSlot 0 batch off b) (off + 1) bs

/-- Header protection of a short-header packet (lines 676-691): queue the
sample and the header pointer, flush when the batch is full.  `PnStart` is the
offset of the packet number in the current datagram. -/
def FinalizeHpShort (E : Env) (B : QUIC_PACKET_BUILDER) (PnStart : Nat) :
    QUIC_PACKET_BUILDER :=
  let sample := readBytes (datagramBuffer B) (PnStart + 4) E.QUIC_HP_SAMPLE_LENGTH
  let B1 := { B with
    CipherBatch := writeSample B.CipherBatch (B.BatchCount * E.QUIC_HP_SAMPLE_LENGTH) sample
    HeaderBatch := writeSlot ⟨0, 0⟩ B.HeaderBatch B.BatchCount ⟨completedCount B, B.PacketStart⟩
    BatchCount := u8 (B.BatchCount + 1) }
  if B1.BatchCount = E.QUIC_MAX_CRYPTO_BATCH_COUNT then
    QuicPacketBuilderFinalizeHeaderProtection E B1
  else B1

/-- Header protection of a long-header packet (lines 693-717).  The second
component is `true` when the mask computation failed (`goto Exit`). -/
def FinalizeHpLong (E : Env) (B : QUIC_PACKET_BUILDER) (PnStart : Nat) :
    QUIC_PACKET_BUILDER × Bool :=
  let sample := readBytes (datagramBuffer B) (PnStart + 4) E.QUIC_HP_SAMPLE_LENGTH
  match E.QuicHpComputeMask B.Calls B.Key 1 sample with
  | none =>
    ({ B with Calls := Call.ConnFatalError :: Call.HpComputeMask 1 false :: B.Calls }, true)
  | some mask =>
    let B1 := { B with HpMask := mask, Calls := Call.HpComputeMask 1 true :: B.Calls }
    let hdr : HeaderRef := ⟨completedCount B1, B1.PacketStart⟩
    let B2 := xorHeaderByte B1 hdr 0 (Nat.land (B1.HpMask.getD 0 0) 0x0f)
    let pn : HeaderRef := ⟨completedCount B1, PnStart⟩
    ((List.range B1.PacketNumberLength).foldl
      (fun b i => xorHeaderByte b pn i (B1.HpMask.getD (1 + i) 0)) B2, false)

/-- Lines 720-753: count the bytes sent in the key phase and update the keys
when the limit is near.  `PayloadLength` includes the AEAD tag.  The second
component is `true` when key generation failed (`goto Exit`). -/
def FinalizeKeyPhase (E : Env) (B : QUIC_PACKET_BUILDER) (PayloadLength : Nat) :
    QUIC_PACKET_BUILDER × Bool :=
  let bump : QUIC_PACKET_SPACE → QUIC_PACKET_SPACE := fun ps =>
    { ps with CurrentKeyPhaseBytesSent :=
        u64OfInt ((ps.CurrentKeyPhaseBytesSent : Int) +
          ((PayloadLength : Int) - (B.EncryptionOverhead : Int))) }
  let B1 := { B with Connection :=
    { B.Connection with Packets := List.modify bump B.EncryptLevel B.Connection.Packets } }
  let PacketSpace := B1.Connection.Packets.getD B1.EncryptLevel ⟨false, 0, false, 0⟩
  if B1.PacketType = E.SEND_PACKET_SHORT_HEADER_TYPE ∧
      u64 (PacketSpace.CurrentKeyPhaseBytesSent + E.QUIC_MAX_MTU) ≥ B1.Connection.MaxBytesPerKey ∧
      PacketSpace.AwaitingKeyPhaseConfirmation = false ∧
      B1.Connection.HandshakeConfirmed = true then
    match E.QuicCryptoGenerateNewKeys B1.Calls B1.Connection.TlsState with
    | none =>
      ({ B1 with Calls := Call.ConnFatalError :: Call.CryptoGenerateNewKeys false :: B1.Calls },
        true)
    | some tls =>
      let upd := E.QuicCryptoUpdateKeyPhase tls B1.Connection.Packets
      ({ B1 with
          Connection := { B1.Connection with TlsState := upd.1, Packets := upd.2 }
          Calls := Call.CryptoUpdateKeyPhase :: Call.CryptoGenerateNewKeys true :: B1.Calls
          Key := (upd.1.WriteKeys.getD E.QUIC_PACKET_KEY_1_RTT none) }, false)
  else (B1, false)

/-- Lines 644-754, the part of `QuicPacketBuilderFinalize` run only when
encryption is enabled.  `PayloadLength0` is the padded payload length; the
result carries the local `PayloadLength` and whether the code jumped to `Exit`
on a failure. -/
def FinalizeEncrypt (E : Env) (B : QUIC_PACKET_BUILDER) (PayloadLength0 : Nat) :
    QUIC_PACKET_BUILDER × Nat × Bool :=
  if B.Connection.EncryptionEnabled then
    let PayloadLength := u16 (PayloadLength0 + B.EncryptionOverhead)
    let B1 := { B with DatagramLength := u16 (B.DatagramLength + B.EncryptionOverhead) }
    let Payload := B1.PacketStart + B1.HeaderLength
    let hdr := readBytes (datagramBuffer B1) B1.PacketStart B1.HeaderLength
    let plain := readBytes (datagramBuffer B1) Payload PayloadLength
    match E.QuicEncrypt B1.Calls B1.Key B1.Metadata.PacketNumber hdr plain with
    | none =>
      ({ B1 with Calls := Call.ConnFatalError ::
          Call.Encrypt B1.Metadata.PacketNumber false :: B1.Calls }, PayloadLength, true)
    | some cipher =>
      let B2 := logCall (writeDatagram B1 Payload cipher)
        (Call.Encrypt B1.Metadata.PacketNumber true)
      let PnStart := Payload - B2.PacketNumberLength
      let hp : QUIC_PACKET_BUILDER × Bool :=
        if B2.Connection.HeaderProtectionEnabled then
          if B2.PacketType = E.SEND_PACKET_SHORT_HEADER_TYPE then
            (FinalizeHpShort E B2 PnStart, false)
          else FinalizeHpLong E B2 PnStart
        else (B2, false)
      if hp.2 then (hp.1, PayloadLength, true)
      else
        let kp := FinalizeKeyPhase E hp.1 PayloadLength
        (kp.1, PayloadLength, kp.2)
  else (B, PayloadLength0, false)

/-- Lines 756-785: fill in the metadata, tell loss detection, charge the send
allowance. -/
def FinalizeTrack (E : Env) (B : QUIC_PACKET_BUILDER) (PayloadLength : Nat) :
    QUIC_PACKET_BUILDER :=
  let md := { B.Metadata with
    SentTime := E.QuicTimeUs32 B.Calls
    PacketLength := u16 (B.HeaderLength + PayloadLength) }
  let B1 := { B with Metadata := md, Calls := Call.LossDetectionOnPacketSent md :: B.Calls }
  if B1.Metadata.IsRetransmittable then
    { B1 with
      PacketBatchRetransmittable := true
      SendAllowance :=
        if B1.Metadata.PacketLength > B1.SendAllowance then 0
        else B1.SendAllowance - B1.Metadata.PacketLength }
  else B1

/-- The builder when `QuicPacketBuilderFinalize` reaches the `Exit:` label,
for a packet with frames in the datagram `d` (lines 552-785). -/
def FinalizeNonEmpty (E : Env) (B : QUIC_PACKET_BUILDER) (d : QUIC_BUFFER)
    (AllDoneSending : Bool) : QUIC_PACKET_BUILDER :=
  let Final := IsFinalQuicPacket E B d.Length AllDoneSending
  let Min := FinalizeMinimumDatagramLength E B d.Length AllDoneSending
  let B1 := FinalizePadAndLength E B d.Length AllDoneSending
  let enc := FinalizeEncrypt E B1 (PaddedPayloadLength B Min Final)
  if enc.2.2 then enc.1 else FinalizeTrack E enc.1 enc.2.1

/-- `QuicPacketBuilderFinalize`. -/
def QuicPacketBuilderFinalize (E : Env) (B : QUIC_PACKET_BUILDER)
    (AllDoneSending : Bool) : QUIC_PACKET_BUILDER :=
  match B.Datagram with
  | none => FinalizeExit E B AllDoneSending AllDoneSending
  | some d =>
    if B.Metadata.FrameCount = 0 then
      FinalizeExit E (FinalizeUndoHeader B) AllDoneSending AllDoneSending
    else
      FinalizeExit E (FinalizeNonEmpty E B d AllDoneSending) AllDoneSending
        (IsFinalQuicPacket E B d.Length AllDoneSending)

/-! ## `QuicPacketBuilderPrepare` -/

/-- The local `DatagramSize` of `QuicPacketBuilderPrepare` (lines 122-126). -/
def PrepareDatagramSize (B : QUIC_PACKET_BUILDER) : Nat :=
  if u16 B.Path.Mtu > B.Path.Allowance then u16 B.Path.Allowance else u16 B.Path.Mtu

/-- The local `NewDatagramLength` (lines 178-185). -/
def PrepareNewDatagramLength (E : Env) (B : QUIC_PACKET_BUILDER)
    (IsPathMtuDiscovery : Bool) : Nat :=
  let len := u16 (E.MaxUdpPayloadSizeForFamily B.Path.RemoteFamily
    (if IsPathMtuDiscovery then E.QUIC_MAX_MTU else PrepareDatagramSize B))
  if B.Connection.PeerTpFlagMaxPacketSize ∧ len > B.Connection.PeerMaxPacketSize then
    u16 B.Connection.PeerMaxPacketSize
  else len

/-- The value given to `Builder->MinimumDatagramLength` for a new datagram
(lines 197-229). -/
def PrepareMinimumDatagramLength (E : Env) (B : QUIC_PACKET_BUILDER)
    (NewPacketType : Nat) (IsTailLossProbe IsPathMtuDiscovery : Bool)
    (NewDatagramLength : Nat) : Nat :=
  if IsTailLossProbe && !B.Connection.IsServer then
    if B.Connection.TlsState.WriteKey = E.QUIC_PACKET_KEY_1_RTT then
      u16 (E.QUIC_RECOMMENDED_STATELESS_RESET_PACKET_LENGTH + 8)
    else NewDatagramLength
  else if decide (NewPacketType = E.QUIC_INITIAL) && !B.Connection.IsServer then
    u16 (E.MaxUdpPayloadSizeForFamily B.Path.RemoteFamily E.QUIC_INITIAL_PACKET_LENGTH)
  else if IsPathMtuDiscovery then NewDatagramLength
  else B.MinimumDatagramLength

/-- Lines 163-176: allocate a send context when the builder holds none.  The
first component is `false` on the `goto Error` of an allocation failure. -/
def PrepareSendContext (E : Env) (B : QUIC_PACKET_BUILDER) (IsPathMtuDiscovery : Bool) :
    Bool × QUIC_PACKET_BUILDER :=
  match B.SendContext with
  | some _ => (true, B)
  | none =>
    let size :=
      if IsPathMtuDiscovery then 0
      else E.MaxUdpPayloadSizeForFamily B.Path.RemoteFamily (PrepareDatagramSize B)
    if E.AllocSendContextOk B.Calls size then
      (true, { B with SendContext := some ⟨size, []⟩
                      Calls := Call.AllocSendContext size true :: B.Calls })
    else (false, logCall B (Call.AllocSendContext size false))

/-- Lines 178-233: allocate a datagram from the send context and set the
minimum datagram length.  The first component is `false` on the `goto Error`
of an allocation failure. -/
def PrepareAllocDatagram (E : Env) (B : QUIC_PACKET_BUILDER) (NewPacketType : Nat)
    (IsTailLossProbe IsPathMtuDiscovery : Bool) : Bool × QUIC_PACKET_BUILDER :=
  let NewDatagramLength := PrepareNewDatagramLength E B IsPathMtuDiscovery
  if E.AllocSendDatagramOk B.Calls NewDatagramLength then
    let B2 := { B with
      Datagram := some ⟨NewDatagramLength, List.replicate NewDatagramLength 0⟩
      Calls := Call.AllocSendDatagram NewDatagramLength true :: B.Calls
      DatagramLength := 0
      MinimumDatagramLength := 0 }
    let Min := PrepareMinimumDatagramLength E B2 NewPacketType IsTailLossProbe
      IsPathMtuDiscovery NewDatagramLength
    (true, { B2 with MinimumDatagramLength := Min })
  else (false, logCall B (Call.AllocSendDatagram NewDatagramLength false))

/-- Lines 157-233: make sure there is a current datagram, allocating a send
context and a datagram as needed.  The first component is `false` on the
`goto Error` of an allocation failure. -/
def PrepareDatagram (E : Env) (B : QUIC_PACKET_BUILDER) (NewPacketType : Nat)
    (IsTailLossProbe IsPathMtuDiscovery : Bool) :
    Bool × QUIC_PACKET_BUILDER :=
  match B.Datagram with
  | some _ => (true, B)
  | none =>
    let ctx := PrepareSendContext E B IsPathMtuDiscovery
    if ctx.1 then
      PrepareAllocDatagram E ctx.2 NewPacketType IsTailLossProbe IsPathMtuDiscovery
    else ctx

/-- Lines 235-314: start a new QUIC packet in the current datagram: take a
packet number and write the header.  `none` is the process stopped by
`QUIC_FRE_ASSERT(FALSE)` (a short header asked for an unknown version). -/
def PrepareNewPacket (E : Env) (B : QUIC_PACKET_BUILDER) (NewPacketType : Nat)
    (NewPacketKey : Option QUIC_PACKET_KEY) (IsPathMtuDiscovery : Bool) :
    Option QUIC_PACKET_BUILDER :=
  let md := { B.Metadata with
    FrameCount := 0
    PacketNumber := B.Connection.Send.NextPacketNumber
    KeyType := E.QuicPacketTypeToKeyType NewPacketType
    IsRetransmittable := false
    HasCrypto := false
    IsPMTUD := IsPathMtuDiscovery }
  let B0 := setNextPacketNumber B (u64 (B.Connection.Send.NextPacketNumber + 1))
  let B1 := { B0 with
    PacketType := NewPacketType
    EncryptLevel := E.QuicPacketTypeToEncryptLevel NewPacketType
    Key := NewPacketKey
    Metadata := md
    PacketStart := B.DatagramLength
    HeaderLength := 0 }
  let Capacity := (B1.Datagram.map (fun d => d.Length)).getD 0
  let BufferSpaceAvailable := u16OfInt ((u16 Capacity : Int) - (B1.DatagramLength : Int))
  if NewPacketType = E.SEND_PACKET_SHORT_HEADER_TYPE then
    let PacketSpace := B1.Connection.Packets.getD B1.EncryptLevel ⟨false, 0, false, 0⟩
    if B1.Connection.QuicVersion = E.QUIC_VERSION_DRAFT_24 ∨
        B1.Connection.QuicVersion = E.QUIC_VERSION_MS_1 then
      let hdr := E.QuicPacketEncodeShortHeaderV1 B1.Path.DestCid B1.Metadata.PacketNumber 4
        B1.Path.SpinBit PacketSpace.CurrentKeyPhase BufferSpaceAvailable
      let B2 := { writeDatagram B1 B1.DatagramLength hdr with
        PacketNumberLength := 4
        HeaderLength := u16 hdr.length
        Metadata := { B1.Metadata with KeyPhase := PacketSpace.CurrentKeyPhase } }
      some { B2 with DatagramLength := u16 (B2.DatagramLength + B2.HeaderLength) }
    else none
  else
    let r := E.QuicPacketEncodeLongHeaderV1 B1.Connection.QuicVersion NewPacketType
      B1.Path.DestCid B1.SourceCID B1.Connection.Send.InitialTokenLength
      B1.Connection.Send.InitialToken (u32 B1.Metadata.PacketNumber) BufferSpaceAvailable
    let B2 := { writeDatagram B1 B1.DatagramLength r.Bytes with
      HeaderLength := u16 r.Bytes.length
      PayloadLengthOffset := u16 r.PayloadLengthOffset
      PacketNumberLength := u8 r.PacketNumberLength }
    some { B2 with DatagramLength := u16 (B2.DatagramLength + B2.HeaderLength) }

/-- Lines 135-155: finalize the packet in progress when it cannot take the new
data.  The first component is `NewQuicPacket`; `none` is the `goto Error` of a
full batch. -/
def PrepareSelectPacket (E : Env) (B : QUIC_PACKET_BUILDER) (NewPacketType : Nat)
    (IsPathMtuDiscovery : Bool) : Option Bool × QUIC_PACKET_BUILDER :=
  if B.PacketType ≠ NewPacketType ∨ IsPathMtuDiscovery = true then
    let B1 :=
      if B.SendContext.isSome then QuicPacketBuilderFinalize E B IsPathMtuDiscovery else B
    if B1.SendContext.isNone ∧ B1.TotalCountDatagrams ≥ E.QUIC_MAX_DATAGRAMS_PER_SEND then
      (none, B1)
    else (some true, B1)
  else if B.Datagram.isNone then (some true, B)
  else (some false, B)

/-- `QuicPacketBuilderPrepare`.  The result is `none` when the process is
stopped by `QUIC_FRE_ASSERT`, otherwise the returned `BOOLEAN` and the builder
as the call leaves it. -/
def QuicPacketBuilderPrepare (E : Env) (B : QUIC_PACKET_BUILDER) (NewPacketType : Nat)
    (NewPacketKey : Option QUIC_PACKET_KEY) (IsTailLossProbe IsPathMtuDiscovery : Bool) :
    Option (Bool × QUIC_PACKET_BUILDER) :=
  match PrepareSelectPacket E B NewPacketType IsPathMtuDiscovery with
  | (none, B1) => some (false, B1)
  | (some NewQuicPacket, B1) =>
    match PrepareDatagram E B1 NewPacketType IsTailLossProbe IsPathMtuDiscovery with
    | (false, B2) => some (false, B2)
    | (true, B2) =>
      if NewQuicPacket then
        (PrepareNewPacket E B2 NewPacketType NewPacketKey IsPathMtuDiscovery).map
          (fun B3 => (true, B3))
      else some (true, B2)

/-! ## Conditions the code states about its own state -/

/-- Every integer field of the builder holds a value of its C type. -/
structure InRange (B : QUIC_PACKET_BUILDER) : Prop where
  DatagramLength : B.DatagramLength < 2 ^ 16
  PacketStart : B.PacketStart < 2 ^ 16
  HeaderLength : B.HeaderLength < 2 ^ 16
  PayloadLengthOffset : B.PayloadLengthOffset < 2 ^ 16
  MinimumDatagramLength : B.MinimumDatagramLength < 2 ^ 16
  PacketNumberLength : B.PacketNumberLength < 2 ^ 8
  EncryptionOverhead : B.EncryptionOverhead < 2 ^ 8
  SendAllowance : B.SendAllowance < 2 ^ 32
  NextPacketNumber : B.Connection.Send.NextPacketNumber < 2 ^ 64

/-- The `_Analysis_assume_` and `QUIC_DBG_ASSERT` lines 556-563 at the head of
the non-empty branch of `QuicPacketBuilderFinalize`; `Capacity` is
`Builder->Datagram->Length`. -/
structure FinalizeAssumptions (B : QUIC_PACKET_BUILDER) (Capacity : Nat) : Prop where
  Overhead : B.EncryptionOverhead ≤ 16
  CapacityFits : Capacity < 0x10000
  Room : B.DatagramLength + B.EncryptionOverhead ≤ Capacity
  Header : B.PacketStart + B.HeaderLength ≤ B.DatagramLength
  LengthField : B.PacketStart + B.PayloadLengthOffset ≤ B.DatagramLength
  Minimum : B.MinimumDatagramLength ≤ Capacity

/-! ## The framer and sequences of calls -/

/-- Modelled from the spec: the framer is outside `packet_builder.c`; it
"fills in payload bytes" of the packet in progress.  It stores `bytes` at the
write cursor, advances the cursor, counts `frames` more frames and marks the
packet retransmittable when asked. -/
def FramerWrite (B : QUIC_PACKET_BUILDER) (bytes : List Nat) (frames : Nat)
    (retransmittable : Bool) : QUIC_PACKET_BUILDER :=
  { writeDatagram B B.DatagramLength bytes with
    DatagramLength := u16 (B.DatagramLength + bytes.length)
    Metadata := { B.Metadata with
      FrameCount := u8 (B.Metadata.FrameCount + frames)
      IsRetransmittable := B.Metadata.IsRetransmittable || retransmittable } }

/-- One call of a flush cycle. -/
inductive Op where
  | prepare (NewPacketType : Nat) (NewPacketKey : Option QUIC_PACKET_KEY)
      (IsTailLossProbe IsPathMtuDiscovery : Bool)
  | frames (bytes : List Nat) (frames : Nat) (retransmittable : Bool)
  | finalize (AllDoneSending : Bool)
deriving DecidableEq, Repr

/-- A flush cycle under way: the builder, whether a packet has been prepared
and not finalized yet, and how many packets were finalized with frames in
them. -/
structure Cycle where
  B : QUIC_PACKET_BUILDER
  InProgress : Bool
  NonEmpty : Nat
deriving DecidableEq, Repr

/-- A `prepare` call of a valid sequence: there is a packet in progress or no
current datagram.  A packet in progress that had frames and that the call
finalizes is counted.  The result is `none` for a call that is not valid and
for a call stopped by `QUIC_FRE_ASSERT`. -/
def Cycle.prepare (E : Env) (c : Cycle) (ty : Nat) (key : Option QUIC_PACKET_KEY)
    (tlp pmtud : Bool) : Option Cycle :=
  if c.InProgress = true ∨ c.B.Datagram = none then
    let finalized : Nat :=
      if c.InProgress = true ∧ (c.B.PacketType ≠ ty ∨ pmtud = true) ∧
          c.B.SendContext.isSome = true ∧ c.B.Metadata.FrameCount ≠ 0 then 1 else 0
    (QuicPacketBuilderPrepare E c.B ty key tlp pmtud).map
      (fun r => ⟨r.2, r.1, c.NonEmpty + finalized⟩)
  else none

/-- The framer writing into the packet in progress, in a valid sequence: the
frame counter does not overflow. -/
def Cycle.frames (c : Cycle) (bytes : List Nat) (n : Nat) (retransmittable : Bool) :
    Option Cycle :=
  if c.InProgress = true ∧ c.B.Metadata.FrameCount + n < 2 ^ 8 then
    some { c with B := FramerWrite c.B bytes n retransmittable }
  else none

/-- A `finalize` call of a valid sequence: like `prepare`, it is made with a
packet in progress, which is counted when it has frames, or with no current
datagram (as the cleanup of a flush does to send the batch). -/
def Cycle.finalize (E : Env) (c : Cycle) (allDone : Bool) : Option Cycle :=
  if c.InProgress = true ∨ c.B.Datagram = none then
    some ⟨QuicPacketBuilderFinalize E c.B allDone, false,
      c.NonEmpty + (if c.InProgress = true ∧ c.B.Metadata.FrameCount ≠ 0 then 1 else 0)⟩
  else none

/-- One call of a valid sequence.  The sequence is valid when every prepared
packet is finalized once: `prepare` and `finalize` are called with a packet in
progress or with no current datagram (never on a datagram whose last packet
was finalized already), and the framer writes into the packet in progress. -/
def Cycle.step (E : Env) (c : Cycle) : Op → Option Cycle
  | Op.prepare ty key tlp pmtud => c.prepare E ty key tlp pmtud
  | Op.frames bytes n retransmittable => c.frames bytes n retransmittable
  | Op.finalize allDone => c.finalize E allDone

/-- Run a sequence of calls. -/
def Cycle.run (E : Env) : Cycle → List Op → Option Cycle
  | c, [] => some c
  | c, op :: ops => (c.step E op).bind (fun c1 => Cycle.run E c1 ops)

/-! ## Views of the builder, used to say what a step leaves alone -/

/-- The builder with the datagram memory blanked: two builders with the same
view differ at most in the send context and the current datagram. -/
def noMemory (B : QUIC_PACKET_BUILDER) : QUIC_PACKET_BUILDER :=
  { B with SendContext := none, Datagram := none }

/-- The builder with the datagram memory, the header-protection mask, the
batch count and the call log blanked. -/
def noHp (B : QUIC_PACKET_BUILDER) : QUIC_PACKET_BUILDER :=
  { noMemory B with HpMask := [], BatchCount := 0, Calls := [] }

/-- The view left alone by the code after the `Exit:` label. -/
def noExit (B : QUIC_PACKET_BUILDER) : QUIC_PACKET_BUILDER :=
  { noHp B with TotalCountDatagrams := 0, PacketBatchSent := false }

/-- The view left alone by the encryption stage of finalize, the write cursor
apart: it also blanks the batch arrays, the key and the crypto part of the
connection. -/
def noCrypto (B : QUIC_PACKET_BUILDER) : QUIC_PACKET_BUILDER :=
  { noHp B with
    CipherBatch := []
    HeaderBatch := []
    Key := none
    Connection := { B.Connection with TlsState := ⟨0, []⟩, Packets := [] } }

/-- The view left alone by the whole of `QuicPacketBuilderFinalize` on a packet
with frames: it also blanks what the exit code may change, the minimum
datagram length, the send allowance, the retransmittable mark of the batch and
the write cursor and the two metadata fields filled in at the end. -/
def noFinalize (B : QUIC_PACKET_BUILDER) : QUIC_PACKET_BUILDER :=
  { noCrypto (noExit B) with
    DatagramLength := 0
    MinimumDatagramLength := 0
    SendAllowance := 0
    PacketBatchRetransmittable := false
    Metadata := { B.Metadata with SentTime := 0, PacketLength := 0 } }

/-- A view of the builder that the encryption stage of finalize cannot change
except through the write cursor: it is kept by a byte XOR and by a write into
the current datagram, and it is blind to the header-protection scratch state,
the call log, the key and the crypto part of the connection. -/
structure CryptoBlind {α : Type} (v : QUIC_PACKET_BUILDER → α) : Prop where
  xor : ∀ B r k m, v (xorHeaderByte B r k m) = v B
  write : ∀ B off bs, v (writeDatagram B off bs) = v B
  blind : ∀ (B : QUIC_PACKET_BUILDER) mask n calls cb hb key tls ps,
    v { B with
        HpMask := mask
        BatchCount := n
        Calls := calls
        CipherBatch := cb
        HeaderBatch := hb
        Key := key
        Connection := { B.Connection with TlsState := tls, Packets := ps } } = v B

/-- The write cursor `Builder->DatagramLength` after the padding step (line
608). -/
def PaddedDatagramLength (E : Env) (B : QUIC_PACKET_BUILDER) (Capacity : Nat)
    (AllDoneSending : Bool) : Nat :=
  let Pad := PaddingLength B (FinalizeMinimumDatagramLength E B Capacity AllDoneSending)
    (IsFinalQuicPacket E B Capacity AllDoneSending)
  if Pad ≠ 0 then u16 (B.DatagramLength + Pad) else B.DatagramLength

/-- The local `PayloadLength` when `QuicPacketBuilderFinalize` fills in the
metadata (line 762): the padded payload, with the AEAD tag when encryption is
enabled. -/
def FinalPayloadLength (E : Env) (B : QUIC_PACKET_BUILDER) (Capacity : Nat)
    (AllDoneSending : Bool) : Nat :=
  let p := PaddedPayloadLength B (FinalizeMinimumDatagramLength E B Capacity AllDoneSending)
    (IsFinalQuicPacket E B Capacity AllDoneSending)
  if B.Connection.EncryptionEnabled then u16 (p + B.EncryptionOverhead) else p

/-- Whether the encryption stage of `QuicPacketBuilderFinalize` jumps to
`Exit` on a failure of encryption, of the header-protection mask or of key
generation, for a packet with frames in the datagram `d`. -/
def FinalizeCryptoFailed (E : Env) (B : QUIC_PACKET_BUILDER) (d : QUIC_BUFFER)
    (AllDoneSending : Bool) : Bool :=
  (FinalizeEncrypt E (FinalizePadAndLength E B d.Length AllDoneSending)
    (PaddedPayloadLength B (FinalizeMinimumDatagramLength E B d.Length AllDoneSending)
      (IsFinalQuicPacket E B d.Length AllDoneSending))).2.2

/-- The view left alone by the allocation stage of prepare: it blanks the send
context, the current datagram, the call log, the write cursor and the minimum
datagram length. -/
def noAlloc (B : QUIC_PACKET_BUILDER) : QUIC_PACKET_BUILDER :=
  { B with
    SendContext := none
    Datagram := none
    Calls := []
    DatagramLength := 0
    MinimumDatagramLength := 0 }

/-- A sample `MaxUdpPayloadSizeForFamily`: the MTU less the IP and UDP headers
(family 2 is IPv4). -/
def sampleMaxUdpPayload (family mtu : Nat) : Nat :=
  if family = 2 then mtu - 28 else mtu - 48

/-- The four bytes of a packet number, most significant first. -/
def packetNumberBytes (pn : Nat) : List Nat :=
  [pn / 2 ^ 24 % 256, pn / 2 ^ 16 % 256, pn / 2 ^ 8 % 256, pn % 256]

/-- A sample short-header encoder: flags byte, destination CID, packet number;
nothing when the buffer is too small. -/
def sampleEncodeShortHeader (dcid : List Nat) (pn pnl : Nat) (spin keyPhase : Bool)
    (space : Nat) : List Nat :=
  if space < 1 + dcid.length + pnl then []
  else
    [0x40 + (if spin then 0x20 else 0) + (if keyPhase then 0x04 else 0) + (pnl - 1)] ++ dcid ++
      packetNumberBytes pn

/-- A sample long-header encoder: flags byte, version, both CIDs with their
lengths, a zero token length for Initial packets, the 2-byte payload length
left for finalize to fill in, and a 4-byte packet number. -/
def sampleEncodeLongHeader (version ty : Nat) (dcid scid : List Nat) (_tokenLength : Nat)
    (_token : List Nat) (pn space : Nat) : LongHeaderResult :=
  let front := [0xc3 + 16 * ty] ++ packetNumberBytes version ++ [dcid.length] ++ dcid ++
    [scid.length] ++ scid ++ (if ty = 0 then [0] else [])
  if space < front.length + 2 + 4 then ⟨[], 0, 0⟩
  else ⟨front ++ [0x40, 0] ++ packetNumberBytes pn, front.length, 4⟩

/-- The sample environment. -/
def sampleEnv : Env where
  QUIC_MIN_PACKET_SPARE_SPACE := 64
  QUIC_MAX_DATAGRAMS_PER_SEND := 40
  QUIC_MAX_MTU := 1500
  QUIC_INITIAL_PACKET_LENGTH := 1228
  QUIC_RECOMMENDED_STATELESS_RESET_PACKET_LENGTH := 25
  QUIC_MAX_CRYPTO_BATCH_COUNT := 8
  QUIC_HP_SAMPLE_LENGTH := 16
  SEND_PACKET_SHORT_HEADER_TYPE := 0xff
  QUIC_INITIAL := 0
  QUIC_RETRY := 3
  QUIC_PACKET_KEY_1_RTT := 3
  QUIC_VERSION_DRAFT_24 := 0xff000018
  QUIC_VERSION_MS_1 := 0xabcd0000
  QUIC_ERROR_NO_ERROR := 0
  MaxUdpPayloadSizeForFamily := sampleMaxUdpPayload
  QuicPacketTypeToEncryptLevel := fun t => if t = 0 ∨ t = 3 then 0 else if t = 2 then 1 else 2
  QuicPacketTypeToKeyType := fun t => if t = 0 ∨ t = 3 then 0 else if t = 1 then 1
    else if t = 2 then 2 else 3
  QuicPacketEncodeShortHeaderV1 := sampleEncodeShortHeader
  QuicPacketEncodeLongHeaderV1 := sampleEncodeLongHeader
  AllocSendContextOk := fun _ _ => true
  AllocSendDatagramOk := fun _ _ => true
  IsSendContextFull := fun _ => false
  IsPaddingPreferred := false
  QuicEncrypt := fun _ _ _ _ plain => some plain
  QuicHpComputeMask := fun _ _ n _ => some (List.replicate (n * 16) 0)
  QuicCryptoGenerateNewKeys := fun _ tls => some tls
  QuicCryptoUpdateKeyPhase := fun tls spaces => (tls, spaces)
  QuicTimeUs32 := fun _ => 0

/-- A sample connection: a client in the handshake, with Initial and Handshake
write keys, talking version draft-24. -/
def sampleConnection : QUIC_CONNECTION where
  IsServer := false
  EncryptionEnabled := true
  HeaderProtectionEnabled := true
  HandshakeConfirmed := false
  QuicVersion := 0xff000018
  Send := ⟨0, 0, [], 0, false⟩
  TlsState := ⟨2, [some 10, none, some 12, none]⟩
  Packets := [⟨false, 0, false, 0⟩, ⟨false, 0, false, 0⟩, ⟨false, 0, false, 0⟩]
  PeerTpFlagMaxPacketSize := false
  PeerMaxPacketSize := 0
  MaxBytesPerKey := 1000000
  SourceCIDs := [[5, 6, 7, 8]]

/-- A sample builder as a flush starts: zeroed, then initialized for the
sample connection over an IPv4 path with MTU 1350. -/
def sampleBuilder : QUIC_PACKET_BUILDER where
  Connection := sampleConnection
  Path := ⟨1350, 0xffffffff, 2, false, [1, 2, 3, 4], false⟩
  SourceCID := [5, 6, 7, 8]
  SendContext := none
  Datagram := none
  Key := none
  CipherBatch := []
  HpMask := []
  HeaderBatch := []
  BatchCount := 0
  PacketBatchSent := false
  PacketBatchRetransmittable := false
  EncryptionOverhead := 16
  TotalCountDatagrams := 0
  PacketType := 0
  PacketNumberLength := 0
  EncryptLevel := 0
  DatagramLength := 0
  PacketStart := 0
  HeaderLength := 0
  PayloadLengthOffset := 0
  MinimumDatagramLength := 0
  SendAllowance := 100000
  Metadata := ⟨0, 0, 0, 0, 0, false, false, false, false⟩
  Calls := []

/-- A sample flush: an Initial packet with one frame of 300 bytes, then a
Handshake packet into which nothing is framed, finalized with all done. -/
def sampleOps : List Op :=
  [Op.prepare 0 (some 10) false false, Op.frames (List.replicate 300 6) 1 true,
    Op.prepare 2 (some 12) false false, Op.finalize true]

/-- The sample builder after a successful prepare for a Handshake packet: a
fresh datagram holding only the header of packet number 0. -/
def samplePrepared : QUIC_PACKET_BUILDER :=
  ((QuicPacketBuilderPrepare sampleEnv sampleBuilder 2 (some 12) false false).getD
    (false, sampleBuilder)).2

/-- The current datagram of `samplePrepared`. -/
def samplePreparedDatagram : QUIC_BUFFER :=
  samplePrepared.Datagram.getD ⟨0, []⟩

/-- The view left alone by the padding and encryption stages of finalize
together: the crypto view with the write cursor and the minimum datagram
length blanked. -/
def noPad (B : QUIC_PACKET_BUILDER) : QUIC_PACKET_BUILDER :=
  { noCrypto B with DatagramLength := 0, MinimumDatagramLength := 0 }

/-- The sample builder after a prepare for an Initial packet and a
retransmittable frame of 300 bytes written by the framer. -/
def sampleFramed : QUIC_PACKET_BUILDER :=
  FramerWrite
    ((QuicPacketBuilderPrepare sampleEnv sampleBuilder 0 (some 10) false false).getD
      (false, sampleBuilder)).2
    (List.replicate 300 6) 1 true

/-- The current datagram of `sampleFramed`. -/
def sampleFramedDatagram : QUIC_BUFFER :=
  sampleFramed.Datagram.getD ⟨0, []⟩

/-- A builder written by hand, as in the middle of a client flush, about to
finalize the second packet of a datagram: capacity 1322, minimum datagram length 1200 (a client
Initial datagram), a first packet of 1160 bytes, and a Handshake packet with a
22-byte header, a 1-byte packet number and one frame of one byte (a PING). -/
def sampleShortTail : QUIC_PACKET_BUILDER :=
  { sampleBuilder with
    Connection := { sampleConnection with Send := ⟨2, 0, [], 0, true⟩ }
    SendContext := some ⟨1322, []⟩
    Datagram := some ⟨1322, List.replicate 1322 0⟩
    Key := some 12
    PacketType := 2
    PacketNumberLength := 1
    EncryptLevel := 1
    DatagramLength := 1183
    PacketStart := 1160
    HeaderLength := 22
    PayloadLengthOffset := 19
    MinimumDatagramLength := 1200
    Metadata := ⟨1, 0, 0, 1, 2, true, false, false, false⟩ }

/-- A builder written by hand, about to finalize a packet that fills its
datagram to the last byte: capacity 1322, a Handshake packet started with the 64 bytes of spare
space left at offset 1258, a 46-byte header with a 1-byte packet number, two
bytes of frames, and 16 bytes kept for the AEAD tag. -/
def sampleFullTail : QUIC_PACKET_BUILDER :=
  { sampleBuilder with
    Connection := { sampleConnection with Send := ⟨2, 0, [], 0, true⟩ }
    SendContext := some ⟨1322, []⟩
    Datagram := some ⟨1322, List.replicate 1322 0⟩
    Key := some 12
    PacketType := 2
    PacketNumberLength := 1
    EncryptLevel := 1
    DatagramLength := 1306
    PacketStart := 1258
    HeaderLength := 46
    PayloadLengthOffset := 43
    MinimumDatagramLength := 0
    Metadata := ⟨1, 0, 0, 1, 2, true, false, false, false⟩ }

/-- The reported lengths of the datagrams completed in the send context the
builder holds. -/
def completedLengths (B : QUIC_PACKET_BUILDER) : Option (List Nat) :=
  B.SendContext.map (fun c => c.Datagrams.map (fun d => d.Length))

/-- The send context most recently handed to the binding, from the call log. -/
def sentContext : List Call → Option QUIC_DATAPATH_SEND_CONTEXT
  | [] => none
  | Call.BindingSendTo c :: _ => c
  | Call.BindingSendFromTo c :: _ => c
  | _ :: rest => sentContext rest

/-- The reported length of the datagram completed last: the last datagram of
the send context the builder holds or, when it holds none, of the send context
it handed over last. -/
def lastReportedLength (B : QUIC_PACKET_BUILDER) : Option Nat :=
  match B.SendContext with
  | some c => (c.Datagrams.map (fun d => d.Length)).getLast?
  | none => (sentContext B.Calls).bind
      (fun c => (c.Datagrams.map (fun d => d.Length)).getLast?)

/-- A sample client flush that puts a Handshake packet first and an Initial
packet second in the same datagram, each with one frame of 100 bytes. -/
def sampleHandshakeFirstOps : List Op :=
  [Op.prepare 2 (some 12) false false, Op.frames (List.replicate 100 6) 1 true,
    Op.prepare 0 (some 10) false false, Op.frames (List.replicate 100 6) 1 true,
    Op.finalize true]

/-- The sample builder after 40 datagrams of Initial packets were sent: no
send context, no current datagram, the packet type still Initial. -/
def sampleBatchFull : QUIC_PACKET_BUILDER :=
  { sampleBuilder with
    Connection := { sampleConnection with Send := ⟨40, 0, [], 0, true⟩ }
    TotalCountDatagrams := 40
    PacketBatchSent := true
    PacketBatchRetransmittable := true }

/-- The sample builder with the framed Initial packet in progress, after 39
datagrams were sent. -/
def sampleFramedLate : QUIC_PACKET_BUILDER :=
  { sampleFramed with TotalCountDatagrams := 39 }

/-- A sample client flush that fills the datagram with a large Initial packet,
leaving exactly `QUIC_MIN_PACKET_SPARE_SPACE` = 64 bytes once the packet is
sealed, and then prepares a Handshake packet behind it. -/
def sampleTightOps : List Op :=
  [Op.prepare 0 (some 10) false false, Op.frames (List.replicate 1220 6) 1 true,
    Op.prepare 2 (some 12) false false]

/-- The builder before the last call of `sampleTightOps`: the large Initial
packet in progress. -/
def sampleTightFramed : QUIC_PACKET_BUILDER :=
  FramerWrite
    ((QuicPacketBuilderPrepare sampleEnv sampleBuilder 0 (some 10) false false).getD
      (false, sampleBuilder)).2
    (List.replicate 1220 6) 1 true

/-! ## The entry points around prepare and finalize -/

/-- Modelled from the spec: `QUIC_ENCRYPTION_OVERHEAD` is defined in a header
outside `packet_builder.c`; the spec has `encryption_overhead` "(16 if AEAD
active, else 0)", and line 556 assumes the overhead is at most 16. -/
def QUIC_ENCRYPTION_OVERHEAD : Nat := 16

/-- Constants and functions of the connection, crypto and congestion control
modules that the entry points of the builder use but `packet_builder.c` does
not define.  Packet types, key types and encryption levels are the values of
their C enumerations. -/
structure ConnEnv where
  QUIC_ENCRYPT_LEVEL_1_RTT : Nat
  QUIC_0_RTT_PROTECTED : Nat
  QUIC_PACKET_KEY_0_RTT : Nat
  QUIC_CONN_SEND_FLAG_ACK : Nat
  QUIC_CONN_SEND_FLAG_CRYPTO : Nat
  QUIC_CONN_SEND_FLAG_CONNECTION_CLOSE : Nat
  QUIC_CONN_SEND_FLAG_APPLICATION_CLOSE : Nat
  QUIC_CONN_SEND_FLAG_PING : Nat
  QuicKeyTypeToEncryptLevel : Nat → Nat
  QuicEncryptLevelToPacketType : Nat → Nat
  QuicKeyTypeToPacketType : Nat → Nat
  QuicCryptoHasPendingCryptoFrame : QUIC_CONNECTION → Bool
  QuicCryptoGetNextEncryptLevel : QUIC_CONNECTION → Nat
  QuicTimeUs64 : List Call → Nat
  QuicTimeDiff64 : Nat → Nat → Nat
  QuicCongestionControlGetSendAllowance : QUIC_CONNECTION → Nat → Bool → Nat

/-- `QuicPacketBuilderInitialize`.  The first component is the returned
`BOOLEAN`. -/
def QuicPacketBuilderInitialize (S : ConnEnv) (B : QUIC_PACKET_BUILDER)
    (Connection : QUIC_CONNECTION) (Path : QUIC_PATH) : Bool × QUIC_PACKET_BUILDER :=
  let B1 := { B with
    Connection := Connection
    Path := Path
    PacketBatchSent := false
    PacketBatchRetransmittable := false
    EncryptionOverhead := if Connection.EncryptionEnabled then QUIC_ENCRYPTION_OVERHEAD else 0 }
  match Connection.SourceCIDs with
  | [] => (false, B1)
  | cid :: _ =>
    let TimeNow := u64 (S.QuicTimeUs64 B1.Calls)
    let TimeSinceLastSend :=
      if Connection.Send.LastFlushTimeValid then
        u64 (S.QuicTimeDiff64 Connection.Send.LastFlushTime TimeNow)
      else 0
    let Allowance := u32 (S.QuicCongestionControlGetSendAllowance Connection
      TimeSinceLastSend Connection.Send.LastFlushTimeValid)
    let B2 := { B1 with
      SourceCID := cid
      SendAllowance := if Allowance > Path.Allowance then Path.Allowance else Allowance }
    let Send := { B2.Connection.Send with LastFlushTime := TimeNow, LastFlushTimeValid := true }
    (true, { B2 with Connection := { B2.Connection with Send := Send } })

/-- Lines 92-94 of `QuicPacketBuilderCleanup`: finalize with all done when a
send context is still held. -/
def CleanupFinalize (E : Env) (B : QUIC_PACKET_BUILDER) : QUIC_PACKET_BUILDER :=
  if B.SendContext.isSome then QuicPacketBuilderFinalize E B true else B

/-- `QuicPacketBuilderCleanup`. -/
def QuicPacketBuilderCleanup (E : Env) (B : QUIC_PACKET_BUILDER) : QUIC_PACKET_BUILDER :=
  let B1 := CleanupFinalize E B
  let B2 :=
    if B1.PacketBatchSent && B1.PacketBatchRetransmittable then
      logCall B1 Call.LossDetectionUpdateTimer
    else B1
  { B2 with HpMask := List.replicate B2.HpMask.length 0 }

/-- The test `SendFlags & Flag` of a C condition. -/
def flagSet (SendFlags Flag : Nat) : Bool :=
  decide (Nat.land SendFlags Flag ≠ 0)

/-- The body of the `for` loop of
`QuicPacketBuilderGetPacketTypeAndKeyForControlFrames` for one key type (lines
345-387): `none` when the loop goes on to the next key type, otherwise the
packet type and key the function returns with. -/
def ControlFramesForKeyType (S : ConnEnv) (E : Env) (Connection : QUIC_CONNECTION)
    (SendFlags KeyType : Nat) : Option (Nat × Option QUIC_PACKET_KEY) :=
  match Connection.TlsState.WriteKeys.getD KeyType none with
  | none => none
  | some PacketsKey =>
    let EncryptLevel := S.QuicKeyTypeToEncryptLevel KeyType
    if EncryptLevel = S.QUIC_ENCRYPT_LEVEL_1_RTT then
      some (E.SEND_PACKET_SHORT_HEADER_TYPE, some PacketsKey)
    else
      let Packets := Connection.Packets.getD EncryptLevel ⟨false, 0, false, 0⟩
      if flagSet SendFlags S.QUIC_CONN_SEND_FLAG_ACK = true ∧
          Packets.AckElicitingPacketsToAcknowledge ≠ 0 then
        some (S.QuicEncryptLevelToPacketType EncryptLevel, some PacketsKey)
      else if flagSet SendFlags S.QUIC_CONN_SEND_FLAG_CRYPTO = true ∧
          S.QuicCryptoHasPendingCryptoFrame Connection = true ∧
          EncryptLevel = S.QuicCryptoGetNextEncryptLevel Connection then
        some (S.QuicEncryptLevelToPacketType EncryptLevel, some PacketsKey)
      else none

/-- The `for` loop of lines 341-388 from key type `KeyType` on, with `n` key
types left to visit (the loop starts at key type 0 with `WriteKey + 1` of
them).  `none` when the loop runs to its end. -/
def ControlFramesLoop (S : ConnEnv) (E : Env) (Connection : QUIC_CONNECTION)
    (SendFlags : Nat) : Nat → Nat → Option (Nat × Option QUIC_PACKET_KEY)
  | 0, _ => none
  | n + 1, KeyType =>
    match ControlFramesForKeyType S E Connection SendFlags KeyType with
    | some r => some r
    | none => ControlFramesLoop S E Connection SendFlags n (KeyType + 1)

/-- `QuicPacketBuilderGetPacketTypeAndKeyForControlFrames`: `none` for the
return value `FALSE`, otherwise the two out-parameters. -/
def QuicPacketBuilderGetPacketTypeAndKeyForControlFrames (S : ConnEnv) (E : Env)
    (B : QUIC_PACKET_BUILDER) (SendFlags : Nat) : Option (Nat × Option QUIC_PACKET_KEY) :=
  let Connection := B.Connection
  match ControlFramesLoop S E Connection SendFlags (Connection.TlsState.WriteKey + 1) 0 with
  | some r => some r
  | none =>
    if flagSet SendFlags
        (Nat.lor (Nat.lor S.QUIC_CONN_SEND_FLAG_CONNECTION_CLOSE
          S.QUIC_CONN_SEND_FLAG_APPLICATION_CLOSE) S.QUIC_CONN_SEND_FLAG_PING) then
      some (S.QuicKeyTypeToPacketType Connection.TlsState.WriteKey,
        Connection.TlsState.WriteKeys.getD Connection.TlsState.WriteKey none)
    else none

/-- `QuicPacketBuilderPrepareForControlFrames`. -/
def QuicPacketBuilderPrepareForControlFrames (S : ConnEnv) (E : Env)
    (B : QUIC_PACKET_BUILDER) (IsTailLossProbe : Bool) (SendFlags : Nat) :
    Option (Bool × QUIC_PACKET_BUILDER) :=
  match QuicPacketBuilderGetPacketTypeAndKeyForControlFrames S E B SendFlags with
  | none => some (false, B)
  | some (PacketType, PacketKey) =>
    QuicPacketBuilderPrepare E B PacketType PacketKey IsTailLossProbe false

/-- `QuicPacketBuilderPrepareForPathMtuDiscovery`. -/
def QuicPacketBuilderPrepareForPathMtuDiscovery (E : Env) (B : QUIC_PACKET_BUILDER) :
    Option (Bool × QUIC_PACKET_BUILDER) :=
  QuicPacketBuilderPrepare E B E.SEND_PACKET_SHORT_HEADER_TYPE
    (B.Connection.TlsState.WriteKeys.getD E.QUIC_PACKET_KEY_1_RTT none) false true

/-- The packet type and key chosen by `QuicPacketBuilderPrepareForStreamFrames`
(lines 460-476). -/
def StreamFramesTypeAndKey (S : ConnEnv) (E : Env) (B : QUIC_PACKET_BUILDER) :
    Nat × Option QUIC_PACKET_KEY :=
  let WriteKeys := B.Connection.TlsState.WriteKeys
  if WriteKeys.getD S.QUIC_PACKET_KEY_0_RTT none ≠ none ∧
      WriteKeys.getD E.QUIC_PACKET_KEY_1_RTT none = none then
    (S.QUIC_0_RTT_PROTECTED, WriteKeys.getD S.QUIC_PACKET_KEY_0_RTT none)
  else (E.SEND_PACKET_SHORT_HEADER_TYPE, WriteKeys.getD E.QUIC_PACKET_KEY_1_RTT none)

/-- `QuicPacketBuilderPrepareForStreamFrames`. -/
def QuicPacketBuilderPrepareForStreamFrames (S : ConnEnv) (E : Env)
    (B : QUIC_PACKET_BUILDER) (IsTailLossProbe : Bool) :
    Option (Bool × QUIC_PACKET_BUILDER) :=
  QuicPacketBuilderPrepare E B (StreamFramesTypeAndKey S E B).1
    (StreamFramesTypeAndKey S E B).2 IsTailLossProbe false

/-- One call made on the builder in the course of a flush. -/
inductive BuilderCall where
  | prepare (NewPacketType : Nat) (NewPacketKey : Option QUIC_PACKET_KEY)
      (IsTailLossProbe IsPathMtuDiscovery : Bool)
  | prepareForControlFrames (IsTailLossProbe : Bool) (SendFlags : Nat)
  | prepareForStreamFrames (IsTailLossProbe : Bool)
  | prepareForPathMtuDiscovery
  | frames (bytes : List Nat) (frames : Nat) (retransmittable : Bool)
  | finalize (AllDoneSending : Bool)
  | cleanup
deriving DecidableEq, Repr

/-- The builder after one call; `none` when the call does not return because
`QUIC_FRE_ASSERT` stops the process. -/
def BuilderCall.apply (S : ConnEnv) (E : Env) (B : QUIC_PACKET_BUILDER) :
    BuilderCall → Option QUIC_PACKET_BUILDER
  | BuilderCall.prepare ty key tlp pmtud =>
    (QuicPacketBuilderPrepare E B ty key tlp pmtud).map (fun r => r.2)
  | BuilderCall.prepareForControlFrames tlp flags =>
    (QuicPacketBuilderPrepareForControlFrames S E B tlp flags).map (fun r => r.2)
  | BuilderCall.prepareForStreamFrames tlp =>
    (QuicPacketBuilderPrepareForStreamFrames S E B tlp).map (fun r => r.2)
  | BuilderCall.prepareForPathMtuDiscovery =>
    (QuicPacketBuilderPrepareForPathMtuDiscovery E B).map (fun r => r.2)
  | BuilderCall.frames bytes n retransmittable => some (FramerWrite B bytes n retransmittable)
  | BuilderCall.finalize allDone => some (QuicPacketBuilderFinalize E B allDone)
  | BuilderCall.cleanup => some (QuicPacketBuilderCleanup E B)

/-- The states of the builder after each call of a sequence, in order; the
sequence ends early at a call that stops the process. -/
def BuilderCall.trace (S : ConnEnv) (E : Env) :
    QUIC_PACKET_BUILDER → List BuilderCall → List QUIC_PACKET_BUILDER
  | _, [] => []
  | B, c :: cs =>
    match c.apply S E B with
    | none => []
    | some B1 => B1 :: BuilderCall.trace S E B1 cs

/-- A sample of the connection-side constants: key types and encryption
levels Initial, 0-RTT, Handshake, 1-RTT in that order of key types, the send
flags as single bits, a clock that stands at 5000 and a congestion window of
30000 bytes. -/
def sampleConnEnv : ConnEnv where
  QUIC_ENCRYPT_LEVEL_1_RTT := 2
  QUIC_0_RTT_PROTECTED := 1
  QUIC_PACKET_KEY_0_RTT := 1
  QUIC_CONN_SEND_FLAG_ACK := 1
  QUIC_CONN_SEND_FLAG_CRYPTO := 2
  QUIC_CONN_SEND_FLAG_CONNECTION_CLOSE := 4
  QUIC_CONN_SEND_FLAG_APPLICATION_CLOSE := 8
  QUIC_CONN_SEND_FLAG_PING := 0x4000
  QuicKeyTypeToEncryptLevel := fun k => if k = 0 then 0 else if k = 2 then 1 else 2
  QuicEncryptLevelToPacketType := fun l => if l = 0 then 0 else if l = 1 then 2 else 0xff
  QuicKeyTypeToPacketType := fun k => if k = 0 then 0 else if k = 1 then 1
    else if k = 2 then 2 else 0xff
  QuicCryptoHasPendingCryptoFrame := fun _ => false
  QuicCryptoGetNextEncryptLevel := fun _ => 0
  QuicTimeUs64 := fun _ => 5000
  QuicTimeDiff64 := fun a b => b - a
  QuicCongestionControlGetSendAllowance := fun _ _ _ => 30000

/-- A sample connection after the handshake: the Initial and 0-RTT keys are
discarded, the Handshake and 1-RTT write keys are there, and the Handshake
packet space has a packet to acknowledge. -/
def sampleConnected : QUIC_CONNECTION :=
  { sampleConnection with
    TlsState := ⟨3, [none, none, some 12, some 13]⟩
    Packets := [⟨false, 0, false, 0⟩, ⟨false, 0, false, 1⟩, ⟨false, 0, false, 0⟩] }

/-- The sample builder on the connection `sampleConnected`. -/
def sampleConnectedBuilder : QUIC_PACKET_BUILDER :=
  { sampleBuilder with Connection := sampleConnected }

/-- A sample flush through the entry points: a control-frame packet (an ACK
goes out in a Handshake packet), a frame, then stream data in a
short-header packet (the prepare finalizes the Handshake packet), and the
cleanup. -/
def sampleCalls : List BuilderCall :=
  [BuilderCall.prepareForControlFrames false 1,
    BuilderCall.frames [1] 1 true,
    BuilderCall.prepareForStreamFrames false,
    BuilderCall.frames (List.replicate 100 7) 1 true,
    BuilderCall.cleanup]

/-! ## Reading the call log -/

/-- The calls a step added to the log: those at the head of the log of `B1`
that the log of `B` did not have (the log holds the newest call first). -/
def newCalls (B B1 : QUIC_PACKET_BUILDER) : List Call :=
  B1.Calls.take (B1.Calls.length - B.Calls.length)

/-- A hand-over of the send context to the binding (`QuicBindingSendTo` or
`QuicBindingSendFromTo`). -/
def Call.isSend : Call → Bool
  | Call.BindingSendTo _ => true
  | Call.BindingSendFromTo _ => true
  | _ => false

/-- A call into the crypto provider or the crypto module, or the report of a
fatal error that follows a failure of one. -/
def Call.isCrypto : Call → Bool
  | Call.Encrypt _ _ => true
  | Call.HpComputeMask _ _ => true
  | Call.CryptoGenerateNewKeys _ => true
  | Call.CryptoUpdateKeyPhase => true
  | Call.ConnFatalError => true
  | _ => false

/-- A notification of loss detection that a packet was sent. -/
def Call.isPacketSent : Call → Bool
  | Call.LossDetectionOnPacketSent _ => true
  | _ => false

/-- The step from `B` to `B1` added only crypto calls to the log. -/
def CryptoLog (B B1 : QUIC_PACKET_BUILDER) : Prop :=
  ∃ delta : List Call, B1.Calls = delta ++ B.Calls ∧ ∀ c ∈ delta, c.isCrypto = true

/-- The step from `B` to `B1` added only crypto calls to the log, the last of
them the report of a fatal error. -/
def CryptoLogFailed (B B1 : QUIC_PACKET_BUILDER) : Prop :=
  ∃ delta : List Call, B1.Calls = Call.ConnFatalError :: delta ++ B.Calls ∧
    ∀ c ∈ delta, c.isCrypto = true

/-- Lines 672-718 of `QuicPacketBuilderFinalize`: header protection of the
packet just encrypted; the second component is `true` on the `goto Exit` of a
failed mask computation. -/
def FinalizeProtect (E : Env) (B : QUIC_PACKET_BUILDER) (PnStart : Nat) :
    QUIC_PACKET_BUILDER × Bool :=
  if B.Connection.HeaderProtectionEnabled then
    if B.PacketType = E.SEND_PACKET_SHORT_HEADER_TYPE then (FinalizeHpShort E B PnStart, false)
    else FinalizeHpLong E B PnStart
  else (B, false)

/-- Lines 672-754 of `QuicPacketBuilderFinalize`, what follows a successful
encryption: header protection, then the key-phase accounting unless header
protection failed. -/
def FinalizeAfterEncrypt (E : Env) (B : QUIC_PACKET_BUILDER) (PnStart PayloadLength : Nat) :
    QUIC_PACKET_BUILDER × Nat × Bool :=
  if (FinalizeProtect E B PnStart).2 then ((FinalizeProtect E B PnStart).1, PayloadLength, true)
  else
    ((FinalizeKeyPhase E (FinalizeProtect E B PnStart).1 PayloadLength).1, PayloadLength,
      (FinalizeKeyPhase E (FinalizeProtect E B PnStart).1 PayloadLength).2)

/-- The builder when `QuicPacketBuilderFinalize` reaches the `Exit:` label
(lines 530-785). -/
def FinalizeAtExit (E : Env) (B : QUIC_PACKET_BUILDER) (AllDoneSending : Bool) :
    QUIC_PACKET_BUILDER :=
  match B.Datagram with
  | none => B
  | some d =>
    if B.Metadata.FrameCount = 0 then FinalizeUndoHeader B
    else FinalizeNonEmpty E B d AllDoneSending

/-- The local `FinalQuicPacket` when `QuicPacketBuilderFinalize` reaches the
`Exit:` label: `AllDoneSending` when nothing was framed (line 548), otherwise
the test of lines 574-576. -/
def FinalQuicPacket (E : Env) (B : QUIC_PACKET_BUILDER) (AllDoneSending : Bool) : Bool :=
  match B.Datagram with
  | none => AllDoneSending
  | some d =>
    if B.Metadata.FrameCount = 0 then AllDoneSending
    else IsFinalQuicPacket E B d.Length AllDoneSending

/-- Did `QuicPacketBuilderFinalize` jump to `Exit` on a failure of encryption,
of the long-header mask computation or of key generation? -/
def FinalizeFailed (E : Env) (B : QUIC_PACKET_BUILDER) (AllDoneSending : Bool) : Bool :=
  match B.Datagram with
  | none => false
  | some d =>
    if B.Metadata.FrameCount = 0 then false else FinalizeCryptoFailed E B d AllDoneSending

/-- A local close of the connection (`QuicConnCloseLocally`). -/
def Call.isClose : Call → Bool
  | Call.ConnCloseLocally _ _ => true
  | _ => false

/-- A notification of loss detection that a retransmittable packet was
sent. -/
def Call.isRetransmittableSent : Call → Bool
  | Call.LossDetectionOnPacketSent md => md.IsRetransmittable
  | _ => false

/-- A header-protection mask computation that failed. -/
def Call.isMaskFailure : Call → Bool
  | Call.HpComputeMask _ false => true
  | _ => false

/-- The sample builder on the connection `sampleConnected` after a prepare for
a short-header packet and a retransmittable frame of 100 bytes. -/
def sampleShortFramed : QUIC_PACKET_BUILDER :=
  FramerWrite
    ((QuicPacketBuilderPrepare sampleEnv sampleConnectedBuilder 0xff (some 13) false false).getD
      (false, sampleConnectedBuilder)).2
    (List.replicate 100 7) 1 true

/-- The sample environment with a crypto provider whose header-protection mask
computation fails. -/
def sampleMaskFailureEnv : Env :=
  { sampleEnv with QuicHpComputeMask := fun _ _ _ _ => none }

/-- The sample environment with a crypto provider whose encryption fails. -/
def sampleEncryptFailureEnv : Env :=
  { sampleEnv with QuicEncrypt := fun _ _ _ _ _ => none }

/-! ## The control-frame selector as the specification words it -/

/-- The rule the specification gives for one key type: the key is not
discarded and the level is 1-RTT, or ACK is requested and the packet space of
the level has ACK-eliciting packets to acknowledge, or CRYPTO is requested and
crypto has a pending frame whose next encryption level is this level. -/
def ControlFramesMatch (S : ConnEnv) (Connection : QUIC_CONNECTION) (SendFlags KeyType : Nat) :
    Bool :=
  let Level := S.QuicKeyTypeToEncryptLevel KeyType
  (Connection.TlsState.WriteKeys.getD KeyType none).isSome &&
    (decide (Level = S.QUIC_ENCRYPT_LEVEL_1_RTT) ||
      (flagSet SendFlags S.QUIC_CONN_SEND_FLAG_ACK &&
        decide ((Connection.Packets.getD Level
          ⟨false, 0, false, 0⟩).AckElicitingPacketsToAcknowledge ≠ 0)) ||
      (flagSet SendFlags S.QUIC_CONN_SEND_FLAG_CRYPTO &&
        S.QuicCryptoHasPendingCryptoFrame Connection &&
        decide (Level = S.QuicCryptoGetNextEncryptLevel Connection)))

/-- The reference definition of the control-frame selector, after the
specification: the first key type, in ascending order up to the current write
key, that matches the rule gives a short header when its level is 1-RTT and a
long header of its level otherwise, with its key; when none matches and
CONNECTION_CLOSE, APPLICATION_CLOSE or PING is requested, the packet type and
key of the current write key; otherwise no selection. -/
def ControlFramesReference (S : ConnEnv) (E : Env) (B : QUIC_PACKET_BUILDER)
    (SendFlags : Nat) : Option (Nat × Option QUIC_PACKET_KEY) :=
  let Connection := B.Connection
  match (List.range (Connection.TlsState.WriteKey + 1)).find?
      (ControlFramesMatch S Connection SendFlags) with
  | some KeyType =>
    let Level := S.QuicKeyTypeToEncryptLevel KeyType
    some (if Level = S.QUIC_ENCRYPT_LEVEL_1_RTT then E.SEND_PACKET_SHORT_HEADER_TYPE
        else S.QuicEncryptLevelToPacketType Level,
      Connection.TlsState.WriteKeys.getD KeyType none)
  | none =>
    if flagSet SendFlags S.QUIC_CONN_SEND_FLAG_CONNECTION_CLOSE ||
        flagSet SendFlags S.QUIC_CONN_SEND_FLAG_APPLICATION_CLOSE ||
        flagSet SendFlags S.QUIC_CONN_SEND_FLAG_PING then
      some (S.QuicKeyTypeToPacketType Connection.TlsState.WriteKey,
        Connection.TlsState.WriteKeys.getD Connection.TlsState.WriteKey none)
    else none

/-- The two marks of the batch say what the call log of the flush says:
`PacketBatchSent` that a send context was handed to the binding, and
`PacketBatchRetransmittable` that loss detection was told of a retransmittable
packet.  It holds when a flush starts (initialize clears both marks, and no
call has been made). -/
def FlagsTrackLog (B : QUIC_PACKET_BUILDER) : Prop :=
  B.PacketBatchSent = B.Calls.any Call.isSend ∧
    B.PacketBatchRetransmittable = B.Calls.any Call.isRetransmittableSent

/-- The sample flush `sampleCalls` just before its cleanup: a Handshake packet
is finalized in the datagram and a short-header packet with a retransmittable
frame is in progress behind it. -/
def sampleBeforeCleanup : QUIC_PACKET_BUILDER :=
  (BuilderCall.trace sampleConnEnv sampleEnv sampleConnectedBuilder sampleCalls).getD 3
    sampleConnectedBuilder

/-- The sample builder on the server side of the sample connection. -/
def sampleServerBuilder : QUIC_PACKET_BUILDER :=
  { sampleBuilder with Connection := { sampleConnection with IsServer := true } }

/-- The sample server builder after a prepare for a Retry packet: a fresh
datagram that holds only the header of the packet. -/
def sampleRetryPrepared : QUIC_PACKET_BUILDER :=
  ((QuicPacketBuilderPrepare sampleEnv sampleServerBuilder 3 (some 10) false false).getD
    (false, sampleServerBuilder)).2

/-- The Retry packet of `sampleRetryPrepared` with a token of 20 bytes framed
into it. -/
def sampleRetryFramed : QUIC_PACKET_BUILDER :=
  FramerWrite sampleRetryPrepared (List.replicate 20 9) 1 false

/-! ## The XOR step of the header-protection flush -/

/-- The `for` loop of lines 502-510 of
`QuicPacketBuilderFinalizeHeaderProtection`: the XOR step of the batch flush,
with the mask that is in `HpMask`. -/
def HpXorBatch (E : Env) (B : QUIC_PACKET_BUILDER) : QUIC_PACKET_BUILDER :=
  (List.range B.BatchCount).foldl (HpApplyEntry E) B

/-- The statement `p[off] ^= m` on datagram `i` of those completed in the send
context. -/
def xorCompleted (B : QUIC_PACKET_BUILDER) (i off m : Nat) : QUIC_PACKET_BUILDER :=
  { B with SendContext := B.SendContext.map (fun c =>
      { c with Datagrams :=
          List.modify (fun d => { d with Buffer := xorByte d.Buffer off m }) i c.Datagrams }) }

/-- The statement `p[off] ^= m` on the current datagram. -/
def xorCurrent (B : QUIC_PACKET_BUILDER) (off m : Nat) : QUIC_PACKET_BUILDER :=
  { B with Datagram := B.Datagram.map (fun d => { d with Buffer := xorByte d.Buffer off m }) }

/-- One byte XOR of the flush: the header pointer, the index from it, and the
mask byte. -/
def xorStep (B : QUIC_PACKET_BUILDER) (op : HeaderRef × Nat × Nat) : QUIC_PACKET_BUILDER :=
  xorHeaderByte B op.1 op.2.1 op.2.2

/-- The byte XORs the loop body makes for batch entry `i`, in order: the first
byte of the header with the bottom five bits of its mask byte, then the bytes
of the packet number. -/
def HpEntryOps (E : Env) (B : QUIC_PACKET_BUILDER) (i : Nat) : List (HeaderRef × Nat × Nat) :=
  let Offset := u16 (i * E.QUIC_HP_SAMPLE_LENGTH)
  let Header := B.HeaderBatch.getD i ⟨0, 0⟩
  let Pn : HeaderRef := ⟨Header.Datagram, Header.Offset + 1 + B.Path.DestCid.length⟩
  (Header, 0, Nat.land (B.HpMask.getD Offset 0) 0x1f) ::
    (List.range B.PacketNumberLength).map (fun j => (Pn, j, B.HpMask.getD (Offset + 1 + j) 0))

/-- The byte XORs of the whole batch, in order. -/
def HpBatchOps (E : Env) (B : QUIC_PACKET_BUILDER) : List Nat → List (HeaderRef × Nat × Nat)
  | [] => []
  | i :: rest => HpEntryOps E B i ++ HpBatchOps E B rest

/-- Every byte of the datagrams the builder holds, completed or current, is a
value of `uint8_t`. -/
def BytesInRange (B : QUIC_PACKET_BUILDER) : Prop :=
  (∀ d ∈ (B.SendContext.map (fun c => c.Datagrams)).getD [], ∀ b ∈ d.Buffer, b < 256) ∧
    (∀ b ∈ datagramBuffer B, b < 256)

/-- The sample builder on the connection `sampleConnected` over a path with a
small MTU (datagrams of 200 bytes), after a prepare for a short-header packet
and a frame of 100 bytes. -/
def sampleSmallFramed : QUIC_PACKET_BUILDER :=
  FramerWrite
    ((QuicPacketBuilderPrepare sampleEnv
        { sampleConnectedBuilder with Path := ⟨228, 0xffffffff, 2, false, [1, 2, 3, 4], false⟩ }
        0xff (some 13) false false).getD (false, sampleConnectedBuilder)).2
    (List.replicate 100 7) 1 true

/-- The packet of `sampleSmallFramed` finalized, its datagram completed in the
send context and its header waiting in the batch, with a mask in the mask
buffer. -/
def sampleBatched : QUIC_PACKET_BUILDER :=
  { QuicPacketBuilderFinalize sampleEnv sampleSmallFramed false with
    HpMask := [0xa5, 0x11, 0x22, 0x33, 0x44] }

/-- The first nine bytes (the header) of the first datagram completed in the
send context. -/
def sampleHeaderBytes (B : QUIC_PACKET_BUILDER) : List Nat :=
  ((((B.SendContext.map (fun c => c.Datagrams)).getD []).map
    (fun d => d.Buffer)).headD []).take 9

/-! ## The key-phase accounting of finalize -/

/-- A call that updates the 1-RTT keys: `QuicCryptoGenerateNewKeys` or
`QuicCryptoUpdateKeyPhase`. -/
def Call.isKeyUpdate : Call → Bool
  | Call.CryptoGenerateNewKeys _ => true
  | Call.CryptoUpdateKeyPhase => true
  | _ => false

/-- The key-update calls in the log of the builder, newest first. -/
def keyUpdates (B : QUIC_PACKET_BUILDER) : List Call :=
  B.Calls.filter Call.isKeyUpdate

/-- The builder when `QuicPacketBuilderFinalize` reaches the key-phase
accounting of line 720, for a packet with frames in the datagram `d`: `none`
when it does not get there, encryption being disabled (line 644) or the
encryption or the header-protection mask failing (`goto Exit`, lines 669 and
710). -/
def FinalizeSealed (E : Env) (B : QUIC_PACKET_BUILDER) (d : QUIC_BUFFER)
    (AllDoneSending : Bool) : Option QUIC_PACKET_BUILDER :=
  let Final := IsFinalQuicPacket E B d.Length AllDoneSending
  let Min := FinalizeMinimumDatagramLength E B d.Length AllDoneSending
  let B0 := FinalizePadAndLength E B d.Length AllDoneSending
  if B0.Connection.EncryptionEnabled then
    let PayloadLength := u16 (PaddedPayloadLength B Min Final + B0.EncryptionOverhead)
    let B1 := { B0 with DatagramLength := u16 (B0.DatagramLength + B0.EncryptionOverhead) }
    let Payload := B1.PacketStart + B1.HeaderLength
    let hdr := readBytes (datagramBuffer B1) B1.PacketStart B1.HeaderLength
    let plain := readBytes (datagramBuffer B1) Payload PayloadLength
    match E.QuicEncrypt B1.Calls B1.Key B1.Metadata.PacketNumber hdr plain with
    | none => none
    | some cipher =>
      let B2 := logCall (writeDatagram B1 Payload cipher)
        (Call.Encrypt B1.Metadata.PacketNumber true)
      let hp := FinalizeProtect E B2 (Payload - B2.PacketNumberLength)
      if hp.2 then none else some hp.1
  else none

/-- The sample environment with a crypto module whose key update installs the
1-RTT write key 14. -/
def sampleRekeyEnv : Env :=
  { sampleEnv with
    QuicCryptoUpdateKeyPhase := fun tls spaces =>
      (⟨tls.WriteKey, [none, none, some 12, some 14]⟩, spaces) }

/-- The builder `sampleShortFramed` on a connection whose handshake is
confirmed and whose keys may protect 1600 bytes. -/
def sampleKeyLimitFramed : QUIC_PACKET_BUILDER :=
  { sampleShortFramed with
    Connection := { sampleShortFramed.Connection with
      HandshakeConfirmed := true
      MaxBytesPerKey := 1600 } }

/-- The local `PayloadLength` of `QuicPacketBuilderFinalize` between the
padding step and line 650, for a packet in a datagram of capacity `Capacity`:
the length of the plaintext payload, without the AEAD tag. -/
def PlaintextLength (E : Env) (B : QUIC_PACKET_BUILDER) (Capacity : Nat)
    (AllDoneSending : Bool) : Nat :=
  PaddedPayloadLength B (FinalizeMinimumDatagramLength E B Capacity AllDoneSending)
    (IsFinalQuicPacket E B Capacity AllDoneSending)

/-- The packet space `Connection->Packets[Builder->EncryptLevel]` (line 723). -/
def KeyPhaseSpace (B : QUIC_PACKET_BUILDER) : QUIC_PACKET_SPACE :=
  B.Connection.Packets.getD B.EncryptLevel ⟨false, 0, false, 0⟩

/-! ## The bytes the header-protection flush changes -/

/-- The byte at offset `off` of datagram `dg` of those the builder holds: the
datagrams completed in the send context come first, then the current one;
`none` when there is no such byte. -/
def byteAt (B : QUIC_PACKET_BUILDER) (dg off : Nat) : Option Nat :=
  let done := (B.SendContext.map (fun c => c.Datagrams)).getD []
  if dg < done.length then done[dg]?.bind (fun d => d.Buffer[off]?)
  else if dg = done.length then B.Datagram.bind (fun d => d.Buffer[off]?)
  else none

/-- The sample environment with a header-protection primitive whose mask has
the byte `k + 1` at index `k`, 16 bytes for each sample. -/
def sampleMaskEnv : Env :=
  { sampleEnv with
    QuicHpComputeMask := fun _ _ n _ => some ((List.range (n * 16)).map (fun k => k + 1)) }

/-- A batch of two short-header packets: the packet of `sampleSmallFramed`
finalized, then a second short-header packet with a frame of 50 bytes prepared
in a new datagram and finalized, each time with more to send. -/
def sampleTwoBatched : QUIC_PACKET_BUILDER :=
  QuicPacketBuilderFinalize sampleEnv
    (FramerWrite
      ((QuicPacketBuilderPrepare sampleEnv
          (QuicPacketBuilderFinalize sampleEnv sampleSmallFramed false)
          0xff (some 13) false false).getD (false, sampleSmallFramed)).2
      (List.replicate 50 9) 1 true)
    false

/-- What one byte XOR of the flush makes of the value `v` of the byte at
offset `off` of datagram `dg`: the XOR with the mask byte when the statement
addresses that byte, `v` otherwise. -/
def xorValue (dg off v : Nat) (op : HeaderRef × Nat × Nat) : Nat :=
  if op.1.Datagram = dg ∧ op.1.Offset + op.2.1 = off then u8 (Nat.xor v op.2.2) else v

/-! ## `tls_custom.c` -/

/-- `CXPLAT_TLS`. -/
structure CXPLAT_TLS where
  IsServer : Bool
deriving DecidableEq, Repr

/-- The value `client_hello` of `HANDSHAKE_TYPE`. -/
def client_hello : Nat := 1

/-- The status codes and the random generator `tls_custom.c` takes from the
platform headers.  `CxPlatRandom n` is the bytes a call `CxPlatRandom(n, p)`
stores at `p`. -/
structure TlsEnv where
  QUIC_STATUS_SUCCESS : Nat
  QUIC_STATUS_BUFFER_TOO_SMALL : Nat
  QUIC_STATUS_INVALID_PARAMETER : Nat
  CxPlatRandom : Nat → List Nat

/-- `ReadUint24`.  `Buffer` is `none` for a null pointer; `Offset` and `Value`
are the values behind the two pointers on entry.  The result is the returned
`BOOLEAN`, `*Offset` and `*Value`. -/
def ReadUint24 (Buffer : Option (List Nat)) (BufferLength Offset Value : Nat) :
    Bool × Nat × Nat :=
  match Buffer with
  | none => (false, Offset, Value)
  | some buf =>
    if Offset + 3 > BufferLength then (false, Offset, Value)
    else
      (true, u16 (Offset + 3),
        Nat.lor
          (Nat.lor (u32 (buf.getD Offset 0 <<< 16)) (u32 (buf.getD (Offset + 1) 0 <<< 8)))
          (buf.getD (Offset + 2) 0))

/-- `WriteUint24`.  The result is the returned `BOOLEAN`, `*Offset` and the
bytes of the buffer. -/
def WriteUint24 (Value BufferLength Offset : Nat) (Buffer : List Nat) :
    Bool × Nat × List Nat :=
  if Value > 0xffffff then (false, Offset, Buffer)
  else if Offset + 3 > BufferLength then (false, Offset, Buffer)
  else
    let b1 := Buffer.set Offset (u8 (Nat.land (Value >>> 16) 0xff))
    let b2 := b1.set (Offset + 1) (u8 (Nat.land (Value >>> 8) 0xff))
    let b3 := b2.set (Offset + 2) (u8 (Nat.land Value 0xff))
    (true, u16 (Offset + 3), b3)

/-- `IsHandshakeTypeSupported`. -/
def IsHandshakeTypeSupported (Input : Nat) : Bool :=
  Input = 1 ∨ Input = 2 ∨ Input = 4 ∨ Input = 8 ∨ Input = 11 ∨ Input = 13 ∨ Input = 15 ∨
    Input = 20

/-- The statements `Buffer[Index] = v; Index++;` of `WriteClientHello`, on the
pair of `Index` and the bytes of the buffer. -/
def putByte (st : Nat × List Nat) (v : Nat) : Nat × List Nat :=
  (u16 (st.1 + 1), st.2.set st.1 v)

/-- The local `RequiredLength` of `WriteClientHello`. -/
def RequiredLength : Nat := u16 (1 + 3 + 2 + 32 + 1 + 2 + 1 + 2 + 2)

/-- `WriteClientHello`.  `Buffer` is `none` for a null pointer.  The result is
the returned status, `*BufferLength` and the bytes of the buffer. -/
def WriteClientHello (T : TlsEnv) (_TlsContext : CXPLAT_TLS) (BufferLength : Nat)
    (Buffer : Option (List Nat)) : Nat × Nat × Option (List Nat) :=
  let HelloLength := 42
  if BufferLength < RequiredLength then
    (T.QUIC_STATUS_BUFFER_TOO_SMALL, RequiredLength, Buffer)
  else
    match Buffer with
    | none => (T.QUIC_STATUS_INVALID_PARAMETER, BufferLength, none)
    | some buf =>
      let s1 := putByte (0, buf) client_hello
      let w := WriteUint24 HelloLength BufferLength s1.1 s1.2
      if w.1 then (T.QUIC_STATUS_INVALID_PARAMETER, BufferLength, some w.2.2)
      else
        let s2 := putByte (putByte (w.2.1, w.2.2) 0x03) 0x03
        let s3 : Nat × List Nat := (u16 (s2.1 + 32), writeBytes s2.2 s2.1 (T.CxPlatRandom 32))
        let s4 := putByte (putByte (putByte (putByte s3 0) 0x13) 0x01) 0
        let s5 := putByte (putByte (putByte (putByte s4 0) 43) 0x03) 0x04
        (T.QUIC_STATUS_SUCCESS, RequiredLength, some s5.2)

/-- Sample status codes, distinct from one another, and a random generator
that gives zeros. -/
def sampleTlsEnv : TlsEnv where
  QUIC_STATUS_SUCCESS := 0
  QUIC_STATUS_BUFFER_TOO_SMALL := 75
  QUIC_STATUS_INVALID_PARAMETER := 22
  CxPlatRandom := fun n => List.replicate n 0

/-! ## A long-header packet after a short-header packet -/

/-- The sample builder on the connection `sampleConnected` over a path with a
small MTU (datagrams of 200 bytes). -/
def sampleSmallBuilder : QUIC_PACKET_BUILDER :=
  { sampleConnectedBuilder with Path := ⟨228, 0xffffffff, 2, false, [1, 2, 3, 4], false⟩ }

/-- The sample environment with a header-protection primitive whose mask
bytes all are the number of the key it is given. -/
def sampleKeyedMaskEnv : Env :=
  { sampleEnv with
    QuicHpComputeMask := fun _ key n _ => some (List.replicate (n * 16) (key.getD 0)) }

/-- A short-header packet with a frame of 100 bytes, then a Handshake packet
with a frame of one byte: the second prepare finalizes the first packet. -/
def sampleShortThenLongOps : List Op :=
  [Op.prepare 0xff (some 13) false false, Op.frames (List.replicate 100 7) 1 true,
    Op.prepare 2 (some 12) false false, Op.frames [1] 1 true]

/-- The builder `sampleSmallBuilder` as `QuicPacketBuilderInitialize` leaves it
at the start of a flush. -/
def sampleFresh : QUIC_PACKET_BUILDER :=
  (QuicPacketBuilderInitialize sampleConnEnv sampleSmallBuilder sampleSmallBuilder.Connection
    sampleSmallBuilder.Path).2

/-- The builder after the calls of `sampleShortThenLongOps`. -/
def sampleShortThenLong : QUIC_PACKET_BUILDER :=
  ((Cycle.run sampleKeyedMaskEnv ⟨sampleFresh, false, 0⟩ sampleShortThenLongOps).map
    (fun c => c.B)).getD sampleFresh

/-- The builder after the last call of `sampleTightOps`: the Handshake packet
prepared behind the large Initial packet. -/
def sampleTightPrepared : QUIC_PACKET_BUILDER :=
  ((QuicPacketBuilderPrepare sampleEnv sampleTightFramed 2 (some 12) false false).getD
    (false, sampleTightFramed)).2

/-- The builder that `QuicPacketBuilderInitialize` returns at the start of a
flush for the sample client with connection IDs of 18 bytes on both sides. -/
def sampleLongCidBuilder : QUIC_PACKET_BUILDER :=
  (QuicPacketBuilderInitialize sampleConnEnv sampleBuilder
    { sampleConnection with SourceCIDs := [List.replicate 18 5] }
    { sampleBuilder.Path with DestCid := List.replicate 18 1 }).2

/-- A sample client flush with the long connection IDs: an Initial packet that
leaves exactly `QUIC_MIN_PACKET_SPARE_SPACE` = 64 bytes once it is sealed, and
the prepare for a Handshake packet behind it. -/
def sampleLongCidOps : List Op :=
  [Op.prepare 0 (some 10) false false, Op.frames (List.replicate 1192 6) 1 true,
    Op.prepare 2 (some 12) false false]

/-! # Theorems -/

set_option maxRecDepth 100000

/-! ## Machine arithmetic -/

theorem u16_of_lt {x : Nat} (h : x < 2 ^ 16) : u16 x = x := Nat.mod_eq_of_lt h

theorem u16_lt (x : Nat) : u16 x < 2 ^ 16 := Nat.mod_lt _ (by norm_num)

theorem u8_lt (x : Nat) : u8 x < 2 ^ 8 := Nat.mod_lt _ (by norm_num)

theorem u64_lt (x : Nat) : u64 x < 2 ^ 64 := Nat.mod_lt _ (by norm_num)

theorem u16OfInt_lt (x : Int) : u16OfInt x < 2 ^ 16 := by
  unfold u16OfInt
  have h1 : 0 ≤ x % 2 ^ 16 := Int.emod_nonneg _ (by norm_num)
  have h2 : x % 2 ^ 16 < 2 ^ 16 := Int.emod_lt_of_pos _ (by norm_num)
  omega

theorem u64OfInt_lt (x : Int) : u64OfInt x < 2 ^ 64 := by
  unfold u64OfInt
  have h1 : 0 ≤ x % 2 ^ 64 := Int.emod_nonneg _ (by norm_num)
  have h2 : x % 2 ^ 64 < 2 ^ 64 := Int.emod_lt_of_pos _ (by norm_num)
  omega

theorem u16OfInt_sub {a b : Nat} (hb : b ≤ a) (ha : a < 2 ^ 16) :
    u16OfInt ((a : Int) - (b : Int)) = a - b := by
  unfold u16OfInt
  have h : ((a : Int) - (b : Int)) % 2 ^ 16 = ((a - b : Nat) : Int) := by
    rw [Int.emod_eq_of_lt] <;> omega
  rw [h]; simp

theorem u64OfInt_pred {a : Nat} (h1 : 1 ≤ a) (ha : a < 2 ^ 64) :
    u64OfInt ((a : Int) - 1) = a - 1 := by
  unfold u64OfInt
  have h : ((a : Int) - 1) % 2 ^ 64 = ((a - 1 : Nat) : Int) := by
    rw [Int.emod_eq_of_lt] <;> omega
  rw [h]; simp

theorem u64_succ_u64OfInt_pred {a : Nat} (ha : a < 2 ^ 64) :
    u64 (u64OfInt ((a : Int) - 1) + 1) = a := by
  unfold u64 u64OfInt
  omega

/-! ## What header protection and the exit code leave alone -/

theorem xorHeaderByte_noMemory (B : QUIC_PACKET_BUILDER) (r : HeaderRef) (k m : Nat) :
    noMemory (xorHeaderByte B r k m) = noMemory B := by
  unfold xorHeaderByte noMemory
  simp only
  split_ifs <;> rfl

theorem xorHeaderByte_Datagram_isSome (B : QUIC_PACKET_BUILDER) (r : HeaderRef) (k m : Nat) :
    (xorHeaderByte B r k m).Datagram.isSome = B.Datagram.isSome := by
  unfold xorHeaderByte
  simp only
  split_ifs <;> simp

theorem xorHeaderByte_SendContext_isSome (B : QUIC_PACKET_BUILDER) (r : HeaderRef)
    (k m : Nat) :
    (xorHeaderByte B r k m).SendContext.isSome = B.SendContext.isSome := by
  unfold xorHeaderByte
  simp only
  split_ifs <;> simp

/-- A view kept by every round of a loop is kept by the loop. -/
theorem foldl_keeps {α : Type} (v : QUIC_PACKET_BUILDER → α)
    (g : QUIC_PACKET_BUILDER → Nat → QUIC_PACKET_BUILDER)
    (hg : ∀ b j, v (g b j) = v b) (l : List Nat) (B : QUIC_PACKET_BUILDER) :
    v (l.foldl g B) = v B := by
  induction l generalizing B with
  | nil => rfl
  | cons j l ih => rw [List.foldl_cons, ih, hg]

theorem HpApplyEntry_keeps {α : Type} (v : QUIC_PACKET_BUILDER → α)
    (hv : ∀ B r k m, v (xorHeaderByte B r k m) = v B)
    (E : Env) (B : QUIC_PACKET_BUILDER) (i : Nat) :
    v (HpApplyEntry E B i) = v B := by
  unfold HpApplyEntry
  simp only
  rw [foldl_keeps v _ (fun b j => hv b _ _ _), hv]

/-- The header-protection flush keeps every view that is kept by a byte XOR
and is blind to the mask buffer, the batch count and the call log. -/
theorem FinalizeHeaderProtection_keeps {α : Type} (v : QUIC_PACKET_BUILDER → α)
    (hv : ∀ B r k m, v (xorHeaderByte B r k m) = v B)
    (hb : ∀ (B : QUIC_PACKET_BUILDER) mask n calls,
      v { B with HpMask := mask, BatchCount := n, Calls := calls } = v B)
    (E : Env) (B : QUIC_PACKET_BUILDER) :
    v (QuicPacketBuilderFinalizeHeaderProtection E B) = v B := by
  unfold QuicPacketBuilderFinalizeHeaderProtection
  split
  · exact hb B B.HpMask B.BatchCount _
  · rename_i mask _
    simp only
    let B1 : QUIC_PACKET_BUILDER :=
      { B with HpMask := mask, Calls := Call.HpComputeMask B.BatchCount true :: B.Calls }
    let B2 := (List.range B1.BatchCount).foldl (HpApplyEntry E) B1
    have h1 : v { B2 with BatchCount := 0 } = v B2 := hb B2 B2.HpMask 0 B2.Calls
    have h2 : v B2 = v B1 :=
      foldl_keeps v (HpApplyEntry E) (fun b j => HpApplyEntry_keeps v hv E b j) _ B1
    have h3 : v B1 = v B := hb B mask B.BatchCount _
    exact h1.trans (h2.trans h3)

theorem FinalizeHeaderProtection_noHp (E : Env) (B : QUIC_PACKET_BUILDER) :
    noHp (QuicPacketBuilderFinalizeHeaderProtection E B) = noHp B :=
  FinalizeHeaderProtection_keeps noHp
    (fun B r k m => congrArg
      (fun b : QUIC_PACKET_BUILDER => { b with HpMask := [], BatchCount := 0, Calls := [] })
      (xorHeaderByte_noMemory B r k m))
    (fun _ _ _ _ => rfl) E B

theorem FinalizeHeaderProtection_Datagram_isSome (E : Env) (B : QUIC_PACKET_BUILDER) :
    (QuicPacketBuilderFinalizeHeaderProtection E B).Datagram.isSome = B.Datagram.isSome :=
  FinalizeHeaderProtection_keeps (fun b => b.Datagram.isSome)
    xorHeaderByte_Datagram_isSome (fun _ _ _ _ => rfl) E B

theorem FinalizeHeaderProtection_SendContext_isSome (E : Env) (B : QUIC_PACKET_BUILDER) :
    (QuicPacketBuilderFinalizeHeaderProtection E B).SendContext.isSome =
      B.SendContext.isSome :=
  FinalizeHeaderProtection_keeps (fun b => b.SendContext.isSome)
    xorHeaderByte_SendContext_isSome (fun _ _ _ _ => rfl) E B

theorem FinalizeExit_not_final (E : Env) (B : QUIC_PACKET_BUILDER) (a : Bool) :
    FinalizeExit E B a false = B := by
  simp [FinalizeExit]

theorem FinalizeHeaderProtection_noExit (E : Env) (b : QUIC_PACKET_BUILDER) :
    noExit (QuicPacketBuilderFinalizeHeaderProtection E b) = noExit b :=
  congrArg (fun b : QUIC_PACKET_BUILDER =>
    { b with TotalCountDatagrams := 0, PacketBatchSent := false })
    (FinalizeHeaderProtection_noHp E b)

theorem SendBatch_noExit (b : QUIC_PACKET_BUILDER) :
    noExit (QuicPacketBuilderSendBatch b) = noExit b := rfl

theorem logCall_noExit (b : QUIC_PACKET_BUILDER) (c : Call) :
    noExit (logCall b c) = noExit b := rfl

theorem CompleteDatagram_noExit (B : QUIC_PACKET_BUILDER) :
    noExit (CompleteDatagram B) = noExit B := by
  unfold CompleteDatagram
  cases B.Datagram <;> rfl

theorem FlushAndSend_noExit (E : Env) (B : QUIC_PACKET_BUILDER) (a : Bool) :
    noExit (FlushAndSend E B a) = noExit B := by
  unfold FlushAndSend
  split_ifs
  · rw [SendBatch_noExit, FinalizeHeaderProtection_noExit]
  · rw [SendBatch_noExit]
  · rfl

theorem CloseAfterRetry_noExit (E : Env) (B : QUIC_PACKET_BUILDER) :
    noExit (CloseAfterRetry E B) = noExit B := by
  unfold CloseAfterRetry
  split_ifs <;> rfl

theorem FinalizeExit_noExit (E : Env) (B : QUIC_PACKET_BUILDER) (a f : Bool) :
    noExit (FinalizeExit E B a f) = noExit B := by
  unfold FinalizeExit
  cases f
  · rfl
  · simp only [if_true]
    rw [CloseAfterRetry_noExit, FlushAndSend_noExit, CompleteDatagram_noExit]

theorem CompleteDatagram_Datagram (B : QUIC_PACKET_BUILDER) :
    (CompleteDatagram B).Datagram = none := by
  unfold CompleteDatagram
  cases h : B.Datagram <;> simp [h]

theorem FlushAndSend_Datagram_isSome (E : Env) (B : QUIC_PACKET_BUILDER) (a : Bool) :
    (FlushAndSend E B a).Datagram.isSome = B.Datagram.isSome := by
  have hs : ∀ b : QUIC_PACKET_BUILDER, (QuicPacketBuilderSendBatch b).Datagram = b.Datagram :=
    fun _ => rfl
  unfold FlushAndSend
  split_ifs
  · rw [hs, FinalizeHeaderProtection_Datagram_isSome]
  · rw [hs]
  · rfl

theorem CloseAfterRetry_Datagram (E : Env) (B : QUIC_PACKET_BUILDER) :
    (CloseAfterRetry E B).Datagram = B.Datagram := by
  unfold CloseAfterRetry
  split_ifs <;> rfl

/-- When the packet is the last of its datagram the exit code leaves no
current datagram. -/
theorem FinalizeExit_final_Datagram (E : Env) (B : QUIC_PACKET_BUILDER) (a : Bool) :
    (FinalizeExit E B a true).Datagram = none := by
  unfold FinalizeExit
  simp only [if_true]
  rw [CloseAfterRetry_Datagram, ← Option.not_isSome_iff_eq_none,
    FlushAndSend_Datagram_isSome, CompleteDatagram_Datagram]
  simp

/-! ## What the stages of the non-empty branch of finalize leave alone -/

theorem CryptoBlind.flush {α : Type} {v : QUIC_PACKET_BUILDER → α} (hv : CryptoBlind v)
    (E : Env) (B : QUIC_PACKET_BUILDER) :
    v (QuicPacketBuilderFinalizeHeaderProtection E B) = v B :=
  FinalizeHeaderProtection_keeps v hv.xor
    (fun B mask n calls =>
      hv.blind B mask n calls B.CipherBatch B.HeaderBatch B.Key B.Connection.TlsState
        B.Connection.Packets) E B

theorem CryptoBlind.hpShort {α : Type} {v : QUIC_PACKET_BUILDER → α} (hv : CryptoBlind v)
    (E : Env) (B : QUIC_PACKET_BUILDER) (p : Nat) :
    v (FinalizeHpShort E B p) = v B := by
  unfold FinalizeHpShort
  simp only
  split_ifs
  · rw [hv.flush]
    exact hv.blind B B.HpMask _ B.Calls _ _ B.Key B.Connection.TlsState B.Connection.Packets
  · exact hv.blind B B.HpMask _ B.Calls _ _ B.Key B.Connection.TlsState B.Connection.Packets

theorem CryptoBlind.hpLong {α : Type} {v : QUIC_PACKET_BUILDER → α} (hv : CryptoBlind v)
    (E : Env) (B : QUIC_PACKET_BUILDER) (p : Nat) :
    v (FinalizeHpLong E B p).1 = v B := by
  unfold FinalizeHpLong
  simp only
  split
  · exact hv.blind B B.HpMask B.BatchCount _ B.CipherBatch B.HeaderBatch B.Key
      B.Connection.TlsState B.Connection.Packets
  · rename_i mask _
    simp only
    rw [foldl_keeps v _ (fun b j => hv.xor b _ _ _), hv.xor]
    exact hv.blind B mask B.BatchCount _ B.CipherBatch B.HeaderBatch B.Key
      B.Connection.TlsState B.Connection.Packets

theorem CryptoBlind.keyPhase {α : Type} {v : QUIC_PACKET_BUILDER → α} (hv : CryptoBlind v)
    (E : Env) (B : QUIC_PACKET_BUILDER) (p : Nat) :
    v (FinalizeKeyPhase E B p).1 = v B := by
  unfold FinalizeKeyPhase
  simp only
  split_ifs
  · split
    · exact hv.blind B B.HpMask B.BatchCount _ B.CipherBatch B.HeaderBatch B.Key
        B.Connection.TlsState _
    · exact hv.blind B B.HpMask B.BatchCount _ B.CipherBatch B.HeaderBatch _ _ _
  · exact hv.blind B B.HpMask B.BatchCount B.Calls B.CipherBatch B.HeaderBatch B.Key
      B.Connection.TlsState _

/-- The encryption stage changes a crypto-blind view only by advancing the
write cursor over the AEAD tag, and only when encryption is enabled. -/
theorem CryptoBlind.encrypt {α : Type} {v : QUIC_PACKET_BUILDER → α} (hv : CryptoBlind v)
    (E : Env) (B : QUIC_PACKET_BUILDER) (p : Nat) :
    v (FinalizeEncrypt E B p).1 =
      v (if B.Connection.EncryptionEnabled then
          { B with DatagramLength := u16 (B.DatagramLength + B.EncryptionOverhead) }
        else B) := by
  have hlog : ∀ (b : QUIC_PACKET_BUILDER) c, v (logCall b c) = v b := fun b c =>
    hv.blind b b.HpMask b.BatchCount _ b.CipherBatch b.HeaderBatch b.Key
      b.Connection.TlsState b.Connection.Packets
  unfold FinalizeEncrypt
  simp only
  split_ifs with he
  · split
    · exact hv.blind { B with DatagramLength := u16 (B.DatagramLength + B.EncryptionOverhead) }
        B.HpMask B.BatchCount _ B.CipherBatch B.HeaderBatch B.Key
        B.Connection.TlsState B.Connection.Packets
    · split_ifs
      · rw [hv.hpShort, hlog, hv.write]
      · rw [hv.keyPhase, hv.hpShort, hlog, hv.write]
      · rw [hv.hpLong, hlog, hv.write]
      · rw [hv.keyPhase, hv.hpLong, hlog, hv.write]
      · rw [hlog, hv.write]
      · rw [hv.keyPhase, hlog, hv.write]
  · rfl

theorem FinalizeEncrypt_PayloadLength (E : Env) (B : QUIC_PACKET_BUILDER) (p : Nat) :
    (FinalizeEncrypt E B p).2.1 =
      if B.Connection.EncryptionEnabled then u16 (p + B.EncryptionOverhead) else p := by
  unfold FinalizeEncrypt
  simp only
  split_ifs with he
  · split
    · rfl
    · split_ifs <;> rfl
  · rfl

theorem cryptoBlind_noCrypto : CryptoBlind noCrypto where
  xor := fun B r k m =>
    congrArg (fun b : QUIC_PACKET_BUILDER =>
      { b with
        HpMask := []
        BatchCount := 0
        Calls := []
        CipherBatch := []
        HeaderBatch := []
        Key := none
        Connection := { b.Connection with TlsState := ⟨0, []⟩, Packets := [] } })
      (xorHeaderByte_noMemory B r k m)
  write := fun _ _ _ => rfl
  blind := fun _ _ _ _ _ _ _ _ _ => rfl

theorem cryptoBlind_Datagram_isSome :
    CryptoBlind (fun b : QUIC_PACKET_BUILDER => b.Datagram.isSome) where
  xor := xorHeaderByte_Datagram_isSome
  write := fun B _ _ => by cases h : B.Datagram <;> simp [writeDatagram, h]
  blind := fun _ _ _ _ _ _ _ _ _ => rfl

theorem cryptoBlind_SendContext_isSome :
    CryptoBlind (fun b : QUIC_PACKET_BUILDER => b.SendContext.isSome) where
  xor := xorHeaderByte_SendContext_isSome
  write := fun _ _ _ => rfl
  blind := fun _ _ _ _ _ _ _ _ _ => rfl

theorem noFinalize_of_noCrypto {B B' : QUIC_PACKET_BUILDER} (h : noCrypto B' = noCrypto B) :
    noFinalize B' = noFinalize B :=
  congrArg (fun b : QUIC_PACKET_BUILDER =>
    { b with
      TotalCountDatagrams := 0
      PacketBatchSent := false
      DatagramLength := 0
      MinimumDatagramLength := 0
      SendAllowance := 0
      PacketBatchRetransmittable := false
      Metadata := { b.Metadata with SentTime := 0, PacketLength := 0 } }) h

theorem noFinalize_of_noExit {B B' : QUIC_PACKET_BUILDER} (h : noExit B' = noExit B) :
    noFinalize B' = noFinalize B :=
  congrArg (fun b : QUIC_PACKET_BUILDER =>
    { noCrypto b with
      DatagramLength := 0
      MinimumDatagramLength := 0
      SendAllowance := 0
      PacketBatchRetransmittable := false
      Metadata := { b.Metadata with SentTime := 0, PacketLength := 0 } }) h

theorem FinalizePadAndLength_noCrypto (E : Env) (B : QUIC_PACKET_BUILDER) (cap : Nat)
    (a : Bool) :
    noCrypto (FinalizePadAndLength E B cap a) =
      noCrypto { B with
        MinimumDatagramLength := FinalizeMinimumDatagramLength E B cap a
        DatagramLength := PaddedDatagramLength E B cap a } := by
  unfold FinalizePadAndLength PaddedDatagramLength
  simp only
  split_ifs <;> rfl

theorem FinalizePadAndLength_Datagram_isSome (E : Env) (B : QUIC_PACKET_BUILDER) (cap : Nat)
    (a : Bool) :
    (FinalizePadAndLength E B cap a).Datagram.isSome = B.Datagram.isSome := by
  unfold FinalizePadAndLength
  simp only
  split_ifs <;> cases h : B.Datagram <;> simp [writeDatagram, h]

theorem FinalizePadAndLength_SendContext (E : Env) (B : QUIC_PACKET_BUILDER) (cap : Nat)
    (a : Bool) :
    (FinalizePadAndLength E B cap a).SendContext = B.SendContext := by
  unfold FinalizePadAndLength
  simp only
  split_ifs <;> rfl

theorem FinalizePadAndLength_Calls (E : Env) (B : QUIC_PACKET_BUILDER) (cap : Nat)
    (a : Bool) :
    (FinalizePadAndLength E B cap a).Calls = B.Calls := by
  unfold FinalizePadAndLength
  simp only
  split_ifs <;> rfl

theorem FinalizeTrack_noFinalize (E : Env) (B : QUIC_PACKET_BUILDER) (p : Nat) :
    noFinalize (FinalizeTrack E B p) = noFinalize B := by
  unfold FinalizeTrack
  simp only
  split_ifs <;> rfl

theorem FinalizeTrack_Datagram (E : Env) (B : QUIC_PACKET_BUILDER) (p : Nat) :
    (FinalizeTrack E B p).Datagram = B.Datagram := by
  unfold FinalizeTrack
  simp only
  split_ifs <;> rfl

theorem FinalizeTrack_SendContext (E : Env) (B : QUIC_PACKET_BUILDER) (p : Nat) :
    (FinalizeTrack E B p).SendContext = B.SendContext := by
  unfold FinalizeTrack
  simp only
  split_ifs <;> rfl

theorem FinalizeTrack_DatagramLength (E : Env) (B : QUIC_PACKET_BUILDER) (p : Nat) :
    (FinalizeTrack E B p).DatagramLength = B.DatagramLength := by
  unfold FinalizeTrack
  simp only
  split_ifs <;> rfl

theorem FinalizeTrack_MinimumDatagramLength (E : Env) (B : QUIC_PACKET_BUILDER) (p : Nat) :
    (FinalizeTrack E B p).MinimumDatagramLength = B.MinimumDatagramLength := by
  unfold FinalizeTrack
  simp only
  split_ifs <;> rfl

/-! ## The non-empty branch of finalize as a whole -/

theorem FinalizeNonEmpty_noFinalize (E : Env) (B : QUIC_PACKET_BUILDER) (d : QUIC_BUFFER)
    (a : Bool) :
    noFinalize (FinalizeNonEmpty E B d a) = noFinalize B := by
  have h1 : ∀ p, noFinalize (FinalizeEncrypt E (FinalizePadAndLength E B d.Length a) p).1 =
      noFinalize B := by
    intro p
    have h2 : noFinalize (FinalizePadAndLength E B d.Length a) = noFinalize B := by
      have h3 := noFinalize_of_noCrypto (FinalizePadAndLength_noCrypto E B d.Length a)
      exact h3
    rw [noFinalize_of_noCrypto (cryptoBlind_noCrypto.encrypt E _ p)]
    split_ifs
    · exact h2
    · exact h2
  unfold FinalizeNonEmpty
  simp only
  split_ifs
  · exact h1 _
  · rw [FinalizeTrack_noFinalize]; exact h1 _

theorem FinalizeNonEmpty_Datagram_isSome (E : Env) (B : QUIC_PACKET_BUILDER)
    (d : QUIC_BUFFER) (a : Bool) :
    (FinalizeNonEmpty E B d a).Datagram.isSome = B.Datagram.isSome := by
  have h1 : ∀ p, (FinalizeEncrypt E (FinalizePadAndLength E B d.Length a) p).1.Datagram.isSome =
      B.Datagram.isSome := by
    intro p
    rw [cryptoBlind_Datagram_isSome.encrypt E _ p]
    split_ifs <;> exact FinalizePadAndLength_Datagram_isSome E B d.Length a
  unfold FinalizeNonEmpty
  simp only
  split_ifs
  · exact h1 _
  · rw [FinalizeTrack_Datagram]; exact h1 _

theorem FinalizeNonEmpty_SendContext_isSome (E : Env) (B : QUIC_PACKET_BUILDER)
    (d : QUIC_BUFFER) (a : Bool) :
    (FinalizeNonEmpty E B d a).SendContext.isSome = B.SendContext.isSome := by
  have h1 : ∀ p,
      (FinalizeEncrypt E (FinalizePadAndLength E B d.Length a) p).1.SendContext.isSome =
        B.SendContext.isSome := by
    intro p
    rw [cryptoBlind_SendContext_isSome.encrypt E _ p]
    split_ifs <;> exact congrArg Option.isSome (FinalizePadAndLength_SendContext E B d.Length a)
  unfold FinalizeNonEmpty
  simp only
  split_ifs
  · exact h1 _
  · rw [FinalizeTrack_SendContext]; exact h1 _

/-- The write cursor at the `Exit:` label, for a packet with frames: the
padded cursor, advanced over the AEAD tag when encryption is enabled. -/
theorem FinalizeNonEmpty_DatagramLength (E : Env) (B : QUIC_PACKET_BUILDER)
    (d : QUIC_BUFFER) (a : Bool) :
    (FinalizeNonEmpty E B d a).DatagramLength =
      if B.Connection.EncryptionEnabled then
        u16 (PaddedDatagramLength E B d.Length a + B.EncryptionOverhead)
      else PaddedDatagramLength E B d.Length a := by
  have hp := FinalizePadAndLength_noCrypto E B d.Length a
  have hdl : (FinalizePadAndLength E B d.Length a).DatagramLength =
      PaddedDatagramLength E B d.Length a := congrArg (fun b => b.DatagramLength) hp
  have hen : (FinalizePadAndLength E B d.Length a).Connection.EncryptionEnabled =
      B.Connection.EncryptionEnabled :=
    congrArg (fun b => b.Connection.EncryptionEnabled) hp
  have hoh : (FinalizePadAndLength E B d.Length a).EncryptionOverhead =
      B.EncryptionOverhead := congrArg (fun b => b.EncryptionOverhead) hp
  have h1 : ∀ p, (FinalizeEncrypt E (FinalizePadAndLength E B d.Length a) p).1.DatagramLength =
      if B.Connection.EncryptionEnabled then
        u16 (PaddedDatagramLength E B d.Length a + B.EncryptionOverhead)
      else PaddedDatagramLength E B d.Length a := by
    intro p
    have h := congrArg (fun b => b.DatagramLength) (cryptoBlind_noCrypto.encrypt E
      (FinalizePadAndLength E B d.Length a) p)
    refine h.trans ?_
    rw [hen]
    split_ifs
    · show u16 (_ + _) = _
      rw [hdl, hoh]
    · exact hdl
  refine Eq.trans ?_ (h1 (PaddedPayloadLength B (FinalizeMinimumDatagramLength E B d.Length a)
    (IsFinalQuicPacket E B d.Length a)))
  unfold FinalizeNonEmpty
  simp only
  split_ifs
  · rfl
  · rw [FinalizeTrack_DatagramLength]

/-! ## `QuicPacketBuilderFinalize` and the packet number -/

theorem FinalizeExit_Metadata (E : Env) (B : QUIC_PACKET_BUILDER) (a f : Bool) :
    (FinalizeExit E B a f).Metadata = B.Metadata :=
  congrArg (fun b => b.Metadata) (FinalizeExit_noExit E B a f)

theorem FinalizeExit_PacketType (E : Env) (B : QUIC_PACKET_BUILDER) (a f : Bool) :
    (FinalizeExit E B a f).PacketType = B.PacketType :=
  congrArg (fun b => b.PacketType) (FinalizeExit_noExit E B a f)

theorem FinalizeUndoHeader_Datagram_isSome_le (B : QUIC_PACKET_BUILDER) :
    (FinalizeUndoHeader B).Datagram.isSome = true → B.Datagram.isSome = true := by
  unfold FinalizeUndoHeader
  cases hd : B.Datagram with
  | none => simp [hd]
  | some d => simp

theorem FinalizeUndoHeader_SendContext (B : QUIC_PACKET_BUILDER) :
    (FinalizeUndoHeader B).SendContext = B.SendContext := by
  unfold FinalizeUndoHeader
  cases hd : B.Datagram with
  | none => rfl
  | some d =>
    simp only
    split_ifs <;> rfl

/-- The exit code keeps "a current datagram lives in a send context". -/
theorem FinalizeExit_keeps_context (E : Env) (B : QUIC_PACKET_BUILDER) (a f : Bool)
    (h : B.Datagram.isSome = true → B.SendContext.isSome = true) :
    (FinalizeExit E B a f).Datagram.isSome = true →
      (FinalizeExit E B a f).SendContext.isSome = true := by
  cases f
  · rw [FinalizeExit_not_final]; exact h
  · rw [FinalizeExit_final_Datagram]; simp

/-- Finalize keeps "a current datagram lives in a send context". -/
theorem Finalize_keeps_context (E : Env) (B : QUIC_PACKET_BUILDER) (a : Bool)
    (h : B.Datagram.isSome = true → B.SendContext.isSome = true) :
    (QuicPacketBuilderFinalize E B a).Datagram.isSome = true →
      (QuicPacketBuilderFinalize E B a).SendContext.isSome = true := by
  unfold QuicPacketBuilderFinalize
  cases hd : B.Datagram with
  | none =>
    simp only
    exact FinalizeExit_keeps_context E B a a h
  | some d =>
    simp only
    split_ifs with hf
    · apply FinalizeExit_keeps_context
      intro h1
      rw [FinalizeUndoHeader_SendContext]
      exact h (FinalizeUndoHeader_Datagram_isSome_le B h1)
    · apply FinalizeExit_keeps_context
      rw [FinalizeNonEmpty_Datagram_isSome, FinalizeNonEmpty_SendContext_isSome]
      exact h

/-! ## The stages of `QuicPacketBuilderPrepare` -/

theorem PrepareSendContext_noAlloc (E : Env) (B : QUIC_PACKET_BUILDER) (pmtud : Bool) :
    noAlloc (PrepareSendContext E B pmtud).2 = noAlloc B := by
  unfold PrepareSendContext
  cases B.SendContext with
  | some c => rfl
  | none =>
    simp only
    split_ifs <;> rfl

theorem PrepareSendContext_Datagram (E : Env) (B : QUIC_PACKET_BUILDER) (pmtud : Bool) :
    (PrepareSendContext E B pmtud).2.Datagram = B.Datagram := by
  unfold PrepareSendContext
  cases B.SendContext with
  | some c => rfl
  | none =>
    simp only
    split_ifs <;> rfl

theorem PrepareSendContext_ok (E : Env) (B : QUIC_PACKET_BUILDER) (pmtud : Bool)
    (h : (PrepareSendContext E B pmtud).1 = true) :
    (PrepareSendContext E B pmtud).2.SendContext.isSome = true := by
  unfold PrepareSendContext at h ⊢
  cases hc : B.SendContext with
  | some c => simp [hc]
  | none =>
    simp only [hc] at h ⊢
    split_ifs at h ⊢ <;> rfl

theorem PrepareAllocDatagram_SendContext (E : Env) (B : QUIC_PACKET_BUILDER) (ty : Nat)
    (tlp pmtud : Bool) :
    (PrepareAllocDatagram E B ty tlp pmtud).2.SendContext = B.SendContext := by
  unfold PrepareAllocDatagram
  simp only
  split_ifs <;> rfl

theorem PrepareAllocDatagram_Datagram_isSome (E : Env) (B : QUIC_PACKET_BUILDER) (ty : Nat)
    (tlp pmtud : Bool) (hd : B.Datagram = none) :
    (PrepareAllocDatagram E B ty tlp pmtud).2.Datagram.isSome =
      (PrepareAllocDatagram E B ty tlp pmtud).1 := by
  unfold PrepareAllocDatagram
  simp only
  split_ifs
  · rfl
  · simp [logCall, hd]

/-- When `PrepareDatagram` succeeds there is a current datagram, and it lives
in a send context if a datagram held on entry did. -/
theorem PrepareDatagram_ok (E : Env) (B : QUIC_PACKET_BUILDER) (ty : Nat) (tlp pmtud : Bool)
    (h : (PrepareDatagram E B ty tlp pmtud).1 = true)
    (hinv : B.Datagram.isSome = true → B.SendContext.isSome = true) :
    (PrepareDatagram E B ty tlp pmtud).2.Datagram.isSome = true ∧
      (PrepareDatagram E B ty tlp pmtud).2.SendContext.isSome = true := by
  unfold PrepareDatagram at h ⊢
  cases hd : B.Datagram with
  | some d =>
    simp only [hd] at h ⊢
    exact ⟨by simp [hd], hinv (by simp [hd])⟩
  | none =>
    simp only [hd] at h ⊢
    split_ifs at h ⊢ with h1
    · have h2 : (PrepareSendContext E B pmtud).2.Datagram = none := by
        rw [PrepareSendContext_Datagram, hd]
      rw [PrepareAllocDatagram_Datagram_isSome E _ ty tlp pmtud h2,
        PrepareAllocDatagram_SendContext]
      exact ⟨h, PrepareSendContext_ok E B pmtud h1⟩
    · exact absurd h h1

/-- When `PrepareDatagram` fails there is no current datagram. -/
theorem PrepareDatagram_fail (E : Env) (B : QUIC_PACKET_BUILDER) (ty : Nat) (tlp pmtud : Bool)
    (h : (PrepareDatagram E B ty tlp pmtud).1 = false) :
    (PrepareDatagram E B ty tlp pmtud).2.Datagram = none := by
  unfold PrepareDatagram at h ⊢
  cases hd : B.Datagram with
  | some d => simp [hd] at h
  | none =>
    simp only [hd] at h ⊢
    have h2 : (PrepareSendContext E B pmtud).2.Datagram = none := by
      rw [PrepareSendContext_Datagram, hd]
    split_ifs at h ⊢ with h1
    · have h3 := PrepareAllocDatagram_Datagram_isSome E _ ty tlp pmtud h2
      rw [h] at h3
      simpa using h3
    · exact h2

/-- Starting a packet takes the next packet number. -/
theorem PrepareNewPacket_spec (E : Env) (B B' : QUIC_PACKET_BUILDER) (ty : Nat)
    (key : Option QUIC_PACKET_KEY) (pmtud : Bool)
    (h : PrepareNewPacket E B ty key pmtud = some B') :
    B'.Connection.Send.NextPacketNumber = u64 (B.Connection.Send.NextPacketNumber + 1) ∧
      B'.Datagram.isSome = B.Datagram.isSome ∧
      B'.SendContext = B.SendContext ∧
      B'.Metadata.FrameCount = 0 ∧
      B'.PacketType = ty ∧
      B'.Key = key := by
  unfold PrepareNewPacket at h
  simp only at h
  split_ifs at h with h1 h2
  · injection h with h
    subst h
    refine ⟨rfl, ?_, rfl, rfl, rfl, rfl⟩
    cases hd : B.Datagram <;> simp [writeDatagram, setNextPacketNumber, hd]
  · injection h with h
    subst h
    refine ⟨rfl, ?_, rfl, rfl, rfl, rfl⟩
    cases hd : B.Datagram <;> simp [writeDatagram, setNextPacketNumber, hd]

/-! ## Sequences of calls and the packet number -/

theorem PrepareSelectPacket_same (E : Env) (B : QUIC_PACKET_BUILDER) (ty : Nat) (pmtud : Bool)
    (h : ¬(B.PacketType ≠ ty ∨ pmtud = true)) :
    PrepareSelectPacket E B ty pmtud = (some B.Datagram.isNone, B) := by
  unfold PrepareSelectPacket
  rw [if_neg h]
  split_ifs with h1
  · rw [h1]
  · simp only [Bool.not_eq_true] at h1
    rw [h1]

theorem PrepareSelectPacket_differs (E : Env) (B : QUIC_PACKET_BUILDER) (ty : Nat)
    (pmtud : Bool) (h : B.PacketType ≠ ty ∨ pmtud = true) :
    (PrepareSelectPacket E B ty pmtud).2 =
        (if B.SendContext.isSome then QuicPacketBuilderFinalize E B pmtud else B) ∧
      (PrepareSelectPacket E B ty pmtud).1 ≠ some false := by
  unfold PrepareSelectPacket
  rw [if_pos h]
  simp only
  split_ifs <;> simp

/-- Why a valid sequence finalizes a packet once: after the first three calls
of the sample flush and a finalize that is not all done, the empty Handshake
packet has given its number back (the counter is at 1) and the datagram stays
current behind the Initial packet; a second finalize finds the frame count
still 0 and gives a number back again. -/
theorem finalize_again_returns_a_second_number :
    (Cycle.run sampleEnv ⟨sampleBuilder, false, 0⟩
        (sampleOps.take 3 ++ [Op.finalize false])).map
      (fun c => (c.NonEmpty, c.B.Datagram.isSome, c.B.Connection.Send.NextPacketNumber,
        (QuicPacketBuilderFinalize sampleEnv c.B true).Connection.Send.NextPacketNumber)) =
      some (1, true, 1, 0) := by
  decide

/-! ## C2: finalizing an empty packet -/

theorem Finalize_empty_not_done (E : Env) (B : QUIC_PACKET_BUILDER) (d : QUIC_BUFFER)
    (hd : B.Datagram = some d) (hf : B.Metadata.FrameCount = 0) :
    QuicPacketBuilderFinalize E B false =
      if u16OfInt ((B.DatagramLength : Int) - (B.HeaderLength : Int)) = 0 then
        { setNextPacketNumber B (u64OfInt ((B.Connection.Send.NextPacketNumber : Int) - 1)) with
          DatagramLength := u16OfInt ((B.DatagramLength : Int) - (B.HeaderLength : Int))
          Datagram := none
          Calls := Call.FreeSendDatagram :: B.Calls }
      else
        { setNextPacketNumber B (u64OfInt ((B.Connection.Send.NextPacketNumber : Int) - 1)) with
          DatagramLength := u16OfInt ((B.DatagramLength : Int) - (B.HeaderLength : Int)) } := by
  unfold QuicPacketBuilderFinalize
  rw [hd]
  simp only [hf, if_true, FinalizeExit_not_final]
  unfold FinalizeUndoHeader
  rw [hd]
  simp only
  split_ifs <;> rfl

/-- C2.  For every builder with a current datagram and a current packet with
zero frames (its header written, so `HeaderLength ≤ DatagramLength`),
`finalize(all_done_sending = false)` takes one off `NextPacketNumber` (in
64-bit arithmetic, and exactly one when the counter is not 0), takes exactly
`HeaderLength` off `DatagramLength`, frees and clears the current datagram if
and only if the resulting `DatagramLength` is 0 (and otherwise keeps it),
makes no collaborator call besides that free, so loss detection is not
notified, and leaves `SendAllowance`, `TotalCountDatagrams` and the send
context unchanged. -/
theorem C2_finalize_empty_packet_undoes_header (E : Env) (B B' : QUIC_PACKET_BUILDER)
    (d : QUIC_BUFFER) (hd : B.Datagram = some d) (hf : B.Metadata.FrameCount = 0)
    (hr : InRange B) (hh : B.HeaderLength ≤ B.DatagramLength)
    (hB' : QuicPacketBuilderFinalize E B false = B') :
    u64 (B'.Connection.Send.NextPacketNumber + 1) = B.Connection.Send.NextPacketNumber ∧
      (1 ≤ B.Connection.Send.NextPacketNumber →
        B'.Connection.Send.NextPacketNumber = B.Connection.Send.NextPacketNumber - 1) ∧
      B'.DatagramLength = B.DatagramLength - B.HeaderLength ∧
      (B'.Datagram = none ↔ B'.DatagramLength = 0) ∧
      (B'.DatagramLength ≠ 0 → B'.Datagram = some d) ∧
      B'.Calls = (if B'.DatagramLength = 0 then [Call.FreeSendDatagram] else []) ++ B.Calls ∧
      (∀ md, Call.LossDetectionOnPacketSent md ∈ B'.Calls →
        Call.LossDetectionOnPacketSent md ∈ B.Calls) ∧
      B'.SendAllowance = B.SendAllowance ∧
      B'.TotalCountDatagrams = B.TotalCountDatagrams ∧
      B'.SendContext = B.SendContext := by
  subst hB'
  rw [Finalize_empty_not_done E B d hd hf]
  have hdl := u16OfInt_sub hh hr.DatagramLength
  have hn := u64_succ_u64OfInt_pred hr.NextPacketNumber
  by_cases hz : B.DatagramLength - B.HeaderLength = 0
  · rw [hdl, if_pos hz]
    refine ⟨hn, fun h1 => u64OfInt_pred h1 hr.NextPacketNumber, rfl, ?_, ?_, ?_, ?_,
      rfl, rfl, rfl⟩
    · exact ⟨fun _ => hz, fun _ => rfl⟩
    · intro h; exact absurd hz h
    · simp [hz]
    · intro md hmd
      simpa using hmd
  · rw [hdl, if_neg hz]
    refine ⟨hn, fun h1 => u64OfInt_pred h1 hr.NextPacketNumber, rfl, ?_, fun _ => hd, ?_, ?_,
      rfl, rfl, rfl⟩
    · simp [setNextPacketNumber, hd, hz]
    · simp [setNextPacketNumber, hz]
    · intro md hmd
      exact hmd

/-- C2 on the sample builder after a prepare with nothing framed: the packet
number goes back from 1 to 0 and the datagram, now empty, is freed. -/
theorem C2_finalize_empty_packet_witness :
    (QuicPacketBuilderFinalize sampleEnv samplePrepared false).Connection.Send.NextPacketNumber
        = 1 - 1 ∧
      (QuicPacketBuilderFinalize sampleEnv samplePrepared false).Datagram = none := by
  have hd : samplePrepared.Datagram = some samplePreparedDatagram := by
    have hs : samplePrepared.Datagram.isSome = true := by decide
    obtain ⟨d, hd⟩ := Option.isSome_iff_exists.mp hs
    simp [samplePreparedDatagram, hd]
  have h := C2_finalize_empty_packet_undoes_header sampleEnv samplePrepared _
    samplePreparedDatagram hd (by decide)
    ⟨by decide, by decide, by decide, by decide, by decide, by decide, by decide, by decide,
      by decide⟩ (by decide) rfl
  refine ⟨h.2.1 (by decide), h.2.2.2.1.mpr ?_⟩
  rw [h.2.2.1]
  decide

/-! ## C3: the send allowance -/

theorem FinalizeEncrypt_pad_noPad (E : Env) (B : QUIC_PACKET_BUILDER) (cap : Nat) (a : Bool)
    (p : Nat) :
    noPad (FinalizeEncrypt E (FinalizePadAndLength E B cap a) p).1 = noPad B := by
  have g : ∀ {X Y : QUIC_PACKET_BUILDER}, noCrypto X = noCrypto Y → noPad X = noPad Y :=
    fun h => congrArg (fun b : QUIC_PACKET_BUILDER =>
      { b with DatagramLength := 0, MinimumDatagramLength := 0 }) h
  have h1 : noPad (FinalizePadAndLength E B cap a) = noPad B := by
    have h := g (FinalizePadAndLength_noCrypto E B cap a)
    exact h
  rw [g (cryptoBlind_noCrypto.encrypt E _ p)]
  split_ifs
  · exact h1
  · exact h1

/-- The packet length handed to loss detection and the send allowance after
finalize, for a packet with frames whose encryption stage did not fail. -/
theorem Finalize_track (E : Env) (B : QUIC_PACKET_BUILDER) (d : QUIC_BUFFER) (a : Bool)
    (hd : B.Datagram = some d) (hf : B.Metadata.FrameCount ≠ 0)
    (hok : FinalizeCryptoFailed E B d a = false) :
    (QuicPacketBuilderFinalize E B a).Metadata.PacketLength =
        u16 (B.HeaderLength + FinalPayloadLength E B d.Length a) ∧
      (QuicPacketBuilderFinalize E B a).SendAllowance =
        if B.Metadata.IsRetransmittable then
          B.SendAllowance - u16 (B.HeaderLength + FinalPayloadLength E B d.Length a)
        else B.SendAllowance := by
  unfold QuicPacketBuilderFinalize
  rw [hd]
  simp only [hf, if_false]
  have hx := FinalizeExit_noExit E (FinalizeNonEmpty E B d a) a (IsFinalQuicPacket E B d.Length a)
  rw [show (FinalizeExit E (FinalizeNonEmpty E B d a) a
      (IsFinalQuicPacket E B d.Length a)).Metadata = (FinalizeNonEmpty E B d a).Metadata from
    congrArg (fun b => b.Metadata) hx]
  rw [show (FinalizeExit E (FinalizeNonEmpty E B d a) a
      (IsFinalQuicPacket E B d.Length a)).SendAllowance =
        (FinalizeNonEmpty E B d a).SendAllowance from congrArg (fun b => b.SendAllowance) hx]
  unfold FinalizeCryptoFailed at hok
  unfold FinalizeNonEmpty
  simp only [hok, Bool.false_eq_true, if_false]
  have hv := FinalizeEncrypt_pad_noPad E B d.Length a
    (PaddedPayloadLength B (FinalizeMinimumDatagramLength E B d.Length a)
      (IsFinalQuicPacket E B d.Length a))
  have hpl := FinalizeEncrypt_PayloadLength E (FinalizePadAndLength E B d.Length a)
    (PaddedPayloadLength B (FinalizeMinimumDatagramLength E B d.Length a)
      (IsFinalQuicPacket E B d.Length a))
  have hp := FinalizePadAndLength_noCrypto E B d.Length a
  rw [show (FinalizePadAndLength E B d.Length a).Connection.EncryptionEnabled =
      B.Connection.EncryptionEnabled from congrArg (fun b => b.Connection.EncryptionEnabled) hp,
    show (FinalizePadAndLength E B d.Length a).EncryptionOverhead = B.EncryptionOverhead from
      congrArg (fun b => b.EncryptionOverhead) hp] at hpl
  have hhl := congrArg (fun b => b.HeaderLength) hv
  have hmd := congrArg (fun b => b.Metadata) hv
  have hsa := congrArg (fun b => b.SendAllowance) hv
  simp only [noPad, noCrypto, noHp, noMemory] at hhl hmd hsa
  unfold FinalizeTrack
  simp only [hpl, hhl, hmd, hsa]
  unfold FinalPayloadLength
  simp only
  split_ifs <;> simp_all <;> omega

/-! ### The padding arithmetic under the assumptions the code states -/

theorem InitialPayloadLength_eq (B : QUIC_PACKET_BUILDER) (hr : InRange B)
    (hh : B.PacketStart + B.HeaderLength ≤ B.DatagramLength) :
    InitialPayloadLength B = B.DatagramLength - (B.PacketStart + B.HeaderLength) := by
  unfold InitialPayloadLength
  have h := u16OfInt_sub hh hr.DatagramLength
  push_cast at h
  exact h

theorem FinalizeMinimumDatagramLength_le (E : Env) (B : QUIC_PACKET_BUILDER) (cap : Nat)
    (a : Bool) (hmin : B.MinimumDatagramLength ≤ cap) :
    FinalizeMinimumDatagramLength E B cap a ≤ cap := by
  unfold FinalizeMinimumDatagramLength
  split_ifs
  · exact Nat.mod_le _ _
  · exact hmin

/-- The three cases of the padding step, free of machine arithmetic. -/
theorem PaddingLength_eq (B : QUIC_PACKET_BUILDER) (Min : Nat) (Final : Bool) (cap : Nat)
    (hr : InRange B) (hcap : cap < 2 ^ 16) (hroom : B.DatagramLength + B.EncryptionOverhead ≤ cap)
    (hh : B.PacketStart + B.HeaderLength ≤ B.DatagramLength) (hmin : Min ≤ cap) :
    PaddingLength B Min Final =
      if Final = true ∧ B.DatagramLength + B.EncryptionOverhead < Min then
        Min - (B.DatagramLength + B.EncryptionOverhead)
      else if B.PacketNumberLength +
          (B.DatagramLength - (B.PacketStart + B.HeaderLength)) < 4 then
        4 - B.PacketNumberLength - (B.DatagramLength - (B.PacketStart + B.HeaderLength))
      else 0 := by
  unfold PaddingLength
  simp only [InitialPayloadLength_eq B hr hh]
  have he : u16 (B.DatagramLength + B.EncryptionOverhead) =
      B.DatagramLength + B.EncryptionOverhead := u16_of_lt (by omega)
  rw [he]
  by_cases h1 : Final = true ∧ B.DatagramLength + B.EncryptionOverhead < Min
  · have h1' : (Final && decide (B.DatagramLength + B.EncryptionOverhead < Min)) = true := by
      simp [h1.1, h1.2]
    rw [if_pos h1', if_pos h1]
    have h2 := u16OfInt_sub (a := Min) (b := B.DatagramLength + B.EncryptionOverhead)
      (by omega) (by omega)
    push_cast at h2
    exact h2
  · have h1' : ¬ (Final && decide (B.DatagramLength + B.EncryptionOverhead < Min)) = true := by
      simpa using h1
    rw [if_neg h1', if_neg h1]
    split_ifs with h3
    · exact u16_of_lt (by omega)
    · rfl

/-- The padded payload length does not wrap: it is the payload plus the
padding. -/
theorem PaddedPayloadLength_eq (B : QUIC_PACKET_BUILDER) (Min : Nat) (Final : Bool) (cap : Nat)
    (hr : InRange B) (hcap : cap < 2 ^ 16) (hroom : B.DatagramLength + B.EncryptionOverhead ≤ cap)
    (hh : B.PacketStart + B.HeaderLength ≤ B.DatagramLength) (hmin : Min ≤ cap) :
    PaddedPayloadLength B Min Final =
      B.DatagramLength - (B.PacketStart + B.HeaderLength) + PaddingLength B Min Final := by
  unfold PaddedPayloadLength
  have hp := PaddingLength_eq B Min Final cap hr hcap hroom hh hmin
  rw [InitialPayloadLength_eq B hr hh]
  split_ifs with h0
  · apply u16_of_lt
    rw [hp]
    split_ifs <;> omega
  · simp only [ne_eq, not_not] at h0
    rw [h0]
    rfl

/-- A builder holds the datagram that `getD` reads off it. -/
theorem Datagram_eq_some_getD (B : QUIC_PACKET_BUILDER) (h : B.Datagram.isSome = true) :
    B.Datagram = some (B.Datagram.getD ⟨0, []⟩) := by
  obtain ⟨d, hd⟩ := Option.isSome_iff_exists.mp h
  simp [hd]

/-- C3.  For every packet with frames finalized without a failure of the
encryption stage, the packet length recorded for loss detection is the 16-bit
sum of the header length and the payload length, padding and AEAD tag
included; if the packet is retransmittable the send allowance afterwards is
`max(0, before - packet length)`, and it is unchanged otherwise; so it never
underflows.  Under the assumptions the code states on entry, for a datagram of
at most 65531 bytes, the recorded packet length is the exact sum. -/
theorem C3_send_allowance_deducts_packet_length (E : Env) (B B' : QUIC_PACKET_BUILDER)
    (d : QUIC_BUFFER) (a : Bool) (hd : B.Datagram = some d) (hf : B.Metadata.FrameCount ≠ 0)
    (hok : FinalizeCryptoFailed E B d a = false) (hB' : QuicPacketBuilderFinalize E B a = B') :
    B'.Metadata.PacketLength = u16 (B.HeaderLength + FinalPayloadLength E B d.Length a) ∧
      (B.Metadata.IsRetransmittable = true →
        (B'.SendAllowance : Int) =
          max 0 ((B.SendAllowance : Int) - (B'.Metadata.PacketLength : Int))) ∧
      (B.Metadata.IsRetransmittable = false → B'.SendAllowance = B.SendAllowance) ∧
      (InRange B → FinalizeAssumptions B d.Length → d.Length + 4 < 2 ^ 16 →
        B'.Metadata.PacketLength =
          B.HeaderLength +
            PaddedPayloadLength B (FinalizeMinimumDatagramLength E B d.Length a)
              (IsFinalQuicPacket E B d.Length a) +
            (if B.Connection.EncryptionEnabled then B.EncryptionOverhead else 0)) := by
  subst hB'
  obtain ⟨hpl, hsa⟩ := Finalize_track E B d a hd hf hok
  refine ⟨hpl, ?_, ?_, ?_⟩
  · intro hre
    rw [hsa, hpl, if_pos hre]
    omega
  · intro hre
    rw [hsa, hre]
    simp
  · intro hr has hcap
    rw [hpl]
    unfold FinalPayloadLength
    have hmin := FinalizeMinimumDatagramLength_le E B d.Length a has.Minimum
    have hpp := PaddedPayloadLength_eq B (FinalizeMinimumDatagramLength E B d.Length a)
      (IsFinalQuicPacket E B d.Length a) d.Length hr has.CapacityFits has.Room has.Header hmin
    have hpad := PaddingLength_eq B (FinalizeMinimumDatagramLength E B d.Length a)
      (IsFinalQuicPacket E B d.Length a) d.Length hr has.CapacityFits has.Room has.Header hmin
    have hov := has.Overhead
    have hroom := has.Room
    have hhdr := has.Header
    simp only
    rw [hpp]
    generalize PaddingLength B (FinalizeMinimumDatagramLength E B d.Length a)
      (IsFinalQuicPacket E B d.Length a) = pad at hpad ⊢
    generalize FinalizeMinimumDatagramLength E B d.Length a = m at hmin hpad
    have hb : B.DatagramLength + pad + B.EncryptionOverhead < 2 ^ 16 := by
      rw [hpad]
      split_ifs <;> omega
    unfold u16
    split_ifs
    · rw [Nat.mod_eq_of_lt (a := B.DatagramLength - (B.PacketStart + B.HeaderLength) + pad +
        B.EncryptionOverhead) (by omega)]
      rw [Nat.mod_eq_of_lt (by omega)]
      omega
    · rw [Nat.mod_eq_of_lt (by omega)]
      omega

/-- C3 on the sample Initial packet (retransmittable, 1200 bytes once padded
and sealed): the allowance goes from 100000 to 98800. -/
theorem C3_send_allowance_witness :
    ((QuicPacketBuilderFinalize sampleEnv sampleFramed true).SendAllowance : Int) =
      max 0 (100000 - 1200) := by
  have h := C3_send_allowance_deducts_packet_length sampleEnv sampleFramed _
    sampleFramedDatagram true (Datagram_eq_some_getD _ (by decide)) (by decide) (by decide) rfl
  have h1200 : (QuicPacketBuilderFinalize sampleEnv sampleFramed true).Metadata.PacketLength =
      1200 := by decide
  have hsa := h.2.1 (by decide)
  rw [h1200] at hsa
  exact hsa

/-! ## The padding step: four bytes of packet number and payload -/

/-- Where the padding step does reach four bytes: when the padding to the
minimum datagram length is not the branch taken, or when the packet number
alone has four bytes (as in every short header). -/
theorem padded_sum_ge_four (E : Env) (B : QUIC_PACKET_BUILDER) (cap : Nat) (a : Bool)
    (hr : InRange B) (has : FinalizeAssumptions B cap)
    (h : ¬(IsFinalQuicPacket E B cap a = true ∧
          B.DatagramLength + B.EncryptionOverhead < FinalizeMinimumDatagramLength E B cap a) ∨
        4 ≤ B.PacketNumberLength) :
    4 ≤ B.PacketNumberLength +
      PaddedPayloadLength B (FinalizeMinimumDatagramLength E B cap a)
        (IsFinalQuicPacket E B cap a) := by
  have hmin := FinalizeMinimumDatagramLength_le E B cap a has.Minimum
  rw [PaddedPayloadLength_eq B _ _ cap hr has.CapacityFits has.Room has.Header hmin,
    PaddingLength_eq B _ _ cap hr has.CapacityFits has.Room has.Header hmin]
  rcases h with h | h
  · rw [if_neg h]
    split_ifs <;> omega
  · omega

/-- Why the four bytes of the packet number matter.  The padding step tries
the padding to the minimum datagram length first and the four-byte rule only
otherwise.  The builder `sampleShortTail` is written by hand with a packet
number of one byte, which no sequence of calls produces when the header
encoders write four; it meets every assumption the code states on entry to the
non-empty branch.  Finalize with all done finds the datagram one byte short of
its minimum length and pads that single byte: the packet number and the padded
payload make three bytes. -/
theorem padding_to_minimum_precedes_four_byte_rule :
    sampleShortTail.Datagram.isSome = true ∧
      sampleShortTail.Metadata.FrameCount ≠ 0 ∧
      sampleShortTail.DatagramLength + sampleShortTail.EncryptionOverhead ≤ 1322 ∧
      sampleShortTail.PacketStart + sampleShortTail.HeaderLength ≤
        sampleShortTail.DatagramLength ∧
      sampleShortTail.MinimumDatagramLength ≤ 1322 ∧
      IsFinalQuicPacket sampleEnv sampleShortTail 1322 true = true ∧
      PaddingLength sampleShortTail
        (FinalizeMinimumDatagramLength sampleEnv sampleShortTail 1322 true)
        (IsFinalQuicPacket sampleEnv sampleShortTail 1322 true) = 1 ∧
      sampleShortTail.PacketNumberLength +
        PaddedPayloadLength sampleShortTail
          (FinalizeMinimumDatagramLength sampleEnv sampleShortTail 1322 true)
          (IsFinalQuicPacket sampleEnv sampleShortTail 1322 true) = 3 ∧
      (QuicPacketBuilderFinalize sampleEnv sampleShortTail true).Metadata.PacketLength =
        22 + 2 + 16 := by
  decide

/-! ## Full padding of a datagram that is not the last of the batch -/

/-- Completing a datagram reports the write cursor as its length. -/
theorem CompleteDatagram_reports (B : QUIC_PACKET_BUILDER) (d : QUIC_BUFFER)
    (c : QUIC_DATAPATH_SEND_CONTEXT) (hd : B.Datagram = some d) (hc : B.SendContext = some c) :
    completedLengths (CompleteDatagram B) =
      some (c.Datagrams.map (fun d => d.Length) ++ [B.DatagramLength]) := by
  unfold CompleteDatagram completedLengths
  rw [hd]
  simp [hc]

/-! ## C6: the length of a client Initial datagram -/

theorem Finalize_no_datagram (E : Env) (B : QUIC_PACKET_BUILDER) (a : Bool)
    (hd : B.Datagram = none) :
    (QuicPacketBuilderFinalize E B a).Datagram = none ∧
      noExit (QuicPacketBuilderFinalize E B a) = noExit B := by
  unfold QuicPacketBuilderFinalize
  rw [hd]
  simp only
  refine ⟨?_, FinalizeExit_noExit E B a a⟩
  cases a
  · rw [FinalizeExit_not_final]; exact hd
  · exact FinalizeExit_final_Datagram E B true

/-- With no current datagram on entry, the first stage of prepare leaves none
and asks for a new packet (or fails), keeping the path and the connection. -/
theorem PrepareSelectPacket_no_datagram (E : Env) (B : QUIC_PACKET_BUILDER) (ty : Nat)
    (pmtud : Bool) (hd : B.Datagram = none) :
    (PrepareSelectPacket E B ty pmtud).2.Datagram = none ∧
      noExit (PrepareSelectPacket E B ty pmtud).2 = noExit B ∧
      (PrepareSelectPacket E B ty pmtud).1 ≠ some false := by
  by_cases hdiff : B.PacketType ≠ ty ∨ pmtud = true
  · obtain ⟨h2, h3⟩ := PrepareSelectPacket_differs E B ty pmtud hdiff
    rw [h2]
    refine ⟨?_, ?_, h3⟩
    · split_ifs
      · exact (Finalize_no_datagram E B pmtud hd).1
      · exact hd
    · split_ifs
      · exact (Finalize_no_datagram E B pmtud hd).2
      · rfl
  · rw [PrepareSelectPacket_same E B ty pmtud hdiff]
    simp [hd]

theorem PrepareNewPacket_MinimumDatagramLength (E : Env) (B B' : QUIC_PACKET_BUILDER) (ty : Nat)
    (key : Option QUIC_PACKET_KEY) (pmtud : Bool)
    (h : PrepareNewPacket E B ty key pmtud = some B') :
    B'.MinimumDatagramLength = B.MinimumDatagramLength := by
  unfold PrepareNewPacket at h
  simp only at h
  split_ifs at h <;>
  · injection h with h
    subst h
    rfl

/-- The allocation stage of prepare, for a client Initial packet outside a
tail-loss probe: the minimum datagram length is the minimum Initial datagram
length. -/
theorem PrepareDatagram_client_initial (E : Env) (B : QUIC_PACKET_BUILDER) (pmtud : Bool)
    (hd : B.Datagram = none) (hc : B.Connection.IsServer = false)
    (hok : (PrepareDatagram E B E.QUIC_INITIAL false pmtud).1 = true) :
    (PrepareDatagram E B E.QUIC_INITIAL false pmtud).2.MinimumDatagramLength =
      u16 (E.MaxUdpPayloadSizeForFamily B.Path.RemoteFamily E.QUIC_INITIAL_PACKET_LENGTH) := by
  unfold PrepareDatagram at hok ⊢
  rw [hd] at hok ⊢
  simp only at hok ⊢
  have hctx := PrepareSendContext_noAlloc E B pmtud
  have hconn : (PrepareSendContext E B pmtud).2.Connection = B.Connection :=
    congrArg (fun b => b.Connection) hctx
  have hpath : (PrepareSendContext E B pmtud).2.Path = B.Path :=
    congrArg (fun b => b.Path) hctx
  split_ifs at hok ⊢ with h1
  · unfold PrepareAllocDatagram at hok ⊢
    simp only at hok ⊢
    split_ifs at hok ⊢ with h2
    · simp only [PrepareMinimumDatagramLength, hconn, hpath, hc, Bool.false_and,
        Bool.false_eq_true, if_false, decide_True, Bool.not_false, Bool.and_self, if_true]
  · exact absurd hok h1

/-! ### The reported length of a completed datagram -/

theorem map_modify_of_keeps {α β : Type} (g : α → β) (f : α → α) (hf : ∀ x, g (f x) = g x)
    (n : Nat) (l : List α) : (List.modify f n l).map g = l.map g := by
  induction l generalizing n with
  | nil => cases n <;> rfl
  | cons x xs ih =>
    cases n with
    | zero => simp [hf]
    | succ n => simp [ih]

theorem xorHeaderByte_completedLengths (B : QUIC_PACKET_BUILDER) (r : HeaderRef) (k m : Nat) :
    completedLengths (xorHeaderByte B r k m) = completedLengths B := by
  unfold xorHeaderByte completedLengths
  simp only
  split_ifs
  · cases B.SendContext with
    | none => rfl
    | some c =>
      exact congrArg some
        (map_modify_of_keeps (fun d : QUIC_BUFFER => d.Length)
          (fun d => { d with Buffer := xorByte d.Buffer (r.Offset + k) m }) (fun _ => rfl)
          r.Datagram c.Datagrams)
  · rfl
  · rfl

theorem FinalizeHeaderProtection_completedLengths (E : Env) (B : QUIC_PACKET_BUILDER) :
    completedLengths (QuicPacketBuilderFinalizeHeaderProtection E B) = completedLengths B :=
  FinalizeHeaderProtection_keeps completedLengths xorHeaderByte_completedLengths
    (fun _ _ _ _ => rfl) E B

theorem lastReportedLength_of_completedLengths (B : QUIC_PACKET_BUILDER) (l : List Nat)
    (h : completedLengths B = some l) : lastReportedLength B = l.getLast? := by
  unfold completedLengths at h
  unfold lastReportedLength
  cases hc : B.SendContext with
  | none => rw [hc] at h; exact absurd h (by simp)
  | some c =>
    rw [hc] at h
    simp only [Option.map_some', Option.some.injEq] at h
    simp only [h]

theorem lastReportedLength_SendBatch (B : QUIC_PACKET_BUILDER) (l : List Nat)
    (h : completedLengths B = some l) :
    lastReportedLength (QuicPacketBuilderSendBatch B) = l.getLast? := by
  unfold completedLengths at h
  unfold lastReportedLength QuicPacketBuilderSendBatch
  cases hc : B.SendContext with
  | none => rw [hc] at h; exact absurd h (by simp)
  | some c =>
    rw [hc] at h
    simp only [Option.map_some', Option.some.injEq] at h
    subst h
    simp only
    split_ifs <;> simp [sentContext]

theorem lastReportedLength_logCall_close (B : QUIC_PACKET_BUILDER) (s : Bool) (e : Nat) :
    lastReportedLength (logCall B (Call.ConnCloseLocally s e)) = lastReportedLength B := by
  unfold lastReportedLength logCall
  cases B.SendContext <;> simp [sentContext]

/-- When finalize completes a datagram held in a send context, the length
reported for that datagram is the write cursor. -/
theorem FinalizeExit_reports (E : Env) (B : QUIC_PACKET_BUILDER) (a : Bool) (d : QUIC_BUFFER)
    (c : QUIC_DATAPATH_SEND_CONTEXT) (hd : B.Datagram = some d) (hc : B.SendContext = some c) :
    lastReportedLength (FinalizeExit E B a true) = some B.DatagramLength := by
  have h1 := CompleteDatagram_reports B d c hd hc
  have hl : (c.Datagrams.map (fun d => d.Length) ++ [B.DatagramLength]).getLast? =
      some B.DatagramLength := by simp
  unfold FinalizeExit
  simp only [if_true]
  have h2 : lastReportedLength (FlushAndSend E (CompleteDatagram B) a) =
      some B.DatagramLength := by
    unfold FlushAndSend
    split_ifs
    · rw [lastReportedLength_SendBatch _ _
        ((FinalizeHeaderProtection_completedLengths E _).trans h1), hl]
    · rw [lastReportedLength_SendBatch _ _ h1, hl]
    · rw [lastReportedLength_of_completedLengths _ _ h1, hl]
  unfold CloseAfterRetry
  split_ifs
  · rw [lastReportedLength_logCall_close, h2]
  · exact h2

/-- Finalizing a packet with frames that is the last of its datagram completes
the datagram and reports the write cursor as its length. -/
theorem Finalize_final_reports (E : Env) (B : QUIC_PACKET_BUILDER) (d : QUIC_BUFFER) (a : Bool)
    (hd : B.Datagram = some d) (hc : B.SendContext.isSome = true)
    (hf : B.Metadata.FrameCount ≠ 0) (hfinal : IsFinalQuicPacket E B d.Length a = true) :
    lastReportedLength (QuicPacketBuilderFinalize E B a) =
        some (QuicPacketBuilderFinalize E B a).DatagramLength ∧
      (QuicPacketBuilderFinalize E B a).Datagram = none := by
  unfold QuicPacketBuilderFinalize
  rw [hd]
  simp only [hf, if_false, hfinal]
  have h1 : (FinalizeNonEmpty E B d a).Datagram.isSome = true := by
    rw [FinalizeNonEmpty_Datagram_isSome, hd]; rfl
  have h2 : (FinalizeNonEmpty E B d a).SendContext.isSome = true := by
    rw [FinalizeNonEmpty_SendContext_isSome]; exact hc
  obtain ⟨d', hd'⟩ := Option.isSome_iff_exists.mp h1
  obtain ⟨c', hc'⟩ := Option.isSome_iff_exists.mp h2
  refine ⟨?_, FinalizeExit_final_Datagram E _ a⟩
  rw [FinalizeExit_reports E _ a d' c' hd' hc']
  exact congrArg some (congrArg (fun b => b.DatagramLength)
    (FinalizeExit_noExit E (FinalizeNonEmpty E B d a) a true)).symm

/-- Finalizing a packet with frames that is the last of its datagram leaves the
write cursor at or past the minimum datagram length. -/
theorem Finalize_reaches_minimum (E : Env) (B : QUIC_PACKET_BUILDER) (d : QUIC_BUFFER)
    (a : Bool) (hd : B.Datagram = some d) (hf : B.Metadata.FrameCount ≠ 0) (hr : InRange B)
    (has : FinalizeAssumptions B d.Length) (hcap4 : d.Length + 4 < 2 ^ 16)
    (henc : B.Connection.EncryptionEnabled = false → B.EncryptionOverhead = 0)
    (hfinal : IsFinalQuicPacket E B d.Length a = true) :
    B.MinimumDatagramLength ≤ (QuicPacketBuilderFinalize E B a).DatagramLength := by
  unfold QuicPacketBuilderFinalize
  rw [hd]
  simp only [hf, if_false, hfinal]
  rw [show (FinalizeExit E (FinalizeNonEmpty E B d a) a true).DatagramLength =
      (FinalizeNonEmpty E B d a).DatagramLength from
    congrArg (fun b => b.DatagramLength) (FinalizeExit_noExit E _ a true)]
  rw [FinalizeNonEmpty_DatagramLength]
  have hle := FinalizeMinimumDatagramLength_le E B d.Length a has.Minimum
  have hge : B.MinimumDatagramLength ≤ FinalizeMinimumDatagramLength E B d.Length a := by
    unfold FinalizeMinimumDatagramLength
    split_ifs
    · rw [u16_of_lt has.CapacityFits]; exact has.Minimum
    · exact le_refl _
  have hpad := PaddingLength_eq B (FinalizeMinimumDatagramLength E B d.Length a)
    (IsFinalQuicPacket E B d.Length a) d.Length hr has.CapacityFits has.Room has.Header hle
  unfold PaddedDatagramLength
  simp only
  generalize FinalizeMinimumDatagramLength E B d.Length a = m at hle hge hpad ⊢
  generalize PaddingLength B m (IsFinalQuicPacket E B d.Length a) = pad at hpad ⊢
  have hroom := has.Room
  have hcap := has.CapacityFits
  have hhdr := has.Header
  have hpad2 : (B.DatagramLength + B.EncryptionOverhead < m →
        pad = m - (B.DatagramLength + B.EncryptionOverhead)) ∧ pad ≤ m + 4 := by
    rw [hpad]
    simp only [hfinal, true_and]
    split_ifs <;> omega
  have hpad3 : B.DatagramLength + pad + B.EncryptionOverhead < 2 ^ 16 := by
    rw [hpad]
    split_ifs <;> omega
  clear hpad
  unfold u16
  cases he : B.Connection.EncryptionEnabled with
  | true =>
    simp only [if_true]
    split_ifs <;> omega
  | false =>
    have h0 := henc he
    simp only [Bool.false_eq_true, if_false]
    split_ifs <;> omega

/-- A successful prepare for a client Initial packet that has to allocate the
datagram, outside a tail-loss probe, leaves the minimum Initial datagram
length in `MinimumDatagramLength`. -/
theorem Prepare_client_initial_minimum (E : Env) (B B1 : QUIC_PACKET_BUILDER)
    (key : Option QUIC_PACKET_KEY) (pmtud : Bool) (hd : B.Datagram = none)
    (hc : B.Connection.IsServer = false)
    (h : QuicPacketBuilderPrepare E B E.QUIC_INITIAL key false pmtud = some (true, B1)) :
    B1.MinimumDatagramLength =
      u16 (E.MaxUdpPayloadSizeForFamily B.Path.RemoteFamily E.QUIC_INITIAL_PACKET_LENGTH) := by
  obtain ⟨hs1, hs2, hs3⟩ := PrepareSelectPacket_no_datagram E B E.QUIC_INITIAL pmtud hd
  unfold QuicPacketBuilderPrepare at h
  rcases hsel : PrepareSelectPacket E B E.QUIC_INITIAL pmtud with ⟨nq, B0⟩
  rw [hsel] at h hs1 hs2 hs3
  simp only at hs1 hs2 hs3
  have hconn : B0.Connection = B.Connection := congrArg (fun b => b.Connection) hs2
  have hpath : B0.Path = B.Path := congrArg (fun b => b.Path) hs2
  cases nq with
  | none => simp at h
  | some nq =>
    cases nq with
    | false => exact absurd rfl hs3
    | true =>
      simp only at h
      have hmin := PrepareDatagram_client_initial E B0 pmtud hs1 (by rw [hconn]; exact hc)
      rcases hdg : PrepareDatagram E B0 E.QUIC_INITIAL false pmtud with ⟨ok, B2⟩
      rw [hdg] at h hmin
      cases ok with
      | false => simp at h
      | true =>
        simp only [if_true, Option.map_eq_some', Prod.mk.injEq, true_and] at h
        obtain ⟨B3, hB3, rfl⟩ := h
        rw [PrepareNewPacket_MinimumDatagramLength E B2 B3 _ key pmtud hB3, hmin rfl, hpath]

/-- Where the code does pad a client Initial datagram.  When a client builder
with no current datagram prepares an Initial packet outside a tail-loss probe,
prepare sets the minimum datagram length to the minimum Initial datagram
length; and when, with that minimum still in force, finalize completes the
datagram on a packet with frames (in a state that meets the assumptions the
code states on entry, for a datagram of at most 65531 bytes, the AEAD overhead
being 0 when encryption is off), the length reported for the datagram is the
write cursor and is at least the minimum Initial datagram length. -/
theorem client_initial_datagram_reaches_minimum (E : Env) (B B1 B2 : QUIC_PACKET_BUILDER)
    (key : Option QUIC_PACKET_KEY) (pmtud a : Bool) (d : QUIC_BUFFER)
    (hclient : B.Connection.IsServer = false) (hnone : B.Datagram = none)
    (hprep : QuicPacketBuilderPrepare E B E.QUIC_INITIAL key false pmtud = some (true, B1))
    (hd : B2.Datagram = some d) (hctx : B2.SendContext.isSome = true)
    (hmin : B2.MinimumDatagramLength = B1.MinimumDatagramLength)
    (hf : B2.Metadata.FrameCount ≠ 0) (hr : InRange B2)
    (has : FinalizeAssumptions B2 d.Length) (hcap4 : d.Length + 4 < 2 ^ 16)
    (henc : B2.Connection.EncryptionEnabled = false → B2.EncryptionOverhead = 0)
    (hfinal : IsFinalQuicPacket E B2 d.Length a = true) :
    B1.MinimumDatagramLength =
        u16 (E.MaxUdpPayloadSizeForFamily B.Path.RemoteFamily E.QUIC_INITIAL_PACKET_LENGTH) ∧
      lastReportedLength (QuicPacketBuilderFinalize E B2 a) =
        some (QuicPacketBuilderFinalize E B2 a).DatagramLength ∧
      u16 (E.MaxUdpPayloadSizeForFamily B.Path.RemoteFamily E.QUIC_INITIAL_PACKET_LENGTH) ≤
        (QuicPacketBuilderFinalize E B2 a).DatagramLength := by
  have h1 := Prepare_client_initial_minimum E B B1 key pmtud hnone hclient hprep
  refine ⟨h1, (Finalize_final_reports E B2 d a hd hctx hf hfinal).1, ?_⟩
  rw [← h1, ← hmin]
  exact Finalize_reaches_minimum E B2 d a hd hf hr has hcap4 henc hfinal

/-- On the sample client an Initial packet with 300 bytes of frames, finalized
with all done, gives a datagram of 1200 bytes. -/
theorem client_initial_datagram_reaches_minimum_sample :
    lastReportedLength (QuicPacketBuilderFinalize sampleEnv sampleFramed true) = some 1200 := by
  have hprep : QuicPacketBuilderPrepare sampleEnv sampleBuilder sampleEnv.QUIC_INITIAL
      (some 10) false false = some (true,
        ((QuicPacketBuilderPrepare sampleEnv sampleBuilder 0 (some 10) false false).getD
          (false, sampleBuilder)).2) := by
    have hs : ((QuicPacketBuilderPrepare sampleEnv sampleBuilder 0 (some 10) false false).map
        (fun r => r.1)) = some true := by decide
    cases hp : QuicPacketBuilderPrepare sampleEnv sampleBuilder 0 (some 10) false false with
    | none => rw [hp] at hs; exact absurd hs (by simp)
    | some r =>
      rw [hp] at hs
      simp only [Option.map_some', Option.some.injEq] at hs
      show QuicPacketBuilderPrepare sampleEnv sampleBuilder 0 (some 10) false false = _
      rw [hp]
      simp only [Option.getD_some]
      rw [← hs]
  have h := client_initial_datagram_reaches_minimum sampleEnv sampleBuilder _ sampleFramed
    (some 10) false true sampleFramedDatagram (by decide) (by decide) hprep
    (Datagram_eq_some_getD _ (by decide)) (by decide) (by decide) (by decide)
    ⟨by decide, by decide, by decide, by decide, by decide, by decide, by decide, by decide,
      by decide⟩
    ⟨by decide, by decide, by decide, by decide, by decide, by decide⟩ (by decide) (by decide)
    (by decide)
  rw [h.2.1]
  decide

/-- A datagram that starts with another packet type gets no Initial minimum:
in the sample client flush that puts a Handshake packet first, the datagram is
allocated with minimum length 0; the Initial packet that follows in the same
datagram (started at offset 137, one frame) is finalized with all done, and
the datagram that holds it is reported with 275 bytes, below the minimum
Initial datagram length of 1200. -/
theorem initial_after_handshake_not_padded :
    sampleBuilder.Connection.IsServer = false ∧
      (Cycle.run sampleEnv ⟨sampleBuilder, false, 0⟩ (sampleHandshakeFirstOps.take 4)).map
        (fun c => (c.B.PacketType, c.B.Metadata.FrameCount, c.B.PacketStart,
          c.B.MinimumDatagramLength)) = some (sampleEnv.QUIC_INITIAL, 1, 137, 0) ∧
      (Cycle.run sampleEnv ⟨sampleBuilder, false, 0⟩ sampleHandshakeFirstOps).map
        (fun c => (c.NonEmpty, c.B.TotalCountDatagrams, lastReportedLength c.B)) =
          some (2, 1, some 275) ∧
      275 < u16 (sampleEnv.MaxUdpPayloadSizeForFamily sampleBuilder.Path.RemoteFamily
        sampleEnv.QUIC_INITIAL_PACKET_LENGTH) := by
  decide

/-- C6, the code at the failing input.  The sample client builder, with no
datagram and no send context, runs the flush `sampleOps`.  The prepare for an
Initial packet allocates a datagram of 1322 bytes with the minimum datagram
length 1200 of lines 219-225, and 300 bytes are framed (header 22, write
cursor 322).  The prepare for a Handshake packet finalizes the Initial packet,
which is not the last of its datagram and so is not padded (338 bytes with the
tag), and writes a Handshake header at offset 338.  Nothing is framed into it,
and finalize with all done takes the empty branch of lines 533-550: it takes
the header back and goes to `Exit:`, where the datagram is completed at the
write cursor and the send context handed to the datapath.  The one datagram of
the flush holds the non-empty client Initial packet and is reported with 338
bytes, below the minimum of 1200 that is still in force. -/
theorem C6_client_initial_datagram_sent_below_minimum :
    sampleBuilder.Connection.IsServer = false ∧
      sampleBuilder.Datagram = none ∧ sampleBuilder.SendContext = none ∧
      (Cycle.run sampleEnv ⟨sampleBuilder, false, 0⟩ (sampleOps.take 2)).map
        (fun c => (c.InProgress, c.B.PacketType, c.B.Metadata.FrameCount,
          c.B.MinimumDatagramLength)) =
        some (true, sampleEnv.QUIC_INITIAL, 1, 1200) ∧
      (Cycle.run sampleEnv ⟨sampleBuilder, false, 0⟩ (sampleOps.take 2)).map
        (fun c => (c.B.HeaderLength, c.B.DatagramLength,
          c.B.Datagram.map (fun d => d.Length))) =
        some (22, 322, some 1322) ∧
      (Cycle.run sampleEnv ⟨sampleBuilder, false, 0⟩ (sampleOps.take 3)).map
        (fun c => (c.InProgress, c.NonEmpty, c.B.PacketType, c.B.Metadata.FrameCount)) =
        some (true, 1, 2, 0) ∧
      (Cycle.run sampleEnv ⟨sampleBuilder, false, 0⟩ (sampleOps.take 3)).map
        (fun c => (c.B.PacketStart, c.B.HeaderLength, c.B.DatagramLength,
          c.B.MinimumDatagramLength)) =
        some (338, 21, 359, 1200) ∧
      (Cycle.run sampleEnv ⟨sampleBuilder, false, 0⟩ sampleOps).map
        (fun c => (c.NonEmpty, c.B.MinimumDatagramLength, c.B.TotalCountDatagrams,
          lastReportedLength c.B)) =
        some (1, 1200, 1, some 338) ∧
      (Cycle.run sampleEnv ⟨sampleBuilder, false, 0⟩ sampleOps).map
        (fun c => (c.B.Datagram.isSome, c.B.SendContext.isSome, c.B.Calls.any Call.isSend)) =
        some (false, false, true) ∧
      338 < u16 (sampleEnv.MaxUdpPayloadSizeForFamily sampleBuilder.Path.RemoteFamily
        sampleEnv.QUIC_INITIAL_PACKET_LENGTH) := by
  refine ⟨by decide, by decide, by decide, by decide, by decide, by decide, by decide,
    by decide, by decide, by decide⟩

/-! ## C7: the payload length field of a long header -/

theorem writeBytes_length (bs : List Nat) (buf : List Nat) (off : Nat) :
    (writeBytes buf off bs).length = buf.length := by
  induction bs generalizing buf off with
  | nil => rfl
  | cons b bs ih => simp [writeBytes, ih]

/-- Two bytes stored inside a buffer are read back. -/
theorem readBytes_writeBytes_two (buf : List Nat) (off b0 b1 : Nat)
    (h : off + 2 ≤ buf.length) :
    readBytes (writeBytes buf off [b0, b1]) off 2 = [b0, b1] := by
  have h0 : off < buf.length := by omega
  have h1 : off + 1 < buf.length := by omega
  simp [readBytes, writeBytes, List.range_succ, List.getD_eq_getElem?_getD,
    List.getElem?_set, h0, h1]

/-- The 2-byte form of a variable-length integer reads back every value below
2^14. -/
theorem QuicVarIntDecode2Bytes_Encode (v : Nat) (h : v < 2 ^ 14) :
    QuicVarIntDecode2Bytes (QuicVarIntEncode2Bytes v) = some v := by
  unfold QuicVarIntEncode2Bytes QuicVarIntDecode2Bytes
  have hv : u16 v = v := u16_of_lt (by omega)
  rw [hv]
  have hx : v / 256 < 64 := by omega
  have hlor : Nat.lor 0x40 (v / 256) = 64 + v / 256 := by
    generalize v / 256 = x at hx
    interval_cases x <;> rfl
  simp only [hlor]
  have h1 : (64 + v / 256) / 64 = 1 := by omega
  have h2 : (64 + v / 256) % 64 = v / 256 := by omega
  simp only [h1, h2, if_true]
  congr 1
  omega

/-- The bytes of the datagram after the padding and length step, for a long
header: the padding zeroes, then the length field. -/
theorem FinalizePadAndLength_buffer_long (E : Env) (B : QUIC_PACKET_BUILDER) (d : QUIC_BUFFER)
    (a : Bool) (hd : B.Datagram = some d)
    (hlong : B.PacketType ≠ E.SEND_PACKET_SHORT_HEADER_TYPE) :
    ∃ buf : List Nat, buf.length = d.Buffer.length ∧
      datagramBuffer (FinalizePadAndLength E B d.Length a) =
        writeBytes buf (B.PacketStart + B.PayloadLengthOffset)
          (QuicVarIntEncode2Bytes (B.PacketNumberLength +
            PaddedPayloadLength B (FinalizeMinimumDatagramLength E B d.Length a)
              (IsFinalQuicPacket E B d.Length a) + B.EncryptionOverhead)) := by
  unfold FinalizePadAndLength
  simp only
  by_cases h0 : PaddingLength B (FinalizeMinimumDatagramLength E B d.Length a)
      (IsFinalQuicPacket E B d.Length a) ≠ 0
  · refine ⟨writeBytes d.Buffer B.DatagramLength (List.replicate (PaddingLength B
      (FinalizeMinimumDatagramLength E B d.Length a) (IsFinalQuicPacket E B d.Length a)) 0),
      writeBytes_length _ d.Buffer B.DatagramLength, ?_⟩
    simp only [h0, if_true, ne_eq, not_false_eq_true, hlong, datagramBuffer, writeDatagram, hd,
      Option.map_some', Option.getD_some]
  · refine ⟨d.Buffer, rfl, ?_⟩
    simp only [h0, if_false, ne_eq, not_false_eq_true, if_true, hlong, datagramBuffer,
      writeDatagram, hd, Option.map_some', Option.getD_some]

/-- The value finalize writes into the length field of a long header is below
2^14 for a datagram within `QUIC_MAX_MTU`. -/
theorem long_header_length_value_lt (E : Env) (B : QUIC_PACKET_BUILDER) (cap : Nat) (a : Bool)
    (hr : InRange B) (has : FinalizeAssumptions B cap)
    (hfield : B.PayloadLengthOffset + 2 + B.PacketNumberLength ≤ B.HeaderLength)
    (hcap : cap ≤ E.QUIC_MAX_MTU) (hmtu : E.QUIC_MAX_MTU < 2 ^ 14) :
    B.PacketNumberLength +
        PaddedPayloadLength B (FinalizeMinimumDatagramLength E B cap a)
          (IsFinalQuicPacket E B cap a) + B.EncryptionOverhead < 2 ^ 14 := by
  have hmin := FinalizeMinimumDatagramLength_le E B cap a has.Minimum
  rw [PaddedPayloadLength_eq B _ _ cap hr has.CapacityFits has.Room has.Header hmin,
    PaddingLength_eq B _ _ cap hr has.CapacityFits has.Room has.Header hmin]
  have hroom := has.Room
  have hhdr := has.Header
  have hov := has.Overhead
  split_ifs <;> omega

/-- C7.  For every packet with frames and a long header, finalized in a state
that meets the assumptions the code states on entry, with the length field
and the packet number inside the header and the datagram buffer as long as
its capacity: the value finalize writes at `PacketStart + PayloadLengthOffset`
is `PacketNumberLength + PayloadLength` (after padding) `+
EncryptionOverhead`; when the capacity is at most `QUIC_MAX_MTU` (itself below
2^14) that value is below 2^14 and the two bytes written decode to it. -/
theorem C7_long_header_payload_length_reads_back (E : Env) (B : QUIC_PACKET_BUILDER)
    (d : QUIC_BUFFER) (a : Bool) (hd : B.Datagram = some d)
    (hlong : B.PacketType ≠ E.SEND_PACKET_SHORT_HEADER_TYPE) (hr : InRange B)
    (has : FinalizeAssumptions B d.Length) (hbuf : d.Buffer.length = d.Length)
    (hfield : B.PayloadLengthOffset + 2 + B.PacketNumberLength ≤ B.HeaderLength)
    (hcap : d.Length ≤ E.QUIC_MAX_MTU) (hmtu : E.QUIC_MAX_MTU < 2 ^ 14) :
    B.PacketNumberLength +
          PaddedPayloadLength B (FinalizeMinimumDatagramLength E B d.Length a)
            (IsFinalQuicPacket E B d.Length a) + B.EncryptionOverhead < 2 ^ 14 ∧
      QuicVarIntDecode2Bytes
          (readBytes (datagramBuffer (FinalizePadAndLength E B d.Length a))
            (B.PacketStart + B.PayloadLengthOffset) 2) =
        some (B.PacketNumberLength +
          PaddedPayloadLength B (FinalizeMinimumDatagramLength E B d.Length a)
            (IsFinalQuicPacket E B d.Length a) + B.EncryptionOverhead) := by
  have hlt := long_header_length_value_lt E B d.Length a hr has hfield hcap hmtu
  refine ⟨hlt, ?_⟩
  obtain ⟨buf, hlen, hb⟩ := FinalizePadAndLength_buffer_long E B d a hd hlong
  rw [hb]
  have hroom := has.Room
  have hhdr := has.Header
  have h2 : B.PacketStart + B.PayloadLengthOffset + 2 ≤ buf.length := by
    rw [hlen, hbuf]; omega
  have henc : ∀ v, QuicVarIntEncode2Bytes v =
      [Nat.lor 0x40 (u16 v / 256), u16 v % 256] := fun _ => rfl
  rw [henc, readBytes_writeBytes_two buf _ _ _ h2, ← henc]
  exact QuicVarIntDecode2Bytes_Encode _ hlt

/-- C7 on the sample Initial packet: 4 bytes of packet number, 300 bytes of
frames padded with 862 zero bytes, 16 bytes of AEAD tag; the two bytes at
offset 16 of the datagram decode to 1182. -/
theorem C7_long_header_payload_length_witness :
    QuicVarIntDecode2Bytes
        (readBytes (datagramBuffer
          (FinalizePadAndLength sampleEnv sampleFramed sampleFramedDatagram.Length true))
          (sampleFramed.PacketStart + sampleFramed.PayloadLengthOffset) 2) =
      some (4 + (300 + 862) + 16) := by
  have h := C7_long_header_payload_length_reads_back sampleEnv sampleFramed sampleFramedDatagram
    true (Datagram_eq_some_getD _ (by decide)) (by decide)
    ⟨by decide, by decide, by decide, by decide, by decide, by decide, by decide, by decide,
      by decide⟩
    ⟨by decide, by decide, by decide, by decide, by decide, by decide⟩ (by decide) (by decide)
    (by decide) (by decide)
  have hv : sampleFramed.PacketNumberLength +
      PaddedPayloadLength sampleFramed
        (FinalizeMinimumDatagramLength sampleEnv sampleFramed sampleFramedDatagram.Length true)
        (IsFinalQuicPacket sampleEnv sampleFramed sampleFramedDatagram.Length true) +
      sampleFramed.EncryptionOverhead = 4 + (300 + 862) + 16 := by decide
  rw [← hv]
  exact h.2

/-! ## C8: the batch-full failure of prepare -/

/-- C8, as amended.  For every packet type other than the one the builder
holds, and for every packet type in a PMTU discovery call: when, after the
packet in progress (if any) is finalized, no send context exists and
`TotalCountDatagrams ≥ QUIC_MAX_DATAGRAMS_PER_SEND`, prepare returns false and
leaves the builder exactly as that finalization left it: no send context, no
allocation call, no packet number taken. -/
theorem C8_prepare_fails_when_batch_full (E : Env) (B B1 : QUIC_PACKET_BUILDER) (ty : Nat)
    (key : Option QUIC_PACKET_KEY) (tlp pmtud : Bool)
    (hdiff : B.PacketType ≠ ty ∨ pmtud = true)
    (hB1 : (if B.SendContext.isSome then QuicPacketBuilderFinalize E B pmtud else B) = B1)
    (hctx : B1.SendContext = none)
    (hfull : B1.TotalCountDatagrams ≥ E.QUIC_MAX_DATAGRAMS_PER_SEND) :
    QuicPacketBuilderPrepare E B ty key tlp pmtud = some (false, B1) := by
  unfold QuicPacketBuilderPrepare PrepareSelectPacket
  rw [if_pos hdiff]
  simp only [hB1]
  rw [if_pos ⟨by simp [hctx], hfull⟩]

/-- C8 as amended, on the sample builder with 39 datagrams sent and the framed
Initial packet in progress: a PMTU discovery prepare finalizes the packet,
which completes the 40th datagram and sends the batch, and then fails without
allocating; the packet number stays at 1. -/
theorem C8_prepare_fails_when_batch_full_witness :
    (QuicPacketBuilderPrepare sampleEnv sampleFramedLate 0xff (some 13) false true).map
        (fun r => (r.1, r.2.SendContext.isSome, r.2.Datagram.isSome, r.2.TotalCountDatagrams,
          r.2.Connection.Send.NextPacketNumber)) =
      some (false, false, false, 40, 1) := by
  have h := C8_prepare_fails_when_batch_full sampleEnv sampleFramedLate _ 0xff (some 13) false
    true (by decide) rfl (by decide) (by decide)
  rw [h]
  decide

/-- C8, the claim as stated fails.  The builder `sampleBatchFull` holds no
send context and has sent `QUIC_MAX_DATAGRAMS_PER_SEND` = 40 datagrams; a
prepare for the packet type it already holds (Initial) skips the batch-full
test, returns true, allocates a send context and a datagram and takes packet
number 40. -/
theorem C8_same_type_skips_batch_full_check :
    sampleBatchFull.SendContext = none ∧
      sampleBatchFull.TotalCountDatagrams ≥ sampleEnv.QUIC_MAX_DATAGRAMS_PER_SEND ∧
      sampleBatchFull.PacketType = 0 ∧
      (QuicPacketBuilderPrepare sampleEnv sampleBatchFull 0 (some 10) false false).map
          (fun r => (r.1, r.2.SendContext.isSome, r.2.Datagram.isSome,
            r.2.Connection.Send.NextPacketNumber, r.2.Calls)) =
        some (true, true, true, 41,
          [Call.AllocSendDatagram 1322 true, Call.AllocSendContext 1322 true]) := by
  decide

/-! ## C9: the packet type and the key after prepare -/

/-- A prepare known to return true returns the builder that `getD` reads off
its result. -/
theorem Prepare_eq_some_true (E : Env) (B : QUIC_PACKET_BUILDER) (ty : Nat)
    (key : Option QUIC_PACKET_KEY) (tlp pmtud : Bool)
    (h : (QuicPacketBuilderPrepare E B ty key tlp pmtud).map (fun r => r.1) = some true) :
    QuicPacketBuilderPrepare E B ty key tlp pmtud =
      some (true, ((QuicPacketBuilderPrepare E B ty key tlp pmtud).getD (false, B)).2) := by
  cases hp : QuicPacketBuilderPrepare E B ty key tlp pmtud with
  | none => rw [hp] at h; exact absurd h (by simp)
  | some r =>
    rw [hp] at h
    simp only [Option.map_some', Option.some.injEq] at h
    simp only [Option.getD_some]
    rw [← h]

/-- Outside the assertion of line 317 nothing sets the key: the builder
`samplePrepared` has a Handshake packet in progress with key 12; a prepare for
the same packet type with key 99 reuses the packet, returns true, and the key
of the builder is still 12. -/
theorem Prepare_reuse_keeps_key_sample :
    samplePrepared.PacketType = 2 ∧ samplePrepared.Key = some 12 ∧
      (QuicPacketBuilderPrepare sampleEnv samplePrepared 2 (some 99) false false).map
          (fun r => (r.1, r.2.PacketType, r.2.Key)) =
        some (true, 2, some 12) := by
  decide

/-! ## The capacity of the current datagram -/

theorem xorHeaderByte_capacity (B : QUIC_PACKET_BUILDER) (r : HeaderRef) (k m : Nat) :
    (xorHeaderByte B r k m).Datagram.map (fun d => d.Length) =
      B.Datagram.map (fun d => d.Length) := by
  unfold xorHeaderByte
  simp only
  split_ifs
  · rfl
  · cases B.Datagram <;> rfl
  · rfl

theorem writeDatagram_capacity (B : QUIC_PACKET_BUILDER) (off : Nat) (bs : List Nat) :
    (writeDatagram B off bs).Datagram.map (fun d => d.Length) =
      B.Datagram.map (fun d => d.Length) := by
  unfold writeDatagram
  cases B.Datagram <;> rfl

theorem cryptoBlind_capacity :
    CryptoBlind (fun b : QUIC_PACKET_BUILDER => b.Datagram.map (fun d => d.Length)) where
  xor := xorHeaderByte_capacity
  write := writeDatagram_capacity
  blind := fun _ _ _ _ _ _ _ _ _ => rfl

theorem FinalizePadAndLength_capacity (E : Env) (B : QUIC_PACKET_BUILDER) (cap : Nat)
    (a : Bool) :
    (FinalizePadAndLength E B cap a).Datagram.map (fun d => d.Length) =
      B.Datagram.map (fun d => d.Length) := by
  unfold FinalizePadAndLength
  simp only
  split_ifs <;> simp only [writeDatagram_capacity]

/-- The non-empty branch of finalize keeps the capacity of the current
datagram. -/
theorem FinalizeNonEmpty_capacity (E : Env) (B : QUIC_PACKET_BUILDER) (d : QUIC_BUFFER)
    (a : Bool) :
    (FinalizeNonEmpty E B d a).Datagram.map (fun d => d.Length) =
      B.Datagram.map (fun d => d.Length) := by
  have h1 : ∀ p, (FinalizeEncrypt E (FinalizePadAndLength E B d.Length a) p).1.Datagram.map
      (fun d => d.Length) = B.Datagram.map (fun d => d.Length) := by
    intro p
    rw [cryptoBlind_capacity.encrypt E _ p]
    split_ifs <;> exact FinalizePadAndLength_capacity E B d.Length a
  unfold FinalizeNonEmpty
  simp only
  split_ifs
  · exact h1 _
  · rw [FinalizeTrack_Datagram]; exact h1 _

/-- Where a new packet starts and where its header ends. -/
theorem PrepareNewPacket_cursor (E : Env) (B B' : QUIC_PACKET_BUILDER) (ty : Nat)
    (key : Option QUIC_PACKET_KEY) (pmtud : Bool)
    (h : PrepareNewPacket E B ty key pmtud = some B') :
    B'.PacketStart = B.DatagramLength ∧
      B'.DatagramLength = u16 (B'.PacketStart + B'.HeaderLength) ∧
      B'.Datagram.map (fun d => d.Length) = B.Datagram.map (fun d => d.Length) := by
  unfold PrepareNewPacket at h
  simp only at h
  split_ifs at h <;>
  · injection h with h
    subst h
    exact ⟨rfl, rfl, writeDatagram_capacity _ _ _⟩

/-! ## The send context outlives the current datagram -/

theorem PrepareSelectPacket_keeps_context (E : Env) (B : QUIC_PACKET_BUILDER) (ty : Nat)
    (pmtud : Bool) (h : B.Datagram.isSome = true → B.SendContext.isSome = true) :
    (PrepareSelectPacket E B ty pmtud).2.Datagram.isSome = true →
      (PrepareSelectPacket E B ty pmtud).2.SendContext.isSome = true := by
  by_cases hdiff : B.PacketType ≠ ty ∨ pmtud = true
  · rw [(PrepareSelectPacket_differs E B ty pmtud hdiff).1]
    by_cases hctx : B.SendContext.isSome = true
    · rw [if_pos hctx]
      exact Finalize_keeps_context E B pmtud h
    · rw [if_neg hctx]
      exact h
  · rw [PrepareSelectPacket_same E B ty pmtud hdiff]
    exact h

theorem PrepareDatagram_keeps_context (E : Env) (B : QUIC_PACKET_BUILDER) (ty : Nat)
    (tlp pmtud : Bool) (h : B.Datagram.isSome = true → B.SendContext.isSome = true) :
    (PrepareDatagram E B ty tlp pmtud).2.Datagram.isSome = true →
      (PrepareDatagram E B ty tlp pmtud).2.SendContext.isSome = true := by
  cases hok : (PrepareDatagram E B ty tlp pmtud).1 with
  | true => exact fun _ => (PrepareDatagram_ok E B ty tlp pmtud hok h).2
  | false =>
    rw [PrepareDatagram_fail E B ty tlp pmtud hok]
    simp

/-- Prepare keeps "a current datagram lives in a send context", whatever it
returns. -/
theorem Prepare_keeps_context (E : Env) (B : QUIC_PACKET_BUILDER) (ty : Nat)
    (key : Option QUIC_PACKET_KEY) (tlp pmtud : Bool) (r : Bool × QUIC_PACKET_BUILDER)
    (h : B.Datagram.isSome = true → B.SendContext.isSome = true)
    (hr : QuicPacketBuilderPrepare E B ty key tlp pmtud = some r) :
    r.2.Datagram.isSome = true → r.2.SendContext.isSome = true := by
  have h1 := PrepareSelectPacket_keeps_context E B ty pmtud h
  unfold QuicPacketBuilderPrepare at hr
  rcases hs : PrepareSelectPacket E B ty pmtud with ⟨o, B1⟩
  rw [hs] at hr h1
  simp only at h1
  cases o with
  | none =>
    simp only [Option.some.injEq] at hr
    rw [← hr]
    exact h1
  | some nq =>
    simp only at hr
    have h2 := PrepareDatagram_keeps_context E B1 ty tlp pmtud h1
    rcases hd : PrepareDatagram E B1 ty tlp pmtud with ⟨ok, B2⟩
    rw [hd] at hr h2
    simp only at h2
    cases ok with
    | false =>
      simp only [Option.some.injEq] at hr
      rw [← hr]
      exact h2
    | true =>
      simp only at hr
      cases nq with
      | false =>
        simp only [Bool.false_eq_true, if_false, Option.some.injEq] at hr
        rw [← hr]
        exact h2
      | true =>
        simp only [if_true] at hr
        cases hn : PrepareNewPacket E B2 ty key pmtud with
        | none => rw [hn] at hr; exact absurd hr (by simp)
        | some B3 =>
          rw [hn] at hr
          simp only [Option.map_some', Option.some.injEq] at hr
          obtain ⟨-, hdg, hsc, -⟩ := PrepareNewPacket_spec E B2 B3 ty key pmtud hn
          rw [← hr]
          simp only
          rw [hdg, hsc]
          exact h2

theorem Cleanup_memory (E : Env) (B : QUIC_PACKET_BUILDER) :
    (QuicPacketBuilderCleanup E B).Datagram = (CleanupFinalize E B).Datagram ∧
      (QuicPacketBuilderCleanup E B).SendContext = (CleanupFinalize E B).SendContext := by
  unfold QuicPacketBuilderCleanup
  simp only
  split_ifs <;> exact ⟨rfl, rfl⟩

/-- Cleanup keeps "a current datagram lives in a send context". -/
theorem Cleanup_keeps_context (E : Env) (B : QUIC_PACKET_BUILDER)
    (h : B.Datagram.isSome = true → B.SendContext.isSome = true) :
    (QuicPacketBuilderCleanup E B).Datagram.isSome = true →
      (QuicPacketBuilderCleanup E B).SendContext.isSome = true := by
  rw [(Cleanup_memory E B).1, (Cleanup_memory E B).2]
  unfold CleanupFinalize
  split_ifs
  · exact Finalize_keeps_context E B true h
  · exact h

/-- Every call of a flush keeps "a current datagram lives in a send
context". -/
theorem BuilderCall.apply_keeps_context (S : ConnEnv) (E : Env) (B B1 : QUIC_PACKET_BUILDER)
    (c : BuilderCall) (h : B.Datagram.isSome = true → B.SendContext.isSome = true)
    (hc : c.apply S E B = some B1) :
    B1.Datagram.isSome = true → B1.SendContext.isSome = true := by
  cases c with
  | prepare ty key tlp pmtud =>
    simp only [BuilderCall.apply, Option.map_eq_some'] at hc
    obtain ⟨r, hr, rfl⟩ := hc
    exact Prepare_keeps_context E B ty key tlp pmtud r h hr
  | prepareForControlFrames tlp flags =>
    simp only [BuilderCall.apply, Option.map_eq_some'] at hc
    obtain ⟨r, hr, rfl⟩ := hc
    unfold QuicPacketBuilderPrepareForControlFrames at hr
    split at hr
    · simp only [Option.some.injEq] at hr
      rw [← hr]
      exact h
    · exact Prepare_keeps_context E B _ _ tlp false r h hr
  | prepareForStreamFrames tlp =>
    simp only [BuilderCall.apply, Option.map_eq_some'] at hc
    obtain ⟨r, hr, rfl⟩ := hc
    exact Prepare_keeps_context E B _ _ tlp false r h hr
  | prepareForPathMtuDiscovery =>
    simp only [BuilderCall.apply, Option.map_eq_some'] at hc
    obtain ⟨r, hr, rfl⟩ := hc
    exact Prepare_keeps_context E B _ _ false true r h hr
  | frames bytes n retransmittable =>
    simp only [BuilderCall.apply, Option.some.injEq] at hc
    rw [← hc]
    simpa [FramerWrite, writeDatagram] using h
  | finalize allDone =>
    simp only [BuilderCall.apply, Option.some.injEq] at hc
    rw [← hc]
    exact Finalize_keeps_context E B allDone h
  | cleanup =>
    simp only [BuilderCall.apply, Option.some.injEq] at hc
    rw [← hc]
    exact Cleanup_keeps_context E B h

theorem BuilderCall.trace_keeps_context (S : ConnEnv) (E : Env) (cs : List BuilderCall) :
    ∀ B : QUIC_PACKET_BUILDER, (B.Datagram.isSome = true → B.SendContext.isSome = true) →
      ∀ B1 ∈ BuilderCall.trace S E B cs,
        B1.Datagram.isSome = true → B1.SendContext.isSome = true := by
  induction cs with
  | nil => intro B _ B1 hB1; simp [BuilderCall.trace] at hB1
  | cons c cs ih =>
    intro B h B1 hB1
    unfold BuilderCall.trace at hB1
    cases hc : c.apply S E B with
    | none => rw [hc] at hB1; simp at hB1
    | some B2 =>
      rw [hc] at hB1
      simp only [List.mem_cons] at hB1
      have h2 := BuilderCall.apply_keeps_context S E B B2 c h hc
      rcases hB1 with rfl | hB1
      · exact h2
      · exact ih B2 h2 B1 hB1

/-- C11: starting from a builder with no send context and no current
datagram, after every call of a flush that returns (the prepare entry points,
the framer, finalize and cleanup, with allocation and crypto failures as the
environment decides) a builder without a send context has no current
datagram. -/
theorem C11_no_send_context_no_datagram (S : ConnEnv) (E : Env) (B : QUIC_PACKET_BUILDER)
    (cs : List BuilderCall) (_hctx : B.SendContext = none) (hdg : B.Datagram = none) :
    ∀ B1 ∈ BuilderCall.trace S E B cs, B1.SendContext = none → B1.Datagram = none := by
  intro B1 hB1 hnone
  have h := BuilderCall.trace_keeps_context S E cs B (by simp [hdg]) B1 hB1
  cases hd : B1.Datagram with
  | none => rfl
  | some d =>
    have h2 := h (by simp [hd])
    rw [hnone] at h2
    exact absurd h2 (by simp)

/-- C11 on the sample flush: five calls return, and the invariant holds after
each. -/
theorem C11_no_send_context_no_datagram_witness :
    (BuilderCall.trace sampleConnEnv sampleEnv sampleConnectedBuilder sampleCalls).length = 5 ∧
      ∀ B1 ∈ BuilderCall.trace sampleConnEnv sampleEnv sampleConnectedBuilder sampleCalls,
        B1.SendContext = none → B1.Datagram = none :=
  ⟨by decide, C11_no_send_context_no_datagram sampleConnEnv sampleEnv sampleConnectedBuilder
    sampleCalls rfl rfl⟩

/-! ## What finalize adds to the call log -/

theorem newCalls_append (B B1 : QUIC_PACKET_BUILDER) (delta : List Call)
    (h : B1.Calls = delta ++ B.Calls) : newCalls B B1 = delta := by
  unfold newCalls
  rw [h]
  simp

theorem CryptoLog.refl (B : QUIC_PACKET_BUILDER) : CryptoLog B B :=
  ⟨[], rfl, by simp⟩

theorem CryptoLog.of_calls_eq {B B1 : QUIC_PACKET_BUILDER} (h : B1.Calls = B.Calls) :
    CryptoLog B B1 :=
  ⟨[], by simp [h], by simp⟩

theorem CryptoLog.trans {B B1 B2 : QUIC_PACKET_BUILDER} (h1 : CryptoLog B B1)
    (h2 : CryptoLog B1 B2) : CryptoLog B B2 := by
  obtain ⟨d1, e1, q1⟩ := h1
  obtain ⟨d2, e2, q2⟩ := h2
  refine ⟨d2 ++ d1, by rw [e2, e1, List.append_assoc], ?_⟩
  intro c hc
  rcases List.mem_append.1 hc with hc | hc
  · exact q2 c hc
  · exact q1 c hc

theorem CryptoLogFailed.toCryptoLog {B B1 : QUIC_PACKET_BUILDER} (h : CryptoLogFailed B B1) :
    CryptoLog B B1 := by
  obtain ⟨d, e, q⟩ := h
  refine ⟨Call.ConnFatalError :: d, by simp [e], ?_⟩
  intro c hc
  rcases List.mem_cons.1 hc with rfl | hc
  · rfl
  · exact q c hc

theorem CryptoLog.trans_failed {B B1 B2 : QUIC_PACKET_BUILDER} (h1 : CryptoLog B B1)
    (h2 : CryptoLogFailed B1 B2) : CryptoLogFailed B B2 := by
  obtain ⟨d1, e1, q1⟩ := h1
  obtain ⟨d2, e2, q2⟩ := h2
  refine ⟨d2 ++ d1, by rw [e2, e1]; simp, ?_⟩
  intro c hc
  rcases List.mem_append.1 hc with hc | hc
  · exact q2 c hc
  · exact q1 c hc

theorem xorHeaderByte_Calls (B : QUIC_PACKET_BUILDER) (r : HeaderRef) (k m : Nat) :
    (xorHeaderByte B r k m).Calls = B.Calls := by
  have h := congrArg (fun b : QUIC_PACKET_BUILDER => b.Calls) (xorHeaderByte_noMemory B r k m)
  exact h

theorem FinalizeHeaderProtection_Calls (E : Env) (B : QUIC_PACKET_BUILDER) :
    (QuicPacketBuilderFinalizeHeaderProtection E B).Calls =
      (match E.QuicHpComputeMask B.Calls B.Key B.BatchCount B.CipherBatch with
        | none => [Call.ConnFatalError, Call.HpComputeMask B.BatchCount false]
        | some _ => [Call.HpComputeMask B.BatchCount true]) ++ B.Calls := by
  unfold QuicPacketBuilderFinalizeHeaderProtection
  cases E.QuicHpComputeMask B.Calls B.Key B.BatchCount B.CipherBatch with
  | none => rfl
  | some mask =>
    simp only
    rw [foldl_keeps (fun b : QUIC_PACKET_BUILDER => b.Calls) _
      (fun b j => HpApplyEntry_keeps (fun b : QUIC_PACKET_BUILDER => b.Calls)
        xorHeaderByte_Calls E b j)]
    rfl

theorem FinalizeHeaderProtection_log (E : Env) (B : QUIC_PACKET_BUILDER) :
    CryptoLog B (QuicPacketBuilderFinalizeHeaderProtection E B) := by
  refine ⟨_, FinalizeHeaderProtection_Calls E B, ?_⟩
  intro c hc
  split at hc
  · simp only [List.mem_cons, List.mem_singleton, List.not_mem_nil, or_false] at hc
    rcases hc with rfl | rfl <;> rfl
  · simp only [List.mem_singleton] at hc
    rw [hc]; rfl

theorem FinalizeHpShort_log (E : Env) (B : QUIC_PACKET_BUILDER) (pn : Nat) :
    CryptoLog B (FinalizeHpShort E B pn) := by
  unfold FinalizeHpShort
  simp only
  split_ifs
  · exact CryptoLog.trans (CryptoLog.of_calls_eq rfl) (FinalizeHeaderProtection_log E _)
  · exact CryptoLog.of_calls_eq rfl

theorem FinalizeHpLong_log (E : Env) (B : QUIC_PACKET_BUILDER) (pn : Nat) :
    ((FinalizeHpLong E B pn).2 = true → CryptoLogFailed B (FinalizeHpLong E B pn).1) ∧
      ((FinalizeHpLong E B pn).2 = false → CryptoLog B (FinalizeHpLong E B pn).1) := by
  unfold FinalizeHpLong
  simp only
  generalize E.QuicHpComputeMask _ _ _ _ = g
  cases g with
  | none =>
    refine ⟨fun _ => ⟨[Call.HpComputeMask 1 false], by rfl, by simp [Call.isCrypto]⟩, ?_⟩
    intro h
    exact absurd h (by simp)
  | some mask =>
    refine ⟨fun h => absurd h (by simp), fun _ => ?_⟩
    refine ⟨[Call.HpComputeMask 1 true], ?_, by simp [Call.isCrypto]⟩
    simp only
    rw [foldl_keeps (fun b : QUIC_PACKET_BUILDER => b.Calls) _
      (fun b j => xorHeaderByte_Calls b _ _ _), xorHeaderByte_Calls]
    rfl

theorem FinalizeKeyPhase_log (E : Env) (B : QUIC_PACKET_BUILDER) (p : Nat) :
    ((FinalizeKeyPhase E B p).2 = true → CryptoLogFailed B (FinalizeKeyPhase E B p).1) ∧
      ((FinalizeKeyPhase E B p).2 = false → CryptoLog B (FinalizeKeyPhase E B p).1) := by
  unfold FinalizeKeyPhase
  simp only
  split_ifs with h
  · generalize E.QuicCryptoGenerateNewKeys _ _ = g
    cases g with
    | none =>
      refine ⟨fun _ => ⟨[Call.CryptoGenerateNewKeys false], by rfl, by simp [Call.isCrypto]⟩, ?_⟩
      intro h
      exact absurd h (by simp)
    | some tls =>
      refine ⟨fun h => absurd h (by simp), fun _ => ?_⟩
      exact ⟨[Call.CryptoUpdateKeyPhase, Call.CryptoGenerateNewKeys true], by rfl,
        by simp [Call.isCrypto]⟩
  · exact ⟨fun h => absurd h (by simp), fun _ => CryptoLog.of_calls_eq rfl⟩

theorem FinalizeEncrypt_some (E : Env) (B : QUIC_PACKET_BUILDER) (p : Nat) (cipher : List Nat)
    (he : B.Connection.EncryptionEnabled = true)
    (hc : E.QuicEncrypt B.Calls B.Key B.Metadata.PacketNumber
      (readBytes (datagramBuffer B) B.PacketStart B.HeaderLength)
      (readBytes (datagramBuffer B) (B.PacketStart + B.HeaderLength)
        (u16 (p + B.EncryptionOverhead))) = some cipher) :
    FinalizeEncrypt E B p =
      FinalizeAfterEncrypt E
        (logCall (writeDatagram
          { B with DatagramLength := u16 (B.DatagramLength + B.EncryptionOverhead) }
          (B.PacketStart + B.HeaderLength) cipher) (Call.Encrypt B.Metadata.PacketNumber true))
        (B.PacketStart + B.HeaderLength - B.PacketNumberLength)
        (u16 (p + B.EncryptionOverhead)) := by
  unfold FinalizeEncrypt
  rw [if_pos he]
  simp only [datagramBuffer] at hc ⊢
  rw [hc]
  rfl

theorem FinalizeEncrypt_none (E : Env) (B : QUIC_PACKET_BUILDER) (p : Nat)
    (he : B.Connection.EncryptionEnabled = true)
    (hc : E.QuicEncrypt B.Calls B.Key B.Metadata.PacketNumber
      (readBytes (datagramBuffer B) B.PacketStart B.HeaderLength)
      (readBytes (datagramBuffer B) (B.PacketStart + B.HeaderLength)
        (u16 (p + B.EncryptionOverhead))) = none) :
    FinalizeEncrypt E B p =
      ({ B with
          DatagramLength := u16 (B.DatagramLength + B.EncryptionOverhead)
          Calls := Call.ConnFatalError :: Call.Encrypt B.Metadata.PacketNumber false :: B.Calls },
        u16 (p + B.EncryptionOverhead), true) := by
  unfold FinalizeEncrypt
  rw [if_pos he]
  simp only [datagramBuffer] at hc ⊢
  rw [hc]

theorem FinalizeProtect_log (E : Env) (B : QUIC_PACKET_BUILDER) (pn : Nat) :
    ((FinalizeProtect E B pn).2 = true → CryptoLogFailed B (FinalizeProtect E B pn).1) ∧
      ((FinalizeProtect E B pn).2 = false → CryptoLog B (FinalizeProtect E B pn).1) := by
  unfold FinalizeProtect
  by_cases h1 : B.Connection.HeaderProtectionEnabled = true
  · rw [if_pos h1]
    by_cases h2 : B.PacketType = E.SEND_PACKET_SHORT_HEADER_TYPE
    · rw [if_pos h2]
      exact ⟨fun h => absurd h (by simp), fun _ => FinalizeHpShort_log E B pn⟩
    · rw [if_neg h2]
      exact FinalizeHpLong_log E B pn
  · rw [if_neg h1]
    exact ⟨fun h => absurd h (by simp), fun _ => CryptoLog.refl B⟩

theorem FinalizeAfterEncrypt_log (E : Env) (B : QUIC_PACKET_BUILDER) (pn p : Nat) :
    ((FinalizeAfterEncrypt E B pn p).2.2 = true →
        CryptoLogFailed B (FinalizeAfterEncrypt E B pn p).1) ∧
      ((FinalizeAfterEncrypt E B pn p).2.2 = false →
        CryptoLog B (FinalizeAfterEncrypt E B pn p).1) := by
  unfold FinalizeAfterEncrypt
  obtain ⟨hf, hs⟩ := FinalizeProtect_log E B pn
  cases h : (FinalizeProtect E B pn).2 with
  | true =>
    simp only [if_true]
    exact ⟨fun _ => hf h, fun h2 => absurd h2 (by simp)⟩
  | false =>
    simp only [Bool.false_eq_true, if_false]
    obtain ⟨kf, ks⟩ := FinalizeKeyPhase_log E (FinalizeProtect E B pn).1 p
    exact ⟨fun h2 => (hs h).trans_failed (kf h2), fun h2 => (hs h).trans (ks h2)⟩

theorem FinalizeEncrypt_log (E : Env) (B : QUIC_PACKET_BUILDER) (p : Nat) :
    ((FinalizeEncrypt E B p).2.2 = true → CryptoLogFailed B (FinalizeEncrypt E B p).1) ∧
      ((FinalizeEncrypt E B p).2.2 = false → CryptoLog B (FinalizeEncrypt E B p).1) := by
  by_cases he : B.Connection.EncryptionEnabled = true
  · cases hc : E.QuicEncrypt B.Calls B.Key B.Metadata.PacketNumber
      (readBytes (datagramBuffer B) B.PacketStart B.HeaderLength)
      (readBytes (datagramBuffer B) (B.PacketStart + B.HeaderLength)
        (u16 (p + B.EncryptionOverhead))) with
    | none =>
      rw [FinalizeEncrypt_none E B p he hc]
      refine ⟨fun _ => ⟨[Call.Encrypt B.Metadata.PacketNumber false], by rfl,
        by simp [Call.isCrypto]⟩, ?_⟩
      intro h
      exact absurd h (by simp)
    | some cipher =>
      rw [FinalizeEncrypt_some E B p cipher he hc]
      have h0 : CryptoLog B (logCall (writeDatagram
          { B with DatagramLength := u16 (B.DatagramLength + B.EncryptionOverhead) }
          (B.PacketStart + B.HeaderLength) cipher) (Call.Encrypt B.Metadata.PacketNumber true)) :=
        ⟨[Call.Encrypt B.Metadata.PacketNumber true], by rfl, by simp [Call.isCrypto]⟩
      obtain ⟨af, as⟩ := FinalizeAfterEncrypt_log E _
        (B.PacketStart + B.HeaderLength - B.PacketNumberLength) (u16 (p + B.EncryptionOverhead))
      exact ⟨fun h => h0.trans_failed (af h), fun h => h0.trans (as h)⟩
  · unfold FinalizeEncrypt
    rw [if_neg he]
    exact ⟨fun h => absurd h (by simp), fun _ => CryptoLog.refl B⟩

theorem Finalize_eq_exit (E : Env) (B : QUIC_PACKET_BUILDER) (a : Bool) :
    QuicPacketBuilderFinalize E B a =
      FinalizeExit E (FinalizeAtExit E B a) a (FinalQuicPacket E B a) := by
  unfold QuicPacketBuilderFinalize FinalizeAtExit FinalQuicPacket
  cases B.Datagram with
  | none => rfl
  | some d =>
    simp only
    split_ifs <;> rfl

theorem FinalizeUndoHeader_Calls (B : QUIC_PACKET_BUILDER) :
    (FinalizeUndoHeader B).Calls = B.Calls ∨
      (FinalizeUndoHeader B).Calls = Call.FreeSendDatagram :: B.Calls := by
  unfold FinalizeUndoHeader
  cases B.Datagram with
  | none => exact Or.inl rfl
  | some d =>
    simp only
    split_ifs
    · exact Or.inr rfl
    · exact Or.inl rfl

theorem FinalizeTrack_Calls (E : Env) (B : QUIC_PACKET_BUILDER) (p : Nat) :
    (FinalizeTrack E B p).Calls =
      Call.LossDetectionOnPacketSent { B.Metadata with
        SentTime := E.QuicTimeUs32 B.Calls
        PacketLength := u16 (B.HeaderLength + p) } :: B.Calls := by
  unfold FinalizeTrack
  simp only
  split_ifs <;> rfl

/-- On a crypto failure the part of finalize before `Exit:` logs crypto calls
only, the last of them the fatal error. -/
theorem FinalizeNonEmpty_log_failed (E : Env) (B : QUIC_PACKET_BUILDER) (d : QUIC_BUFFER)
    (a : Bool) (hf : FinalizeCryptoFailed E B d a = true) :
    CryptoLogFailed B (FinalizeNonEmpty E B d a) := by
  unfold FinalizeCryptoFailed at hf
  unfold FinalizeNonEmpty
  simp only
  rw [if_pos hf]
  obtain ⟨dl, e, q⟩ := (FinalizeEncrypt_log E _ _).1 hf
  exact ⟨dl, by rw [e, FinalizePadAndLength_Calls], q⟩

/-- Without a crypto failure the part of finalize before `Exit:` logs crypto
calls and then the notification of loss detection. -/
theorem FinalizeNonEmpty_log_ok (E : Env) (B : QUIC_PACKET_BUILDER) (d : QUIC_BUFFER)
    (a : Bool) (hf : FinalizeCryptoFailed E B d a = false) :
    ∃ (delta : List Call) (md : QUIC_SENT_PACKET_METADATA),
      (FinalizeNonEmpty E B d a).Calls =
        Call.LossDetectionOnPacketSent md :: delta ++ B.Calls ∧
      (∀ c ∈ delta, c.isCrypto = true) ∧
      md.IsRetransmittable = B.Metadata.IsRetransmittable := by
  unfold FinalizeCryptoFailed at hf
  unfold FinalizeNonEmpty
  simp only
  rw [hf]
  simp only [Bool.false_eq_true, if_false]
  obtain ⟨dl, e, q⟩ := (FinalizeEncrypt_log E _ _).2 hf
  have hm := congrArg (fun b : QUIC_PACKET_BUILDER => b.Metadata.IsRetransmittable)
    (FinalizeEncrypt_pad_noPad E B d.Length a
      (PaddedPayloadLength B (FinalizeMinimumDatagramLength E B d.Length a)
        (IsFinalQuicPacket E B d.Length a)))
  generalize (FinalizeEncrypt E (FinalizePadAndLength E B d.Length a)
      (PaddedPayloadLength B (FinalizeMinimumDatagramLength E B d.Length a)
        (IsFinalQuicPacket E B d.Length a))).2.1 = pl
  generalize (FinalizeEncrypt E (FinalizePadAndLength E B d.Length a)
      (PaddedPayloadLength B (FinalizeMinimumDatagramLength E B d.Length a)
        (IsFinalQuicPacket E B d.Length a))).1 = X at e hm ⊢
  refine ⟨dl, { X.Metadata with
    SentTime := E.QuicTimeUs32 X.Calls
    PacketLength := u16 (X.HeaderLength + pl) }, ?_, q, hm⟩
  rw [FinalizeTrack_Calls, e, FinalizePadAndLength_Calls]
  rfl

theorem Call.isCrypto_not_send (c : Call) (h : c.isCrypto = true) :
    c.isSend = false ∧ c.isClose = false ∧ c.isPacketSent = false ∧
      c.isRetransmittableSent = false ∧ c ≠ Call.LossDetectionUpdateTimer := by
  cases c <;> simp [Call.isCrypto] at h <;>
    simp [Call.isSend, Call.isClose, Call.isPacketSent, Call.isRetransmittableSent]

theorem Call.isSend_not_other (c : Call) (h : c.isSend = true) :
    c.isCrypto = false ∧ c.isClose = false ∧ c.isPacketSent = false ∧
      c.isRetransmittableSent = false ∧ c ≠ Call.LossDetectionUpdateTimer ∧
      (∀ n, c ≠ Call.HpComputeMask n false) ∧ c ≠ Call.ConnFatalError := by
  cases c <;> simp [Call.isSend] at h <;>
    simp [Call.isCrypto, Call.isClose, Call.isPacketSent, Call.isRetransmittableSent]

/-- A header-protection flush whose mask computation does not fail empties the
batch. -/
theorem FinalizeHeaderProtection_BatchCount (E : Env) (B : QUIC_PACKET_BUILDER)
    (h : ∀ n, Call.HpComputeMask n false ∉ newCalls B (QuicPacketBuilderFinalizeHeaderProtection E B)) :
    (QuicPacketBuilderFinalizeHeaderProtection E B).BatchCount = 0 := by
  have hc := FinalizeHeaderProtection_Calls E B
  rw [newCalls_append B _ _ hc] at h
  unfold QuicPacketBuilderFinalizeHeaderProtection
  cases hm : E.QuicHpComputeMask B.Calls B.Key B.BatchCount B.CipherBatch with
  | none =>
    rw [hm] at h
    exact absurd (h B.BatchCount) (by simp)
  | some mask => rfl

/-- The batch as `FlushAndSend` hands it to `QuicPacketBuilderSendBatch`. -/
theorem FlushAndSend_log (E : Env) (Y : QUIC_PACKET_BUILDER) (a : Bool) :
    ∃ hp sends : List Call,
      (FlushAndSend E Y a).Calls = sends ++ hp ++ Y.Calls ∧
      (∀ c ∈ hp, c.isCrypto = true) ∧
      (∀ c ∈ sends, c.isSend = true) ∧
      (sends ≠ [] ↔ (a || E.IsSendContextFull Y.SendContext) = true) ∧
      (sends ≠ [] → (∀ n, Call.HpComputeMask n false ∉ hp) →
        (FlushAndSend E Y a).BatchCount = 0) ∧
      (FlushAndSend E Y a).PacketBatchSent = (Y.PacketBatchSent || decide (sends ≠ [])) ∧
      (sends ≠ [] → (FlushAndSend E Y a).SendContext = none) ∧
      (sends = [] → FlushAndSend E Y a = Y) := by
  unfold FlushAndSend
  by_cases hs : (a || E.IsSendContextFull Y.SendContext) = true
  · rw [if_pos hs]
    by_cases hb : Y.BatchCount ≠ 0
    · rw [if_pos hb]
      have hc : (QuicPacketBuilderFinalizeHeaderProtection E Y).Calls =
          newCalls Y (QuicPacketBuilderFinalizeHeaderProtection E Y) ++ Y.Calls := by
        have h0 := FinalizeHeaderProtection_Calls E Y
        rw [newCalls_append Y _ _ h0]
        exact h0
      refine ⟨newCalls Y (QuicPacketBuilderFinalizeHeaderProtection E Y),
        [if Y.Path.LocalBoundExplicitly then
          Call.BindingSendTo (QuicPacketBuilderFinalizeHeaderProtection E Y).SendContext
        else Call.BindingSendFromTo (QuicPacketBuilderFinalizeHeaderProtection E Y).SendContext],
        ?_, ?_, ?_, ?_, ?_, ?_, ?_, ?_⟩
      · show _ :: (QuicPacketBuilderFinalizeHeaderProtection E Y).Calls = _
        rw [hc]
        have hp : (QuicPacketBuilderFinalizeHeaderProtection E Y).Path = Y.Path := by
          have h1 := congrArg (fun b : QUIC_PACKET_BUILDER => b.Path)
            (FinalizeHeaderProtection_noHp E Y)
          exact h1
        rw [hp]
        simp
      · obtain ⟨dl, e, q⟩ := FinalizeHeaderProtection_log E Y
        rw [newCalls_append Y _ _ e]
        exact q
      · intro c hc2
        rw [List.mem_singleton] at hc2
        rw [hc2]
        split_ifs <;> rfl
      · simp [hs]
      · intro _ hn
        exact FinalizeHeaderProtection_BatchCount E Y hn
      · simp [QuicPacketBuilderSendBatch]
      · intro _; rfl
      · intro h; exact absurd h (by simp)
    · rw [if_neg hb]
      refine ⟨[], [if Y.Path.LocalBoundExplicitly then Call.BindingSendTo Y.SendContext
        else Call.BindingSendFromTo Y.SendContext], rfl, by simp, ?_, by simp [hs], ?_, ?_, ?_, ?_⟩
      · intro c hc2
        rw [List.mem_singleton] at hc2
        rw [hc2]
        split_ifs <;> rfl
      · intro _ _
        exact not_not.1 hb
      · simp [QuicPacketBuilderSendBatch]
      · intro _; rfl
      · intro h; exact absurd h (by simp)
  · rw [if_neg hs]
    refine ⟨[], [], rfl, by simp, by simp, by simp [hs], ?_, by simp, ?_, fun _ => rfl⟩
    · intro h; exact absurd rfl h
    · intro h; exact absurd rfl h

theorem any_isRetransmittableSent_crypto (dc : List Call) (q : ∀ c ∈ dc, c.isCrypto = true) :
    dc.any Call.isRetransmittableSent = false := by
  rw [List.any_eq_false]
  intro c hc
  rw [(Call.isCrypto_not_send c (q c hc)).2.2.2.1]
  simp

theorem FinalizeTrack_flags (E : Env) (B : QUIC_PACKET_BUILDER) (p : Nat) :
    (FinalizeTrack E B p).PacketBatchRetransmittable =
        (B.PacketBatchRetransmittable || B.Metadata.IsRetransmittable) ∧
      (FinalizeTrack E B p).PacketBatchSent = B.PacketBatchSent ∧
      (FinalizeTrack E B p).PacketType = B.PacketType := by
  cases h : B.Metadata.IsRetransmittable <;> simp [FinalizeTrack, h]

theorem FinalizeUndoHeader_flags (B : QUIC_PACKET_BUILDER) :
    (FinalizeUndoHeader B).PacketBatchRetransmittable = B.PacketBatchRetransmittable ∧
      (FinalizeUndoHeader B).PacketBatchSent = B.PacketBatchSent ∧
      (FinalizeUndoHeader B).PacketType = B.PacketType := by
  unfold FinalizeUndoHeader
  cases B.Datagram with
  | none => exact ⟨rfl, rfl, rfl⟩
  | some d =>
    simp only
    split_ifs <;> exact ⟨rfl, rfl, rfl⟩

/-- What the part of finalize before `Exit:` adds to the call log, and what it
does to the marks of the batch. -/
theorem FinalizeAtExit_log (E : Env) (B : QUIC_PACKET_BUILDER) (a : Bool) :
    ∃ body : List Call,
      (FinalizeAtExit E B a).Calls = body ++ B.Calls ∧
      (FinalizeFailed E B a = true →
        ∃ dc, body = Call.ConnFatalError :: dc ∧ ∀ c ∈ dc, c.isCrypto = true) ∧
      (FinalizeFailed E B a = false →
        body = [] ∨ body = [Call.FreeSendDatagram] ∨
          ∃ dc md, body = Call.LossDetectionOnPacketSent md :: dc ∧
            (∀ c ∈ dc, c.isCrypto = true) ∧
            md.IsRetransmittable = B.Metadata.IsRetransmittable) ∧
      (FinalizeAtExit E B a).PacketBatchRetransmittable =
        (B.PacketBatchRetransmittable || body.any Call.isRetransmittableSent) ∧
      (FinalizeAtExit E B a).PacketBatchSent = B.PacketBatchSent ∧
      (FinalizeAtExit E B a).PacketType = B.PacketType := by
  unfold FinalizeAtExit FinalizeFailed
  cases hd : B.Datagram with
  | none =>
    exact ⟨[], rfl, fun h => absurd h (by simp), fun _ => Or.inl rfl, by simp, rfl, rfl⟩
  | some d =>
    simp only
    by_cases hfc : B.Metadata.FrameCount = 0
    · rw [if_pos hfc, if_pos hfc]
      obtain ⟨h1, h2, h3⟩ := FinalizeUndoHeader_flags B
      rcases FinalizeUndoHeader_Calls B with hc | hc
      · exact ⟨[], hc, fun h => absurd h (by simp), fun _ => Or.inl rfl, by simp [h1], h2, h3⟩
      · exact ⟨[Call.FreeSendDatagram], hc, fun h => absurd h (by simp),
          fun _ => Or.inr (Or.inl rfl), by simp [h1, Call.isRetransmittableSent], h2, h3⟩
    · rw [if_neg hfc, if_neg hfc]
      have hview := FinalizeEncrypt_pad_noPad E B d.Length a
        (PaddedPayloadLength B (FinalizeMinimumDatagramLength E B d.Length a)
          (IsFinalQuicPacket E B d.Length a))
      cases hf : FinalizeCryptoFailed E B d a with
      | true =>
        obtain ⟨dc, e, q⟩ := FinalizeNonEmpty_log_failed E B d a hf
        have hx : FinalizeNonEmpty E B d a = (FinalizeEncrypt E
            (FinalizePadAndLength E B d.Length a)
            (PaddedPayloadLength B (FinalizeMinimumDatagramLength E B d.Length a)
              (IsFinalQuicPacket E B d.Length a))).1 := by
          unfold FinalizeCryptoFailed at hf
          unfold FinalizeNonEmpty
          simp only
          rw [if_pos hf]
        refine ⟨Call.ConnFatalError :: dc, e, fun _ => ⟨dc, rfl, q⟩,
          fun h => absurd h (by simp), ?_, ?_, ?_⟩
        · rw [List.any_cons, any_isRetransmittableSent_crypto dc q, hx]
          have h1 := congrArg (fun b : QUIC_PACKET_BUILDER => b.PacketBatchRetransmittable) hview
          simp only [Call.isRetransmittableSent, Bool.or_false]
          exact h1
        · rw [hx]
          have h1 := congrArg (fun b : QUIC_PACKET_BUILDER => b.PacketBatchSent) hview
          exact h1
        · rw [hx]
          have h1 := congrArg (fun b : QUIC_PACKET_BUILDER => b.PacketType) hview
          exact h1
      | false =>
        obtain ⟨dc, md, e, q, hmd⟩ := FinalizeNonEmpty_log_ok E B d a hf
        have hx : FinalizeNonEmpty E B d a = FinalizeTrack E (FinalizeEncrypt E
            (FinalizePadAndLength E B d.Length a)
            (PaddedPayloadLength B (FinalizeMinimumDatagramLength E B d.Length a)
              (IsFinalQuicPacket E B d.Length a))).1 (FinalizeEncrypt E
            (FinalizePadAndLength E B d.Length a)
            (PaddedPayloadLength B (FinalizeMinimumDatagramLength E B d.Length a)
              (IsFinalQuicPacket E B d.Length a))).2.1 := by
          unfold FinalizeCryptoFailed at hf
          unfold FinalizeNonEmpty
          simp only
          rw [hf]
          simp
        obtain ⟨f1, f2, f3⟩ := FinalizeTrack_flags E (FinalizeEncrypt E
            (FinalizePadAndLength E B d.Length a)
            (PaddedPayloadLength B (FinalizeMinimumDatagramLength E B d.Length a)
              (IsFinalQuicPacket E B d.Length a))).1 (FinalizeEncrypt E
            (FinalizePadAndLength E B d.Length a)
            (PaddedPayloadLength B (FinalizeMinimumDatagramLength E B d.Length a)
              (IsFinalQuicPacket E B d.Length a))).2.1
        have v1 := congrArg (fun b : QUIC_PACKET_BUILDER => b.PacketBatchRetransmittable) hview
        have v2 := congrArg (fun b : QUIC_PACKET_BUILDER => b.PacketBatchSent) hview
        have v3 := congrArg (fun b : QUIC_PACKET_BUILDER => b.PacketType) hview
        have v4 := congrArg (fun b : QUIC_PACKET_BUILDER => b.Metadata.IsRetransmittable) hview
        refine ⟨Call.LossDetectionOnPacketSent md :: dc, e, fun h => absurd h (by simp),
          fun _ => Or.inr (Or.inr ⟨dc, md, rfl, q, hmd⟩), ?_, ?_, ?_⟩
        · rw [List.any_cons, any_isRetransmittableSent_crypto dc q, hx, f1]
          simp only [Call.isRetransmittableSent, Bool.or_false, hmd]
          exact congrArg₂ (fun x y => x || y) v1 v4
        · rw [hx, f2]; exact v2
        · rw [hx, f3]; exact v3

theorem CompleteDatagram_fields (B : QUIC_PACKET_BUILDER) :
    (CompleteDatagram B).Calls = B.Calls ∧
      (CompleteDatagram B).BatchCount = B.BatchCount ∧
      (CompleteDatagram B).PacketBatchSent = B.PacketBatchSent ∧
      (CompleteDatagram B).PacketBatchRetransmittable = B.PacketBatchRetransmittable ∧
      (CompleteDatagram B).PacketType = B.PacketType := by
  unfold CompleteDatagram
  cases B.Datagram <;> exact ⟨rfl, rfl, rfl, rfl, rfl⟩

theorem CloseAfterRetry_fields (E : Env) (B : QUIC_PACKET_BUILDER) :
    (CloseAfterRetry E B).Calls =
        (if B.PacketType = E.QUIC_RETRY then
          [Call.ConnCloseLocally true E.QUIC_ERROR_NO_ERROR] else []) ++ B.Calls ∧
      (CloseAfterRetry E B).BatchCount = B.BatchCount ∧
      (CloseAfterRetry E B).PacketBatchSent = B.PacketBatchSent ∧
      (CloseAfterRetry E B).PacketBatchRetransmittable = B.PacketBatchRetransmittable ∧
      (CloseAfterRetry E B).SendContext = B.SendContext := by
  unfold CloseAfterRetry
  split_ifs <;> exact ⟨rfl, rfl, rfl, rfl, rfl⟩

/-- What the code after `Exit:` adds to the call log and does to the batch. -/
theorem FinalizeExit_log (E : Env) (X : QUIC_PACKET_BUILDER) (a f : Bool) :
    ∃ hp sends : List Call,
      (FinalizeExit E X a f).Calls =
        (if f = true ∧ X.PacketType = E.QUIC_RETRY then
          [Call.ConnCloseLocally true E.QUIC_ERROR_NO_ERROR] else []) ++
          sends ++ hp ++ X.Calls ∧
      (∀ c ∈ hp, c.isCrypto = true) ∧
      (∀ c ∈ sends, c.isSend = true) ∧
      (sends ≠ [] ↔
        f = true ∧ (a || E.IsSendContextFull (CompleteDatagram X).SendContext) = true) ∧
      (sends ≠ [] → (∀ n, Call.HpComputeMask n false ∉ hp) →
        (FinalizeExit E X a f).BatchCount = 0) ∧
      (FinalizeExit E X a f).PacketBatchSent = (X.PacketBatchSent || decide (sends ≠ [])) ∧
      (sends ≠ [] → (FinalizeExit E X a f).SendContext = none) ∧
      (FinalizeExit E X a f).PacketBatchRetransmittable = X.PacketBatchRetransmittable := by
  cases f with
  | false =>
    rw [FinalizeExit_not_final]
    exact ⟨[], [], by simp, by simp, by simp, by simp, fun h => absurd rfl h, by simp,
      fun h => absurd rfl h, rfl⟩
  | true =>
    unfold FinalizeExit
    simp only [if_true, true_and]
    obtain ⟨c1, c2, c3, c4, c5⟩ := CompleteDatagram_fields X
    obtain ⟨hp, sends, l1, l2, l3, l4, l5, l6, l7, l8⟩ :=
      FlushAndSend_log E (CompleteDatagram X) a
    obtain ⟨r1, r2, r3, r4, r5⟩ := CloseAfterRetry_fields E (FlushAndSend E (CompleteDatagram X) a)
    have hty : (FlushAndSend E (CompleteDatagram X) a).PacketType = X.PacketType := by
      have h1 := congrArg (fun b : QUIC_PACKET_BUILDER => b.PacketType)
        (FlushAndSend_noExit E (CompleteDatagram X) a)
      exact h1.trans c5
    have hpr : (FlushAndSend E (CompleteDatagram X) a).PacketBatchRetransmittable =
        X.PacketBatchRetransmittable := by
      have h1 := congrArg (fun b : QUIC_PACKET_BUILDER => b.PacketBatchRetransmittable)
        (FlushAndSend_noExit E (CompleteDatagram X) a)
      exact h1.trans c4
    refine ⟨hp, sends, ?_, l2, l3, l4, ?_, ?_, ?_, ?_⟩
    · rw [r1, hty, l1, c1]
      simp
    · intro h1 h2
      rw [r2]
      exact l5 h1 h2
    · rw [r3, l6, c3]
    · intro h1
      rw [r5]
      exact l7 h1
    · rw [r4, hpr]

/-- The whole of what one call of finalize adds to the call log: newest
first, the close after a Retry, the hand-over of the send context, the calls
of the header-protection flush that precedes it, and the calls made before
`Exit:`. -/
theorem Finalize_log (E : Env) (B : QUIC_PACKET_BUILDER) (a : Bool) :
    ∃ body hp sends : List Call,
      newCalls B (QuicPacketBuilderFinalize E B a) =
        (if FinalQuicPacket E B a = true ∧ B.PacketType = E.QUIC_RETRY then
          [Call.ConnCloseLocally true E.QUIC_ERROR_NO_ERROR] else []) ++
          sends ++ hp ++ body ∧
      (FinalizeFailed E B a = true →
        ∃ dc, body = Call.ConnFatalError :: dc ∧ ∀ c ∈ dc, c.isCrypto = true) ∧
      (FinalizeFailed E B a = false →
        body = [] ∨ body = [Call.FreeSendDatagram] ∨
          ∃ dc md, body = Call.LossDetectionOnPacketSent md :: dc ∧
            (∀ c ∈ dc, c.isCrypto = true) ∧
            md.IsRetransmittable = B.Metadata.IsRetransmittable) ∧
      (∀ c ∈ hp, c.isCrypto = true) ∧
      (∀ c ∈ sends, c.isSend = true) ∧
      (sends ≠ [] ↔ FinalQuicPacket E B a = true ∧
        (a || E.IsSendContextFull (CompleteDatagram (FinalizeAtExit E B a)).SendContext) = true) ∧
      (sends ≠ [] → (∀ n, Call.HpComputeMask n false ∉ hp) →
        (QuicPacketBuilderFinalize E B a).BatchCount = 0) ∧
      (QuicPacketBuilderFinalize E B a).PacketBatchSent =
        (B.PacketBatchSent || decide (sends ≠ [])) ∧
      (sends ≠ [] → (QuicPacketBuilderFinalize E B a).SendContext = none) ∧
      (QuicPacketBuilderFinalize E B a).PacketBatchRetransmittable =
        (B.PacketBatchRetransmittable || body.any Call.isRetransmittableSent) := by
  obtain ⟨body, b1, b2, b3, b4, b5, b6⟩ := FinalizeAtExit_log E B a
  obtain ⟨hp, sends, x1, x2, x3, x4, x5, x6, x7, x8⟩ :=
    FinalizeExit_log E (FinalizeAtExit E B a) a (FinalQuicPacket E B a)
  rw [← Finalize_eq_exit] at x1 x5 x6 x7 x8
  rw [b6] at x1
  refine ⟨body, hp, sends, ?_, b2, b3, x2, x3, x4, x5, ?_, x7, ?_⟩
  · apply newCalls_append
    rw [x1, b1]
    simp
  · rw [x6, b5]
  · rw [x8, b4]

/-- The exit code of finalize when the header-protection flush before the
hand-over fails: the fatal error is reported, the send context is handed over
all the same, and the batch keeps its headers. -/
theorem FinalizeExit_mask_failure (E : Env) (X : QUIC_PACKET_BUILDER) (a : Bool)
    (hfull : (a || E.IsSendContextFull (CompleteDatagram X).SendContext) = true)
    (hb : X.BatchCount ≠ 0)
    (hm : E.QuicHpComputeMask X.Calls X.Key X.BatchCount X.CipherBatch = none) :
    (FinalizeExit E X a true).BatchCount = X.BatchCount ∧
      (FinalizeExit E X a true).SendContext = none ∧
      ∃ s, s.isSend = true ∧
        (FinalizeExit E X a true).Calls =
          (if X.PacketType = E.QUIC_RETRY then
            [Call.ConnCloseLocally true E.QUIC_ERROR_NO_ERROR] else []) ++
          s :: Call.ConnFatalError :: Call.HpComputeMask X.BatchCount false :: X.Calls := by
  obtain ⟨c1, c2, c3, c4, c5⟩ := CompleteDatagram_fields X
  have c6 : (CompleteDatagram X).Key = X.Key := by
    unfold CompleteDatagram
    cases X.Datagram <;> rfl
  have c7 : (CompleteDatagram X).CipherBatch = X.CipherBatch := by
    unfold CompleteDatagram
    cases X.Datagram <;> rfl
  have hfs : FlushAndSend E (CompleteDatagram X) a =
      QuicPacketBuilderSendBatch
        { CompleteDatagram X with
          Calls := Call.ConnFatalError ::
            Call.HpComputeMask (CompleteDatagram X).BatchCount false ::
              (CompleteDatagram X).Calls } := by
    unfold FlushAndSend
    rw [if_pos hfull, if_pos (by rw [c2]; exact hb)]
    have hm2 : E.QuicHpComputeMask (CompleteDatagram X).Calls (CompleteDatagram X).Key
        (CompleteDatagram X).BatchCount (CompleteDatagram X).CipherBatch = none := by
      rw [c1, c6, c2, c7]
      exact hm
    unfold QuicPacketBuilderFinalizeHeaderProtection
    rw [hm2]
  obtain ⟨r1, r2, r3, r4, r5⟩ := CloseAfterRetry_fields E (FlushAndSend E (CompleteDatagram X) a)
  have hty : (FlushAndSend E (CompleteDatagram X) a).PacketType = X.PacketType := by
    have h1 := congrArg (fun b : QUIC_PACKET_BUILDER => b.PacketType)
      (FlushAndSend_noExit E (CompleteDatagram X) a)
    exact h1.trans c5
  unfold FinalizeExit
  simp only [if_true]
  refine ⟨?_, ?_, ?_⟩
  · rw [r2, hfs]
    exact c2
  · rw [r5, hfs]
    rfl
  · rw [r1, hty, hfs]
    refine ⟨if (CompleteDatagram X).Path.LocalBoundExplicitly then
        Call.BindingSendTo (CompleteDatagram X).SendContext
      else Call.BindingSendFromTo (CompleteDatagram X).SendContext, ?_, ?_⟩
    · split_ifs <;> rfl
    · show _ ++ _ :: Call.ConnFatalError ::
          Call.HpComputeMask (CompleteDatagram X).BatchCount false ::
            (CompleteDatagram X).Calls = _
      rw [c1, c2]

/-- C12 as amended: for a call of finalize that hands the send context to the
datapath, (i) if no header-protection mask computation fails during the call,
the header-protection batch is empty at the hand-over (and still is when
finalize returns: nothing after the hand-over touches the batch), and (ii) if
the batch holds headers when the `Exit:` label is reached and the mask
computation of the flush that precedes the hand-over fails, the fatal error is
reported, the send context is handed over all the same as the next call, and
the batch count is what it was at `Exit:`.  Prepare and cleanup hand the send
context over only through finalize. -/
theorem C12_batch_empty_when_send_context_handed_over (E : Env) (B : QUIC_PACKET_BUILDER)
    (a : Bool)
    (hsend : ∃ c ∈ newCalls B (QuicPacketBuilderFinalize E B a), c.isSend = true) :
    ((∀ c ∈ newCalls B (QuicPacketBuilderFinalize E B a), c.isMaskFailure = false) →
      (QuicPacketBuilderFinalize E B a).BatchCount = 0 ∧
        (QuicPacketBuilderFinalize E B a).SendContext = none) ∧
    ((FinalizeAtExit E B a).BatchCount ≠ 0 →
      E.QuicHpComputeMask (FinalizeAtExit E B a).Calls (FinalizeAtExit E B a).Key
        (FinalizeAtExit E B a).BatchCount (FinalizeAtExit E B a).CipherBatch = none →
      (QuicPacketBuilderFinalize E B a).BatchCount = (FinalizeAtExit E B a).BatchCount ∧
        (QuicPacketBuilderFinalize E B a).SendContext = none ∧
        ∃ s, s.isSend = true ∧
          (QuicPacketBuilderFinalize E B a).Calls =
            (if (FinalizeAtExit E B a).PacketType = E.QUIC_RETRY then
              [Call.ConnCloseLocally true E.QUIC_ERROR_NO_ERROR] else []) ++
            s :: Call.ConnFatalError ::
              Call.HpComputeMask (FinalizeAtExit E B a).BatchCount false ::
                (FinalizeAtExit E B a).Calls) := by
  obtain ⟨body, hp, sends, l1, l2, l3, l4, l5, l6, l7, _, l9, _⟩ := Finalize_log E B a
  have hs : sends ≠ [] := by
    rw [l1] at hsend
    intro hnil
    obtain ⟨c, hc, hcs⟩ := hsend
    rw [hnil] at hc
    simp only [List.append_nil, List.mem_append] at hc
    rcases hc with (hc | hc) | hc
    · split_ifs at hc
      · rw [List.mem_singleton] at hc
        rw [hc] at hcs
        exact absurd hcs (by simp [Call.isSend])
      · exact absurd hc (by simp)
    · rw [(Call.isCrypto_not_send c (l4 c hc)).1] at hcs
      exact absurd hcs (by simp)
    · cases hf : FinalizeFailed E B a with
      | true =>
        obtain ⟨dc, e, q⟩ := l2 hf
        rw [e] at hc
        rcases List.mem_cons.1 hc with rfl | hc
        · exact absurd hcs (by simp [Call.isSend])
        · rw [(Call.isCrypto_not_send c (q c hc)).1] at hcs
          exact absurd hcs (by simp)
      | false =>
        rcases l3 hf with e | e | ⟨dc, md, e, q, -⟩
        · rw [e] at hc; exact absurd hc (by simp)
        · rw [e, List.mem_singleton] at hc
          rw [hc] at hcs
          exact absurd hcs (by simp [Call.isSend])
        · rw [e] at hc
          rcases List.mem_cons.1 hc with rfl | hc
          · exact absurd hcs (by simp [Call.isSend])
          · rw [(Call.isCrypto_not_send c (q c hc)).1] at hcs
            exact absurd hcs (by simp)
  refine ⟨fun hmask => ⟨l7 hs ?_, l9 hs⟩, fun hb hm => ?_⟩
  · intro n hn
    rw [l1] at hmask
    have h := hmask (Call.HpComputeMask n false) (by simp [hn])
    exact absurd h (by simp [Call.isMaskFailure])
  · obtain ⟨hfinal, hfull⟩ := l6.1 hs
    rw [Finalize_eq_exit, hfinal]
    exact FinalizeExit_mask_failure E _ a hfull hb hm

/-- C12 as amended, on the sample short-header packet finalized with all done:
with the sample crypto provider the send context goes to the datapath, no mask
computation fails, and the batch is empty; with the provider that refuses the
mask the send context goes to the datapath behind the fatal error and the
batch keeps its header. -/
theorem C12_batch_empty_when_send_context_handed_over_witness :
    ((QuicPacketBuilderFinalize sampleEnv sampleShortFramed true).BatchCount = 0 ∧
      (QuicPacketBuilderFinalize sampleEnv sampleShortFramed true).SendContext = none) ∧
    ((QuicPacketBuilderFinalize sampleMaskFailureEnv sampleShortFramed true).BatchCount =
        (FinalizeAtExit sampleMaskFailureEnv sampleShortFramed true).BatchCount ∧
      (QuicPacketBuilderFinalize sampleMaskFailureEnv sampleShortFramed true).SendContext = none ∧
      ∃ s, s.isSend = true ∧
          (QuicPacketBuilderFinalize sampleMaskFailureEnv sampleShortFramed true).Calls =
            (if (FinalizeAtExit sampleMaskFailureEnv sampleShortFramed true).PacketType =
                sampleMaskFailureEnv.QUIC_RETRY then
              [Call.ConnCloseLocally true sampleMaskFailureEnv.QUIC_ERROR_NO_ERROR] else []) ++
            s :: Call.ConnFatalError ::
              Call.HpComputeMask
                (FinalizeAtExit sampleMaskFailureEnv sampleShortFramed true).BatchCount false ::
                (FinalizeAtExit sampleMaskFailureEnv sampleShortFramed true).Calls) :=
  ⟨(C12_batch_empty_when_send_context_handed_over sampleEnv sampleShortFramed true
      (by decide)).1 (by decide),
    (C12_batch_empty_when_send_context_handed_over sampleMaskFailureEnv sampleShortFramed true
      (by decide)).2 (by decide) (by decide)⟩

/-- C12 as stated fails when the mask computation of the flush fails: the
sample short-header packet is finalized with all done, the crypto provider
refuses the mask, and the send context is handed to the datapath with one
header still in the batch. -/
theorem C12_send_context_handed_over_with_header_in_batch :
    (∃ c ∈ newCalls sampleShortFramed
        (QuicPacketBuilderFinalize sampleMaskFailureEnv sampleShortFramed true),
      c.isSend = true) ∧
    (QuicPacketBuilderFinalize sampleMaskFailureEnv sampleShortFramed true).BatchCount = 1 ∧
    (QuicPacketBuilderFinalize sampleMaskFailureEnv sampleShortFramed true).SendContext = none := by
  refine ⟨by decide, by decide, by decide⟩

/-- The calls finalize makes before `Exit:` hand nothing over and close
nothing. -/
theorem Finalize_body_quiet (E : Env) (B : QUIC_PACKET_BUILDER) (a : Bool) (body : List Call)
    (l2 : FinalizeFailed E B a = true →
      ∃ dc, body = Call.ConnFatalError :: dc ∧ ∀ c ∈ dc, c.isCrypto = true)
    (l3 : FinalizeFailed E B a = false →
      body = [] ∨ body = [Call.FreeSendDatagram] ∨
        ∃ dc md, body = Call.LossDetectionOnPacketSent md :: dc ∧
          (∀ c ∈ dc, c.isCrypto = true) ∧
          md.IsRetransmittable = B.Metadata.IsRetransmittable) :
    ∀ c ∈ body, c.isSend = false ∧ c.isClose = false ∧ c ≠ Call.LossDetectionUpdateTimer ∧
      (FinalizeFailed E B a = true → c.isPacketSent = false) := by
  intro c hc
  cases hf : FinalizeFailed E B a with
  | true =>
    obtain ⟨dc, e, q⟩ := l2 hf
    rw [e] at hc
    rcases List.mem_cons.1 hc with rfl | hc
    · simp [Call.isSend, Call.isClose, Call.isPacketSent]
    · obtain ⟨h1, h2, h3, -, h5⟩ := Call.isCrypto_not_send c (q c hc)
      exact ⟨h1, h2, h5, fun _ => h3⟩
  | false =>
    rcases l3 hf with e | e | ⟨dc, md, e, q, -⟩
    · rw [e] at hc; exact absurd hc (by simp)
    · rw [e, List.mem_singleton] at hc
      rw [hc]
      simp [Call.isSend, Call.isClose]
    · rw [e] at hc
      rcases List.mem_cons.1 hc with rfl | hc
      · simp [Call.isSend, Call.isClose]
      · obtain ⟨h1, h2, h3, -, h5⟩ := Call.isCrypto_not_send c (q c hc)
        exact ⟨h1, h2, h5, fun h => absurd h (by simp)⟩

theorem FinalizeFailed_some (E : Env) (B : QUIC_PACKET_BUILDER) (a : Bool)
    (h : FinalizeFailed E B a = true) :
    ∃ d, B.Datagram = some d ∧ B.Metadata.FrameCount ≠ 0 ∧
      FinalizeAtExit E B a = FinalizeNonEmpty E B d a := by
  unfold FinalizeFailed at h
  unfold FinalizeAtExit
  cases hd : B.Datagram with
  | none => rw [hd] at h; exact absurd h (by simp)
  | some d =>
    rw [hd] at h
    simp only at h ⊢
    by_cases hfc : B.Metadata.FrameCount = 0
    · rw [if_pos hfc] at h; exact absurd h (by simp)
    · rw [if_neg hfc]
      exact ⟨d, rfl, hfc, rfl⟩

/-- C13 as amended: when AEAD encryption, the mask computation of a
long-header packet or send-triggered key generation fails in a call of
finalize, the builder reports a fatal error to the connection and does not
notify loss detection of the packet; the send context is handed to the
datapath exactly as after any other packet, that is when the packet is the
last of its datagram and all is done or the datapath reports the context
full, and otherwise stays with the builder. -/
theorem C13_crypto_failure_is_fatal_and_not_tracked (E : Env) (B : QUIC_PACKET_BUILDER)
    (a : Bool) (hfail : FinalizeFailed E B a = true) :
    Call.ConnFatalError ∈ newCalls B (QuicPacketBuilderFinalize E B a) ∧
      (∀ c ∈ newCalls B (QuicPacketBuilderFinalize E B a), c.isPacketSent = false) ∧
      ((∃ c ∈ newCalls B (QuicPacketBuilderFinalize E B a), c.isSend = true) ↔
        FinalQuicPacket E B a = true ∧
          (a || E.IsSendContextFull
            (CompleteDatagram (FinalizeAtExit E B a)).SendContext) = true) ∧
      (FinalQuicPacket E B a = false →
        (QuicPacketBuilderFinalize E B a).SendContext.isSome = B.SendContext.isSome) := by
  obtain ⟨body, hp, sends, l1, l2, l3, l4, l5, l6, -, -, -, -⟩ := Finalize_log E B a
  have hq := Finalize_body_quiet E B a body l2 l3
  obtain ⟨dc, e, -⟩ := l2 hfail
  refine ⟨?_, ?_, ?_, ?_⟩
  · rw [l1, e]
    simp
  · intro c hc
    rw [l1] at hc
    simp only [List.mem_append] at hc
    rcases hc with ((hc | hc) | hc) | hc
    · split_ifs at hc
      · rw [List.mem_singleton] at hc
        rw [hc]; rfl
      · exact absurd hc (by simp)
    · exact (Call.isSend_not_other c (l5 c hc)).2.2.1
    · exact (Call.isCrypto_not_send c (l4 c hc)).2.2.1
    · exact (hq c hc).2.2.2 hfail
  · rw [← l6, l1]
    constructor
    · rintro ⟨c, hc, hcs⟩
      simp only [List.mem_append] at hc
      rcases hc with ((hc | hc) | hc) | hc
      · split_ifs at hc
        · rw [List.mem_singleton] at hc
          rw [hc] at hcs
          exact absurd hcs (by simp [Call.isSend])
        · exact absurd hc (by simp)
      · intro hnil
        rw [hnil] at hc
        exact absurd hc (by simp)
      · rw [(Call.isCrypto_not_send c (l4 c hc)).1] at hcs
        exact absurd hcs (by simp)
      · rw [(hq c hc).1] at hcs
        exact absurd hcs (by simp)
    · intro hne
      obtain ⟨c, hc⟩ := List.exists_mem_of_ne_nil sends hne
      exact ⟨c, by simp [hc], l5 c hc⟩
  · intro hfin
    obtain ⟨d, -, -, hx⟩ := FinalizeFailed_some E B a hfail
    rw [Finalize_eq_exit, hfin, FinalizeExit_not_final, hx, FinalizeNonEmpty_SendContext_isSome]

/-- C13 as amended, on the sample short-header packet when encryption fails. -/
theorem C13_crypto_failure_is_fatal_and_not_tracked_witness :
    Call.ConnFatalError ∈ newCalls sampleShortFramed
        (QuicPacketBuilderFinalize sampleEncryptFailureEnv sampleShortFramed false) ∧
      ∀ c ∈ newCalls sampleShortFramed
        (QuicPacketBuilderFinalize sampleEncryptFailureEnv sampleShortFramed false),
        c.isPacketSent = false :=
  ⟨(C13_crypto_failure_is_fatal_and_not_tracked sampleEncryptFailureEnv sampleShortFramed false
      (by decide)).1,
    (C13_crypto_failure_is_fatal_and_not_tracked sampleEncryptFailureEnv sampleShortFramed false
      (by decide)).2.1⟩

/-- C13 as stated fails: encryption of the sample short-header packet fails in
a finalize with all done, and the send context is handed to the datapath with
the datagram that holds the packet, 125 bytes long. -/
theorem C13_send_context_handed_over_after_encryption_failure :
    FinalizeFailed sampleEncryptFailureEnv sampleShortFramed true = true ∧
      (∃ c ∈ newCalls sampleShortFramed
          (QuicPacketBuilderFinalize sampleEncryptFailureEnv sampleShortFramed true),
        c.isSend = true) ∧
      (sentContext (newCalls sampleShortFramed
          (QuicPacketBuilderFinalize sampleEncryptFailureEnv sampleShortFramed true))).map
        (fun c => c.Datagrams.map (fun d => d.Length)) = some [125] := by
  refine ⟨by decide, by decide, by decide⟩

/-! ## The control-frame selector -/

theorem lor_eq_zero_iff (p q : Nat) : Nat.lor p q = 0 ↔ p = 0 ∧ q = 0 := by
  constructor
  · intro h
    have hb : ∀ i, (p ||| q).testBit i = false := by
      intro i
      have h2 : p ||| q = 0 := h
      rw [h2]
      simp
    constructor
    · apply Nat.eq_of_testBit_eq
      intro i
      have h3 := hb i
      rw [Nat.testBit_or, Bool.or_eq_false_iff] at h3
      simp [h3.1]
    · apply Nat.eq_of_testBit_eq
      intro i
      have h3 := hb i
      rw [Nat.testBit_or, Bool.or_eq_false_iff] at h3
      simp [h3.2]
  · rintro ⟨rfl, rfl⟩
    rfl

/-- Testing a mask made of several flags is testing the flags one by one. -/
theorem flagSet_lor (f a b : Nat) :
    flagSet f (Nat.lor a b) = (flagSet f a || flagSet f b) := by
  unfold flagSet
  have h : Nat.land f (Nat.lor a b) = Nat.lor (Nat.land f a) (Nat.land f b) :=
    Nat.and_or_distrib_left f a b
  rw [h]
  by_cases h1 : Nat.land f a = 0
  · by_cases h2 : Nat.land f b = 0
    · rw [(lor_eq_zero_iff _ _).2 ⟨h1, h2⟩, h1, h2]
      rfl
    · have h3 : Nat.lor (Nat.land f a) (Nat.land f b) ≠ 0 :=
        fun h => h2 ((lor_eq_zero_iff _ _).1 h).2
      simp [h2, h3]
  · have h3 : Nat.lor (Nat.land f a) (Nat.land f b) ≠ 0 :=
      fun h => h1 ((lor_eq_zero_iff _ _).1 h).1
    simp [h1, h3]

/-- The body of the loop returns for a key type exactly when the rule of the
specification matches it. -/
theorem ControlFramesForKeyType_eq (S : ConnEnv) (E : Env) (C : QUIC_CONNECTION)
    (f kt : Nat) :
    ControlFramesForKeyType S E C f kt =
      if ControlFramesMatch S C f kt = true then
        some (if S.QuicKeyTypeToEncryptLevel kt = S.QUIC_ENCRYPT_LEVEL_1_RTT then
            E.SEND_PACKET_SHORT_HEADER_TYPE
          else S.QuicEncryptLevelToPacketType (S.QuicKeyTypeToEncryptLevel kt),
          C.TlsState.WriteKeys.getD kt none)
      else none := by
  unfold ControlFramesForKeyType ControlFramesMatch
  cases hk : C.TlsState.WriteKeys.getD kt none with
  | none => simp
  | some k =>
    simp only [Option.isSome_some, Bool.true_and, Bool.or_eq_true, Bool.and_eq_true,
      decide_eq_true_eq]
    by_cases h1 : S.QuicKeyTypeToEncryptLevel kt = S.QUIC_ENCRYPT_LEVEL_1_RTT
    · rw [if_pos h1, if_pos (Or.inl (Or.inl h1)), if_pos h1]
    · rw [if_neg h1]
      by_cases h2 : flagSet f S.QUIC_CONN_SEND_FLAG_ACK = true ∧
          (C.Packets.getD (S.QuicKeyTypeToEncryptLevel kt)
            ⟨false, 0, false, 0⟩).AckElicitingPacketsToAcknowledge ≠ 0
      · rw [if_pos h2, if_pos (Or.inl (Or.inr h2)), if_neg h1]
      · rw [if_neg h2]
        by_cases h3 : flagSet f S.QUIC_CONN_SEND_FLAG_CRYPTO = true ∧
            S.QuicCryptoHasPendingCryptoFrame C = true ∧
            S.QuicKeyTypeToEncryptLevel kt = S.QuicCryptoGetNextEncryptLevel C
        · rw [if_pos h3, if_pos (Or.inr ⟨⟨h3.1, h3.2.1⟩, h3.2.2⟩), if_neg h1]
        · rw [if_neg h3, if_neg]
          rintro ((h4 | h4) | h4)
          · exact h1 h4
          · exact h2 h4
          · exact h3 ⟨h4.1.1, h4.1.2, h4.2⟩

/-- The loop visits the key types in ascending order and returns at the first
one that matches. -/
theorem ControlFramesLoop_eq (S : ConnEnv) (E : Env) (C : QUIC_CONNECTION) (f : Nat) :
    ∀ n k, ControlFramesLoop S E C f n k =
      ((List.range' k n).find? (ControlFramesMatch S C f)).map (fun kt =>
        (if S.QuicKeyTypeToEncryptLevel kt = S.QUIC_ENCRYPT_LEVEL_1_RTT then
            E.SEND_PACKET_SHORT_HEADER_TYPE
          else S.QuicEncryptLevelToPacketType (S.QuicKeyTypeToEncryptLevel kt),
          C.TlsState.WriteKeys.getD kt none)) := by
  intro n
  induction n with
  | zero => intro k; rfl
  | succ n ih =>
    intro k
    unfold ControlFramesLoop
    rw [ControlFramesForKeyType_eq, List.range'_succ, List.find?_cons]
    cases hm : ControlFramesMatch S C f k with
    | true => simp
    | false =>
      simp only [Bool.false_eq_true, if_false]
      exact ih (k + 1)

/-- C14: the control-frame selector of the code is the reference definition
of the specification, for every connection state and every value of the send
flags. -/
theorem C14_control_frame_selector_is_reference (S : ConnEnv) (E : Env)
    (B : QUIC_PACKET_BUILDER) (SendFlags : Nat) :
    QuicPacketBuilderGetPacketTypeAndKeyForControlFrames S E B SendFlags =
      ControlFramesReference S E B SendFlags := by
  unfold QuicPacketBuilderGetPacketTypeAndKeyForControlFrames ControlFramesReference
  simp only
  rw [ControlFramesLoop_eq, List.range_eq_range', flagSet_lor, flagSet_lor]
  cases (List.range' 0 (B.Connection.TlsState.WriteKey + 1)).find?
      (ControlFramesMatch S B.Connection SendFlags) with
  | none => rfl
  | some kt => rfl

theorem ControlFramesLoop_succ (S : ConnEnv) (E : Env) (C : QUIC_CONNECTION) (f n k : Nat) :
    ControlFramesLoop S E C f (n + 1) k =
      match ControlFramesForKeyType S E C f k with
      | some r => some r
      | none => ControlFramesLoop S E C f n (k + 1) := rfl

/-- Key types at which the body of the loop does not return are skipped. -/
theorem ControlFramesLoop_skip (S : ConnEnv) (E : Env) (C : QUIC_CONNECTION) (f : Nat) :
    ∀ n k, (∀ j, k ≤ j → j < k + n → ControlFramesForKeyType S E C f j = none) →
      ∀ m, ControlFramesLoop S E C f (n + m) k = ControlFramesLoop S E C f m (k + n) := by
  intro n
  induction n with
  | zero => intro k _ m; simp
  | succ n ih =>
    intro k h m
    have e : n + 1 + m = (n + m) + 1 := by omega
    rw [e, ControlFramesLoop_succ, h k (le_refl k) (by omega)]
    simp only
    rw [ih (k + 1) (fun j h1 h2 => h j (by omega) (by omega)) m]
    have e2 : k + 1 + n = k + (n + 1) := by omega
    rw [e2]

/-- C15 as amended: when the current write key is at the 1-RTT level and has
not been discarded, and every lower key type either has its key discarded or
has an encryption level other than 1-RTT with neither the ACK rule (ACK flag
set and ack-eliciting packets to acknowledge in the packet space of the level)
nor the CRYPTO rule (CRYPTO flag set, a crypto frame pending, and the level
the next one to send at) applying, the selector returns the short header type
and the current write key, whatever the send flags. -/
theorem C15_selector_returns_1rtt_when_reached (S : ConnEnv) (E : Env)
    (B : QUIC_PACKET_BUILDER) (SendFlags : Nat) (k : QUIC_PACKET_KEY)
    (hlevel : S.QuicKeyTypeToEncryptLevel B.Connection.TlsState.WriteKey =
      S.QUIC_ENCRYPT_LEVEL_1_RTT)
    (hkey : B.Connection.TlsState.WriteKeys.getD B.Connection.TlsState.WriteKey none = some k)
    (hlow : ∀ kt, kt < B.Connection.TlsState.WriteKey →
      B.Connection.TlsState.WriteKeys.getD kt none = none ∨
        (S.QuicKeyTypeToEncryptLevel kt ≠ S.QUIC_ENCRYPT_LEVEL_1_RTT ∧
          ¬ (flagSet SendFlags S.QUIC_CONN_SEND_FLAG_ACK = true ∧
            (B.Connection.Packets.getD (S.QuicKeyTypeToEncryptLevel kt)
              ⟨false, 0, false, 0⟩).AckElicitingPacketsToAcknowledge ≠ 0) ∧
          ¬ (flagSet SendFlags S.QUIC_CONN_SEND_FLAG_CRYPTO = true ∧
            S.QuicCryptoHasPendingCryptoFrame B.Connection = true ∧
            S.QuicKeyTypeToEncryptLevel kt = S.QuicCryptoGetNextEncryptLevel B.Connection))) :
    QuicPacketBuilderGetPacketTypeAndKeyForControlFrames S E B SendFlags =
      some (E.SEND_PACKET_SHORT_HEADER_TYPE, some k) := by
  have hskip : ∀ kt, kt < B.Connection.TlsState.WriteKey →
      ControlFramesForKeyType S E B.Connection SendFlags kt = none := by
    intro kt hkt
    unfold ControlFramesForKeyType
    rcases hlow kt hkt with h | ⟨h1, h2, h3⟩
    · rw [h]
    · cases hk : B.Connection.TlsState.WriteKeys.getD kt none with
      | none => rfl
      | some pk =>
        simp only
        rw [if_neg h1, if_neg h2, if_neg h3]
  unfold QuicPacketBuilderGetPacketTypeAndKeyForControlFrames
  simp only
  rw [ControlFramesLoop_skip S E B.Connection SendFlags B.Connection.TlsState.WriteKey 0
    (fun j _ h2 => hskip j (by omega)) 1]
  have h1 : ControlFramesForKeyType S E B.Connection SendFlags
      (0 + B.Connection.TlsState.WriteKey) = some (E.SEND_PACKET_SHORT_HEADER_TYPE, some k) := by
    rw [Nat.zero_add]
    unfold ControlFramesForKeyType
    rw [hkey]
    simp only
    rw [if_pos hlevel]
  rw [ControlFramesLoop_succ, h1]

/-- C15 as amended, on the sample connection after the handshake, for a PING:
the Initial and 0-RTT keys are discarded, and the Handshake key is still there
but neither ACK nor CRYPTO is requested. -/
theorem C15_selector_returns_1rtt_when_reached_witness :
    QuicPacketBuilderGetPacketTypeAndKeyForControlFrames sampleConnEnv sampleEnv
        sampleConnectedBuilder 0x4000 = some (0xff, some 13) :=
  C15_selector_returns_1rtt_when_reached sampleConnEnv sampleEnv sampleConnectedBuilder 0x4000 13
    (by decide) (by decide) (by decide)

/-- C15 as stated fails twice.  On the sample connection after the handshake
the 1-RTT write key is available, yet for an ACK the selector returns the
Handshake packet type and key, because the Handshake packet space has a packet
to acknowledge and is visited first.  And on a connection that still holds its
0-RTT key (key 11), whose key type the sample map puts at the 1-RTT level, a
PING gets the short header type with the 0-RTT key, not the 1-RTT key (key
13): the loop returns at the first key of the 1-RTT level that it meets. -/
theorem C15_handshake_ack_selected_before_1rtt :
    sampleConnEnv.QuicKeyTypeToEncryptLevel sampleConnectedBuilder.Connection.TlsState.WriteKey =
        sampleConnEnv.QUIC_ENCRYPT_LEVEL_1_RTT ∧
      sampleConnectedBuilder.Connection.TlsState.WriteKeys.getD
        sampleConnectedBuilder.Connection.TlsState.WriteKey none = some 13 ∧
      QuicPacketBuilderGetPacketTypeAndKeyForControlFrames sampleConnEnv sampleEnv
        sampleConnectedBuilder 1 = some (2, some 12) ∧
      sampleConnEnv.QuicKeyTypeToEncryptLevel sampleConnEnv.QUIC_PACKET_KEY_0_RTT =
        sampleConnEnv.QUIC_ENCRYPT_LEVEL_1_RTT ∧
      QuicPacketBuilderGetPacketTypeAndKeyForControlFrames sampleConnEnv sampleEnv
        { sampleBuilder with
          Connection := { sampleConnection with
            TlsState := ⟨3, [none, some 11, none, some 13]⟩ } } 0x4000 =
        some (sampleEnv.SEND_PACKET_SHORT_HEADER_TYPE, some 11) := by
  refine ⟨by decide, by decide, by decide, by decide, by decide⟩

/-- C16: `QuicPacketBuilderPrepareForStreamFrames` is a call of prepare with
the packet type and key it chooses, the caller's tail-loss-probe flag and no
path MTU discovery; the choice is the 0-RTT long-header type with the 0-RTT
write key exactly when the 0-RTT write key is present and the 1-RTT write key
is absent, and the short header type with the 1-RTT write key in every other
case. -/
theorem C16_stream_frames_choose_0rtt_only_without_1rtt (S : ConnEnv) (E : Env)
    (B : QUIC_PACKET_BUILDER) (IsTailLossProbe : Bool)
    (hty : S.QUIC_0_RTT_PROTECTED ≠ E.SEND_PACKET_SHORT_HEADER_TYPE) :
    QuicPacketBuilderPrepareForStreamFrames S E B IsTailLossProbe =
        QuicPacketBuilderPrepare E B (StreamFramesTypeAndKey S E B).1
          (StreamFramesTypeAndKey S E B).2 IsTailLossProbe false ∧
      (StreamFramesTypeAndKey S E B =
          (S.QUIC_0_RTT_PROTECTED,
            B.Connection.TlsState.WriteKeys.getD S.QUIC_PACKET_KEY_0_RTT none) ↔
        B.Connection.TlsState.WriteKeys.getD S.QUIC_PACKET_KEY_0_RTT none ≠ none ∧
          B.Connection.TlsState.WriteKeys.getD E.QUIC_PACKET_KEY_1_RTT none = none) ∧
      (¬(B.Connection.TlsState.WriteKeys.getD S.QUIC_PACKET_KEY_0_RTT none ≠ none ∧
          B.Connection.TlsState.WriteKeys.getD E.QUIC_PACKET_KEY_1_RTT none = none) →
        StreamFramesTypeAndKey S E B =
          (E.SEND_PACKET_SHORT_HEADER_TYPE,
            B.Connection.TlsState.WriteKeys.getD E.QUIC_PACKET_KEY_1_RTT none)) := by
  refine ⟨rfl, ?_, ?_⟩
  · unfold StreamFramesTypeAndKey
    simp only
    constructor
    · intro h
      by_contra hc
      rw [if_neg hc] at h
      exact hty (congrArg Prod.fst h).symm
    · intro hc
      rw [if_pos hc]
  · intro hc
    unfold StreamFramesTypeAndKey
    simp only
    rw [if_neg hc]

/-- C16 on the sample connection after the handshake (no 0-RTT key, a 1-RTT
key): stream frames go into a short-header packet under the 1-RTT key. -/
theorem C16_stream_frames_choose_0rtt_only_without_1rtt_witness :
    QuicPacketBuilderPrepareForStreamFrames sampleConnEnv sampleEnv sampleConnectedBuilder false =
      QuicPacketBuilderPrepare sampleEnv sampleConnectedBuilder 0xff (some 13) false false :=
  (C16_stream_frames_choose_0rtt_only_without_1rtt sampleConnEnv sampleEnv
    sampleConnectedBuilder false (by decide)).1

/-- C17: initialize returns false exactly when the connection has no source
connection ID, and then leaves the last flush time and its validity flag as
they were; when it returns true the send allowance is the smaller of the
allowance of congestion control (asked with the time since the last flush, 0
when no flush time is valid) and the allowance of the path, the encryption
overhead is 16 with encryption enabled and 0 without, and the last flush time
is the current time, marked valid. -/
theorem C17_initialize_fails_only_without_source_cid (S : ConnEnv) (B : QUIC_PACKET_BUILDER)
    (Connection : QUIC_CONNECTION) (Path : QUIC_PATH) :
    ((QuicPacketBuilderInitialize S B Connection Path).1 = false ↔ Connection.SourceCIDs = []) ∧
      (Connection.SourceCIDs = [] →
        (QuicPacketBuilderInitialize S B Connection Path).2.Connection.Send.LastFlushTime =
            Connection.Send.LastFlushTime ∧
          (QuicPacketBuilderInitialize S B Connection Path).2.Connection.Send.LastFlushTimeValid =
            Connection.Send.LastFlushTimeValid) ∧
      ((QuicPacketBuilderInitialize S B Connection Path).1 = true →
        (QuicPacketBuilderInitialize S B Connection Path).2.SendAllowance =
            min (u32 (S.QuicCongestionControlGetSendAllowance Connection
                (if Connection.Send.LastFlushTimeValid then
                  u64 (S.QuicTimeDiff64 Connection.Send.LastFlushTime
                    (u64 (S.QuicTimeUs64 B.Calls)))
                else 0)
                Connection.Send.LastFlushTimeValid))
              Path.Allowance ∧
          (QuicPacketBuilderInitialize S B Connection Path).2.EncryptionOverhead =
            (if Connection.EncryptionEnabled then 16 else 0) ∧
          (QuicPacketBuilderInitialize S B Connection Path).2.Connection.Send.LastFlushTime =
            u64 (S.QuicTimeUs64 B.Calls) ∧
          (QuicPacketBuilderInitialize S B Connection Path).2.Connection.Send.LastFlushTimeValid =
            true) := by
  unfold QuicPacketBuilderInitialize
  cases hc : Connection.SourceCIDs with
  | nil =>
    exact ⟨⟨fun _ => rfl, fun _ => rfl⟩, fun _ => ⟨rfl, rfl⟩, fun h => absurd h (by simp)⟩
  | cons cid rest =>
    refine ⟨⟨fun h => absurd h (by simp), fun h => absurd h (by simp)⟩,
      fun h => absurd h (by simp), fun _ => ⟨?_, rfl, rfl, rfl⟩⟩
    simp only
    rw [min_def]
    split_ifs <;> first | rfl | omega

/-! ## The marks of the batch and the cleanup -/

/-- Finalize only adds calls to the log. -/
theorem Finalize_Calls (E : Env) (B : QUIC_PACKET_BUILDER) (a : Bool) :
    (QuicPacketBuilderFinalize E B a).Calls =
      newCalls B (QuicPacketBuilderFinalize E B a) ++ B.Calls := by
  obtain ⟨body, b1, -⟩ := FinalizeAtExit_log E B a
  obtain ⟨hp, sends, x1, -⟩ :=
    FinalizeExit_log E (FinalizeAtExit E B a) a (FinalQuicPacket E B a)
  rw [← Finalize_eq_exit, b1] at x1
  have h : (QuicPacketBuilderFinalize E B a).Calls =
      ((if FinalQuicPacket E B a = true ∧ (FinalizeAtExit E B a).PacketType = E.QUIC_RETRY then
        [Call.ConnCloseLocally true E.QUIC_ERROR_NO_ERROR] else []) ++ sends ++ hp ++ body) ++
        B.Calls := by
    rw [x1]
    simp
  rw [newCalls_append B _ _ h]
  exact h

theorem any_append_false {p : Call → Bool} (l1 l2 : List Call) (h : ∀ c ∈ l1, p c = false) :
    (l1 ++ l2).any p = l2.any p := by
  rw [List.any_append, List.any_eq_false.2 (fun c hc => by rw [h c hc]; simp)]
  simp

theorem FinalQuicPacket_all_done (E : Env) (B : QUIC_PACKET_BUILDER) :
    FinalQuicPacket E B true = true := by
  unfold FinalQuicPacket
  cases B.Datagram with
  | none => rfl
  | some d =>
    simp only
    split_ifs
    · rfl
    · simp [IsFinalQuicPacket]

/-- Finalize keeps the marks of the batch in step with the call log. -/
theorem Finalize_tracks (E : Env) (B : QUIC_PACKET_BUILDER) (a : Bool)
    (h : FlagsTrackLog B) : FlagsTrackLog (QuicPacketBuilderFinalize E B a) := by
  obtain ⟨body, hp, sends, l1, l2, l3, l4, l5, -, -, l8, -, l10⟩ := Finalize_log E B a
  have hq := Finalize_body_quiet E B a body l2 l3
  have hclose : ∀ c ∈ (if FinalQuicPacket E B a = true ∧ B.PacketType = E.QUIC_RETRY then
      [Call.ConnCloseLocally true E.QUIC_ERROR_NO_ERROR] else []),
      c.isSend = false ∧ c.isRetransmittableSent = false := by
    intro c hc
    split_ifs at hc
    · rw [List.mem_singleton] at hc
      rw [hc]
      exact ⟨rfl, rfl⟩
    · exact absurd hc (by simp)
  obtain ⟨h1, h2⟩ := h
  rw [FlagsTrackLog, Finalize_Calls, l1, l8, l10, h1, h2]
  constructor
  · rw [List.append_assoc, List.append_assoc, List.append_assoc,
      any_append_false _ _ (fun c hc => (hclose c hc).1), List.any_append,
      any_append_false hp _ (fun c hc => (Call.isCrypto_not_send c (l4 c hc)).1),
      any_append_false body _ (fun c hc => (hq c hc).1), Bool.or_comm]
    congr 1
    cases sends with
    | nil => simp
    | cons c cs => simp [l5 c (by simp)]
  · rw [List.append_assoc, List.append_assoc, List.append_assoc,
      any_append_false _ _ (fun c hc => (hclose c hc).2),
      any_append_false sends _ (fun c hc => (Call.isSend_not_other c (l5 c hc)).2.2.2.1),
      any_append_false hp _ (fun c hc => (Call.isCrypto_not_send c (l4 c hc)).2.2.2.1),
      List.any_append, Bool.or_comm]

/-- A finalize with all done leaves the builder without send context and
without current datagram. -/
theorem Finalize_all_done (E : Env) (B : QUIC_PACKET_BUILDER) :
    (QuicPacketBuilderFinalize E B true).SendContext = none ∧
      (QuicPacketBuilderFinalize E B true).Datagram = none := by
  obtain ⟨body, hp, sends, -, -, -, -, -, l6, -, -, l9, -⟩ := Finalize_log E B true
  constructor
  · apply l9
    rw [l6]
    exact ⟨FinalQuicPacket_all_done E B, by simp⟩
  · rw [Finalize_eq_exit, FinalQuicPacket_all_done, FinalizeExit_final_Datagram]

/-- Finalize never asks loss detection to update its timer. -/
theorem Finalize_no_timer (E : Env) (B : QUIC_PACKET_BUILDER) (a : Bool) :
    Call.LossDetectionUpdateTimer ∉ newCalls B (QuicPacketBuilderFinalize E B a) := by
  obtain ⟨body, hp, sends, l1, l2, l3, l4, l5, -⟩ := Finalize_log E B a
  have hq := Finalize_body_quiet E B a body l2 l3
  rw [l1]
  intro hc
  simp only [List.mem_append] at hc
  rcases hc with ((hc | hc) | hc) | hc
  · split_ifs at hc
    · rw [List.mem_singleton] at hc
      exact absurd hc (by simp)
    · exact absurd hc (by simp)
  · exact (Call.isSend_not_other _ (l5 _ hc)).2.2.2.2.1 rfl
  · exact (Call.isCrypto_not_send _ (l4 _ hc)).2.2.2.2 rfl
  · exact (hq _ hc).2.2.1 rfl

/-- The finalize step of cleanup: it leaves no send context and no datagram,
keeps the marks in step with the log, and only adds calls to the log, none of
them a timer update. -/
theorem CleanupFinalize_spec (E : Env) (B : QUIC_PACKET_BUILDER)
    (hinv : B.SendContext = none → B.Datagram = none) (htrack : FlagsTrackLog B) :
    (CleanupFinalize E B).SendContext = none ∧ (CleanupFinalize E B).Datagram = none ∧
      FlagsTrackLog (CleanupFinalize E B) ∧
      (CleanupFinalize E B).Calls = newCalls B (CleanupFinalize E B) ++ B.Calls ∧
      Call.LossDetectionUpdateTimer ∉ newCalls B (CleanupFinalize E B) := by
  unfold CleanupFinalize
  by_cases hctx : B.SendContext.isSome = true
  · rw [if_pos hctx]
    exact ⟨(Finalize_all_done E B).1, (Finalize_all_done E B).2, Finalize_tracks E B true htrack,
      Finalize_Calls E B true, Finalize_no_timer E B true⟩
  · rw [if_neg hctx]
    have hnone : B.SendContext = none := by
      cases h : B.SendContext with
      | none => rfl
      | some c => rw [h] at hctx; exact absurd rfl hctx
    have hn : newCalls B B = [] := newCalls_append B B [] rfl
    refine ⟨hnone, hinv hnone, htrack, ?_, ?_⟩
    · rw [hn]; rfl
    · rw [hn]; simp

/-- C18: after cleanup the builder holds no send context and no current
datagram and every byte of the mask buffer is zero; cleanup asks loss
detection to update its timer exactly when, in the flush, a send context was
handed to the datapath and loss detection was told of a retransmittable
packet.  The builder comes to cleanup as a flush leaves it: a current datagram
lives in a send context and the two marks of the batch are in step with the
call log. -/
theorem C18_cleanup_releases_and_arms_timer (E : Env) (B : QUIC_PACKET_BUILDER)
    (hinv : B.SendContext = none → B.Datagram = none) (htrack : FlagsTrackLog B) :
    (QuicPacketBuilderCleanup E B).SendContext = none ∧
      (QuicPacketBuilderCleanup E B).Datagram = none ∧
      (∀ b ∈ (QuicPacketBuilderCleanup E B).HpMask, b = 0) ∧
      (Call.LossDetectionUpdateTimer ∈ newCalls B (QuicPacketBuilderCleanup E B) ↔
        (QuicPacketBuilderCleanup E B).Calls.any Call.isSend = true ∧
          (QuicPacketBuilderCleanup E B).Calls.any Call.isRetransmittableSent = true) := by
  obtain ⟨h1, h2, ⟨t1, t2⟩, h4, h5⟩ := CleanupFinalize_spec E B hinv htrack
  obtain ⟨m1, m2⟩ := Cleanup_memory E B
  refine ⟨m2.trans h1, m1.trans h2, ?_, ?_⟩
  · intro b hb
    unfold QuicPacketBuilderCleanup at hb
    simp only at hb
    exact List.eq_of_mem_replicate hb
  · unfold QuicPacketBuilderCleanup
    simp only
    by_cases hflag : ((CleanupFinalize E B).PacketBatchSent &&
        (CleanupFinalize E B).PacketBatchRetransmittable) = true
    · rw [if_pos hflag]
      have hc : (logCall (CleanupFinalize E B) Call.LossDetectionUpdateTimer).Calls =
          (Call.LossDetectionUpdateTimer :: newCalls B (CleanupFinalize E B)) ++ B.Calls := by
        show _ :: (CleanupFinalize E B).Calls = _
        rw [h4]
        simp
      have hn : newCalls B { logCall (CleanupFinalize E B) Call.LossDetectionUpdateTimer with
          HpMask := List.replicate
            (logCall (CleanupFinalize E B) Call.LossDetectionUpdateTimer).HpMask.length 0 } =
          Call.LossDetectionUpdateTimer :: newCalls B (CleanupFinalize E B) :=
        newCalls_append B _ _ hc
      rw [hn]
      rw [Bool.and_eq_true, t1, t2] at hflag
      refine ⟨fun _ => ?_, fun _ => by simp⟩
      show (Call.LossDetectionUpdateTimer :: (CleanupFinalize E B).Calls).any Call.isSend = true ∧
        (Call.LossDetectionUpdateTimer :: (CleanupFinalize E B).Calls).any
          Call.isRetransmittableSent = true
      rw [List.any_cons, List.any_cons, hflag.1, hflag.2]
      simp
    · rw [if_neg hflag]
      have hn : newCalls B { CleanupFinalize E B with
          HpMask := List.replicate (CleanupFinalize E B).HpMask.length 0 } =
          newCalls B (CleanupFinalize E B) := rfl
      rw [hn]
      refine ⟨fun h => absurd h h5, fun h => ?_⟩
      exfalso
      apply hflag
      rw [Bool.and_eq_true, t1, t2]
      exact h

/-- C18 on the sample flush: its cleanup finalizes the short-header packet,
hands the send context over and asks for the timer update. -/
theorem C18_cleanup_releases_and_arms_timer_witness :
    (QuicPacketBuilderCleanup sampleEnv sampleBeforeCleanup).SendContext = none ∧
      (QuicPacketBuilderCleanup sampleEnv sampleBeforeCleanup).Datagram = none ∧
      Call.LossDetectionUpdateTimer ∈
        newCalls sampleBeforeCleanup (QuicPacketBuilderCleanup sampleEnv sampleBeforeCleanup) :=
  ⟨(C18_cleanup_releases_and_arms_timer sampleEnv sampleBeforeCleanup (by decide)
      ⟨by decide, by decide⟩).1,
    (C18_cleanup_releases_and_arms_timer sampleEnv sampleBeforeCleanup (by decide)
      ⟨by decide, by decide⟩).2.1, by decide⟩

/-- A step that leaves the marks alone and adds to the log neither a
hand-over nor a report of a retransmittable packet keeps marks and log in
step. -/
theorem FlagsTrackLog.of_quiet {B B1 : QUIC_PACKET_BUILDER} (h : FlagsTrackLog B)
    (hs : B1.PacketBatchSent = B.PacketBatchSent)
    (hr : B1.PacketBatchRetransmittable = B.PacketBatchRetransmittable)
    (delta : List Call) (hc : B1.Calls = delta ++ B.Calls)
    (hq : ∀ c ∈ delta, c.isSend = false ∧ c.isRetransmittableSent = false) :
    FlagsTrackLog B1 := by
  obtain ⟨h1, h2⟩ := h
  rw [FlagsTrackLog, hs, hr, hc, any_append_false _ _ (fun c hc => (hq c hc).1),
    any_append_false _ _ (fun c hc => (hq c hc).2)]
  exact ⟨h1, h2⟩

theorem PrepareSendContext_tracks (E : Env) (B : QUIC_PACKET_BUILDER) (pmtud : Bool)
    (h : FlagsTrackLog B) : FlagsTrackLog (PrepareSendContext E B pmtud).2 := by
  unfold PrepareSendContext
  cases B.SendContext with
  | some c => exact h
  | none =>
    simp only
    split_ifs <;>
      exact h.of_quiet rfl rfl [_] rfl (by simp [Call.isSend, Call.isRetransmittableSent])

theorem PrepareAllocDatagram_tracks (E : Env) (B : QUIC_PACKET_BUILDER) (ty : Nat)
    (tlp pmtud : Bool) (h : FlagsTrackLog B) :
    FlagsTrackLog (PrepareAllocDatagram E B ty tlp pmtud).2 := by
  unfold PrepareAllocDatagram
  simp only
  split_ifs <;>
    exact h.of_quiet rfl rfl [_] rfl (by simp [Call.isSend, Call.isRetransmittableSent])

theorem PrepareDatagram_tracks (E : Env) (B : QUIC_PACKET_BUILDER) (ty : Nat)
    (tlp pmtud : Bool) (h : FlagsTrackLog B) :
    FlagsTrackLog (PrepareDatagram E B ty tlp pmtud).2 := by
  unfold PrepareDatagram
  cases B.Datagram with
  | some d => exact h
  | none =>
    simp only
    split_ifs
    · exact PrepareAllocDatagram_tracks E _ ty tlp pmtud (PrepareSendContext_tracks E B pmtud h)
    · exact PrepareSendContext_tracks E B pmtud h

theorem PrepareNewPacket_tracks (E : Env) (B B1 : QUIC_PACKET_BUILDER) (ty : Nat)
    (key : Option QUIC_PACKET_KEY) (pmtud : Bool) (h : FlagsTrackLog B)
    (hn : PrepareNewPacket E B ty key pmtud = some B1) : FlagsTrackLog B1 := by
  unfold PrepareNewPacket at hn
  simp only at hn
  split_ifs at hn with h1 h2
  · injection hn with hn
    rw [← hn]
    exact h.of_quiet rfl rfl [] rfl (by simp)
  · injection hn with hn
    rw [← hn]
    exact h.of_quiet rfl rfl [] rfl (by simp)

theorem PrepareSelectPacket_tracks (E : Env) (B : QUIC_PACKET_BUILDER) (ty : Nat)
    (pmtud : Bool) (h : FlagsTrackLog B) :
    FlagsTrackLog (PrepareSelectPacket E B ty pmtud).2 := by
  by_cases hdiff : B.PacketType ≠ ty ∨ pmtud = true
  · rw [(PrepareSelectPacket_differs E B ty pmtud hdiff).1]
    split_ifs
    · exact Finalize_tracks E B pmtud h
    · exact h
  · rw [PrepareSelectPacket_same E B ty pmtud hdiff]
    exact h

/-- Prepare keeps the marks of the batch in step with the call log, whatever
it returns. -/
theorem Prepare_tracks (E : Env) (B : QUIC_PACKET_BUILDER) (ty : Nat)
    (key : Option QUIC_PACKET_KEY) (tlp pmtud : Bool) (r : Bool × QUIC_PACKET_BUILDER)
    (h : FlagsTrackLog B) (hr : QuicPacketBuilderPrepare E B ty key tlp pmtud = some r) :
    FlagsTrackLog r.2 := by
  have h1 := PrepareSelectPacket_tracks E B ty pmtud h
  unfold QuicPacketBuilderPrepare at hr
  rcases hs : PrepareSelectPacket E B ty pmtud with ⟨o, B1⟩
  rw [hs] at hr h1
  simp only at h1
  cases o with
  | none =>
    simp only [Option.some.injEq] at hr
    rw [← hr]
    exact h1
  | some nq =>
    simp only at hr
    have h2 := PrepareDatagram_tracks E B1 ty tlp pmtud h1
    rcases hd : PrepareDatagram E B1 ty tlp pmtud with ⟨ok, B2⟩
    rw [hd] at hr h2
    simp only at h2
    cases ok with
    | false =>
      simp only [Option.some.injEq] at hr
      rw [← hr]
      exact h2
    | true =>
      simp only at hr
      cases nq with
      | false =>
        simp only [Bool.false_eq_true, if_false, Option.some.injEq] at hr
        rw [← hr]
        exact h2
      | true =>
        simp only [if_true] at hr
        cases hn : PrepareNewPacket E B2 ty key pmtud with
        | none => rw [hn] at hr; exact absurd hr (by simp)
        | some B3 =>
          rw [hn] at hr
          simp only [Option.map_some', Option.some.injEq] at hr
          rw [← hr]
          exact PrepareNewPacket_tracks E B2 B3 ty key pmtud h2 hn

theorem Cleanup_tracks (E : Env) (B : QUIC_PACKET_BUILDER)
    (hinv : B.SendContext = none → B.Datagram = none) (h : FlagsTrackLog B) :
    FlagsTrackLog (QuicPacketBuilderCleanup E B) := by
  obtain ⟨-, -, t, -, -⟩ := CleanupFinalize_spec E B hinv h
  unfold QuicPacketBuilderCleanup
  simp only
  split_ifs
  · exact t.of_quiet rfl rfl [Call.LossDetectionUpdateTimer] rfl
      (by simp [Call.isSend, Call.isRetransmittableSent])
  · exact t.of_quiet rfl rfl [] rfl (by simp)

/-- Every call of a flush keeps the marks of the batch in step with the call
log. -/
theorem BuilderCall.apply_tracks (S : ConnEnv) (E : Env) (B B1 : QUIC_PACKET_BUILDER)
    (c : BuilderCall) (hinv : B.SendContext = none → B.Datagram = none)
    (h : FlagsTrackLog B) (hc : c.apply S E B = some B1) : FlagsTrackLog B1 := by
  cases c with
  | prepare ty key tlp pmtud =>
    simp only [BuilderCall.apply, Option.map_eq_some'] at hc
    obtain ⟨r, hr, rfl⟩ := hc
    exact Prepare_tracks E B ty key tlp pmtud r h hr
  | prepareForControlFrames tlp flags =>
    simp only [BuilderCall.apply, Option.map_eq_some'] at hc
    obtain ⟨r, hr, rfl⟩ := hc
    unfold QuicPacketBuilderPrepareForControlFrames at hr
    split at hr
    · simp only [Option.some.injEq] at hr
      rw [← hr]
      exact h
    · exact Prepare_tracks E B _ _ tlp false r h hr
  | prepareForStreamFrames tlp =>
    simp only [BuilderCall.apply, Option.map_eq_some'] at hc
    obtain ⟨r, hr, rfl⟩ := hc
    exact Prepare_tracks E B _ _ tlp false r h hr
  | prepareForPathMtuDiscovery =>
    simp only [BuilderCall.apply, Option.map_eq_some'] at hc
    obtain ⟨r, hr, rfl⟩ := hc
    exact Prepare_tracks E B _ _ false true r h hr
  | frames bytes n retransmittable =>
    simp only [BuilderCall.apply, Option.some.injEq] at hc
    rw [← hc]
    exact h.of_quiet rfl rfl [] rfl (by simp)
  | finalize allDone =>
    simp only [BuilderCall.apply, Option.some.injEq] at hc
    rw [← hc]
    exact Finalize_tracks E B allDone h
  | cleanup =>
    simp only [BuilderCall.apply, Option.some.injEq] at hc
    rw [← hc]
    exact Cleanup_tracks E B hinv h

/-- Through a whole flush that starts with no send context, no datagram, both
marks clear and an empty log, the marks of the batch stay in step with the
log. -/
theorem BuilderCall.trace_tracks (S : ConnEnv) (E : Env) (cs : List BuilderCall) :
    ∀ B : QUIC_PACKET_BUILDER, (B.Datagram.isSome = true → B.SendContext.isSome = true) →
      FlagsTrackLog B → ∀ B1 ∈ BuilderCall.trace S E B cs, FlagsTrackLog B1 := by
  induction cs with
  | nil => intro B _ _ B1 hB1; simp [BuilderCall.trace] at hB1
  | cons c cs ih =>
    intro B hctx h B1 hB1
    unfold BuilderCall.trace at hB1
    cases hc : c.apply S E B with
    | none => rw [hc] at hB1; simp at hB1
    | some B2 =>
      rw [hc] at hB1
      simp only [List.mem_cons] at hB1
      have hinv : B.SendContext = none → B.Datagram = none := by
        intro hn
        cases hd : B.Datagram with
        | none => rfl
        | some d =>
          have h2 := hctx (by simp [hd])
          rw [hn] at h2
          exact absurd h2 (by simp)
      have h2 := BuilderCall.apply_tracks S E B B2 c hinv h hc
      have h3 := BuilderCall.apply_keeps_context S E B B2 c hctx hc
      rcases hB1 with rfl | hB1
      · exact h2
      · exact ih B2 h3 h2 B1 hB1

/-- C19 as amended: a call of finalize that finalizes a Retry packet with
frames as the last packet of its datagram (all done, or less than the minimum
spare space left) closes the connection locally, in silent mode and with the
error code NO_ERROR; and every close finalize makes is of that kind and is
made while it completes the datagram with the packet type of the builder being
Retry. -/
theorem C19_retry_closes_when_datagram_completed (E : Env) (B : QUIC_PACKET_BUILDER)
    (a : Bool) :
    (B.Datagram.isSome = true → B.Metadata.FrameCount ≠ 0 → B.PacketType = E.QUIC_RETRY →
      FinalQuicPacket E B a = true →
      Call.ConnCloseLocally true E.QUIC_ERROR_NO_ERROR ∈
        newCalls B (QuicPacketBuilderFinalize E B a)) ∧
    (∀ c ∈ newCalls B (QuicPacketBuilderFinalize E B a), c.isClose = true →
      c = Call.ConnCloseLocally true E.QUIC_ERROR_NO_ERROR ∧
        FinalQuicPacket E B a = true ∧ B.PacketType = E.QUIC_RETRY) := by
  obtain ⟨body, hp, sends, l1, l2, l3, l4, l5, -⟩ := Finalize_log E B a
  have hq := Finalize_body_quiet E B a body l2 l3
  have hrest : ∀ c, c ∈ sends ∨ c ∈ hp ∨ c ∈ body → c.isClose = false := by
    rintro c (hc | hc | hc)
    · exact (Call.isSend_not_other c (l5 c hc)).2.1
    · exact (Call.isCrypto_not_send c (l4 c hc)).2.1
    · exact (hq c hc).2.1
  rw [l1]
  constructor
  · intro _ _ hty hfin
    rw [if_pos ⟨hfin, hty⟩]
    simp
  · intro c hc hclose
    simp only [List.mem_append] at hc
    rcases hc with ((hc | hc) | hc) | hc
    · by_cases hcond : FinalQuicPacket E B a = true ∧ B.PacketType = E.QUIC_RETRY
      · rw [if_pos hcond] at hc
        exact ⟨List.mem_singleton.1 hc, hcond⟩
      · rw [if_neg hcond] at hc
        exact absurd hc (by simp)
    · rw [hrest c (Or.inl hc)] at hclose
      exact absurd hclose (by simp)
    · rw [hrest c (Or.inr (Or.inl hc))] at hclose
      exact absurd hclose (by simp)
    · rw [hrest c (Or.inr (Or.inr hc))] at hclose
      exact absurd hclose (by simp)

/-- C19 as amended, on the sample Retry packet with its token, finalized with
all done: the connection is closed. -/
theorem C19_retry_closes_when_datagram_completed_witness :
    Call.ConnCloseLocally true sampleEnv.QUIC_ERROR_NO_ERROR ∈
      newCalls sampleRetryFramed (QuicPacketBuilderFinalize sampleEnv sampleRetryFramed true) :=
  (C19_retry_closes_when_datagram_completed sampleEnv sampleRetryFramed true).1
    (by decide) (by decide) (by decide) (by decide)

/-- C19 as stated fails in both directions on the sample Retry packet.  With
a token framed into it and room left in the datagram, a finalize that is not
the last of the flush finalizes the packet (loss detection is told) and does
not close the connection.  With nothing framed into it, a finalize with all
done takes the packet back (no packet is finalized, the packet number is
returned) and closes the connection. -/
theorem C19_retry_close_follows_datagram_not_packet :
    (sampleRetryFramed.PacketType = sampleEnv.QUIC_RETRY ∧
      sampleRetryFramed.Metadata.FrameCount = 1 ∧
      (∃ c ∈ newCalls sampleRetryFramed
          (QuicPacketBuilderFinalize sampleEnv sampleRetryFramed false),
        c.isPacketSent = true) ∧
      ∀ c ∈ newCalls sampleRetryFramed
          (QuicPacketBuilderFinalize sampleEnv sampleRetryFramed false),
        c.isClose = false) ∧
    (sampleRetryPrepared.Metadata.FrameCount = 0 ∧
      (∀ c ∈ newCalls sampleRetryPrepared
          (QuicPacketBuilderFinalize sampleEnv sampleRetryPrepared true),
        c.isPacketSent = false) ∧
      (QuicPacketBuilderFinalize sampleEnv sampleRetryPrepared true).Connection.Send.NextPacketNumber
        = sampleServerBuilder.Connection.Send.NextPacketNumber ∧
      Call.ConnCloseLocally true sampleEnv.QUIC_ERROR_NO_ERROR ∈
        newCalls sampleRetryPrepared
          (QuicPacketBuilderFinalize sampleEnv sampleRetryPrepared true)) := by
  refine ⟨⟨by decide, by decide, by decide, by decide⟩,
    ⟨by decide, by decide, by decide, by decide⟩⟩

/-! ## The XOR step of header protection is an involution -/

theorem u8_xor_u8 (x m : Nat) : u8 (Nat.xor (u8 x) m) = u8 (Nat.xor x m) := by
  unfold u8
  show ((x % 2 ^ 8) ^^^ m) % 2 ^ 8 = (x ^^^ m) % 2 ^ 8
  apply Nat.eq_of_testBit_eq
  intro i
  simp only [Nat.testBit_mod_two_pow, Nat.testBit_xor]
  cases decide (i < 8) <;> simp

theorem u8_xor_twice (x m : Nat) (hx : x < 256) :
    u8 (Nat.xor (u8 (Nat.xor x m)) m) = x := by
  rw [u8_xor_u8]
  have h : Nat.xor (Nat.xor x m) m = x := Nat.xor_cancel_right m x
  rw [h]
  unfold u8
  omega

theorem u8_xor_comm (x m1 m2 : Nat) :
    u8 (Nat.xor (u8 (Nat.xor x m1)) m2) = u8 (Nat.xor (u8 (Nat.xor x m2)) m1) := by
  rw [u8_xor_u8, u8_xor_u8]
  have h : Nat.xor (Nat.xor x m1) m2 = Nat.xor (Nat.xor x m2) m1 := by
    show (x ^^^ m1) ^^^ m2 = (x ^^^ m2) ^^^ m1
    rw [Nat.xor_assoc, Nat.xor_comm m1 m2, ← Nat.xor_assoc]
  rw [h]

theorem xorByte_eq_modify (buf : List Nat) (k m : Nat) :
    xorByte buf k m = List.modify (fun x => u8 (Nat.xor x m)) k buf := by
  unfold xorByte
  rw [List.modify_eq_set, List.getD_eq_getElem?_getD]
  rfl

theorem modify_comm_of {α : Type} (f g : α → α) (hfg : ∀ x, f (g x) = g (f x)) (i j : Nat)
    (l : List α) : List.modify g j (List.modify f i l) = List.modify f i (List.modify g j l) := by
  by_cases h : i = j
  · subst h
    rw [List.modify_modify_eq, List.modify_modify_eq]
    congr 1
    funext x
    exact (hfg x).symm
  · exact List.modify_modify_ne f g l h

theorem modify_eq_self_of {α : Type} (f : α → α) :
    ∀ (i : Nat) (l : List α), (∀ x ∈ l, f x = x) → List.modify f i l = l := by
  intro i l
  induction l generalizing i with
  | nil => intro _; cases i <;> rfl
  | cons a l ih =>
    intro h
    cases i with
    | zero =>
      rw [List.modify_zero_cons, h a (by simp)]
    | succ i =>
      rw [List.modify_succ_cons, ih i (fun x hx => h x (by simp [hx]))]

theorem xorByte_comm (buf : List Nat) (k1 m1 k2 m2 : Nat) :
    xorByte (xorByte buf k1 m1) k2 m2 = xorByte (xorByte buf k2 m2) k1 m1 := by
  rw [xorByte_eq_modify, xorByte_eq_modify, xorByte_eq_modify, xorByte_eq_modify]
  exact modify_comm_of (fun x => u8 (Nat.xor x m1)) (fun x => u8 (Nat.xor x m2))
    (fun x => u8_xor_comm x m2 m1) k1 k2 buf

theorem xorByte_twice (buf : List Nat) (k m : Nat) (h : ∀ b ∈ buf, b < 256) :
    xorByte (xorByte buf k m) k m = buf := by
  rw [xorByte_eq_modify, xorByte_eq_modify, List.modify_modify_eq]
  exact modify_eq_self_of _ k buf (fun x hx => u8_xor_twice x m (h x hx))

theorem xorHeaderByte_eq (B : QUIC_PACKET_BUILDER) (r : HeaderRef) (k m : Nat) :
    xorHeaderByte B r k m =
      if r.Datagram < completedCount B then xorCompleted B r.Datagram (r.Offset + k) m
      else if r.Datagram = completedCount B then xorCurrent B (r.Offset + k) m
      else B := rfl

theorem completedCount_xorCompleted (B : QUIC_PACKET_BUILDER) (i off m : Nat) :
    completedCount (xorCompleted B i off m) = completedCount B := by
  unfold completedCount xorCompleted
  cases B.SendContext with
  | none => rfl
  | some c => simp

theorem completedCount_xorCurrent (B : QUIC_PACKET_BUILDER) (off m : Nat) :
    completedCount (xorCurrent B off m) = completedCount B := rfl

theorem xorCompleted_comm (B : QUIC_PACKET_BUILDER) (i1 o1 m1 i2 o2 m2 : Nat) :
    xorCompleted (xorCompleted B i1 o1 m1) i2 o2 m2 =
      xorCompleted (xorCompleted B i2 o2 m2) i1 o1 m1 := by
  unfold xorCompleted
  cases B.SendContext with
  | none => rfl
  | some c =>
    simp only [Option.map_some']
    congr 3
    apply modify_comm_of
    intro d
    simp only
    rw [xorByte_comm]

theorem xorCurrent_comm (B : QUIC_PACKET_BUILDER) (o1 m1 o2 m2 : Nat) :
    xorCurrent (xorCurrent B o1 m1) o2 m2 = xorCurrent (xorCurrent B o2 m2) o1 m1 := by
  unfold xorCurrent
  cases B.Datagram with
  | none => rfl
  | some d =>
    simp only [Option.map_some']
    rw [xorByte_comm]

theorem xorCompleted_xorCurrent (B : QUIC_PACKET_BUILDER) (i o1 m1 o2 m2 : Nat) :
    xorCurrent (xorCompleted B i o1 m1) o2 m2 = xorCompleted (xorCurrent B o2 m2) i o1 m1 := rfl

theorem xorCompleted_twice (B : QUIC_PACKET_BUILDER) (i o m : Nat) (h : BytesInRange B) :
    xorCompleted (xorCompleted B i o m) i o m = B := by
  unfold xorCompleted
  cases hc : B.SendContext with
  | none =>
    cases B
    simp only at hc
    subst hc
    rfl
  | some c =>
    simp only [Option.map_some']
    have h1 : List.modify (fun d : QUIC_BUFFER => { d with Buffer := xorByte d.Buffer o m }) i
        (List.modify (fun d : QUIC_BUFFER => { d with Buffer := xorByte d.Buffer o m }) i
          c.Datagrams) = c.Datagrams := by
      rw [List.modify_modify_eq]
      apply modify_eq_self_of
      intro d hd
      simp only [Function.comp_apply]
      rw [xorByte_twice d.Buffer o m (h.1 d (by simp [hc, hd]))]
    rw [h1]
    cases B
    simp only at hc
    subst hc
    rfl

theorem xorCurrent_twice (B : QUIC_PACKET_BUILDER) (o m : Nat) (h : BytesInRange B) :
    xorCurrent (xorCurrent B o m) o m = B := by
  unfold xorCurrent
  cases hd : B.Datagram with
  | none =>
    cases B
    simp only at hd
    subst hd
    rfl
  | some d =>
    simp only [Option.map_some']
    rw [xorByte_twice d.Buffer o m (fun b hb => h.2 b (by simp [datagramBuffer, hd, hb]))]
    cases B
    simp only at hd
    subst hd
    rfl

theorem completedCount_xorHeaderByte (B : QUIC_PACKET_BUILDER) (r : HeaderRef) (k m : Nat) :
    completedCount (xorHeaderByte B r k m) = completedCount B := by
  rw [xorHeaderByte_eq]
  split_ifs
  · exact completedCount_xorCompleted B _ _ _
  · rfl
  · rfl

/-- Two byte XORs of the flush commute. -/
theorem xorStep_comm (B : QUIC_PACKET_BUILDER) (a b : HeaderRef × Nat × Nat) :
    xorStep (xorStep B a) b = xorStep (xorStep B b) a := by
  unfold xorStep
  rw [xorHeaderByte_eq (xorHeaderByte B a.1 a.2.1 a.2.2), xorHeaderByte_eq (xorHeaderByte B b.1 b.2.1 b.2.2),
    completedCount_xorHeaderByte, completedCount_xorHeaderByte, xorHeaderByte_eq B a.1,
    xorHeaderByte_eq B b.1]
  by_cases ha1 : a.1.Datagram < completedCount B
  · by_cases hb1 : b.1.Datagram < completedCount B
    · simp only [if_pos ha1, if_pos hb1]
      exact xorCompleted_comm _ _ _ _ _ _ _
    · by_cases hb2 : b.1.Datagram = completedCount B
      · simp only [if_pos ha1, if_neg hb1, if_pos hb2]
        rfl
      · simp only [if_pos ha1, if_neg hb1, if_neg hb2]
  · by_cases ha2 : a.1.Datagram = completedCount B
    · by_cases hb1 : b.1.Datagram < completedCount B
      · simp only [if_neg ha1, if_pos ha2, if_pos hb1]
        rfl
      · by_cases hb2 : b.1.Datagram = completedCount B
        · simp only [if_neg ha1, if_pos ha2, if_neg hb1, if_pos hb2]
          exact xorCurrent_comm _ _ _ _ _
        · simp only [if_neg ha1, if_pos ha2, if_neg hb1, if_neg hb2]
    · by_cases hb1 : b.1.Datagram < completedCount B
      · simp only [if_neg ha1, if_neg ha2, if_pos hb1]
      · by_cases hb2 : b.1.Datagram = completedCount B
        · simp only [if_neg ha1, if_neg ha2, if_neg hb1, if_pos hb2]
        · simp only [if_neg ha1, if_neg ha2, if_neg hb1, if_neg hb2]

/-- A byte XOR of the flush made twice gives the bytes back. -/
theorem xorStep_twice (B : QUIC_PACKET_BUILDER) (a : HeaderRef × Nat × Nat)
    (h : BytesInRange B) : xorStep (xorStep B a) a = B := by
  unfold xorStep
  rw [xorHeaderByte_eq (xorHeaderByte B a.1 a.2.1 a.2.2), completedCount_xorHeaderByte,
    xorHeaderByte_eq B a.1]
  by_cases ha1 : a.1.Datagram < completedCount B
  · simp only [if_pos ha1]
    exact xorCompleted_twice B _ _ _ h
  · by_cases ha2 : a.1.Datagram = completedCount B
    · simp only [if_neg ha1, if_pos ha2]
      exact xorCurrent_twice B _ _ h
    · simp only [if_neg ha1, if_neg ha2]

theorem xorStep_foldl_comm (ops : List (HeaderRef × Nat × Nat)) :
    ∀ (B : QUIC_PACKET_BUILDER) (a : HeaderRef × Nat × Nat),
      xorStep (ops.foldl xorStep B) a = ops.foldl xorStep (xorStep B a) := by
  induction ops with
  | nil => intro B a; rfl
  | cons b ops ih =>
    intro B a
    rw [List.foldl_cons, List.foldl_cons, ih, xorStep_comm]

/-- A sequence of byte XORs made twice gives the bytes back. -/
theorem xorStep_foldl_twice (ops : List (HeaderRef × Nat × Nat)) (B : QUIC_PACKET_BUILDER)
    (h : BytesInRange B) : ops.foldl xorStep (ops.foldl xorStep B) = B := by
  induction ops with
  | nil => rfl
  | cons a ops ih =>
    rw [List.foldl_cons, List.foldl_cons, xorStep_foldl_comm ops (xorStep B a) a,
      xorStep_twice B a h]
    exact ih

theorem xorStep_foldl_noMemory (ops : List (HeaderRef × Nat × Nat)) :
    ∀ X : QUIC_PACKET_BUILDER, noMemory (ops.foldl xorStep X) = noMemory X := by
  induction ops with
  | nil => intro X; rfl
  | cons a ops ih =>
    intro X
    rw [List.foldl_cons, ih]
    exact xorHeaderByte_noMemory X _ _ _

/-- The loop body for one batch entry is its list of byte XORs. -/
theorem HpApplyEntry_eq_ops (E : Env) (B X : QUIC_PACKET_BUILDER) (i : Nat)
    (hv : noMemory X = noMemory B) :
    HpApplyEntry E X i = (HpEntryOps E B i).foldl xorStep X := by
  have h1 : X.HeaderBatch = B.HeaderBatch := by
    have h := congrArg (fun b : QUIC_PACKET_BUILDER => b.HeaderBatch) hv
    exact h
  have h2 : X.HpMask = B.HpMask := by
    have h := congrArg (fun b : QUIC_PACKET_BUILDER => b.HpMask) hv
    exact h
  have h3 : X.Path = B.Path := by
    have h := congrArg (fun b : QUIC_PACKET_BUILDER => b.Path) hv
    exact h
  have h4 : X.PacketNumberLength = B.PacketNumberLength := by
    have h := congrArg (fun b : QUIC_PACKET_BUILDER => b.PacketNumberLength) hv
    exact h
  unfold HpApplyEntry HpEntryOps
  simp only [List.foldl_cons, List.foldl_map]
  rw [h1, h2, h3, h4]
  rfl

/-- The loop over the batch is the list of its byte XORs. -/
theorem HpApplyEntry_foldl_eq_ops (E : Env) (B : QUIC_PACKET_BUILDER) (l : List Nat) :
    ∀ X : QUIC_PACKET_BUILDER, noMemory X = noMemory B →
      l.foldl (HpApplyEntry E) X = (HpBatchOps E B l).foldl xorStep X := by
  induction l with
  | nil => intro X _; rfl
  | cons i l ih =>
    intro X hv
    rw [List.foldl_cons, HpApplyEntry_eq_ops E B X i hv, HpBatchOps, List.foldl_append]
    exact ih _ ((xorStep_foldl_noMemory _ X).trans hv)

/-- The flush of the header-protection batch, when the mask computation
succeeds, is the XOR step with the new mask, followed by the reset of the
batch count. -/
theorem FinalizeHeaderProtection_eq_xor (E : Env) (B : QUIC_PACKET_BUILDER) (mask : List Nat)
    (h : E.QuicHpComputeMask B.Calls B.Key B.BatchCount B.CipherBatch = some mask) :
    QuicPacketBuilderFinalizeHeaderProtection E B =
      { HpXorBatch E { B with
          HpMask := mask
          Calls := Call.HpComputeMask B.BatchCount true :: B.Calls } with BatchCount := 0 } := by
  unfold QuicPacketBuilderFinalizeHeaderProtection
  rw [h]
  rfl

/-- C20: for every batch of short-header packets and every mask buffer, the
XOR step of the batch flush made twice with the same mask gives back the
builder it started from, and with it every byte of every batched header (the
bytes of the datagrams being values of `uint8_t`). -/
theorem C20_header_protection_xor_twice_is_identity (E : Env) (B : QUIC_PACKET_BUILDER)
    (h : BytesInRange B) : HpXorBatch E (HpXorBatch E B) = B := by
  have h1 : HpXorBatch E B = (HpBatchOps E B (List.range B.BatchCount)).foldl xorStep B :=
    HpApplyEntry_foldl_eq_ops E B _ B rfl
  have hv : noMemory (HpXorBatch E B) = noMemory B := by
    rw [h1]
    exact xorStep_foldl_noMemory _ B
  have hn : (HpXorBatch E B).BatchCount = B.BatchCount := by
    have h0 := congrArg (fun b : QUIC_PACKET_BUILDER => b.BatchCount) hv
    exact h0
  have h2 : HpXorBatch E (HpXorBatch E B) =
      (HpBatchOps E B (List.range B.BatchCount)).foldl xorStep (HpXorBatch E B) := by
    show List.foldl (HpApplyEntry E) (HpXorBatch E B)
      (List.range (HpXorBatch E B).BatchCount) = _
    rw [hn]
    exact HpApplyEntry_foldl_eq_ops E B _ _ hv
  rw [h2, h1]
  exact xorStep_foldl_twice _ B h

/-- C20 on the sample batch: the bytes are in range, the XOR step changes the
header of the batched packet (its first byte and its packet number), and
making it again gives the builder back. -/
theorem C20_header_protection_xor_twice_is_identity_witness :
    sampleHeaderBytes sampleBatched = [0x43, 1, 2, 3, 4, 0, 0, 0, 0] ∧
      sampleHeaderBytes (HpXorBatch sampleEnv sampleBatched) =
        [0x46, 1, 2, 3, 4, 0x11, 0x22, 0x33, 0x44] ∧
      HpXorBatch sampleEnv (HpXorBatch sampleEnv sampleBatched) = sampleBatched :=
  ⟨by decide, by decide,
    C20_header_protection_xor_twice_is_identity sampleEnv sampleBatched
      ⟨by decide, by decide⟩⟩

/-! ## The minimum length of a new datagram -/

/-- The allocation stage of prepare, when it has to allocate the datagram and
succeeds: the datagram has the length computed at lines 178-185 and the
minimum datagram length is the one chosen at lines 197-229. -/
theorem PrepareDatagram_alloc (E : Env) (B : QUIC_PACKET_BUILDER) (ty : Nat) (tlp pmtud : Bool)
    (hd : B.Datagram = none) (hok : (PrepareDatagram E B ty tlp pmtud).1 = true) :
    (PrepareDatagram E B ty tlp pmtud).2.Datagram.map (fun d => d.Length) =
        some (PrepareNewDatagramLength E B pmtud) ∧
      (PrepareDatagram E B ty tlp pmtud).2.MinimumDatagramLength =
        if tlp = true ∧ B.Connection.IsServer = false then
          if B.Connection.TlsState.WriteKey = E.QUIC_PACKET_KEY_1_RTT then
            u16 (E.QUIC_RECOMMENDED_STATELESS_RESET_PACKET_LENGTH + 8)
          else PrepareNewDatagramLength E B pmtud
        else if ty = E.QUIC_INITIAL ∧ B.Connection.IsServer = false then
          u16 (E.MaxUdpPayloadSizeForFamily B.Path.RemoteFamily E.QUIC_INITIAL_PACKET_LENGTH)
        else if pmtud = true then PrepareNewDatagramLength E B pmtud
        else 0 := by
  unfold PrepareDatagram at hok ⊢
  rw [hd] at hok ⊢
  simp only at hok ⊢
  have hctx := PrepareSendContext_noAlloc E B pmtud
  have hconn : (PrepareSendContext E B pmtud).2.Connection = B.Connection :=
    congrArg (fun b => b.Connection) hctx
  have hpath : (PrepareSendContext E B pmtud).2.Path = B.Path :=
    congrArg (fun b => b.Path) hctx
  have hlen : PrepareNewDatagramLength E (PrepareSendContext E B pmtud).2 pmtud =
      PrepareNewDatagramLength E B pmtud := by
    unfold PrepareNewDatagramLength PrepareDatagramSize
    rw [hconn, hpath]
  by_cases h1 : (PrepareSendContext E B pmtud).1 = true
  · rw [if_pos h1] at hok ⊢
    unfold PrepareAllocDatagram at hok ⊢
    simp only at hok ⊢
    by_cases h2 : E.AllocSendDatagramOk (PrepareSendContext E B pmtud).2.Calls
        (PrepareNewDatagramLength E (PrepareSendContext E B pmtud).2 pmtud) = true
    · rw [if_pos h2]
      simp only [Option.map_some', PrepareMinimumDatagramLength, hconn, hpath, hlen]
      refine ⟨trivial, ?_⟩
      cases tlp <;> cases pmtud <;> cases B.Connection.IsServer <;>
        by_cases h3 : ty = E.QUIC_INITIAL <;> simp [h3]
    · rw [if_neg h2] at hok
      exact absurd hok (by simp)
  · rw [if_neg h1] at hok
    exact absurd hok h1

theorem PrepareNewPacket_Datagram_Length (E : Env) (B B1 : QUIC_PACKET_BUILDER) (ty : Nat)
    (key : Option QUIC_PACKET_KEY) (pmtud : Bool)
    (h : PrepareNewPacket E B ty key pmtud = some B1) :
    B1.Datagram.map (fun d => d.Length) = B.Datagram.map (fun d => d.Length) := by
  unfold PrepareNewPacket at h
  simp only at h
  split_ifs at h <;>
  · injection h with h
    subst h
    cases hd : B.Datagram <;> simp [writeDatagram, setNextPacketNumber, hd]

/-- C21 as amended: when a successful prepare finds no current datagram after
its finalize step and allocates one, of length L, the minimum datagram length
it leaves is: for a tail-loss probe of a client, the recommended stateless
reset length plus 8 (truncated to 16 bits) when the current write key of the
connection, `TlsState.WriteKey`, is the 1-RTT key, whatever key the probe
packet itself is sent with, and L when the current write key is another one;
else, for an Initial packet of a client, the datagram payload size of
`QUIC_INITIAL_PACKET_LENGTH` for the address family of the path (truncated to
16 bits, and not L); else, for path MTU discovery, L; and 0 in every other
case.  Role, write key and address family are read in the state the finalize
step of prepare leaves. -/
theorem C21_minimum_datagram_length_of_new_datagram (E : Env) (B B1 : QUIC_PACKET_BUILDER)
    (ty : Nat) (key : Option QUIC_PACKET_KEY) (tlp pmtud : Bool)
    (hnone : (PrepareSelectPacket E B ty pmtud).2.Datagram = none)
    (h : QuicPacketBuilderPrepare E B ty key tlp pmtud = some (true, B1)) :
    B1.Datagram.map (fun d => d.Length) =
        some (PrepareNewDatagramLength E (PrepareSelectPacket E B ty pmtud).2 pmtud) ∧
      B1.MinimumDatagramLength =
        if tlp = true ∧ (PrepareSelectPacket E B ty pmtud).2.Connection.IsServer = false then
          if (PrepareSelectPacket E B ty pmtud).2.Connection.TlsState.WriteKey =
              E.QUIC_PACKET_KEY_1_RTT then
            u16 (E.QUIC_RECOMMENDED_STATELESS_RESET_PACKET_LENGTH + 8)
          else PrepareNewDatagramLength E (PrepareSelectPacket E B ty pmtud).2 pmtud
        else if ty = E.QUIC_INITIAL ∧
            (PrepareSelectPacket E B ty pmtud).2.Connection.IsServer = false then
          u16 (E.MaxUdpPayloadSizeForFamily (PrepareSelectPacket E B ty pmtud).2.Path.RemoteFamily
            E.QUIC_INITIAL_PACKET_LENGTH)
        else if pmtud = true then
          PrepareNewDatagramLength E (PrepareSelectPacket E B ty pmtud).2 pmtud
        else 0 := by
  have hns : (PrepareSelectPacket E B ty pmtud).1 ≠ some false := by
    by_cases hdiff : B.PacketType ≠ ty ∨ pmtud = true
    · exact (PrepareSelectPacket_differs E B ty pmtud hdiff).2
    · rw [PrepareSelectPacket_same E B ty pmtud hdiff] at hnone ⊢
      simp only at hnone ⊢
      rw [hnone]
      simp
  unfold QuicPacketBuilderPrepare at h
  rcases hsel : PrepareSelectPacket E B ty pmtud with ⟨nq, B0⟩
  rw [hsel] at h hnone hns
  simp only at hnone hns
  cases nq with
  | none => simp at h
  | some nq =>
    cases nq with
    | false => exact absurd rfl hns
    | true =>
      simp only at h
      have ha := PrepareDatagram_alloc E B0 ty tlp pmtud hnone
      rcases hdg : PrepareDatagram E B0 ty tlp pmtud with ⟨ok, B2⟩
      rw [hdg] at h ha
      cases ok with
      | false => simp at h
      | true =>
        simp only [if_true, Option.map_eq_some', Prod.mk.injEq, true_and] at h
        obtain ⟨B3, hB3, rfl⟩ := h
        obtain ⟨ha1, ha2⟩ := ha rfl
        simp only at ha1 ha2
        rw [PrepareNewPacket_MinimumDatagramLength E B2 B3 ty key pmtud hB3,
          PrepareNewPacket_Datagram_Length E B2 B3 ty key pmtud hB3]
        exact ⟨ha1, ha2⟩

/-- C21 as amended, on the sample client builder preparing a Handshake packet
in a tail-loss probe: the datagram has 1322 bytes and the minimum is the whole
of it (the current write key is the Handshake key). -/
theorem C21_minimum_datagram_length_of_new_datagram_witness :
    ((QuicPacketBuilderPrepare sampleEnv sampleBuilder 2 (some 12) true false).getD
        (false, sampleBuilder)).2.Datagram.map (fun d => d.Length) = some 1322 ∧
      ((QuicPacketBuilderPrepare sampleEnv sampleBuilder 2 (some 12) true false).getD
        (false, sampleBuilder)).2.MinimumDatagramLength = 1322 :=
  C21_minimum_datagram_length_of_new_datagram sampleEnv sampleBuilder _ 2 (some 12) true false
    (by decide) (Prepare_eq_some_true sampleEnv sampleBuilder 2 (some 12) true false (by decide))

/-- C21 as stated fails twice.  For a client Initial packet the sample client
builder gets a datagram of 1322 bytes and a minimum datagram length of 1200,
the payload size of the minimum Initial datagram, not 1322.  And for a
tail-loss probe of a client sent with the Handshake key (key type 2, an
earlier key; its packet type is 2) while the current write key of the
connection is the 1-RTT key (key type 3), the minimum is
the recommended stateless reset length plus 8, 33 bytes, not the 1322 of the
datagram: the code tests the current write key, not the key of the probe. -/
theorem C21_client_initial_minimum_is_not_datagram_length :
    sampleBuilder.Connection.IsServer = false ∧
      (QuicPacketBuilderPrepare sampleEnv sampleBuilder sampleEnv.QUIC_INITIAL (some 10)
        false false).map
          (fun r => (r.1, r.2.Datagram.map (fun d => d.Length), r.2.MinimumDatagramLength)) =
        some (true, some 1322, 1200) ∧
      sampleConnectedBuilder.Connection.IsServer = false ∧
      sampleConnectedBuilder.Connection.TlsState.WriteKey = sampleEnv.QUIC_PACKET_KEY_1_RTT ∧
      sampleConnEnv.QuicKeyTypeToPacketType 2 = 2 ∧
      sampleConnectedBuilder.Connection.TlsState.WriteKeys.getD 2 none = some 12 ∧
      sampleEnv.QUIC_RECOMMENDED_STATELESS_RESET_PACKET_LENGTH + 8 = 33 ∧
      (QuicPacketBuilderPrepare sampleEnv sampleConnectedBuilder 2
        (some 12) true false).map
          (fun r => (r.1, r.2.Key, r.2.Datagram.map (fun d => d.Length),
            r.2.MinimumDatagramLength)) =
        some (true, some 12, some 1322, 33) := by
  refine ⟨by decide, by decide, by decide, by decide, by decide, by decide, by decide, by decide⟩

/-! ## The last packet of a datagram -/

theorem cryptoBlind_TotalCountDatagrams :
    CryptoBlind (fun b : QUIC_PACKET_BUILDER => b.TotalCountDatagrams) where
  xor := fun B r k m => by
    have h := congrArg (fun b : QUIC_PACKET_BUILDER => b.TotalCountDatagrams)
      (xorHeaderByte_noMemory B r k m)
    exact h
  write := fun _ _ _ => rfl
  blind := fun _ _ _ _ _ _ _ _ _ => rfl

theorem cryptoBlind_completedLengths : CryptoBlind completedLengths where
  xor := xorHeaderByte_completedLengths
  write := fun _ _ _ => rfl
  blind := fun _ _ _ _ _ _ _ _ _ => rfl

theorem FinalizeNonEmpty_keeps {α : Type} (v : QUIC_PACKET_BUILDER → α) (hv : CryptoBlind v)
    (hcur : ∀ (B : QUIC_PACKET_BUILDER) n, v { B with DatagramLength := n } = v B)
    (hpad : ∀ E B cap a, v (FinalizePadAndLength E B cap a) = v B)
    (htrack : ∀ E B p, v (FinalizeTrack E B p) = v B)
    (E : Env) (B : QUIC_PACKET_BUILDER) (d : QUIC_BUFFER) (a : Bool) :
    v (FinalizeNonEmpty E B d a) = v B := by
  have h1 : ∀ p, v (FinalizeEncrypt E (FinalizePadAndLength E B d.Length a) p).1 = v B := by
    intro p
    rw [hv.encrypt E _ p]
    split_ifs
    · rw [hcur, hpad]
    · rw [hpad]
  unfold FinalizeNonEmpty
  simp only
  split_ifs
  · exact h1 _
  · rw [htrack]; exact h1 _

theorem FinalizeNonEmpty_TotalCountDatagrams (E : Env) (B : QUIC_PACKET_BUILDER)
    (d : QUIC_BUFFER) (a : Bool) :
    (FinalizeNonEmpty E B d a).TotalCountDatagrams = B.TotalCountDatagrams :=
  FinalizeNonEmpty_keeps (fun b => b.TotalCountDatagrams) cryptoBlind_TotalCountDatagrams
    (fun _ _ => rfl)
    (fun E B cap a => by unfold FinalizePadAndLength; simp only; split_ifs <;> rfl)
    (fun E B p => by unfold FinalizeTrack; simp only; split_ifs <;> rfl) E B d a

theorem FinalizeNonEmpty_completedLengths (E : Env) (B : QUIC_PACKET_BUILDER)
    (d : QUIC_BUFFER) (a : Bool) :
    completedLengths (FinalizeNonEmpty E B d a) = completedLengths B :=
  FinalizeNonEmpty_keeps completedLengths cryptoBlind_completedLengths
    (fun _ _ => rfl)
    (fun E B cap a => by unfold FinalizePadAndLength; simp only; split_ifs <;> rfl)
    (fun E B p => by unfold FinalizeTrack; simp only; split_ifs <;> rfl) E B d a

/-- The exit code of finalize counts the datagram it completes. -/
theorem FinalizeExit_final_TotalCountDatagrams (E : Env) (B : QUIC_PACKET_BUILDER) (a : Bool)
    (h : B.Datagram.isSome = true) :
    (FinalizeExit E B a true).TotalCountDatagrams = B.TotalCountDatagrams + 1 := by
  have hhp : ∀ b, (QuicPacketBuilderFinalizeHeaderProtection E b).TotalCountDatagrams =
      b.TotalCountDatagrams := fun b =>
    FinalizeHeaderProtection_keeps (fun b => b.TotalCountDatagrams)
      cryptoBlind_TotalCountDatagrams.xor (fun _ _ _ _ => rfl) E b
  have hfs : ∀ b, (FlushAndSend E b a).TotalCountDatagrams = b.TotalCountDatagrams := by
    intro b
    unfold FlushAndSend
    split_ifs
    · exact hhp b
    · rfl
    · rfl
  have hcl : ∀ b, (CloseAfterRetry E b).TotalCountDatagrams = b.TotalCountDatagrams := by
    intro b
    unfold CloseAfterRetry
    split_ifs <;> rfl
  obtain ⟨d, hd⟩ := Option.isSome_iff_exists.mp h
  unfold FinalizeExit
  simp only [if_true]
  rw [hcl, hfs]
  unfold CompleteDatagram
  rw [hd]

/-- The test of lines 574-576 under the assumptions of lines 556-563, in the
words of the natural numbers. -/
theorem IsFinalQuicPacket_iff (E : Env) (B : QUIC_PACKET_BUILDER) (cap : Nat) (a : Bool)
    (has : FinalizeAssumptions B cap) :
    IsFinalQuicPacket E B cap a = true ↔
      (a = true ∨ B.PacketType = E.SEND_PACKET_SHORT_HEADER_TYPE ∨
        cap - (B.DatagramLength + B.EncryptionOverhead) < E.QUIC_MIN_PACKET_SPARE_SPACE) := by
  have h1 := has.Room
  have h2 := has.CapacityFits
  have h3 : u16 cap = cap := Nat.mod_eq_of_lt (by omega)
  have h4 : u16 (B.DatagramLength + B.EncryptionOverhead) =
      B.DatagramLength + B.EncryptionOverhead := Nat.mod_eq_of_lt (by omega)
  unfold IsFinalQuicPacket
  simp only [h3, h4, Bool.or_eq_true, decide_eq_true_eq, or_assoc]
  constructor
  · rintro (h | h | h)
    · exact Or.inl h
    · exact Or.inr (Or.inl h)
    · exact Or.inr (Or.inr (by omega))
  · rintro (h | h | h)
    · exact Or.inl h
    · exact Or.inr (Or.inl h)
    · exact Or.inr (Or.inr (by omega))

/-- C22: for a packet with frames, in a state meeting the assumptions finalize
states on entry, finalize treats the packet as the last of its datagram
exactly when `AllDoneSending` is set, or the packet has a short header, or
the capacity less the write cursor and the encryption overhead is under
`QUIC_MIN_PACKET_SPARE_SPACE`.  When it is the last, the current datagram is
cleared, the length reported for the datagram is the final write cursor and
`TotalCountDatagrams` grows by exactly one; otherwise the datagram stays
current with its capacity, the count is unchanged and no datagram is added
to the completed ones. -/
theorem C22_final_packet_completes_datagram (E : Env) (B : QUIC_PACKET_BUILDER)
    (d : QUIC_BUFFER) (a : Bool) (hd : B.Datagram = some d)
    (hc : B.SendContext.isSome = true) (hf : B.Metadata.FrameCount ≠ 0)
    (has : FinalizeAssumptions B d.Length) :
    (IsFinalQuicPacket E B d.Length a = true ↔
        (a = true ∨ B.PacketType = E.SEND_PACKET_SHORT_HEADER_TYPE ∨
          d.Length - (B.DatagramLength + B.EncryptionOverhead) <
            E.QUIC_MIN_PACKET_SPARE_SPACE)) ∧
      ((a = true ∨ B.PacketType = E.SEND_PACKET_SHORT_HEADER_TYPE ∨
          d.Length - (B.DatagramLength + B.EncryptionOverhead) <
            E.QUIC_MIN_PACKET_SPARE_SPACE) →
        (QuicPacketBuilderFinalize E B a).Datagram = none ∧
          lastReportedLength (QuicPacketBuilderFinalize E B a) =
            some (QuicPacketBuilderFinalize E B a).DatagramLength ∧
          (QuicPacketBuilderFinalize E B a).TotalCountDatagrams = B.TotalCountDatagrams + 1) ∧
      (¬(a = true ∨ B.PacketType = E.SEND_PACKET_SHORT_HEADER_TYPE ∨
          d.Length - (B.DatagramLength + B.EncryptionOverhead) <
            E.QUIC_MIN_PACKET_SPARE_SPACE) →
        (QuicPacketBuilderFinalize E B a).Datagram.map (fun x => x.Length) = some d.Length ∧
          (QuicPacketBuilderFinalize E B a).TotalCountDatagrams = B.TotalCountDatagrams ∧
          completedLengths (QuicPacketBuilderFinalize E B a) = completedLengths B) := by
  have hiff := IsFinalQuicPacket_iff E B d.Length a has
  refine ⟨hiff, ?_, ?_⟩
  · intro hcond
    have hfinal := hiff.mpr hcond
    obtain ⟨h1, h2⟩ := Finalize_final_reports E B d a hd hc hf hfinal
    refine ⟨h2, h1, ?_⟩
    unfold QuicPacketBuilderFinalize
    rw [hd]
    simp only [hf, if_false, hfinal]
    rw [FinalizeExit_final_TotalCountDatagrams E _ a
      (by rw [FinalizeNonEmpty_Datagram_isSome, hd]; rfl),
      FinalizeNonEmpty_TotalCountDatagrams]
  · intro hcond
    have hfinal : IsFinalQuicPacket E B d.Length a = false := by
      cases h : IsFinalQuicPacket E B d.Length a
      · rfl
      · exact absurd (hiff.mp h) hcond
    unfold QuicPacketBuilderFinalize
    rw [hd]
    simp only [hf, if_false, hfinal, FinalizeExit_not_final]
    refine ⟨?_, FinalizeNonEmpty_TotalCountDatagrams E B d a,
      FinalizeNonEmpty_completedLengths E B d a⟩
    rw [FinalizeNonEmpty_capacity, hd]
    rfl

/-- C22 on the sample Initial packet of 300 bytes in a datagram of 1322, with
more to send: it is not the last packet of its datagram, which stays current,
and no datagram is counted. -/
theorem C22_final_packet_completes_datagram_witness :
    (QuicPacketBuilderFinalize sampleEnv sampleFramed false).Datagram.map
        (fun x => x.Length) = some 1322 ∧
      (QuicPacketBuilderFinalize sampleEnv sampleFramed false).TotalCountDatagrams = 0 ∧
      completedLengths (QuicPacketBuilderFinalize sampleEnv sampleFramed false) = some [] :=
  (C22_final_packet_completes_datagram sampleEnv sampleFramed sampleFramedDatagram false
    (Datagram_eq_some_getD _ (by decide)) (by decide) (by decide)
    ⟨by decide, by decide, by decide, by decide, by decide, by decide⟩).2.2 (by decide)

/-! ## The key-phase accounting of finalize -/

theorem getD_modify_self {α : Type} (f : α → α) (dflt : α) (l : List α) (n : Nat)
    (h : n < l.length) : (List.modify f n l).getD n dflt = f (l.getD n dflt) := by
  induction l generalizing n with
  | nil => exact absurd h (by simp)
  | cons x xs ih =>
    cases n with
    | zero => rfl
    | succ n =>
      simp only [List.modify_succ_cons, List.getD_cons_succ]
      exact ih n (by simpa using h)

theorem u64OfInt_add_sub {c p e : Nat} (h16 : p + e < 2 ^ 16) (h64 : c + p < 2 ^ 64) :
    u64OfInt ((c : Int) + (((u16 (p + e) : Nat) : Int) - (e : Int))) = c + p := by
  have h1 : u16 (p + e) = p + e := Nat.mod_eq_of_lt h16
  rw [h1]
  unfold u64OfInt
  have h : ((c : Int) + (((p + e : Nat) : Int) - (e : Int))) % 2 ^ 64 = ((c + p : Nat) : Int) := by
    rw [Int.emod_eq_of_lt] <;> omega
  rw [h]
  exact Int.toNat_ofNat _

theorem modify_congr_at {α : Type} (f g : α → α) (dflt : α) (l : List α) (n : Nat)
    (h : f (l.getD n dflt) = g (l.getD n dflt)) : List.modify f n l = List.modify g n l := by
  induction l generalizing n with
  | nil => cases n <;> rfl
  | cons x xs ih =>
    cases n with
    | zero =>
      simp only [List.modify_zero_cons]
      rw [show f x = g x from h]
    | succ n =>
      simp only [List.modify_succ_cons]
      rw [ih n (by simpa using h)]

/-- The key-phase accounting on its own: the counter of the packet space of
the builder grows by the plaintext length, and the keys are updated exactly
when the packet has a short header, the handshake is confirmed, no key-phase
confirmation is awaited and the new counter is within `QUIC_MAX_MTU` of the
limit. -/
theorem FinalizeKeyPhase_spec (E : Env) (X : QUIC_PACKET_BUILDER) (p : Nat)
    (hlev : X.EncryptLevel < X.Connection.Packets.length)
    (h16 : p + X.EncryptionOverhead < 2 ^ 16)
    (h64 : (X.Connection.Packets.getD X.EncryptLevel ⟨false, 0, false, 0⟩).CurrentKeyPhaseBytesSent
      + p + E.QUIC_MAX_MTU < 2 ^ 64) :
    FinalizeKeyPhase E X (u16 (p + X.EncryptionOverhead)) =
      if X.PacketType = E.SEND_PACKET_SHORT_HEADER_TYPE ∧
          X.Connection.HandshakeConfirmed = true ∧
          (X.Connection.Packets.getD X.EncryptLevel
            ⟨false, 0, false, 0⟩).AwaitingKeyPhaseConfirmation = false ∧
          (X.Connection.Packets.getD X.EncryptLevel
            ⟨false, 0, false, 0⟩).CurrentKeyPhaseBytesSent + p + E.QUIC_MAX_MTU ≥
              X.Connection.MaxBytesPerKey then
        match E.QuicCryptoGenerateNewKeys X.Calls X.Connection.TlsState with
        | none =>
          ({ X with
              Connection := { X.Connection with
                Packets := List.modify (fun ps => { ps with
                  CurrentKeyPhaseBytesSent := ps.CurrentKeyPhaseBytesSent + p })
                  X.EncryptLevel X.Connection.Packets }
              Calls := Call.ConnFatalError :: Call.CryptoGenerateNewKeys false :: X.Calls }, true)
        | some tls =>
          ({ X with
              Connection := { X.Connection with
                TlsState := (E.QuicCryptoUpdateKeyPhase tls
                  (List.modify (fun ps => { ps with
                    CurrentKeyPhaseBytesSent := ps.CurrentKeyPhaseBytesSent + p })
                    X.EncryptLevel X.Connection.Packets)).1
                Packets := (E.QuicCryptoUpdateKeyPhase tls
                  (List.modify (fun ps => { ps with
                    CurrentKeyPhaseBytesSent := ps.CurrentKeyPhaseBytesSent + p })
                    X.EncryptLevel X.Connection.Packets)).2 }
              Calls := Call.CryptoUpdateKeyPhase :: Call.CryptoGenerateNewKeys true :: X.Calls
              Key := (E.QuicCryptoUpdateKeyPhase tls
                  (List.modify (fun ps => { ps with
                    CurrentKeyPhaseBytesSent := ps.CurrentKeyPhaseBytesSent + p })
                    X.EncryptLevel X.Connection.Packets)).1.WriteKeys.getD
                      E.QUIC_PACKET_KEY_1_RTT none }, false)
      else
        ({ X with
            Connection := { X.Connection with
              Packets := List.modify (fun ps => { ps with
                CurrentKeyPhaseBytesSent := ps.CurrentKeyPhaseBytesSent + p })
                X.EncryptLevel X.Connection.Packets } }, false) := by
  have hmod : List.modify (fun ps : QUIC_PACKET_SPACE => { ps with
        CurrentKeyPhaseBytesSent := u64OfInt ((ps.CurrentKeyPhaseBytesSent : Int) +
          (((u16 (p + X.EncryptionOverhead) : Nat) : Int) - (X.EncryptionOverhead : Int))) })
        X.EncryptLevel X.Connection.Packets =
      List.modify (fun ps => { ps with
        CurrentKeyPhaseBytesSent := ps.CurrentKeyPhaseBytesSent + p })
        X.EncryptLevel X.Connection.Packets := by
    apply modify_congr_at _ _ ⟨false, 0, false, 0⟩
    rw [u64OfInt_add_sub h16 (by omega)]
  have hget := getD_modify_self (fun ps : QUIC_PACKET_SPACE => { ps with
        CurrentKeyPhaseBytesSent := ps.CurrentKeyPhaseBytesSent + p }) ⟨false, 0, false, 0⟩
        X.Connection.Packets X.EncryptLevel hlev
  unfold FinalizeKeyPhase
  simp only [hmod, hget]
  have hu : u64 ((X.Connection.Packets.getD X.EncryptLevel
      ⟨false, 0, false, 0⟩).CurrentKeyPhaseBytesSent + p + E.QUIC_MAX_MTU) =
      (X.Connection.Packets.getD X.EncryptLevel
      ⟨false, 0, false, 0⟩).CurrentKeyPhaseBytesSent + p + E.QUIC_MAX_MTU :=
    Nat.mod_eq_of_lt h64
  rw [hu]
  by_cases hc : X.PacketType = E.SEND_PACKET_SHORT_HEADER_TYPE ∧
          X.Connection.HandshakeConfirmed = true ∧
          (X.Connection.Packets.getD X.EncryptLevel
            ⟨false, 0, false, 0⟩).AwaitingKeyPhaseConfirmation = false ∧
          (X.Connection.Packets.getD X.EncryptLevel
            ⟨false, 0, false, 0⟩).CurrentKeyPhaseBytesSent + p + E.QUIC_MAX_MTU ≥
              X.Connection.MaxBytesPerKey
  · rw [if_pos hc, if_pos ⟨hc.1, hc.2.2.2, hc.2.2.1, hc.2.1⟩]
  · rw [if_neg hc, if_neg (fun h => hc ⟨h.1, h.2.2.2, h.2.2.1, h.2.1⟩)]

/-- A view that header protection cannot change: it is kept by a byte XOR and
is blind to the header-protection scratch state and the call log. -/
theorem FinalizeProtect_keeps {α : Type} (v : QUIC_PACKET_BUILDER → α)
    (hx : ∀ B r k m, v (xorHeaderByte B r k m) = v B)
    (hb : ∀ (B : QUIC_PACKET_BUILDER) mask n calls cb hb,
      v { B with
          HpMask := mask
          BatchCount := n
          Calls := calls
          CipherBatch := cb
          HeaderBatch := hb } = v B)
    (E : Env) (B : QUIC_PACKET_BUILDER) (pn : Nat) :
    v (FinalizeProtect E B pn).1 = v B := by
  have hflush : ∀ b, v (QuicPacketBuilderFinalizeHeaderProtection E b) = v b := fun b =>
    FinalizeHeaderProtection_keeps v hx
      (fun B mask n calls => hb B mask n calls B.CipherBatch B.HeaderBatch) E b
  unfold FinalizeProtect
  split_ifs
  · unfold FinalizeHpShort
    simp only
    split_ifs
    · rw [hflush]
      exact hb B B.HpMask _ B.Calls _ _
    · exact hb B B.HpMask _ B.Calls _ _
  · unfold FinalizeHpLong
    simp only
    split
    · exact hb B B.HpMask B.BatchCount _ B.CipherBatch B.HeaderBatch
    · rename_i mask _
      simp only
      rw [foldl_keeps v _ (fun b j => hx b _ _ _), hx]
      exact hb B mask B.BatchCount _ B.CipherBatch B.HeaderBatch
  · rfl

theorem FinalizeHeaderProtection_keyUpdates (E : Env) (B : QUIC_PACKET_BUILDER) :
    keyUpdates (QuicPacketBuilderFinalizeHeaderProtection E B) = keyUpdates B := by
  unfold keyUpdates
  rw [FinalizeHeaderProtection_Calls]
  cases E.QuicHpComputeMask B.Calls B.Key B.BatchCount B.CipherBatch <;>
    simp [Call.isKeyUpdate]

theorem FinalizeProtect_keyUpdates (E : Env) (B : QUIC_PACKET_BUILDER) (pn : Nat) :
    keyUpdates (FinalizeProtect E B pn).1 = keyUpdates B := by
  unfold FinalizeProtect
  split_ifs
  · unfold FinalizeHpShort
    simp only
    split_ifs
    · rw [FinalizeHeaderProtection_keyUpdates]
      rfl
    · rfl
  · unfold FinalizeHpLong
    simp only
    split
    · simp [keyUpdates, Call.isKeyUpdate]
    · rename_i mask _
      simp only
      unfold keyUpdates
      rw [foldl_keeps (fun b : QUIC_PACKET_BUILDER => b.Calls) _
        (fun b j => xorHeaderByte_Calls b _ _ _), xorHeaderByte_Calls]
      simp [Call.isKeyUpdate]
  · rfl

theorem FinalizePadAndLength_sealed_view (E : Env) (B : QUIC_PACKET_BUILDER) (cap : Nat)
    (a : Bool) :
    (fun b : QUIC_PACKET_BUILDER =>
        (b.Connection, b.PacketType, b.EncryptLevel, b.EncryptionOverhead, b.Key))
      (FinalizePadAndLength E B cap a) =
      (B.Connection, B.PacketType, B.EncryptLevel, B.EncryptionOverhead, B.Key) := by
  unfold FinalizePadAndLength
  simp only
  split_ifs <;> rfl

/-- Up to the key-phase accounting, finalize leaves the connection, the packet
type, the encryption level, the overhead and the key alone and makes no
key-update call. -/
theorem FinalizeSealed_fields (E : Env) (B X : QUIC_PACKET_BUILDER) (d : QUIC_BUFFER) (a : Bool)
    (h : FinalizeSealed E B d a = some X) :
    (X.Connection, X.PacketType, X.EncryptLevel, X.EncryptionOverhead, X.Key) =
        (B.Connection, B.PacketType, B.EncryptLevel, B.EncryptionOverhead, B.Key) ∧
      keyUpdates X = keyUpdates B ∧ B.Connection.EncryptionEnabled = true := by
  have hv := FinalizePadAndLength_sealed_view E B d.Length a
  have hcalls := FinalizePadAndLength_Calls E B d.Length a
  simp only at hv
  unfold FinalizeSealed at h
  simp only at h
  split_ifs at h with he
  split at h
  · exact absurd h (by simp)
  · rename_i cipher _
    split_ifs at h with hp
    simp only [Option.some.injEq] at h
    subst h
    refine ⟨?_, ?_, ?_⟩
    · have h1 := FinalizeProtect_keeps
        (fun b : QUIC_PACKET_BUILDER =>
          (b.Connection, b.PacketType, b.EncryptLevel, b.EncryptionOverhead, b.Key))
        (fun B r k m => by
          have h2 := congrArg (fun b : QUIC_PACKET_BUILDER =>
            (b.Connection, b.PacketType, b.EncryptLevel, b.EncryptionOverhead, b.Key))
            (xorHeaderByte_noMemory B r k m)
          exact h2)
        (fun _ _ _ _ _ _ => rfl) E
        (logCall (writeDatagram
          { FinalizePadAndLength E B d.Length a with
            DatagramLength := u16 ((FinalizePadAndLength E B d.Length a).DatagramLength +
              (FinalizePadAndLength E B d.Length a).EncryptionOverhead) }
          ((FinalizePadAndLength E B d.Length a).PacketStart +
            (FinalizePadAndLength E B d.Length a).HeaderLength) cipher)
          (Call.Encrypt (FinalizePadAndLength E B d.Length a).Metadata.PacketNumber true))
        ((FinalizePadAndLength E B d.Length a).PacketStart +
            (FinalizePadAndLength E B d.Length a).HeaderLength -
          (FinalizePadAndLength E B d.Length a).PacketNumberLength)
      exact h1.trans hv
    · rw [FinalizeProtect_keyUpdates]
      unfold keyUpdates logCall writeDatagram
      simp only
      rw [List.filter_cons_of_neg (by simp [Call.isKeyUpdate]), hcalls]
    · have h3 := congrArg (fun t => t.1.EncryptionEnabled) hv
      simp only at h3
      rw [← h3]
      exact he

theorem FinalizeAfterEncrypt_ok (E : Env) (B : QUIC_PACKET_BUILDER) (pn p : Nat)
    (hp : ¬(FinalizeProtect E B pn).2 = true) :
    FinalizeAfterEncrypt E B pn p =
      ((FinalizeKeyPhase E (FinalizeProtect E B pn).1 p).1, p,
        (FinalizeKeyPhase E (FinalizeProtect E B pn).1 p).2) := by
  unfold FinalizeAfterEncrypt
  rw [if_neg hp]

/-- From the key-phase accounting on, finalize runs the accounting and, unless
key generation fails, tracks the packet. -/
theorem FinalizeNonEmpty_of_sealed (E : Env) (B X : QUIC_PACKET_BUILDER) (d : QUIC_BUFFER)
    (a : Bool) (h : FinalizeSealed E B d a = some X) :
    FinalizeNonEmpty E B d a =
      if (FinalizeKeyPhase E X (u16 (PaddedPayloadLength B
          (FinalizeMinimumDatagramLength E B d.Length a) (IsFinalQuicPacket E B d.Length a) +
          B.EncryptionOverhead))).2 then
        (FinalizeKeyPhase E X (u16 (PaddedPayloadLength B
          (FinalizeMinimumDatagramLength E B d.Length a) (IsFinalQuicPacket E B d.Length a) +
          B.EncryptionOverhead))).1
      else
        FinalizeTrack E (FinalizeKeyPhase E X (u16 (PaddedPayloadLength B
          (FinalizeMinimumDatagramLength E B d.Length a) (IsFinalQuicPacket E B d.Length a) +
          B.EncryptionOverhead))).1
          (u16 (PaddedPayloadLength B
          (FinalizeMinimumDatagramLength E B d.Length a) (IsFinalQuicPacket E B d.Length a) +
          B.EncryptionOverhead)) := by
  have hv := FinalizePadAndLength_sealed_view E B d.Length a
  have hov : (FinalizePadAndLength E B d.Length a).EncryptionOverhead = B.EncryptionOverhead :=
    congrArg (fun t => t.2.2.2.1) hv
  unfold FinalizeSealed at h
  simp only at h
  split_ifs at h with he
  split at h
  · exact absurd h (by simp)
  · rename_i cipher heq
    split_ifs at h with hp
    simp only [Option.some.injEq] at h
    subst h
    unfold FinalizeNonEmpty
    simp only
    rw [FinalizeEncrypt_some E (FinalizePadAndLength E B d.Length a) _ cipher he heq]
    erw [FinalizeAfterEncrypt_ok E _ _ _ hp]
    simp only [hov]

theorem FinalizeTrack_keyUpdates (E : Env) (B : QUIC_PACKET_BUILDER) (p : Nat) :
    keyUpdates (FinalizeTrack E B p) = keyUpdates B ∧
      (FinalizeTrack E B p).Connection = B.Connection ∧ (FinalizeTrack E B p).Key = B.Key := by
  unfold FinalizeTrack
  simp only
  split_ifs <;> exact ⟨by simp [keyUpdates, Call.isKeyUpdate], rfl, rfl⟩

theorem FinalizeExit_keyUpdates (E : Env) (X : QUIC_PACKET_BUILDER) (a f : Bool) :
    keyUpdates (FinalizeExit E X a f) = keyUpdates X := by
  cases f with
  | false => rw [FinalizeExit_not_final]
  | true =>
    have hc : keyUpdates (CompleteDatagram X) = keyUpdates X := by
      unfold CompleteDatagram
      cases X.Datagram <;> rfl
    have hsb : ∀ b, keyUpdates (QuicPacketBuilderSendBatch b) = keyUpdates b := by
      intro b
      unfold QuicPacketBuilderSendBatch keyUpdates
      simp only
      split_ifs <;> simp [Call.isKeyUpdate]
    have hfs : ∀ b, keyUpdates (FlushAndSend E b a) = keyUpdates b := by
      intro b
      unfold FlushAndSend
      split_ifs
      · rw [hsb, FinalizeHeaderProtection_keyUpdates]
      · rw [hsb]
      · rfl
    have hcl : ∀ b, keyUpdates (CloseAfterRetry E b) = keyUpdates b := by
      intro b
      unfold CloseAfterRetry
      split_ifs
      · simp [keyUpdates, logCall, Call.isKeyUpdate]
      · rfl
    unfold FinalizeExit
    simp only [if_true]
    rw [hcl, hfs, hc]

/-- What finalize leaves of a packet with frames, read after the exit code:
the connection, the key and the key-update calls are those at the `Exit:`
label. -/
theorem Finalize_key_view (E : Env) (B : QUIC_PACKET_BUILDER) (d : QUIC_BUFFER) (a : Bool)
    (hd : B.Datagram = some d) (hf : B.Metadata.FrameCount ≠ 0) :
    (QuicPacketBuilderFinalize E B a).Connection = (FinalizeNonEmpty E B d a).Connection ∧
      (QuicPacketBuilderFinalize E B a).Key = (FinalizeNonEmpty E B d a).Key ∧
      keyUpdates (QuicPacketBuilderFinalize E B a) = keyUpdates (FinalizeNonEmpty E B d a) := by
  unfold QuicPacketBuilderFinalize
  rw [hd]
  simp only [hf, if_false]
  have hx := FinalizeExit_noExit E (FinalizeNonEmpty E B d a) a (IsFinalQuicPacket E B d.Length a)
  have h1 := congrArg (fun b : QUIC_PACKET_BUILDER => b.Connection) hx
  have h2 := congrArg (fun b : QUIC_PACKET_BUILDER => b.Key) hx
  exact ⟨h1, h2, FinalizeExit_keyUpdates E _ a _⟩

theorem eq_some_getD {α : Type} (o : Option α) (x : α) (h : o.isSome = true) :
    o = some (o.getD x) := by
  obtain ⟨y, hy⟩ := Option.isSome_iff_exists.mp h
  simp [hy]

theorem FinalizeAfterEncrypt_failed (E : Env) (B : QUIC_PACKET_BUILDER) (pn p : Nat)
    (hp : (FinalizeProtect E B pn).2 = true) :
    FinalizeAfterEncrypt E B pn p = ((FinalizeProtect E B pn).1, p, true) := by
  unfold FinalizeAfterEncrypt
  rw [if_pos hp]

/-- When finalize does not reach the key-phase accounting, it leaves the
connection alone and makes no key-update call. -/
theorem FinalizeNonEmpty_of_unsealed (E : Env) (B : QUIC_PACKET_BUILDER) (d : QUIC_BUFFER)
    (a : Bool) (h : FinalizeSealed E B d a = none) :
    (FinalizeNonEmpty E B d a).Connection = B.Connection ∧
      keyUpdates (FinalizeNonEmpty E B d a) = keyUpdates B := by
  have hv := FinalizePadAndLength_sealed_view E B d.Length a
  have hcalls := FinalizePadAndLength_Calls E B d.Length a
  simp only [Prod.mk.injEq] at hv
  have hconn := hv.1
  have hku0 : keyUpdates (FinalizePadAndLength E B d.Length a) = keyUpdates B := by
    unfold keyUpdates
    rw [hcalls]
  unfold FinalizeSealed at h
  simp only at h
  by_cases he : (FinalizePadAndLength E B d.Length a).Connection.EncryptionEnabled = true
  · rw [if_pos he] at h
    split at h
    · rename_i heq
      unfold FinalizeNonEmpty
      simp only
      rw [FinalizeEncrypt_none E (FinalizePadAndLength E B d.Length a) _ he heq]
      simp only [if_true]
      refine ⟨hconn, ?_⟩
      unfold keyUpdates
      simp only [List.filter_cons_of_neg, Call.isKeyUpdate, Bool.false_eq_true,
        not_false_eq_true]
      exact hku0
    · rename_i cipher heq
      split_ifs at h with hp
      unfold FinalizeNonEmpty
      simp only
      rw [FinalizeEncrypt_some E (FinalizePadAndLength E B d.Length a) _ cipher he heq]
      erw [FinalizeAfterEncrypt_failed E _ _ _ hp]
      simp only [if_true]
      constructor
      · have h1 := FinalizeProtect_keeps (fun b : QUIC_PACKET_BUILDER => b.Connection)
          (fun B r k m => by
            have h2 := congrArg (fun b : QUIC_PACKET_BUILDER => b.Connection)
              (xorHeaderByte_noMemory B r k m)
            exact h2)
          (fun _ _ _ _ _ _ => rfl) E
        rw [h1]
        exact hconn
      · rw [FinalizeProtect_keyUpdates]
        unfold keyUpdates logCall writeDatagram
        simp only
        rw [List.filter_cons_of_neg (by simp [Call.isKeyUpdate]), hcalls]
  · unfold FinalizeNonEmpty FinalizeEncrypt
    simp only [he, if_false, Bool.false_eq_true]
    obtain ⟨t1, t2, -⟩ := FinalizeTrack_keyUpdates E (FinalizePadAndLength E B d.Length a)
      (PaddedPayloadLength B (FinalizeMinimumDatagramLength E B d.Length a)
        (IsFinalQuicPacket E B d.Length a))
    exact ⟨t2.trans hconn, t1.trans hku0⟩

/-- C23 as amended: for finalize of a packet with frames, no counter wrapping.
When finalize gets through encryption and header protection (encryption
enabled, neither the encryption nor the mask of a long header failing), the
counter `CurrentKeyPhaseBytesSent` of the packet space of the builder grows by
exactly the plaintext payload length (padding included, AEAD tag excluded),
and key update calls are made if and only if the packet has a short header,
the handshake is confirmed, the space awaits no key-phase confirmation and the
new counter plus `QUIC_MAX_MTU` reaches `MaxBytesPerKey`.  Then new keys are
generated; on success the key phase is advanced, on the packet spaces with the
new counter, and the builder key becomes the installed 1-RTT write key; on
failure nothing else changes.  When finalize does not get that far, the packet
spaces are left as they were and no key-update call is made. -/
theorem C23_key_phase_bytes_and_key_update (E : Env) (B : QUIC_PACKET_BUILDER)
    (d : QUIC_BUFFER) (a : Bool) (hd : B.Datagram = some d) (hf : B.Metadata.FrameCount ≠ 0)
    (hlev : B.EncryptLevel < B.Connection.Packets.length)
    (h16 : PlaintextLength E B d.Length a + B.EncryptionOverhead < 2 ^ 16)
    (h64 : (KeyPhaseSpace B).CurrentKeyPhaseBytesSent + PlaintextLength E B d.Length a +
      E.QUIC_MAX_MTU < 2 ^ 64) :
    (∀ X, FinalizeSealed E B d a = some X →
        (((List.modify (fun ps => { ps with CurrentKeyPhaseBytesSent :=
                  ps.CurrentKeyPhaseBytesSent + PlaintextLength E B d.Length a })
                B.EncryptLevel B.Connection.Packets).getD B.EncryptLevel
              ⟨false, 0, false, 0⟩).CurrentKeyPhaseBytesSent =
            (KeyPhaseSpace B).CurrentKeyPhaseBytesSent + PlaintextLength E B d.Length a) ∧
          (keyUpdates (QuicPacketBuilderFinalize E B a) ≠ keyUpdates B ↔
            (B.PacketType = E.SEND_PACKET_SHORT_HEADER_TYPE ∧
              B.Connection.HandshakeConfirmed = true ∧
              (KeyPhaseSpace B).AwaitingKeyPhaseConfirmation = false ∧
              (KeyPhaseSpace B).CurrentKeyPhaseBytesSent + PlaintextLength E B d.Length a +
                E.QUIC_MAX_MTU ≥ B.Connection.MaxBytesPerKey)) ∧
          (¬(B.PacketType = E.SEND_PACKET_SHORT_HEADER_TYPE ∧
              B.Connection.HandshakeConfirmed = true ∧
              (KeyPhaseSpace B).AwaitingKeyPhaseConfirmation = false ∧
              (KeyPhaseSpace B).CurrentKeyPhaseBytesSent + PlaintextLength E B d.Length a +
                E.QUIC_MAX_MTU ≥ B.Connection.MaxBytesPerKey) →
            (QuicPacketBuilderFinalize E B a).Connection.Packets =
                (List.modify (fun ps => { ps with CurrentKeyPhaseBytesSent :=
                  ps.CurrentKeyPhaseBytesSent + PlaintextLength E B d.Length a })
                B.EncryptLevel B.Connection.Packets) ∧
              (QuicPacketBuilderFinalize E B a).Connection.TlsState = B.Connection.TlsState ∧
              (QuicPacketBuilderFinalize E B a).Key = B.Key) ∧
          ((B.PacketType = E.SEND_PACKET_SHORT_HEADER_TYPE ∧
              B.Connection.HandshakeConfirmed = true ∧
              (KeyPhaseSpace B).AwaitingKeyPhaseConfirmation = false ∧
              (KeyPhaseSpace B).CurrentKeyPhaseBytesSent + PlaintextLength E B d.Length a +
                E.QUIC_MAX_MTU ≥ B.Connection.MaxBytesPerKey) →
            E.QuicCryptoGenerateNewKeys X.Calls B.Connection.TlsState = none →
            keyUpdates (QuicPacketBuilderFinalize E B a) = Call.CryptoGenerateNewKeys false :: keyUpdates B ∧
              (QuicPacketBuilderFinalize E B a).Connection.Packets =
                (List.modify (fun ps => { ps with CurrentKeyPhaseBytesSent :=
                  ps.CurrentKeyPhaseBytesSent + PlaintextLength E B d.Length a })
                B.EncryptLevel B.Connection.Packets) ∧
              (QuicPacketBuilderFinalize E B a).Connection.TlsState = B.Connection.TlsState ∧
              (QuicPacketBuilderFinalize E B a).Key = B.Key) ∧
          ((B.PacketType = E.SEND_PACKET_SHORT_HEADER_TYPE ∧
              B.Connection.HandshakeConfirmed = true ∧
              (KeyPhaseSpace B).AwaitingKeyPhaseConfirmation = false ∧
              (KeyPhaseSpace B).CurrentKeyPhaseBytesSent + PlaintextLength E B d.Length a +
                E.QUIC_MAX_MTU ≥ B.Connection.MaxBytesPerKey) →
            ∀ tls, E.QuicCryptoGenerateNewKeys X.Calls B.Connection.TlsState = some tls →
            keyUpdates (QuicPacketBuilderFinalize E B a) =
                Call.CryptoUpdateKeyPhase :: Call.CryptoGenerateNewKeys true :: keyUpdates B ∧
              (QuicPacketBuilderFinalize E B a).Connection.TlsState =
                (E.QuicCryptoUpdateKeyPhase tls
                  (List.modify (fun ps => { ps with CurrentKeyPhaseBytesSent :=
                  ps.CurrentKeyPhaseBytesSent + PlaintextLength E B d.Length a })
                B.EncryptLevel B.Connection.Packets)).1 ∧
              (QuicPacketBuilderFinalize E B a).Connection.Packets =
                (E.QuicCryptoUpdateKeyPhase tls
                  (List.modify (fun ps => { ps with CurrentKeyPhaseBytesSent :=
                  ps.CurrentKeyPhaseBytesSent + PlaintextLength E B d.Length a })
                B.EncryptLevel B.Connection.Packets)).2 ∧
              (QuicPacketBuilderFinalize E B a).Key =
                (E.QuicCryptoUpdateKeyPhase tls
                  (List.modify (fun ps => { ps with CurrentKeyPhaseBytesSent :=
                  ps.CurrentKeyPhaseBytesSent + PlaintextLength E B d.Length a })
                B.EncryptLevel B.Connection.Packets)).1.WriteKeys.getD
                    E.QUIC_PACKET_KEY_1_RTT none)) ∧
      (FinalizeSealed E B d a = none →
        (QuicPacketBuilderFinalize E B a).Connection.Packets = B.Connection.Packets ∧
          keyUpdates (QuicPacketBuilderFinalize E B a) = keyUpdates B) := by
  refine ⟨fun X hs => ?_, fun hnone => ?_⟩
  ·   obtain ⟨hc, hk, hu⟩ := Finalize_key_view E B d a hd hf
      obtain ⟨hfields, hku, -⟩ := FinalizeSealed_fields E B X d a hs
      simp only [Prod.mk.injEq] at hfields
      obtain ⟨f1, f2, f3, f4, f5⟩ := hfields
      have hne := FinalizeNonEmpty_of_sealed E B X d a hs
      unfold PlaintextLength KeyPhaseSpace at *
      have hspec := FinalizeKeyPhase_spec E X (PaddedPayloadLength B
        (FinalizeMinimumDatagramLength E B d.Length a) (IsFinalQuicPacket E B d.Length a))
        (by rw [f3, f1]; exact hlev) (by rw [f4]; exact h16) (by rw [f3, f1]; exact h64)
      rw [f4] at hspec
      rw [hspec] at hne
      rw [f1, f2, f3] at hne
      clear hspec
      rw [hc, hk, hu]
      have hcons : ∀ (c : Call) (l : List Call), c :: l ≠ l := fun c l h => by
        have h1 := congrArg List.length h
        simp at h1
      have h3 : ∀ Y : QUIC_PACKET_BUILDER, ∀ p, keyUpdates (FinalizeTrack E Y p) = keyUpdates Y :=
        fun Y p => (FinalizeTrack_keyUpdates E Y p).1
      have h4 : ∀ Y : QUIC_PACKET_BUILDER, ∀ p, (FinalizeTrack E Y p).Connection = Y.Connection :=
        fun Y p => (FinalizeTrack_keyUpdates E Y p).2.1
      have h5 : ∀ Y : QUIC_PACKET_BUILDER, ∀ p, (FinalizeTrack E Y p).Key = Y.Key :=
        fun Y p => (FinalizeTrack_keyUpdates E Y p).2.2
      have hno : keyUpdates X = List.filter Call.isKeyUpdate X.Calls := rfl
      refine ⟨?_, ?_, ?_, ?_, ?_⟩
      · rw [getD_modify_self _ _ _ _ hlev]
      · constructor
        · intro hneq
          by_contra hT
          rw [if_neg hT] at hne
          simp only [Bool.false_eq_true, if_false] at hne
          rw [hne, h3] at hneq
          exact hneq hku
        · intro hT
          rw [if_pos hT] at hne
          cases hg : E.QuicCryptoGenerateNewKeys X.Calls B.Connection.TlsState with
          | none =>
            rw [hg] at hne
            simp only [if_true] at hne
            rw [hne]
            unfold keyUpdates
            simp only [List.filter_cons_of_neg, List.filter_cons_of_pos, Call.isKeyUpdate,
              Bool.false_eq_true, not_false_eq_true]
            rw [← hno, hku]
            exact hcons _ _
          | some tls =>
            rw [hg] at hne
            simp only [Bool.false_eq_true, if_false] at hne
            rw [hne, h3]
            unfold keyUpdates
            simp only [List.filter_cons_of_pos, Call.isKeyUpdate]
            rw [← hno, hku]
            intro h
            have h1 := congrArg List.length h
            simp only [keyUpdates, List.length_cons] at h1
            omega
      · intro hT
        rw [if_neg hT] at hne
        simp only [Bool.false_eq_true, if_false] at hne
        rw [hne, h4, h5]
        exact ⟨rfl, rfl, f5⟩
      · intro hT hg
        rw [if_pos hT, hg] at hne
        simp only [if_true] at hne
        rw [hne]
        refine ⟨?_, rfl, rfl, f5⟩
        unfold keyUpdates
        simp only [List.filter_cons_of_neg, List.filter_cons_of_pos, Call.isKeyUpdate,
          Bool.false_eq_true, not_false_eq_true]
        rw [← hno, hku]
        rfl
      · intro hT tls hg
        rw [if_pos hT, hg] at hne
        simp only [Bool.false_eq_true, if_false] at hne
        rw [hne, h3, h4, h5]
        refine ⟨?_, rfl, rfl, rfl⟩
        unfold keyUpdates
        simp only [List.filter_cons_of_pos, Call.isKeyUpdate]
        rw [← hno, hku]
        rfl
  · obtain ⟨hc, -, hu⟩ := Finalize_key_view E B d a hd hf
    obtain ⟨n1, n2⟩ := FinalizeNonEmpty_of_unsealed E B d a hnone
    rw [hc, hu, n1, n2]
    exact ⟨rfl, rfl⟩

/-- C23 as amended, on a short-header packet of 100 bytes of frames, the
handshake confirmed and the keys good for 1600 bytes: the counter goes from 0
to 100, which is within `QUIC_MAX_MTU` = 1500 of the limit, so new keys are
generated, the key phase is advanced and the builder takes the new 1-RTT
write key 14. -/
theorem C23_key_phase_bytes_and_key_update_witness :
    keyUpdates (QuicPacketBuilderFinalize sampleRekeyEnv sampleKeyLimitFramed true) =
        [Call.CryptoUpdateKeyPhase, Call.CryptoGenerateNewKeys true] ∧
      (QuicPacketBuilderFinalize sampleRekeyEnv sampleKeyLimitFramed true).Connection.Packets =
        [⟨false, 0, false, 0⟩, ⟨false, 0, false, 1⟩, ⟨false, 100, false, 0⟩] ∧
      (QuicPacketBuilderFinalize sampleRekeyEnv sampleKeyLimitFramed true).Key = some 14 :=
  have h := ((C23_key_phase_bytes_and_key_update sampleRekeyEnv sampleKeyLimitFramed
    (sampleKeyLimitFramed.Datagram.getD ⟨0, []⟩) true
    (Datagram_eq_some_getD _ (by decide)) (by decide) (by decide) (by decide) (by decide)).1
    ((FinalizeSealed sampleRekeyEnv sampleKeyLimitFramed
      (sampleKeyLimitFramed.Datagram.getD ⟨0, []⟩) true).getD sampleKeyLimitFramed)
    (eq_some_getD _ _ (by decide))).2.2.2.2
    (by decide) sampleKeyLimitFramed.Connection.TlsState rfl
  ⟨h.1.trans (by decide), h.2.2.1.trans (by decide), h.2.2.2⟩

/-- C23 as stated fails when the encryption fails: the same packet, with
encryption enabled and 100 bytes of plaintext, leaves the counter of its
packet space at 0 and makes no key-update call, although the packet has a
short header, the handshake is confirmed, no confirmation is awaited and 100
more bytes would bring the counter within `QUIC_MAX_MTU` of the limit. -/
theorem C23_counter_not_updated_when_encryption_fails :
    sampleKeyLimitFramed.Connection.EncryptionEnabled = true ∧
      sampleKeyLimitFramed.Metadata.FrameCount ≠ 0 ∧
      PlaintextLength sampleEncryptFailureEnv sampleKeyLimitFramed 1322 true = 100 ∧
      sampleKeyLimitFramed.PacketType = sampleEncryptFailureEnv.SEND_PACKET_SHORT_HEADER_TYPE ∧
      sampleKeyLimitFramed.Connection.HandshakeConfirmed = true ∧
      KeyPhaseSpace sampleKeyLimitFramed = ⟨false, 0, false, 0⟩ ∧
      0 + 100 + sampleEncryptFailureEnv.QUIC_MAX_MTU ≥
        sampleKeyLimitFramed.Connection.MaxBytesPerKey ∧
      KeyPhaseSpace (QuicPacketBuilderFinalize sampleEncryptFailureEnv sampleKeyLimitFramed true) =
        ⟨false, 0, false, 0⟩ ∧
      keyUpdates (QuicPacketBuilderFinalize sampleEncryptFailureEnv sampleKeyLimitFramed true) =
        [] := by
  decide

/-! ## The bytes the header-protection flush changes -/

theorem byteAt_xorHeaderByte (B : QUIC_PACKET_BUILDER) (r : HeaderRef) (k m dg off : Nat) :
    byteAt (xorHeaderByte B r k m) dg off =
      if r.Datagram = dg ∧ r.Offset + k = off then
        (byteAt B dg off).map (fun v => u8 (Nat.xor v m))
      else byteAt B dg off := by
  rw [xorHeaderByte_eq]
  unfold completedCount
  by_cases h1 : r.Datagram < ((B.SendContext.map (fun c => c.Datagrams)).getD []).length
  · rw [if_pos h1]
    unfold byteAt xorCompleted
    cases hs : B.SendContext with
    | none => rw [hs] at h1; exact absurd h1 (by simp)
    | some c =>
      rw [hs] at h1
      simp only [Option.map_some', Option.getD_some, List.length_modify] at h1 ⊢
      by_cases hd : dg < c.Datagrams.length
      · simp only [if_pos hd, List.getElem?_modify]
        rw [List.getElem?_eq_getElem hd]
        simp only [Option.map_eq_map, Option.map_some', Option.some_bind]
        by_cases he : r.Datagram = dg
        · simp only [he, if_true, true_and, xorByte_eq_modify, List.getElem?_modify]
          by_cases ho : r.Offset + k = off
          · simp [ho]
          · simp [ho]
        · simp [he]
      · simp only [if_neg hd]
        have hne : ¬(r.Datagram = dg ∧ r.Offset + k = off) := by
          intro h; omega
        rw [if_neg hne]
  · rw [if_neg h1]
    by_cases h2 : r.Datagram = ((B.SendContext.map (fun c => c.Datagrams)).getD []).length
    · rw [if_pos h2]
      unfold byteAt xorCurrent
      simp only
      by_cases hd : dg < ((B.SendContext.map (fun c => c.Datagrams)).getD []).length
      · have hne : ¬(r.Datagram = dg ∧ r.Offset + k = off) := by
          intro h; omega
        simp only [if_pos hd, if_neg hne]
      · rw [if_neg hd, if_neg hd]
        by_cases he : dg = ((B.SendContext.map (fun c => c.Datagrams)).getD []).length
        · rw [if_pos he, if_pos he]
          cases B.Datagram with
          | none => simp
          | some d =>
            simp only [Option.map_some', Option.some_bind, xorByte_eq_modify,
              List.getElem?_modify]
            by_cases ho : r.Offset + k = off
            · simp [ho, h2, he]
            · simp [ho]
        · rw [if_neg he, if_neg he]
          simp
    · rw [if_neg h2]
      have hnone : ∀ h : r.Datagram = dg ∧ r.Offset + k = off, byteAt B dg off = none := by
        intro h
        unfold byteAt
        simp only
        rw [if_neg (by omega), if_neg (by omega)]
      by_cases hh : r.Datagram = dg ∧ r.Offset + k = off
      · rw [if_pos hh, hnone hh]
        rfl
      · rw [if_neg hh]

theorem byteAt_xorStep_foldl (dg off : Nat) (ops : List (HeaderRef × Nat × Nat)) :
    ∀ X : QUIC_PACKET_BUILDER, byteAt (ops.foldl xorStep X) dg off =
      (byteAt X dg off).map (fun v => ops.foldl (xorValue dg off) v) := by
  induction ops with
  | nil => intro X; simp
  | cons op ops ih =>
    intro X
    rw [List.foldl_cons, ih, xorStep, byteAt_xorHeaderByte]
    by_cases h : op.1.Datagram = dg ∧ op.1.Offset + op.2.1 = off
    · rw [if_pos h]
      cases byteAt X dg off with
      | none => rfl
      | some v => simp [xorValue, h]
    · rw [if_neg h]
      cases byteAt X dg off with
      | none => rfl
      | some v => simp [xorValue, h]

/-- Byte XORs that do not address a byte leave its value alone. -/
theorem xorValue_foldl_skip (dg off : Nat) (ops : List (HeaderRef × Nat × Nat))
    (h : ∀ op ∈ ops, ¬(op.1.Datagram = dg ∧ op.1.Offset + op.2.1 = off)) (v : Nat) :
    ops.foldl (xorValue dg off) v = v := by
  induction ops generalizing v with
  | nil => rfl
  | cons op ops ih =>
    rw [List.foldl_cons]
    have h1 : xorValue dg off v op = v := by
      unfold xorValue
      rw [if_neg (h op (List.mem_cons_self _ _))]
    rw [h1]
    exact ih (fun o ho => h o (List.mem_cons_of_mem _ ho)) v

/-- Of the byte XORs of a batch, only those of the entry that addresses a byte
count for it, when no other entry addresses it. -/
theorem xorValue_foldl_entry (E : Env) (B : QUIC_PACKET_BUILDER) (dg off i : Nat) :
    ∀ (l : List Nat) (v : Nat), l.Nodup → i ∈ l →
      (∀ x ∈ l, x ≠ i → ∀ op ∈ HpEntryOps E B x,
        ¬(op.1.Datagram = dg ∧ op.1.Offset + op.2.1 = off)) →
      (HpBatchOps E B l).foldl (xorValue dg off) v =
        (HpEntryOps E B i).foldl (xorValue dg off) v := by
  intro l
  induction l with
  | nil => intro v _ hi; exact absurd hi (by simp)
  | cons a l ih =>
    intro v hnd hi hskip
    rw [HpBatchOps, List.foldl_append]
    have hnd' := List.nodup_cons.mp hnd
    by_cases ha : a = i
    · subst ha
      apply xorValue_foldl_skip
      intro op hop
      have hall : ∀ x ∈ l, ∀ o ∈ HpEntryOps E B x,
          ¬(o.1.Datagram = dg ∧ o.1.Offset + o.2.1 = off) := by
        intro x hx
        apply hskip x (List.mem_cons_of_mem _ hx)
        intro hxa
        exact hnd'.1 (hxa ▸ hx)
      clear hskip hi ih hnd hnd'
      induction l with
      | nil => exact absurd hop (by simp [HpBatchOps])
      | cons b l ih2 =>
        rw [HpBatchOps, List.mem_append] at hop
        rcases hop with hop | hop
        · exact hall b (List.mem_cons_self _ _) op hop
        · exact ih2 hop (fun x hx => hall x (List.mem_cons_of_mem _ hx))
    · rw [xorValue_foldl_skip dg off _ (hskip a (List.mem_cons_self _ _) ha)]
      have hi' : i ∈ l := by
        rcases List.mem_cons.mp hi with h | h
        · exact absurd h.symm ha
        · exact h
      exact ih v hnd'.2 hi' (fun x hx => hskip x (List.mem_cons_of_mem _ hx))

/-- Every byte XOR of batch entry `x` addresses a byte of the header of that
entry: in its datagram, from the first byte of the header to the last byte of
the packet number. -/
theorem HpEntryOps_range (E : Env) (B : QUIC_PACKET_BUILDER) (x : Nat)
    (op : HeaderRef × Nat × Nat) (h : op ∈ HpEntryOps E B x) :
    op.1.Datagram = (B.HeaderBatch.getD x ⟨0, 0⟩).Datagram ∧
      ((op.1.Offset + op.2.1 = (B.HeaderBatch.getD x ⟨0, 0⟩).Offset ∧
          op.2.2 = Nat.land (B.HpMask.getD (u16 (x * E.QUIC_HP_SAMPLE_LENGTH)) 0) 0x1f) ∨
        ∃ j < B.PacketNumberLength,
          op.1.Offset + op.2.1 =
            (B.HeaderBatch.getD x ⟨0, 0⟩).Offset + 1 + B.Path.DestCid.length + j ∧
          op.2.2 = B.HpMask.getD (u16 (x * E.QUIC_HP_SAMPLE_LENGTH) + 1 + j) 0) := by
  unfold HpEntryOps at h
  simp only [List.mem_cons, List.mem_map, List.mem_range] at h
  rcases h with h | ⟨j, hj, h⟩
  · subst h
    exact ⟨rfl, Or.inl ⟨rfl, rfl⟩⟩
  · subst h
    exact ⟨rfl, Or.inr ⟨j, hj, rfl, rfl⟩⟩

/-- Of the XORs of the packet-number loop, only the one with the index of a
byte counts for that byte. -/
theorem xorValue_foldl_pn (dg off : Nat) (Pn : HeaderRef) (f : Nat → Nat) (j0 : Nat)
    (hdg : Pn.Datagram = dg) (hoff : Pn.Offset + j0 = off) :
    ∀ (l : List Nat) (v : Nat), l.Nodup → j0 ∈ l →
      (l.map (fun j => (Pn, j, f j))).foldl (xorValue dg off) v = u8 (Nat.xor v (f j0)) := by
  intro l
  induction l with
  | nil => intro v _ hj; exact absurd hj (by simp)
  | cons a l ih =>
    intro v hnd hj
    have hnd' := List.nodup_cons.mp hnd
    rw [List.map_cons, List.foldl_cons]
    by_cases ha : a = j0
    · subst ha
      have h1 : xorValue dg off v (Pn, a, f a) = u8 (Nat.xor v (f a)) := by
        unfold xorValue
        rw [if_pos ⟨hdg, hoff⟩]
      rw [h1]
      apply xorValue_foldl_skip
      intro op hop
      simp only [List.mem_map] at hop
      obtain ⟨j, hjl, rfl⟩ := hop
      intro hh
      have : j = a := by
        have h2 := hh.2
        simp only at h2
        omega
      exact hnd'.1 (this ▸ hjl)
    · have h1 : xorValue dg off v (Pn, a, f a) = v := by
        unfold xorValue
        rw [if_neg]
        intro hh
        have h2 := hh.2
        simp only at h2
        omega
      rw [h1]
      have hj' : j0 ∈ l := by
        rcases List.mem_cons.mp hj with h | h
        · exact absurd h.symm ha
        · exact h
      exact ih v hnd'.2 hj'

/-- The XOR with five mask bits keeps the top three bits of a byte. -/
theorem u8_xor_low5_top3 (v m : Nat) (hv : v < 256) :
    u8 (Nat.xor v (Nat.land m 0x1f)) / 32 = v / 32 := by
  have hm : Nat.land m 0x1f < 2 ^ 5 := Nat.and_lt_two_pow m (by norm_num)
  have hx : Nat.xor v (Nat.land m 0x1f) < 2 ^ 8 :=
    Nat.xor_lt_two_pow (by norm_num; exact hv) (lt_trans hm (by norm_num))
  unfold u8
  rw [Nat.mod_eq_of_lt hx]
  apply Nat.eq_of_testBit_eq
  intro i
  have h32 : (32 : Nat) = 2 ^ 5 := by norm_num
  rw [h32, ← Nat.shiftRight_eq_div_pow, ← Nat.shiftRight_eq_div_pow, Nat.testBit_shiftRight,
    Nat.testBit_shiftRight]
  show ((v ^^^ Nat.land m 0x1f).testBit (5 + i)) = v.testBit (5 + i)
  rw [Nat.testBit_xor]
  have hz : (Nat.land m 0x1f).testBit (5 + i) = false :=
    Nat.testBit_eq_false_of_lt (lt_of_lt_of_le hm (Nat.pow_le_pow_right (by norm_num) (by omega)))
  rw [hz]
  simp

theorem mem_HpBatchOps (E : Env) (B : QUIC_PACKET_BUILDER) (op : HeaderRef × Nat × Nat) :
    ∀ l : List Nat, op ∈ HpBatchOps E B l → ∃ x ∈ l, op ∈ HpEntryOps E B x := by
  intro l
  induction l with
  | nil => intro h; exact absurd h (by simp [HpBatchOps])
  | cons a l ih =>
    intro h
    rw [HpBatchOps, List.mem_append] at h
    rcases h with h | h
    · exact ⟨a, List.mem_cons_self _ _, h⟩
    · obtain ⟨x, hx, hop⟩ := ih h
      exact ⟨x, List.mem_cons_of_mem _ hx, hop⟩

/-- A byte after a successful flush of the batch: its value before, changed by
the byte XORs of the batch made with the new mask. -/
theorem FinalizeHeaderProtection_byteAt (E : Env) (B : QUIC_PACKET_BUILDER) (mask : List Nat)
    (h : E.QuicHpComputeMask B.Calls B.Key B.BatchCount B.CipherBatch = some mask)
    (dg off : Nat) :
    byteAt (QuicPacketBuilderFinalizeHeaderProtection E B) dg off =
      (byteAt B dg off).map (fun v =>
        (HpBatchOps E
          { B with HpMask := mask, Calls := Call.HpComputeMask B.BatchCount true :: B.Calls }
          (List.range B.BatchCount)).foldl (xorValue dg off) v) := by
  rw [FinalizeHeaderProtection_eq_xor E B mask h]
  have h1 := HpApplyEntry_foldl_eq_ops E
    { B with HpMask := mask, Calls := Call.HpComputeMask B.BatchCount true :: B.Calls }
    (List.range B.BatchCount)
    { B with HpMask := mask, Calls := Call.HpComputeMask B.BatchCount true :: B.Calls } rfl
  have h2 := byteAt_xorStep_foldl dg off
    (HpBatchOps E
      { B with HpMask := mask, Calls := Call.HpComputeMask B.BatchCount true :: B.Calls }
      (List.range B.BatchCount))
    { B with HpMask := mask, Calls := Call.HpComputeMask B.BatchCount true :: B.Calls }
  rw [← h1] at h2
  exact h2

/-- C24 as amended: when the mask computation of a flush succeeds, for a batch
whose entries are headers of distinct packets, the flush XORs the first byte
of the header of entry `i` with the bottom five bits of the mask byte at
index `i * QUIC_HP_SAMPLE_LENGTH` (a `uint16_t`; not `i * 5`), and byte `j` of
its packet number, found `1 + DestCid length` bytes into the header, with the
mask byte at index `i * QUIC_HP_SAMPLE_LENGTH + 1 + j`; every byte that is
neither is left as it was, the top three bits of the first byte are kept, and
the batch count is 0 afterwards. -/
theorem C24_batch_flush_xors_header_with_mask (E : Env) (B : QUIC_PACKET_BUILDER)
    (mask : List Nat)
    (hmask : E.QuicHpComputeMask B.Calls B.Key B.BatchCount B.CipherBatch = some mask)
    (hdis : ∀ i < B.BatchCount, ∀ x < B.BatchCount, x ≠ i →
      (B.HeaderBatch.getD i ⟨0, 0⟩).Datagram ≠ (B.HeaderBatch.getD x ⟨0, 0⟩).Datagram ∨
        (B.HeaderBatch.getD i ⟨0, 0⟩).Offset + 1 + B.Path.DestCid.length + B.PacketNumberLength ≤ (B.HeaderBatch.getD x ⟨0, 0⟩).Offset ∨
        (B.HeaderBatch.getD x ⟨0, 0⟩).Offset + 1 + B.Path.DestCid.length + B.PacketNumberLength ≤ (B.HeaderBatch.getD i ⟨0, 0⟩).Offset) :
    (QuicPacketBuilderFinalizeHeaderProtection E B).BatchCount = 0 ∧
      (∀ i < B.BatchCount,
        byteAt (QuicPacketBuilderFinalizeHeaderProtection E B) (B.HeaderBatch.getD i ⟨0, 0⟩).Datagram (B.HeaderBatch.getD i ⟨0, 0⟩).Offset =
          (byteAt B (B.HeaderBatch.getD i ⟨0, 0⟩).Datagram (B.HeaderBatch.getD i ⟨0, 0⟩).Offset).map (fun v =>
            u8 (Nat.xor v
              (Nat.land (mask.getD (u16 (i * E.QUIC_HP_SAMPLE_LENGTH)) 0) 0x1f)))) ∧
      (∀ i < B.BatchCount, ∀ j < B.PacketNumberLength,
        byteAt (QuicPacketBuilderFinalizeHeaderProtection E B) (B.HeaderBatch.getD i ⟨0, 0⟩).Datagram ((B.HeaderBatch.getD i ⟨0, 0⟩).Offset + 1 + B.Path.DestCid.length + j) =
          (byteAt B (B.HeaderBatch.getD i ⟨0, 0⟩).Datagram ((B.HeaderBatch.getD i ⟨0, 0⟩).Offset + 1 + B.Path.DestCid.length + j)).map (fun v =>
            u8 (Nat.xor v (mask.getD (u16 (i * E.QUIC_HP_SAMPLE_LENGTH) + 1 + j) 0)))) ∧
      (∀ dg off,
        (∀ i < B.BatchCount, ¬(dg = (B.HeaderBatch.getD i ⟨0, 0⟩).Datagram ∧
          (off = (B.HeaderBatch.getD i ⟨0, 0⟩).Offset ∨
            ∃ j < B.PacketNumberLength,
              off = (B.HeaderBatch.getD i ⟨0, 0⟩).Offset + 1 + B.Path.DestCid.length + j))) →
        byteAt (QuicPacketBuilderFinalizeHeaderProtection E B) dg off = byteAt B dg off) ∧
      (∀ i < B.BatchCount, ∀ v, byteAt B (B.HeaderBatch.getD i ⟨0, 0⟩).Datagram (B.HeaderBatch.getD i ⟨0, 0⟩).Offset = some v → v < 256 →
        (byteAt (QuicPacketBuilderFinalizeHeaderProtection E B) (B.HeaderBatch.getD i ⟨0, 0⟩).Datagram (B.HeaderBatch.getD i ⟨0, 0⟩).Offset).map (fun w => w / 32) = some (v / 32)) := by
  have hentry : ∀ i < B.BatchCount, ∀ off,
      (B.HeaderBatch.getD i ⟨0, 0⟩).Offset ≤ off → off < (B.HeaderBatch.getD i ⟨0, 0⟩).Offset + 1 + B.Path.DestCid.length + B.PacketNumberLength →
      byteAt (QuicPacketBuilderFinalizeHeaderProtection E B) (B.HeaderBatch.getD i ⟨0, 0⟩).Datagram off =
        (byteAt B (B.HeaderBatch.getD i ⟨0, 0⟩).Datagram off).map (fun v =>
          (HpEntryOps E { B with HpMask := mask, Calls := Call.HpComputeMask B.BatchCount true :: B.Calls } i).foldl (xorValue (B.HeaderBatch.getD i ⟨0, 0⟩).Datagram off) v) := by
    intro i hi off hlo hhi
    rw [FinalizeHeaderProtection_byteAt E B mask hmask]
    congr 1
    funext v
    apply xorValue_foldl_entry E _ _ _ i _ v (List.nodup_range _) (List.mem_range.mpr hi)
    intro x hx hxi op hop hh
    obtain ⟨r1, r2⟩ := HpEntryOps_range E _ x op hop
    simp only at r1 r2
    have hd := hdis i hi x (List.mem_range.mp hx) hxi
    rcases r2 with ⟨r2, -⟩ | ⟨j, hj, r2, -⟩ <;>
    · rcases hd with hd | hd | hd
      · exact hd (hh.1.symm.trans r1)
      · omega
      · omega
  have hfirst : ∀ i < B.BatchCount,
      byteAt (QuicPacketBuilderFinalizeHeaderProtection E B) (B.HeaderBatch.getD i ⟨0, 0⟩).Datagram (B.HeaderBatch.getD i ⟨0, 0⟩).Offset =
          (byteAt B (B.HeaderBatch.getD i ⟨0, 0⟩).Datagram (B.HeaderBatch.getD i ⟨0, 0⟩).Offset).map (fun v =>
            u8 (Nat.xor v
              (Nat.land (mask.getD (u16 (i * E.QUIC_HP_SAMPLE_LENGTH)) 0) 0x1f))) := by
    intro i hi
    rw [hentry i hi _ (le_refl _) (by omega)]
    congr 1
    funext v
    unfold HpEntryOps
    simp only [List.foldl_cons]
    rw [xorValue_foldl_skip]
    · unfold xorValue
      rw [if_pos ⟨rfl, rfl⟩]
    · intro op hop hh
      simp only [List.mem_map, List.mem_range] at hop
      obtain ⟨j, -, rfl⟩ := hop
      have h2 := hh.2
      simp only at h2
      omega
  refine ⟨?_, hfirst, ?_, ?_, ?_⟩
  · rw [FinalizeHeaderProtection_eq_xor E B mask hmask]
  · intro i hi j hj
    rw [hentry i hi _ (by omega) (by omega)]
    congr 1
    funext v
    unfold HpEntryOps
    simp only [List.foldl_cons]
    have h0 : xorValue (B.HeaderBatch.getD i ⟨0, 0⟩).Datagram ((B.HeaderBatch.getD i ⟨0, 0⟩).Offset + 1 + B.Path.DestCid.length + j) v
        ((B.HeaderBatch.getD i ⟨0, 0⟩), 0, Nat.land (mask.getD (u16 (i * E.QUIC_HP_SAMPLE_LENGTH)) 0) 0x1f) = v := by
      unfold xorValue
      rw [if_neg]
      intro hh
      have h2 := hh.2
      simp only at h2
      omega
    rw [h0]
    exact xorValue_foldl_pn _ _
      ⟨(B.HeaderBatch.getD i ⟨0, 0⟩).Datagram, (B.HeaderBatch.getD i ⟨0, 0⟩).Offset + 1 + B.Path.DestCid.length⟩ (fun j => mask.getD (u16 (i * E.QUIC_HP_SAMPLE_LENGTH) + 1 + j) 0)
      j rfl rfl _ v (List.nodup_range _) (List.mem_range.mpr hj)
  · intro dg off hno
    rw [FinalizeHeaderProtection_byteAt E B mask hmask]
    have hskip := xorValue_foldl_skip dg off
      (HpBatchOps E { B with HpMask := mask, Calls := Call.HpComputeMask B.BatchCount true :: B.Calls } (List.range B.BatchCount))
      (by
        intro op hop hh
        obtain ⟨x, hx, hox⟩ := mem_HpBatchOps E _ op _ hop
        obtain ⟨r1, r2⟩ := HpEntryOps_range E _ x op hox
        simp only at r1 r2
        apply hno x (List.mem_range.mp hx)
        refine ⟨hh.1.symm.trans r1, ?_⟩
        rcases r2 with ⟨r2, -⟩ | ⟨j, hj, r2, -⟩
        · exact Or.inl (hh.2.symm.trans r2)
        · exact Or.inr ⟨j, hj, hh.2.symm.trans r2⟩)
    cases byteAt B dg off with
    | none => rfl
    | some v => simp only [Option.map_some', hskip v]
  · intro i hi v hv hlt
    rw [hfirst i hi, hv]
    simp only [Option.map_some', Option.some.injEq]
    exact u8_xor_low5_top3 v _ hlt

/-- C24 as amended, on a batch of two short-header packets, each at the start
of its datagram, with the mask byte `k + 1` at index `k`: the flush empties
the batch, and the first byte 0x43 of the second header is XORed with the
bottom five bits of mask byte 16, which is 17, and becomes 0x52. -/
theorem C24_batch_flush_xors_header_with_mask_witness :
    sampleTwoBatched.BatchCount = 2 ∧
      sampleTwoBatched.HeaderBatch = [⟨0, 0⟩, ⟨1, 0⟩] ∧
      (QuicPacketBuilderFinalizeHeaderProtection sampleMaskEnv sampleTwoBatched).BatchCount = 0 ∧
      byteAt (QuicPacketBuilderFinalizeHeaderProtection sampleMaskEnv sampleTwoBatched) 1 0 = some 0x52 :=
  have h := C24_batch_flush_xors_header_with_mask sampleMaskEnv sampleTwoBatched
    ((List.range (sampleTwoBatched.BatchCount * 16)).map (fun k => k + 1)) rfl (by decide)
  ⟨by decide, by decide, h.1, (h.2.1 1 (by decide)).trans (by decide)⟩

/-- C24 as stated fails for the second entry of a batch: with 16-byte samples
the code takes the mask bytes of entry 1 from index 16 on, not from index 5.
The first byte 0x43 of its header becomes 0x43 xor 17 = 0x52, not 0x43 xor 6 =
0x45, and the packet number 0, 0, 0, 1 becomes 18, 19, 20, 20 (XOR with mask
bytes 17 to 20), not 7, 8, 9, 11 (mask bytes 6 to 9). -/
theorem C24_second_entry_mask_offset_is_sample_length :
    sampleMaskEnv.QuicHpComputeMask sampleTwoBatched.Calls sampleTwoBatched.Key
        sampleTwoBatched.BatchCount sampleTwoBatched.CipherBatch =
        some ((List.range 32).map (fun k => k + 1)) ∧
      sampleTwoBatched.HeaderBatch = [⟨0, 0⟩, ⟨1, 0⟩] ∧
      sampleTwoBatched.Path.DestCid.length = 4 ∧
      sampleTwoBatched.PacketNumberLength = 4 ∧
      (List.range 9).map (byteAt sampleTwoBatched 1) =
        [some 0x43, some 1, some 2, some 3, some 4, some 0, some 0, some 0, some 1] ∧
      (List.range 9).map (byteAt (QuicPacketBuilderFinalizeHeaderProtection sampleMaskEnv sampleTwoBatched) 1) =
        [some 0x52, some 1, some 2, some 3, some 4, some 18, some 19, some 20, some 20] ∧
      u8 (Nat.xor 0x43 (Nat.land 6 0x1f)) = 0x45 ∧
      [u8 (Nat.xor 0 7), u8 (Nat.xor 0 8), u8 (Nat.xor 0 9), u8 (Nat.xor 1 10)] =
        [7, 8, 9, 11] := by
  decide

/-! ## `WriteClientHello` -/

/-- C25: for every non-null buffer and every `*BufferLength` of at least the
46 bytes required, the `WriteUint24` call of `WriteClientHello` succeeds and
`WriteClientHello` returns `QUIC_STATUS_INVALID_PARAMETER`; so, the two
failure codes being other than `QUIC_STATUS_SUCCESS`, `WriteClientHello`
returns `QUIC_STATUS_SUCCESS` for no input. -/
theorem C25_write_client_hello_never_succeeds (T : TlsEnv) (TlsContext : CXPLAT_TLS)
    (BufferLength : Nat) (Buffer : Option (List Nat))
    (h1 : T.QUIC_STATUS_INVALID_PARAMETER ≠ T.QUIC_STATUS_SUCCESS)
    (h2 : T.QUIC_STATUS_BUFFER_TOO_SMALL ≠ T.QUIC_STATUS_SUCCESS) :
    RequiredLength = 46 ∧
      (∀ buf, 46 ≤ BufferLength →
        (WriteUint24 42 BufferLength (putByte (0, buf) client_hello).1
            (putByte (0, buf) client_hello).2).1 = true ∧
          (WriteClientHello T TlsContext BufferLength (some buf)).1 =
            T.QUIC_STATUS_INVALID_PARAMETER) ∧
      (WriteClientHello T TlsContext BufferLength Buffer).1 ≠ T.QUIC_STATUS_SUCCESS := by
  have hr : RequiredLength = 46 := by decide
  have hw : ∀ buf, 46 ≤ BufferLength →
      (WriteUint24 42 BufferLength (putByte (0, buf) client_hello).1
        (putByte (0, buf) client_hello).2).1 = true := by
    intro buf hn
    have h1 : (putByte (0, buf) client_hello).1 = 1 := rfl
    rw [h1]
    unfold WriteUint24
    rw [if_neg (by decide), if_neg (by omega)]
  have hs : ∀ buf, 46 ≤ BufferLength →
      (WriteClientHello T TlsContext BufferLength (some buf)).1 =
        T.QUIC_STATUS_INVALID_PARAMETER := by
    intro buf hn
    unfold WriteClientHello
    simp only [hr, if_neg (not_lt.mpr hn), hw buf hn, if_true]
  refine ⟨hr, fun buf hn => ⟨hw buf hn, hs buf hn⟩, ?_⟩
  by_cases hn : 46 ≤ BufferLength
  · cases Buffer with
    | none =>
      unfold WriteClientHello
      simp only [hr, if_neg (not_lt.mpr hn)]
      exact h1
    | some buf =>
      rw [hs buf hn]
      exact h1
  · unfold WriteClientHello
    simp only [hr, if_pos (not_le.mp hn)]
    exact h2

/-- C25 on a zeroed buffer of 46 bytes, with sample status codes: the call
returns the code of an invalid parameter, not that of success. -/
theorem C25_write_client_hello_never_succeeds_witness :
    (WriteClientHello sampleTlsEnv ⟨false⟩ 46 (some (List.replicate 46 0))).1 = 22 ∧
      (WriteClientHello sampleTlsEnv ⟨false⟩ 46 (some (List.replicate 46 0))).1 ≠ 0 :=
  have h := C25_write_client_hello_never_succeeds sampleTlsEnv ⟨false⟩ 46
    (some (List.replicate 46 0)) (by decide) (by decide)
  ⟨h.2.1 _ (by decide) |>.2, h.2.2⟩

/-! ## A long-header packet after a short-header packet -/

/-- C26, the code at the failing input.  A valid sequence of calls from a
freshly initialized builder prepares a short-header packet with the 1-RTT key
13, frames it, and prepares a Handshake packet with key 12: the prepare finalizes the
short-header packet with more to send, which queues its header and does not
flush.  So the Handshake packet with its frame is finalized with one header in
the batch: after its own header protection (line 717) the batch count is
still 1, where line 694 asserts 0.  The flush at the end of that finalize
then computes the mask with the builder key, now key 12, and XORs the queued
short header with it: the header 0x43, 1, 2, 3, 4, 0, 0, 0, 0 goes out as
0x4f, 1, 2, 3, 4, 12, 12, 12, 12. -/
theorem C26_long_header_protected_with_short_header_in_batch :
    (QuicPacketBuilderInitialize sampleConnEnv sampleSmallBuilder
        sampleSmallBuilder.Connection sampleSmallBuilder.Path) = (true, sampleFresh) ∧
      (sampleFresh.SendContext, sampleFresh.Datagram, sampleFresh.BatchCount) =
        (none, none, 0) ∧
      (Cycle.run sampleKeyedMaskEnv ⟨sampleFresh, false, 0⟩ sampleShortThenLongOps).map
        (fun c => (c.InProgress, c.B)) = some (true, sampleShortThenLong) ∧
      sampleShortThenLong.PacketType = 2 ∧
      sampleShortThenLong.PacketType ≠ sampleKeyedMaskEnv.SEND_PACKET_SHORT_HEADER_TYPE ∧
      sampleShortThenLong.Metadata.FrameCount = 1 ∧
      sampleShortThenLong.Connection.HeaderProtectionEnabled = true ∧
      sampleShortThenLong.Key = some 12 ∧
      sampleShortThenLong.BatchCount = 1 ∧
      sampleShortThenLong.HeaderBatch = [⟨0, 0⟩] ∧
      (List.range 9).map (byteAt sampleShortThenLong 0) =
        [some 0x43, some 1, some 2, some 3, some 4, some 0, some 0, some 0, some 0] ∧
      (FinalizeSealed sampleKeyedMaskEnv sampleShortThenLong
          (sampleShortThenLong.Datagram.getD ⟨0, []⟩) true).map
        (fun X => (X.BatchCount, X.HpMask.take 5, X.Calls.take 2)) =
        some (1, [12, 12, 12, 12, 12], [Call.HpComputeMask 1 true, Call.Encrypt 1 true]) ∧
      (newCalls sampleShortThenLong
          (QuicPacketBuilderFinalize sampleKeyedMaskEnv sampleShortThenLong true)).filter
        Call.isCrypto =
        [Call.HpComputeMask 1 true, Call.HpComputeMask 1 true, Call.Encrypt 1 true] ∧
      (sentContext (QuicPacketBuilderFinalize sampleKeyedMaskEnv sampleShortThenLong true).Calls).map
        (fun c => c.Datagrams.map (fun d => d.Buffer.take 9)) =
        some [[0x4f, 1, 2, 3, 4, 12, 12, 12, 12], [0xef, 0xff, 0, 0, 24, 4, 1, 2, 3]] := by
  refine ⟨by decide, by decide, by decide, by decide, by decide, by decide, by decide, by decide,
    by decide, by decide, by decide, by decide, by decide, by decide⟩

/-! ## The padding and the capacity of the datagram -/

/-- Why the four bytes of the packet number matter for the capacity.  The
builder `sampleFullTail` is written by hand with a packet number of one byte,
which no sequence of calls produces when the header encoders write four; it
meets every assumption stated at lines 556-563, its datagram having room for
the two bytes of frames and the AEAD tag, to the last byte.  The four-byte
rule of lines 593-598 then asks for one byte of padding, which is written
where the tag was to start: the write cursor after the padding and the tag is
1323, one more than the capacity 1322.  No 16-bit computation wraps on the
way. -/
theorem four_byte_rule_pads_past_capacity :
    sampleFullTail.Datagram.map (fun d => (d.Length, d.Buffer.length)) = some (1322, 1322) ∧
      sampleFullTail.Metadata.FrameCount ≠ 0 ∧
      sampleFullTail.EncryptionOverhead ≤ 16 ∧
      sampleFullTail.MinimumDatagramLength ≤ 1322 ∧
      sampleFullTail.DatagramLength + sampleFullTail.EncryptionOverhead ≤ 1322 ∧
      sampleFullTail.PacketStart + sampleFullTail.HeaderLength ≤ sampleFullTail.DatagramLength ∧
      sampleFullTail.PacketStart + sampleFullTail.PayloadLengthOffset ≤
        sampleFullTail.DatagramLength ∧
      InitialPayloadLength sampleFullTail = 2 ∧
      PaddingLength sampleFullTail
        (FinalizeMinimumDatagramLength sampleEnv sampleFullTail 1322 true)
        (IsFinalQuicPacket sampleEnv sampleFullTail 1322 true) = 1 ∧
      PaddedDatagramLength sampleEnv sampleFullTail 1322 true = 1307 ∧
      sampleFullTail.DatagramLength + 1 + sampleFullTail.EncryptionOverhead < 2 ^ 16 ∧
      (QuicPacketBuilderFinalize sampleEnv sampleFullTail true).DatagramLength = 1323 ∧
      (sentContext (QuicPacketBuilderFinalize sampleEnv sampleFullTail true).Calls).map
        (fun c => c.Datagrams.map (fun d => (d.Length, d.Buffer.length))) =
        some [(1323, 1322)] := by
  refine ⟨by decide, by decide, by decide, by decide, by decide, by decide, by decide,
    by decide, by decide, by decide, by decide, by decide, by decide⟩

/-! ## `ReadUint24` and `WriteUint24` -/

theorem land_0xff (x : Nat) : Nat.land x 0xff = x % 256 := by
  have h := Nat.and_pow_two_sub_one_eq_mod x 8
  simpa using h

/-- The three bytes `WriteUint24` stores. -/
theorem WriteUint24_bytes (v : Nat) :
    u8 (Nat.land (v >>> 16) 0xff) = v / 2 ^ 16 % 256 ∧
      u8 (Nat.land (v >>> 8) 0xff) = v / 2 ^ 8 % 256 ∧
      u8 (Nat.land v 0xff) = v % 256 := by
  simp only [land_0xff, u8, Nat.shiftRight_eq_div_pow]
  refine ⟨?_, ?_, ?_⟩ <;> omega

/-- Three bytes put together as `ReadUint24` does make the number they are the
big-endian digits of. -/
theorem ReadUint24_value (b0 b1 b2 : Nat) (h0 : b0 < 256) (h1 : b1 < 256) (h2 : b2 < 256) :
    Nat.lor (Nat.lor (u32 (b0 <<< 16)) (u32 (b1 <<< 8))) b2 = b0 * 2 ^ 16 + b1 * 2 ^ 8 + b2 := by
  have e0 : u32 (b0 <<< 16) = 2 ^ 16 * b0 := by
    rw [Nat.shiftLeft_eq, Nat.mul_comm]
    exact Nat.mod_eq_of_lt (by omega)
  have e1 : u32 (b1 <<< 8) = 2 ^ 8 * b1 := by
    rw [Nat.shiftLeft_eq, Nat.mul_comm]
    exact Nat.mod_eq_of_lt (by omega)
  rw [e0, e1]
  show (2 ^ 16 * b0 ||| 2 ^ 8 * b1) ||| b2 = _
  have s1 : 2 ^ 16 * b0 ||| 2 ^ 8 * b1 = 2 ^ 8 * (2 ^ 8 * b0 + b1) := by
    have h := Nat.mul_add_lt_is_or (i := 16) (b := 2 ^ 8 * b1) (by omega) b0
    rw [← h]
    ring
  rw [s1, ← Nat.mul_add_lt_is_or (i := 8) (by omega : b2 < 2 ^ 8)]
  ring

theorem getD_set_eq (l : List Nat) (i v : Nat) (h : i < l.length) :
    (l.set i v).getD i 0 = v := by
  rw [List.getD_eq_getElem?_getD, List.getElem?_set]
  simp [h]

theorem getD_set_ne (l : List Nat) (i j v : Nat) (h : i ≠ j) :
    (l.set i v).getD j 0 = l.getD j 0 := by
  rw [List.getD_eq_getElem?_getD, List.getD_eq_getElem?_getD, List.getElem?_set]
  simp [h]

/-- C28: on a buffer of `n` bytes (`n` a `uint16_t`), for a value of at most
0xFFFFFF and an offset `o` with `o + 3 ≤ n`, `WriteUint24` succeeds, stores the
three big-endian bytes of the value at `o`, `o + 1` and `o + 2`, moves the
offset to `o + 3` and keeps every other byte and the length; `ReadUint24` on
the buffer it leaves, at `o`, succeeds, gives the value back and moves the
offset to `o + 3`.  For a larger value or with `o + 3 > n` the write fails
and changes neither the buffer nor the offset. -/
theorem C28_read_uint24_undoes_write_uint24 (v n o : Nat) (buf : List Nat)
    (hlen : buf.length = n) (hn : n < 2 ^ 16) :
    (v ≤ 0xffffff → o + 3 ≤ n →
        WriteUint24 v n o buf =
          (true, o + 3,
            ((buf.set o (v / 2 ^ 16 % 256)).set (o + 1) (v / 2 ^ 8 % 256)).set (o + 2)
              (v % 256)) ∧
        (WriteUint24 v n o buf).2.2.getD o 0 = v / 2 ^ 16 % 256 ∧
        (WriteUint24 v n o buf).2.2.getD (o + 1) 0 = v / 2 ^ 8 % 256 ∧
        (WriteUint24 v n o buf).2.2.getD (o + 2) 0 = v % 256 ∧
        (∀ k, k ≠ o → k ≠ o + 1 → k ≠ o + 2 →
          (WriteUint24 v n o buf).2.2.getD k 0 = buf.getD k 0) ∧
        (WriteUint24 v n o buf).2.2.length = n ∧
        ∀ old, ReadUint24 (some (WriteUint24 v n o buf).2.2) n o old = (true, o + 3, v)) ∧
      ((v > 0xffffff ∨ o + 3 > n) → WriteUint24 v n o buf = (false, o, buf)) := by
  constructor
  · intro hv ho
    obtain ⟨e0, e1, e2⟩ := WriteUint24_bytes v
    have hu : u16 (o + 3) = o + 3 := Nat.mod_eq_of_lt (by omega)
    have hw : WriteUint24 v n o buf =
        (true, o + 3,
          ((buf.set o (v / 2 ^ 16 % 256)).set (o + 1) (v / 2 ^ 8 % 256)).set (o + 2)
            (v % 256)) := by
      unfold WriteUint24
      rw [if_neg (by omega), if_neg (by omega)]
      simp only [e0, e1, e2, hu]
    have g0 : (((buf.set o (v / 2 ^ 16 % 256)).set (o + 1) (v / 2 ^ 8 % 256)).set (o + 2)
        (v % 256)).getD o 0 = v / 2 ^ 16 % 256 := by
      rw [getD_set_ne _ _ _ _ (by omega), getD_set_ne _ _ _ _ (by omega),
        getD_set_eq _ _ _ (by omega)]
    have g1 : (((buf.set o (v / 2 ^ 16 % 256)).set (o + 1) (v / 2 ^ 8 % 256)).set (o + 2)
        (v % 256)).getD (o + 1) 0 = v / 2 ^ 8 % 256 := by
      rw [getD_set_ne _ _ _ _ (by omega), getD_set_eq _ _ _ (by simp; omega)]
    have g2 : (((buf.set o (v / 2 ^ 16 % 256)).set (o + 1) (v / 2 ^ 8 % 256)).set (o + 2)
        (v % 256)).getD (o + 2) 0 = v % 256 := by
      rw [getD_set_eq _ _ _ (by simp; omega)]
    rw [hw]
    refine ⟨rfl, g0, g1, g2, ?_, ?_, ?_⟩
    · intro k h0 h1 h2
      simp only
      rw [getD_set_ne _ _ _ _ (Ne.symm h2), getD_set_ne _ _ _ _ (Ne.symm h1),
        getD_set_ne _ _ _ _ (Ne.symm h0)]
    · simp [hlen]
    · intro old
      unfold ReadUint24
      simp only
      rw [if_neg (by omega), g0, g1, g2, hu,
        ReadUint24_value _ _ _ (Nat.mod_lt _ (by norm_num)) (Nat.mod_lt _ (by norm_num))
          (Nat.mod_lt _ (by norm_num))]
      have : v / 2 ^ 16 % 256 * 2 ^ 16 + v / 2 ^ 8 % 256 * 2 ^ 8 + v % 256 = v := by omega
      rw [this]
  · intro h
    unfold WriteUint24
    rcases h with h | h
    · rw [if_pos h]
    · by_cases hv : v > 0xffffff
      · rw [if_pos hv]
      · rw [if_neg hv, if_pos h]

/-- C28 on the value 0x123456 written at offset 1 of a zeroed buffer of five
bytes: the bytes 0x12, 0x34, 0x56 are stored and read back as 0x123456. -/
theorem C28_read_uint24_undoes_write_uint24_witness :
    WriteUint24 0x123456 5 1 [0, 0, 0, 0, 0] = (true, 4, [0, 0x12, 0x34, 0x56, 0]) ∧
      ReadUint24 (some (WriteUint24 0x123456 5 1 [0, 0, 0, 0, 0]).2.2) 5 1 0 =
        (true, 4, 0x123456) :=
  have h := (C28_read_uint24_undoes_write_uint24 0x123456 5 1 [0, 0, 0, 0, 0] rfl
    (by decide)).1 (by decide) (by decide)
  ⟨h.1, h.2.2.2.2.2.2 0⟩

/-! ## The packet number length along a sequence of calls -/

theorem FinalizeExit_datagram_length_inputs (E : Env) (X : QUIC_PACKET_BUILDER) (a f : Bool) :
    (FinalizeExit E X a f).Path = X.Path ∧
      (FinalizeExit E X a f).Connection.PeerTpFlagMaxPacketSize =
        X.Connection.PeerTpFlagMaxPacketSize ∧
      (FinalizeExit E X a f).Connection.PeerMaxPacketSize = X.Connection.PeerMaxPacketSize := by
  have h := FinalizeExit_noExit E X a f
  generalize FinalizeExit E X a f = Y at h ⊢
  have h1 := congrArg (fun b : QUIC_PACKET_BUILDER => b.Path) h
  have h2 := congrArg (fun b : QUIC_PACKET_BUILDER => b.Connection.PeerTpFlagMaxPacketSize) h
  have h3 := congrArg (fun b : QUIC_PACKET_BUILDER => b.Connection.PeerMaxPacketSize) h
  exact ⟨h1, h2, h3⟩

theorem FinalizeNonEmpty_datagram_length_inputs (E : Env) (B : QUIC_PACKET_BUILDER)
    (d : QUIC_BUFFER) (a : Bool) :
    (FinalizeNonEmpty E B d a).Path = B.Path ∧
      (FinalizeNonEmpty E B d a).Connection.PeerTpFlagMaxPacketSize =
        B.Connection.PeerTpFlagMaxPacketSize ∧
      (FinalizeNonEmpty E B d a).Connection.PeerMaxPacketSize =
        B.Connection.PeerMaxPacketSize := by
  have h := FinalizeNonEmpty_noFinalize E B d a
  generalize FinalizeNonEmpty E B d a = Y at h ⊢
  have h1 := congrArg (fun b : QUIC_PACKET_BUILDER => b.Path) h
  have h2 := congrArg (fun b : QUIC_PACKET_BUILDER => b.Connection.PeerTpFlagMaxPacketSize) h
  have h3 := congrArg (fun b : QUIC_PACKET_BUILDER => b.Connection.PeerMaxPacketSize) h
  exact ⟨h1, h2, h3⟩

/-- Finalize changes nothing the length of a new datagram is computed from. -/
theorem Finalize_NewDatagramLength (E : Env) (B : QUIC_PACKET_BUILDER) (a p : Bool) :
    PrepareNewDatagramLength E (QuicPacketBuilderFinalize E B a) p =
      PrepareNewDatagramLength E B p := by
  have h : (QuicPacketBuilderFinalize E B a).Path = B.Path ∧
      (QuicPacketBuilderFinalize E B a).Connection.PeerTpFlagMaxPacketSize =
        B.Connection.PeerTpFlagMaxPacketSize ∧
      (QuicPacketBuilderFinalize E B a).Connection.PeerMaxPacketSize =
        B.Connection.PeerMaxPacketSize := by
    unfold QuicPacketBuilderFinalize
    cases hd : B.Datagram with
    | none => exact FinalizeExit_datagram_length_inputs E B a a
    | some d =>
      simp only
      split_ifs with hf
      · obtain ⟨h1, h2, h3⟩ := FinalizeExit_datagram_length_inputs E (FinalizeUndoHeader B) a a
        rw [h1, h2, h3]
        unfold FinalizeUndoHeader
        rw [hd]
        simp only
        split_ifs <;> exact ⟨rfl, rfl, rfl⟩
      · obtain ⟨h1, h2, h3⟩ := FinalizeExit_datagram_length_inputs E (FinalizeNonEmpty E B d a) a
          (IsFinalQuicPacket E B d.Length a)
        rw [h1, h2, h3]
        exact FinalizeNonEmpty_datagram_length_inputs E B d a
  obtain ⟨h1, h2, h3⟩ := h
  unfold PrepareNewDatagramLength PrepareDatagramSize
  rw [h1, h2, h3]

theorem PrepareSelectPacket_NewDatagramLength (E : Env) (B : QUIC_PACKET_BUILDER) (ty : Nat)
    (pmtud p : Bool) :
    PrepareNewDatagramLength E (PrepareSelectPacket E B ty pmtud).2 p =
      PrepareNewDatagramLength E B p := by
  by_cases hdiff : B.PacketType ≠ ty ∨ pmtud = true
  · rw [(PrepareSelectPacket_differs E B ty pmtud hdiff).1]
    split_ifs
    · exact Finalize_NewDatagramLength E B pmtud p
    · rfl
  · rw [PrepareSelectPacket_same E B ty pmtud hdiff]

/-- The allocation stage of prepare, when it has to allocate the datagram and
succeeds, leaves the write cursor at the start of the datagram. -/
theorem PrepareDatagram_alloc_cursor (E : Env) (B : QUIC_PACKET_BUILDER) (ty : Nat)
    (tlp pmtud : Bool) (hd : B.Datagram = none)
    (hok : (PrepareDatagram E B ty tlp pmtud).1 = true) :
    (PrepareDatagram E B ty tlp pmtud).2.DatagramLength = 0 := by
  unfold PrepareDatagram at hok ⊢
  rw [hd] at hok ⊢
  simp only at hok ⊢
  by_cases h1 : (PrepareSendContext E B pmtud).1 = true
  · rw [if_pos h1] at hok ⊢
    unfold PrepareAllocDatagram at hok ⊢
    simp only at hok ⊢
    split_ifs at hok ⊢
    rfl
  · rw [if_neg h1] at hok
    exact absurd hok h1

/-- A successful prepare that finds no current datagram after its finalize step
starts the new packet at offset 0 of a datagram of the length computed at
lines 178-185. -/
theorem Prepare_fresh_datagram (E : Env) (B B' : QUIC_PACKET_BUILDER) (ty : Nat)
    (key : Option QUIC_PACKET_KEY) (tlp pmtud : Bool)
    (hnone : (PrepareSelectPacket E B ty pmtud).2.Datagram = none)
    (h : QuicPacketBuilderPrepare E B ty key tlp pmtud = some (true, B')) :
    B'.Datagram.map (fun d => d.Length) = some (PrepareNewDatagramLength E B pmtud) ∧
      B'.PacketStart = 0 ∧
      B'.DatagramLength = u16 (B'.PacketStart + B'.HeaderLength) := by
  have hns : (PrepareSelectPacket E B ty pmtud).1 ≠ some false := by
    by_cases hdiff : B.PacketType ≠ ty ∨ pmtud = true
    · exact (PrepareSelectPacket_differs E B ty pmtud hdiff).2
    · rw [PrepareSelectPacket_same E B ty pmtud hdiff] at hnone ⊢
      simp only at hnone ⊢
      rw [hnone]
      simp
  have hlen := PrepareSelectPacket_NewDatagramLength E B ty pmtud pmtud
  unfold QuicPacketBuilderPrepare at h
  rcases hsel : PrepareSelectPacket E B ty pmtud with ⟨nq, B0⟩
  rw [hsel] at h hnone hns hlen
  simp only at hnone hns hlen
  cases nq with
  | none => simp at h
  | some nq =>
    cases nq with
    | false => exact absurd rfl hns
    | true =>
      simp only at h
      have ha := PrepareDatagram_alloc E B0 ty tlp pmtud hnone
      have hc := PrepareDatagram_alloc_cursor E B0 ty tlp pmtud hnone
      rcases hdg : PrepareDatagram E B0 ty tlp pmtud with ⟨ok, B2⟩
      rw [hdg] at h ha hc
      cases ok with
      | false => simp at h
      | true =>
        simp only [if_true, Option.map_eq_some', Prod.mk.injEq, true_and] at h
        obtain ⟨B3, hB3, rfl⟩ := h
        obtain ⟨ha1, -⟩ := ha rfl
        have hc1 := hc rfl
        simp only at ha1 hc1
        obtain ⟨h1, h2, h3⟩ := PrepareNewPacket_cursor E B2 B3 ty key pmtud hB3
        refine ⟨?_, by rw [h1]; exact hc1, h2⟩
        rw [h3, ha1, hlen]


/-- A packet with frames that is not the last of its datagram leaves the write
cursor at least `QUIC_MIN_PACKET_SPARE_SPACE` bytes before the capacity, when
the four-byte rule adds no padding. -/
theorem FinalizeNonEmpty_spare_space (E : Env) (B : QUIC_PACKET_BUILDER) (d : QUIC_BUFFER)
    (a : Bool) (hr : InRange B) (has : FinalizeAssumptions B d.Length)
    (h4 : 4 ≤ B.PacketNumberLength)
    (hnf : IsFinalQuicPacket E B d.Length a = false) :
    (FinalizeNonEmpty E B d a).DatagramLength + E.QUIC_MIN_PACKET_SPARE_SPACE ≤ d.Length := by
  rw [FinalizeNonEmpty_DatagramLength]
  have hmin := FinalizeMinimumDatagramLength_le E B d.Length a has.Minimum
  have hpad := PaddingLength_eq B (FinalizeMinimumDatagramLength E B d.Length a)
    (IsFinalQuicPacket E B d.Length a) d.Length hr has.CapacityFits has.Room has.Header
    hmin
  rw [hnf] at hpad
  simp only [Bool.false_eq_true, false_and, if_false] at hpad
  rw [if_neg (by omega)] at hpad
  unfold PaddedDatagramLength
  simp only [hnf, hpad, ne_eq, not_true_eq_false, if_false]
  have hroom := has.Room
  have hc := has.CapacityFits
  unfold IsFinalQuicPacket at hnf
  simp only [Bool.or_eq_false_iff, decide_eq_false_iff_not, not_lt] at hnf
  have hspare := hnf.2
  rw [u16_of_lt hc, u16_of_lt (by omega)] at hspare
  unfold u16
  split_ifs <;> omega

/-- C10, as amended.  Take a successful prepare that starts a new packet (the
packet type differs, or the call is for PMTU discovery, or there is no current
datagram), on a builder whose current datagram, if there is one, lives in a
send context and holds a packet with frames and a packet number of at least
four bytes, in a state that meets the assumptions finalize states on entry;
and let the datagram length that lines 178-185 compute for the path be at
least `QUIC_MIN_PACKET_SPARE_SPACE`.  Then when the header is written at least
`QUIC_MIN_PACKET_SPARE_SPACE` bytes lie between `PacketStart` and the capacity
of the current datagram, whether the packet follows the finalized one in the
same datagram or starts a new datagram; the write cursor stands right after
the header; and the write cursor plus the encryption overhead is within the
capacity provided the header and the encryption overhead together fit in
`QUIC_MIN_PACKET_SPARE_SPACE`.  The space is measured before the header is
written and up to the capacity, not after the header and not up to the
capacity less the encryption overhead. -/
theorem C10_new_packet_starts_with_spare_space (E : Env) (B B' : QUIC_PACKET_BUILDER)
    (ty : Nat) (key : Option QUIC_PACKET_KEY) (tlp pmtud : Bool)
    (hnew : B.PacketType ≠ ty ∨ pmtud = true ∨ B.Datagram = none)
    (hprog : ∀ d, B.Datagram = some d →
      B.SendContext.isSome = true ∧ B.Metadata.FrameCount ≠ 0 ∧ InRange B ∧
        FinalizeAssumptions B d.Length ∧ 4 ≤ B.PacketNumberLength)
    (hL : E.QUIC_MIN_PACKET_SPARE_SPACE ≤ PrepareNewDatagramLength E B pmtud)
    (h : QuicPacketBuilderPrepare E B ty key tlp pmtud = some (true, B')) :
    ∃ cap, B'.Datagram.map (fun d => d.Length) = some cap ∧
      B'.PacketStart + E.QUIC_MIN_PACKET_SPARE_SPACE ≤ cap ∧
      B'.DatagramLength = u16 (B'.PacketStart + B'.HeaderLength) ∧
      (B'.HeaderLength + B'.EncryptionOverhead ≤ E.QUIC_MIN_PACKET_SPARE_SPACE →
        B'.DatagramLength + B'.EncryptionOverhead ≤ cap) := by
  have hlast : ∀ cap, B'.PacketStart + E.QUIC_MIN_PACKET_SPARE_SPACE ≤ cap →
      B'.DatagramLength = u16 (B'.PacketStart + B'.HeaderLength) →
      B'.HeaderLength + B'.EncryptionOverhead ≤ E.QUIC_MIN_PACKET_SPARE_SPACE →
      B'.DatagramLength + B'.EncryptionOverhead ≤ cap := by
    intro cap h1 h2 h3
    rw [h2]
    have h5 : u16 (B'.PacketStart + B'.HeaderLength) ≤ B'.PacketStart + B'.HeaderLength := by
      unfold u16
      exact Nat.mod_le _ _
    omega
  have hfresh : (PrepareSelectPacket E B ty pmtud).2.Datagram = none →
      ∃ cap, B'.Datagram.map (fun d => d.Length) = some cap ∧
        B'.PacketStart + E.QUIC_MIN_PACKET_SPARE_SPACE ≤ cap ∧
        B'.DatagramLength = u16 (B'.PacketStart + B'.HeaderLength) ∧
        (B'.HeaderLength + B'.EncryptionOverhead ≤ E.QUIC_MIN_PACKET_SPARE_SPACE →
          B'.DatagramLength + B'.EncryptionOverhead ≤ cap) := by
    intro hnone
    obtain ⟨h1, h2, h3⟩ := Prepare_fresh_datagram E B B' ty key tlp pmtud hnone h
    have h4 : B'.PacketStart + E.QUIC_MIN_PACKET_SPARE_SPACE ≤
        PrepareNewDatagramLength E B pmtud := by
      rw [h2]; omega
    exact ⟨_, h1, h4, h3, hlast _ h4 h3⟩
  cases hd : B.Datagram with
  | none => exact hfresh (PrepareSelectPacket_no_datagram E B ty pmtud hd).1
  | some d =>
    obtain ⟨hctx, hf, hr, has, h4⟩ := hprog d hd
    have hdiff : B.PacketType ≠ ty ∨ pmtud = true := by
      rcases hnew with h1 | h1 | h1
      · exact Or.inl h1
      · exact Or.inr h1
      · rw [hd] at h1; exact absurd h1 (by simp)
    obtain ⟨hs2, hs1⟩ := PrepareSelectPacket_differs E B ty pmtud hdiff
    rw [if_pos hctx] at hs2
    cases hfin : IsFinalQuicPacket E B d.Length pmtud with
    | true =>
      apply hfresh
      rw [hs2]
      exact (Finalize_final_reports E B d pmtud hd hctx hf hfin).2
    | false =>
      have hfz : QuicPacketBuilderFinalize E B pmtud = FinalizeNonEmpty E B d pmtud := by
        unfold QuicPacketBuilderFinalize
        rw [hd]
        simp only [hf, if_false, hfin, FinalizeExit_not_final]
      have hcap : (FinalizeNonEmpty E B d pmtud).Datagram.map (fun d => d.Length) =
          some d.Length := by
        rw [FinalizeNonEmpty_capacity, hd]; rfl
      have hsome : (FinalizeNonEmpty E B d pmtud).Datagram.isSome = true := by
        rw [FinalizeNonEmpty_Datagram_isSome, hd]; rfl
      have hdl := FinalizeNonEmpty_spare_space E B d pmtud hr has h4 hfin
      rw [hfz] at hs2
      unfold QuicPacketBuilderPrepare at h
      rcases hsel : PrepareSelectPacket E B ty pmtud with ⟨nq, B1⟩
      rw [hsel] at h hs1 hs2
      simp only at hs1 hs2
      subst hs2
      obtain ⟨d1, hd1⟩ := Option.isSome_iff_exists.mp hsome
      cases nq with
      | none => simp at h
      | some nq =>
        cases nq with
        | false => exact absurd rfl hs1
        | true =>
          simp only [PrepareDatagram, hd1, if_true, Option.map_eq_some', Prod.mk.injEq,
            true_and] at h
          obtain ⟨B3, hB3, rfl⟩ := h
          obtain ⟨h1, h2, h3⟩ := PrepareNewPacket_cursor E _ B3 ty key pmtud hB3
          have h5 : B3.PacketStart + E.QUIC_MIN_PACKET_SPARE_SPACE ≤ d.Length := by
            rw [h1]; exact hdl
          exact ⟨d.Length, h3.trans hcap, h5, h2, hlast _ h5 h2⟩

/-- C10 as amended, on the sample client.  On the builder without a datagram
the prepare for a Handshake packet starts the packet at offset 0 of a datagram
of 1322 bytes; in the flush with the large Initial packet the Handshake packet
prepared behind it starts at offset 1258 of the same datagram, 64 bytes from
the end, and its header of 21 bytes and the tag of 16 bytes fit. -/
theorem C10_new_packet_starts_with_spare_space_witness :
    (∃ cap, samplePrepared.Datagram.map (fun d => d.Length) = some cap ∧
      samplePrepared.PacketStart + sampleEnv.QUIC_MIN_PACKET_SPARE_SPACE ≤ cap ∧
      samplePrepared.DatagramLength =
        u16 (samplePrepared.PacketStart + samplePrepared.HeaderLength) ∧
      (samplePrepared.HeaderLength + samplePrepared.EncryptionOverhead ≤
          sampleEnv.QUIC_MIN_PACKET_SPARE_SPACE →
        samplePrepared.DatagramLength + samplePrepared.EncryptionOverhead ≤ cap)) ∧
    (∃ cap, sampleTightPrepared.Datagram.map (fun d => d.Length) = some cap ∧
      sampleTightPrepared.PacketStart + sampleEnv.QUIC_MIN_PACKET_SPARE_SPACE ≤ cap ∧
      sampleTightPrepared.DatagramLength =
        u16 (sampleTightPrepared.PacketStart + sampleTightPrepared.HeaderLength) ∧
      (sampleTightPrepared.HeaderLength + sampleTightPrepared.EncryptionOverhead ≤
          sampleEnv.QUIC_MIN_PACKET_SPARE_SPACE →
        sampleTightPrepared.DatagramLength + sampleTightPrepared.EncryptionOverhead ≤ cap)) ∧
    (samplePrepared.PacketStart, samplePrepared.HeaderLength,
      samplePrepared.Datagram.map (fun d => d.Length)) = (0, 21, some 1322) ∧
    (sampleTightPrepared.PacketStart, sampleTightPrepared.HeaderLength,
      sampleTightPrepared.EncryptionOverhead,
      sampleTightPrepared.Datagram.map (fun d => d.Length)) = (1258, 21, 16, some 1322) := by
  have hd : sampleTightFramed.Datagram =
      some (sampleTightFramed.Datagram.getD ⟨0, []⟩) := Datagram_eq_some_getD _ (by decide)
  refine ⟨?_, ?_, by decide, by decide⟩
  · exact C10_new_packet_starts_with_spare_space sampleEnv sampleBuilder samplePrepared 2
      (some 12) false false (Or.inr (Or.inr rfl))
      (fun d hd0 => absurd hd0 (by simp [sampleBuilder]))
      (by decide)
      (Prepare_eq_some_true sampleEnv sampleBuilder 2 (some 12) false false (by decide))
  · exact C10_new_packet_starts_with_spare_space sampleEnv sampleTightFramed
      sampleTightPrepared 2 (some 12) false false (Or.inl (by decide))
      (fun d hd0 => by
        rw [hd] at hd0
        injection hd0 with hd0
        subst hd0
        exact ⟨by decide, by decide,
          ⟨by decide, by decide, by decide, by decide, by decide, by decide, by decide,
            by decide, by decide⟩,
          ⟨by decide, by decide, by decide, by decide, by decide, by decide⟩, by decide⟩)
      (by decide)
      (Prepare_eq_some_true sampleEnv sampleTightFramed 2 (some 12) false false (by decide))

/-- C10, the claim as stated fails, in both halves.  In the sample flush with
the large Initial packet, the prepare for the Handshake packet returns true
with the header written up to offset 1279 of a datagram of 1322 bytes: 27
bytes are left before the capacity less the encryption overhead, fewer than
`QUIC_MIN_PACKET_SPARE_SPACE` = 64.  And in the like flush of a client with
connection IDs of 18 bytes, from the builder as `QuicPacketBuilderInitialize`
returns it, the Handshake header has 49 bytes and ends at offset 1307: with
the packet in progress the write cursor is past the capacity less the
encryption overhead, 1322 - 16 = 1306. -/
theorem C10_spare_space_after_header_below_minimum :
    (Cycle.run sampleEnv ⟨sampleBuilder, false, 0⟩ sampleTightOps).map
        (fun c => (c.InProgress, c.B.PacketStart, c.B.HeaderLength, c.B.DatagramLength)) =
        some (true, 1258, 21, 1279) ∧
      (Cycle.run sampleEnv ⟨sampleBuilder, false, 0⟩ sampleTightOps).map
        (fun c => (c.B.Datagram.map (fun d => d.Length), c.B.EncryptionOverhead)) =
        some (some 1322, 16) ∧
      (1322 - 16) - 1279 < sampleEnv.QUIC_MIN_PACKET_SPARE_SPACE ∧
      (Cycle.run sampleEnv ⟨sampleLongCidBuilder, false, 0⟩ sampleLongCidOps).map
        (fun c => (c.InProgress, c.B.PacketStart, c.B.HeaderLength, c.B.DatagramLength)) =
        some (true, 1258, 49, 1307) ∧
      (Cycle.run sampleEnv ⟨sampleLongCidBuilder, false, 0⟩ sampleLongCidOps).map
        (fun c => (c.B.Datagram.map (fun d => d.Length), c.B.EncryptionOverhead)) =
        some (some 1322, 16) ∧
      1322 - 16 < 1307 := by
  refine ⟨by decide, by decide, by decide, by decide, by decide, by decide⟩

end MsQuic
